import Mathlib

/-!
# esp32-socketio-client: frame codec of `WebSocketClient`

A shallow embedding of `src/src/websocketclient.cpp`.

* Bytes are natural numbers; every place where the C++ code stores into or
  reads from an `unsigned char` takes the value modulo 256.
* `uint32_t` values are natural numbers reduced modulo `2 ^ 32`, `int`
  values are integers (`wrapInt` where a counter can leave the `int` range).
* The transport, the lock, `malloc` and `rand()` are the environment of a
  `send` call; their results are the fields of `SendEnv`.
* Callbacks are bodies supplied by the application.  The model records each
  invocation, with the arguments it receives, in the `trace` of the client,
  together with every buffer handed to the transport.
-/

namespace WebSocket

/-! ## Constants (`websocketclient.h`, `websocketclient.cpp`) -/

def WS_FR_OP_CONT : Nat := 0
def WS_FR_OP_TXT : Nat := 1
def WS_FR_OP_BIN : Nat := 2
def WS_FR_OP_CLOSE : Nat := 8
def WS_FR_OP_PING : Nat := 9
def WS_FR_OP_PONG : Nat := 10

def WS_FIN : Nat := 128
def WS_MASK : Nat := 128

def MAX_MEMORY_BUFF : Int := 1024

/-! ## Machine integers -/

/-- Value of a `uint32_t` after an arithmetic operation. -/
def u32 (n : Nat) : Nat := n % 2 ^ 32

/-- Value of an `unsigned char` after a store. -/
def u8 (n : Nat) : Nat := n % 256

/-- Conversion of an `int` to `uint32_t`. -/
def intToU32 (n : Int) : Nat := (n % 2 ^ 32).toNat

/-- Two's complement value held by an `int` after counting up to `n`. -/
def wrapInt (n : Int) : Int := (n + 2 ^ 31) % 2 ^ 32 - 2 ^ 31

/-- Read of one `unsigned char` at offset `i` of a memory region. -/
def rd (buf : List Nat) (i : Nat) : Nat := buf.getD i 0 % 256

/-! ## Observable effects -/

/-- One observable action of the client. -/
inductive Event where
  /-- Generic callback `m_cb(this, msg, len, type)`; `msg` is the view of `len` bytes. -/
  | cb (msg : List Nat) (len : Int) (type : Nat)
  /-- Keyed callback `itr->second(this, x, len)` with handler `id` found under `key`. -/
  | on (key : List Nat) (id : Nat) (msg : List Nat) (len : Int)
  /-- Call `directSend(response, len, ...)`; `data` is what was built in `response`. -/
  | write (data : List Nat) (len : Int)
  /-- Call `directClose()`. -/
  | close
  deriving DecidableEq, Repr

/-- Results the environment gives to one call of `send` or `send2`. -/
structure SendEnv where
  /-- Result of `directPollWrite(m_writeTimeout)`. -/
  poll_write : Int
  /-- Whether `malloc` returns a buffer, when it is called. -/
  malloc_ok : Bool
  /-- Whether `xSemaphoreTake(m_lock, 1000)` succeeds. -/
  lock_ok : Bool
  /-- Results of the four calls of `rand()`. -/
  rand0 : Nat
  rand1 : Nat
  rand2 : Nat
  rand3 : Nat
  /-- Result of `directSend`. -/
  written : Int
  deriving DecidableEq, Repr

/-- Fields of `class WebSocketClient` used by the frame codec and the worker. -/
structure WebSocketClient where
  m_maxBuf : Int
  rx_buf : List Nat
  line_begin : Int
  line_end : Int
  ws_frame_type : Nat
  ws_is_fin : Nat
  ws_is_mask : Nat
  ws_header_size : Int
  ws_frame_size : Int
  /-- Offset of `ws_msg` in `rx_buf`. -/
  ws_msg : Nat
  ws_ping_cnt : Int
  ws_pong_cnt : Int
  m_connected : Bool
  /-- Whether a generic callback `m_cb` is set. -/
  m_cb : Bool
  /-- The registry `m_on`: key and handler, unique keys. -/
  m_on : List (List Nat × Nat)
  /-- Record of callback invocations and transport writes, oldest first. -/
  trace : List Event
  deriving DecidableEq, Repr

/-! ## Frame encoding: `send` and `send2` -/

/-- The four mask bytes `rand() & 0xff`. -/
def genMasks (e : SendEnv) : List Nat :=
  [e.rand0 &&& 0xff, e.rand1 &&& 0xff, e.rand2 &&& 0xff, e.rand3 &&& 0xff]

/-- Header bytes `response[0 .. idx_header)` written by `send` and `send2`. -/
def sendHeader (length type : Nat) (masks : List Nat) : List Nat :=
  if length ≤ 125 then
    [u8 (WS_FIN ||| type), u8 ((length &&& 0x7F) ||| WS_MASK),
     masks.getD 0 0, masks.getD 1 0, masks.getD 2 0, masks.getD 3 0]
  else if 126 ≤ length ∧ length ≤ 65535 then
    [u8 (WS_FIN ||| type), u8 (126 ||| WS_MASK),
     u8 ((length >>> 8) &&& 255), u8 (length &&& 255),
     masks.getD 0 0, masks.getD 1 0, masks.getD 2 0, masks.getD 3 0]
  else
    [u8 (WS_FIN ||| type), u8 (127 ||| WS_MASK), 0, 0, 0, 0,
     u8 ((length >>> 24) &&& 255), u8 ((length >>> 16) &&& 255),
     u8 ((length >>> 8) &&& 255), u8 (length &&& 255),
     masks.getD 0 0, masks.getD 1 0, masks.getD 2 0, masks.getD 3 0]

/-- The value of `idx_header`. -/
def idxHeader (length : Nat) : Nat :=
  if length ≤ 125 then 6 else if 126 ≤ length ∧ length ≤ 65535 then 8 else 14

/-- The loop `for (i = 0; i < n; i++) response[idx_response++] = msg[i] ^ masks[(off + i) % 4]`:
the bytes it stores, in order. -/
def maskLoop (msg : List Nat) (masks : List Nat) (off n : Nat) : List Nat :=
  (List.range n).map (fun i => u8 (rd msg i ^^^ masks.getD (u32 (off + i) % 4) 0))

/-- Content of `response[0 .. idx_response)` built by `send`. -/
def sendFrame (msg : List Nat) (size type : Nat) (masks : List Nat) : List Nat :=
  sendHeader (u32 size) type masks ++ maskLoop msg masks 0 (u32 size)

/-- Content of `response[0 .. idx_response)` built by `send2`. -/
def send2Frame (msg0 : List Nat) (size0 : Nat) (msg1 : List Nat) (size1 : Nat) (type : Nat)
    (masks : List Nat) : List Nat :=
  sendHeader (u32 (size0 + size1)) type masks
    ++ maskLoop msg0 masks 0 (u32 size0) ++ maskLoop msg1 masks (u32 size0) (u32 size1)

/-- The value of the `int idx_response` after the copy loops: `idx_header` incremented
once per payload byte. -/
def idxResponse (length : Nat) : Int := wrapInt (idxHeader length + length)

/-- The test `size + 15 > m_maxBuf` (unsigned comparison) selecting a temporary buffer. -/
def needsAlloc (m_maxBuf : Int) (length : Nat) : Bool :=
  decide (u32 (length + 15) > intToU32 m_maxBuf)

/-- `WebSocketClient::send(msg, size, type)`. -/
def send (e : SendEnv) (c : WebSocketClient) (msg : List Nat) (size type : Nat) :
    Int × WebSocketClient :=
  if e.poll_write ≤ 0 then (e.poll_write, c)
  else if needsAlloc c.m_maxBuf (u32 size) && !e.malloc_ok then (0, c)
  else if !e.lock_ok then (0, c)
  else
    let masks := genMasks e
    let length := u32 size
    let response := sendFrame msg size type masks
    let idx_response := idxResponse length
    let res : Int := if e.written = idx_response then 1 else 0
    (res, { c with trace := c.trace ++ [Event.write response idx_response] })

/-- `WebSocketClient::send2(msg0, size0, msg1, size1, type)`. -/
def send2 (e : SendEnv) (c : WebSocketClient) (msg0 : List Nat) (size0 : Nat)
    (msg1 : List Nat) (size1 : Nat) (type : Nat) : Int × WebSocketClient :=
  let length := u32 (size0 + size1)
  if e.poll_write ≤ 0 then (e.poll_write, c)
  else if needsAlloc c.m_maxBuf length && !e.malloc_ok then (0, c)
  else if !e.lock_ok then (0, c)
  else
    let masks := genMasks e
    let response := send2Frame msg0 size0 msg1 size1 type masks
    let idx_response := idxResponse length
    let res : Int := if e.written = idx_response then 1 else 0
    (res, { c with trace := c.trace ++ [Event.write response idx_response] })

/-! ## Frame decoding: `ws_decode_pong`, `onWsFrame`, `feedWsFrame` -/

/-- The `n` bytes of a memory region starting at offset `off`. -/
def slice (buf : List Nat) (off n : Nat) : List Nat := (buf.drop off).take n

/-- `ws_decode_pong(msg, &res)` on the four bytes at offset `off`: `some r` when it
returns 1 after storing `r` in `*res`, `none` when it returns 0 (and stores nothing). -/
def ws_decode_pong (buf : List Nat) (off : Nat) : Option Int :=
  let ch0 := rd buf off
  if ch0 < 48 ∨ ch0 > 57 then none
  else
    let r : Int := (ch0 : Int) - 48
    let ch1 := rd buf (off + 1)
    if ch1 < 48 ∨ ch1 > 57 then none
    else
      let r : Int := r * 10 + ((ch1 : Int) - 48)
      let ch2 := rd buf (off + 2)
      if ch2 < 48 ∨ ch2 > 57 then none
      else
        let r : Int := r * 10 + ((ch2 : Int) - 48)
        let ch3 := rd buf (off + 3)
        if ch3 < 48 ∨ ch3 > 57 then none
        else some (r * 10 + ((ch3 : Int) - 48))

/-- The loop `while ((len > 0) && ((*k == '[') || (*k == '"') || (*k == ' ')))
{ if (*k == '"') lev = true; k++; len--; }`.  The first argument bounds the number
of iterations and is `len.toNat` at the call. -/
def skipOpen (buf : List Nat) : Nat → Nat → Int → Bool → Nat × Int × Bool
  | 0, k, len, lev => (k, len, lev)
  | fuel + 1, k, len, lev =>
    if 0 < len ∧ (rd buf k = 91 ∨ rd buf k = 34 ∨ rd buf k = 32) then
      skipOpen buf fuel (k + 1) (len - 1) (if rd buf k = 34 then true else lev)
    else (k, len, lev)

/-- The loop `while ((len > 0) && (*x != '"') && (*x != ',') && ((lev) || (*x != ' ')))
{ x++; len--; }`. -/
def scanKey (buf : List Nat) (lev : Bool) : Nat → Nat → Int → Nat × Int
  | 0, x, len => (x, len)
  | fuel + 1, x, len =>
    if 0 < len ∧ rd buf x ≠ 34 ∧ rd buf x ≠ 44 ∧ (lev = true ∨ rd buf x ≠ 32) then
      scanKey buf lev fuel (x + 1) (len - 1)
    else (x, len)

/-- The loop `while ((len > 0) && ((*x == ',') || (*x == ' '))) { x++; len--; }`. -/
def skipSep (buf : List Nat) : Nat → Nat → Int → Nat × Int
  | 0, x, len => (x, len)
  | fuel + 1, x, len =>
    if 0 < len ∧ (rd buf x = 44 ∨ rd buf x = 32) then skipSep buf fuel (x + 1) (len - 1)
    else (x, len)

/-- The loop `while ((len > 0) && ((x[len - 1] == ']') || (x[len - 1] == ' ')))
{ x[len - 1] = '\0'; len--; }`; it writes into the buffer. -/
def stripTail (x : Nat) : Nat → List Nat → Int → List Nat × Int
  | 0, buf, len => (buf, len)
  | fuel + 1, buf, len =>
    if 0 < len ∧ (rd buf (x + (len - 1).toNat) = 93 ∨ rd buf (x + (len - 1).toNat) = 32) then
      stripTail x fuel (buf.set (x + (len - 1).toNat) 0) (len - 1)
    else (buf, len)

/-- Record one invocation of the generic callback, `if (m_cb) m_cb(this, ws_msg, cnt, type)`. -/
def callCb (c : WebSocketClient) (cnt : Int) (type : Nat) : WebSocketClient :=
  if c.m_cb then
    { c with trace := c.trace ++ [Event.cb (slice c.rx_buf c.ws_msg cnt.toNat) cnt type] }
  else c

/-- The body of `if ((len > 1) && (itr != m_on.end())) { ... }`: skip the separator,
strip the closing bracket and run the handler `id` found under `key`. -/
def runHandler (c : WebSocketClient) (key : List Nat) (id x : Nat) (len : Int) :
    WebSocketClient :=
  let r3 := skipSep c.rx_buf (len - 1).toNat (x + 1) (len - 1)
  let r4 := stripTail r3.1 r3.2.toNat c.rx_buf r3.2
  if r4.2 > 0 then
    { c with rx_buf := r4.1,
             trace := c.trace ++ [Event.on key id (slice r4.1 r3.1 r4.2.toNat) r4.2] }
  else { c with rx_buf := r4.1 }

/-- The block `if (m_on.size()) { ... }` of the `WS_FR_OP_TXT` case: extract the first
string of the array and run the handler registered under it. -/
def onText (c : WebSocketClient) (cnt : Int) : WebSocketClient :=
  if c.m_on.length ≠ 0 then
    let r1 := skipOpen c.rx_buf cnt.toNat c.ws_msg cnt false
    let k := r1.1
    let lev := r1.2.2
    let r2 := scanKey c.rx_buf lev (r1.2.1 - 1).toNat (k + 1) (r1.2.1 - 1)
    let x := r2.1
    let len := r2.2
    let key := slice c.rx_buf k (x - k)
    match c.m_on.find? (fun p => p.1 = key) with
    | some itr => if len > 1 then runHandler c key itr.2 x len else c
    | none => c
  else c

/-- `WebSocketClient::onWsFrame()`.  The environment `e` serves the `send` of the
`WS_FR_OP_PING` case. -/
def onWsFrame (e : SendEnv) (c : WebSocketClient) : Int × WebSocketClient :=
  let cnt := c.ws_frame_size - c.ws_header_size
  if c.ws_frame_type = WS_FR_OP_CONT then (1, callCb c cnt WS_FR_OP_CONT)
  else if c.ws_frame_type = WS_FR_OP_TXT then (1, onText (callCb c cnt WS_FR_OP_TXT) cnt)
  else if c.ws_frame_type = WS_FR_OP_BIN then (1, callCb c cnt WS_FR_OP_BIN)
  else if c.ws_frame_type = WS_FR_OP_CLOSE then (0, c)
  else if c.ws_frame_type = WS_FR_OP_PING then
    (1, (send e c (c.rx_buf.drop c.ws_msg) (intToU32 cnt) WS_FR_OP_PONG).2)
  else if c.ws_frame_type = WS_FR_OP_PONG then
    if cnt = 4 then
      match ws_decode_pong c.rx_buf c.ws_msg with
      | some r =>
        if c.ws_ping_cnt ≠ r then (0, { c with ws_pong_cnt := r })
        else (1, { c with ws_pong_cnt := r })
      | none => (1, c)
    else (1, c)
  else (1, c)

/-- The loop `for (i = 0; i < left; ++i) rx_buf[i] = rx_buf[ws_frame_size + i]`. -/
def moveLoop (buf : List Nat) (off left : Nat) : List Nat :=
  (List.range left).foldl (fun b i => b.set i (b.getD (off + i) 0)) buf

/-- The end of `feedWsFrame`: `/* Copy next message */` moves the bytes behind the
frame to the start of the buffer, `/* Reset frame */` clears `ws_frame_size`. -/
def dropFrame (c : WebSocketClient) : WebSocketClient :=
  if c.line_end > c.ws_frame_size then
    let left := c.line_end - c.ws_frame_size
    { c with rx_buf := moveLoop c.rx_buf c.ws_frame_size.toNat left.toNat,
             line_end := left, ws_frame_size := 0 }
  else { c with line_end := 0, ws_frame_size := 0 }

/-- Second half of `feedWsFrame`, the block `if (ws_frame_size > 0) { ... }`. -/
def feedBody (e : SendEnv) (c : WebSocketClient) : Int × WebSocketClient :=
  if c.ws_frame_size > 0 then
    if c.line_end < c.ws_frame_size then (0, c)
    else
      let cnt := c.ws_frame_size - c.ws_header_size
      let r := onWsFrame e { c with ws_msg := c.ws_header_size.toNat }
      if r.1 = 0 then (-1, r.2) else (cnt, dropFrame r.2)
  else (0, c)

/-- `WebSocketClient::feedWsFrame()`. -/
def feedWsFrame (e : SendEnv) (c : WebSocketClient) : Int × WebSocketClient :=
  if c.ws_frame_size = 0 then
    let c := { c with ws_header_size := 2 }
    if c.line_end < 2 then (0, c)
    else
      let cur_byte := rd c.rx_buf 0
      let opcode := cur_byte &&& 0x0F
      let c := { c with ws_is_fin := (cur_byte &&& 0xFF) >>> 7, ws_frame_type := opcode }
      if cur_byte &&& 0x70 ≠ 0 then (-1, c)
      else
        let cur_byte := rd c.rx_buf 1
        let cnt := cur_byte &&& 0x7F
        let c := { c with ws_is_mask := (cur_byte &&& 0xFF) >>> 7 }
        if c.ws_is_mask ≠ 0 then (-1, c)
        else if cnt = 126 then
          let c := { c with ws_header_size := c.ws_header_size + 2 }
          if c.line_end < c.ws_header_size then (0, c)
          else
            let cnt := (rd c.rx_buf 2 <<< 8) ||| rd c.rx_buf 3
            feedBody e { c with ws_frame_size := c.ws_header_size + (cnt : Int) }
        else if cnt = 127 then (-1, c)
        else feedBody e { c with ws_frame_size := c.ws_header_size + (cnt : Int) }
  else feedBody e c

/-! ## Worker: the receive step of `run` -/

/-- The loop `while (idx > 0) { idx = feedWsFrame(); }` entered with `idx > 0`.
`es n` is the environment of the `n`-th call.  The first argument bounds the number
of calls; each call that returns a positive value has shortened the buffered data. -/
def decodeLoop : Nat → (Nat → SendEnv) → WebSocketClient → Int × WebSocketClient
  | 0, es, c => feedWsFrame (es 0) c
  | fuel + 1, es, c =>
    let r := feedWsFrame (es 0) c
    if r.1 > 0 then decodeLoop fuel (fun n => es (n + 1)) r.2 else r

/-- Outcome of `directRecv(&rx_buf[line_end], len, -1)` when the peer has delivered
`data`: at most `len` bytes are stored at `line_end` and their number is returned. -/
def directRecv (c : WebSocketClient) (data : List Nat) (len : Int) : Int × WebSocketClient :=
  let got := data.take len.toNat
  (got.length,
   { c with rx_buf := c.rx_buf.take c.line_end.toNat ++ got
                        ++ c.rx_buf.drop (c.line_end.toNat + got.length) })

/-- The block `directClose(); m_connected = false;` of `run`. -/
def removeSocket (c : WebSocketClient) : WebSocketClient :=
  { c with m_connected := false, trace := c.trace ++ [Event.close] }

/-- The statements of `run` from `/* Receive */` to the end of the loop body, for a
connected client whose transport delivers `data` (no data stands for a read that
returns 0 or an error).  A non-positive read or a negative decoder result closes the
transport and clears `m_connected`. -/
def recvStep (es : Nat → SendEnv) (c : WebSocketClient) (data : List Nat) : WebSocketClient :=
  let r := directRecv c data (MAX_MEMORY_BUFF - c.line_end)
  let idx := r.1
  let c := r.2
  if idx ≤ 0 then removeSocket c
  else
    let c := { c with line_end := c.line_end + idx }
    let r := decodeLoop c.line_end.toNat es c
    if r.1 < 0 then removeSocket r.2 else r.2

/-- A client as left by the constructor and a successful `connect`: buffers of
`maxBufSize` bytes, counters and parse state reset, `m_connected` set. -/
def mkClient (maxBufSize : Int) (cb : Bool) (reg : List (List Nat × Nat)) : WebSocketClient :=
  { m_maxBuf := maxBufSize, rx_buf := List.replicate maxBufSize.toNat 0,
    line_begin := 0, line_end := 0, ws_frame_type := 0, ws_is_fin := 0, ws_is_mask := 0,
    ws_header_size := 0, ws_frame_size := 0, ws_msg := 0, ws_ping_cnt := 0, ws_pong_cnt := 0,
    m_connected := true, m_cb := cb, m_on := reg, trace := [] }

/-- An environment in which the transport is writable, `malloc` and the lock succeed,
`rand()` yields `r0 .. r3` and `directSend` reports `written` bytes. -/
def okEnv (r0 r1 r2 r3 : Nat) (written : Int) : SendEnv :=
  { poll_write := 1, malloc_ok := true, lock_ok := true,
    rand0 := r0, rand1 := r1, rand2 := r2, rand3 := r3, written := written }

/-! ## Vocabulary of the statements -/

/-- An unmasked frame as a server sends it (RFC 6455, section 5.2): FIN bit and opcode,
the payload length in the 7-bit form or, when `wide`, in the 16-bit form, the payload. -/
def serverFrame (fin t : Nat) (wide : Bool) (p : List Nat) : List Nat :=
  (if wide then [fin * 128 + t, 126, p.length / 256, p.length % 256]
   else [fin * 128 + t, p.length]) ++ p

/-- Size of the header of `serverFrame`. -/
def serverHeaderSize (wide : Bool) : Nat := if wide then 4 else 2

/-- The state of the client once `feedWsFrame` has read the header of a frame. -/
def headerParsed (c : WebSocketClient) (fin t : Nat) (wide : Bool) (n : Nat) :
    WebSocketClient :=
  { c with ws_header_size := (serverHeaderSize wide : Int), ws_is_fin := fin,
           ws_frame_type := t, ws_is_mask := 0,
           ws_frame_size := (serverHeaderSize wide : Int) + (n : Int) }

/-- The invocations of the generic callback recorded in a trace. -/
def cbEvents : List Event → List (List Nat × Int × Nat)
  | [] => []
  | Event.cb msg len type :: tr => (msg, len, type) :: cbEvents tr
  | _ :: tr => cbEvents tr

/-- The buffers handed to the transport recorded in a trace. -/
def writeEvents : List Event → List (List Nat × Int)
  | [] => []
  | Event.write data len :: tr => (data, len) :: writeEvents tr
  | _ :: tr => writeEvents tr

/-- The client after the statements `idx = directRecv(&rx_buf[line_end], ...)` and
`line_end += idx` of `run`, the transport delivering `data`. -/
def afterRecv (c : WebSocketClient) (data : List Nat) : WebSocketClient :=
  { (directRecv c data (MAX_MEMORY_BUFF - c.line_end)).2 with
    line_end := c.line_end + (directRecv c data (MAX_MEMORY_BUFF - c.line_end)).1 }

/-- Size of the part of a masked frame that precedes the mask: 2 bytes, plus the
extended length announced by the 7-bit length field. -/
def maskOffset (f : List Nat) : Nat :=
  if f.getD 1 0 &&& 0x7F = 126 then 4 else if f.getD 1 0 &&& 0x7F = 127 then 10 else 2

/-- What the receiving peer does with a masked frame (RFC 6455, section 5.3; the spec:
"transmitted data XORed with the transmitted mask (repeating per 4 bytes) reproduces
the original payload"): the frame without the mask-present bit and without the four
mask bytes, every payload byte XORed with the mask byte of its index modulo 4. -/
def unmaskFrame (f : List Nat) : List Nat :=
  f.take 1 ++ [f.getD 1 0 &&& 0x7F] ++ (f.drop 2).take (maskOffset f - 2)
    ++ (List.range (f.length - (maskOffset f + 4))).map
        (fun i => f.getD (maskOffset f + 4 + i) 0 ^^^ f.getD (maskOffset f + i % 4) 0)

/-! ## Keepalive: `sendPing` and the ping branch of `run` -/

/-- ASCII decimal digits of `n`, most significant first.  The first argument bounds
the number of digits and is `n + 1` at the call. -/
def decDigits : Nat → Nat → List Nat
  | 0, _ => []
  | fuel + 1, n => if n < 10 then [48 + n] else decDigits fuel (n / 10) ++ [48 + n % 10]

/-- The characters produced by the conversion `%04d` of `snprintf`: the decimal digits
of the value, a minus sign first when it is negative, padded with zeros to four
characters. -/
def fmt04d (n : Int) : List Nat :=
  if n < 0 then
    45 :: (List.replicate (3 - (decDigits (n.natAbs + 1) n.natAbs).length) 48
            ++ decDigits (n.natAbs + 1) n.natAbs)
  else
    List.replicate (4 - (decDigits (n.natAbs + 1) n.natAbs).length) 48
      ++ decDigits (n.natAbs + 1) n.natAbs

/-- `WebSocketClient::sendPing()`.  The array `b` holds what
`snprintf(b, 15, "%04d", ws_ping_cnt)` stores: at most 14 characters and a NUL. -/
def sendPing (e : SendEnv) (c : WebSocketClient) : Int × WebSocketClient :=
  if c.m_connected then
    if c.ws_ping_cnt ≠ c.ws_pong_cnt then (0, c)
    else
      let c := { c with ws_ping_cnt := wrapInt (c.ws_ping_cnt + 1) }
      let b := (fmt04d c.ws_ping_cnt).take 14 ++ [0]
      (1, (send e c b 4 WS_FR_OP_PING).2)
  else (1, c)

/-- The branch `idx == 0` of `run` (ping time): `if (!sendPing()) { directClose();
m_connected = false; }`. -/
def pingTime (e : SendEnv) (c : WebSocketClient) : WebSocketClient :=
  if (sendPing e c).1 = 0 then removeSocket (sendPing e c).2 else (sendPing e c).2

/-- The buffer of the last write recorded in a trace (empty when there is none). -/
def lastWrite (tr : List Event) : List Nat :=
  match (writeEvents tr).getLast? with
  | some w => w.1
  | none => []

/-- The frame with which an echoing server answers the masked PING frame `F`: a PONG
(first byte `0x8A`) with the unmasked length and payload of `F`. -/
def pongEcho (F : List Nat) : List Nat := [0x8A] ++ (unmaskFrame F).drop 1

/-- One keepalive round of `run`: at ping time `sendPing` runs, then the answer of an
echoing server to the frame just written is read and decoded. -/
def keepaliveRound (e : SendEnv) (c : WebSocketClient) : WebSocketClient :=
  if (pingTime e c).m_connected then
    recvStep (fun _ => e) (pingTime e c) (pongEcho (lastWrite (pingTime e c).trace))
  else pingTime e c

/-- The client after `k` keepalive rounds, as long as it stays connected. -/
def keepalive (e : SendEnv) : Nat → WebSocketClient → WebSocketClient
  | 0, c => c
  | k + 1, c => if c.m_connected then keepalive e k (keepaliveRound e c) else c

/-! ## URL parsing: `parseURL` -/

/-- The C string that starts at offset `off` of a buffer: the bytes up to the first NUL. -/
def cstr (buf : List Nat) (off : Nat) : List Nat :=
  (buf.drop off).takeWhile (fun b => b % 256 ≠ 0)

/-- The test `!strncmp(c, lit, n)` for a literal `lit` of `n` characters without NUL,
`c` pointing at offset `off` of `buf`. -/
def strncmpEq (buf : List Nat) (off : Nat) (lit : List Nat) : Bool :=
  (List.range lit.length).all (fun i => rd buf (off + i) == lit.getD i 0)

/-- The C library function `atoi` on the characters of a string: white space, an
optional sign, then decimal digits; the value is reduced to the range of `int`. -/
def atoi (s : List Nat) : Int :=
  let s1 := s.dropWhile (fun ch => ch = 32 ∨ (9 ≤ ch ∧ ch ≤ 13))
  let s2 := if s1.head? = some 45 ∨ s1.head? = some 43 then s1.drop 1 else s1
  let v := (s2.takeWhile (fun ch => 48 ≤ ch ∧ ch ≤ 57)).foldl
    (fun (a : Int) (ch : Nat) => a * 10 + ((ch : Int) - 48)) (0 : Int)
  wrapInt (if s1.head? = some 45 then -v else v)

/-- The loop `while (*c != '\0') { ... c++; }` of `parseURL` on the buffer of `m_url`:
the buffer with the terminators written, the offset `port` and the offset of `m_path`.
The first argument bounds the number of iterations and is the buffer size at the call. -/
def parseLoop : Nat → List Nat → Nat → Option Nat → List Nat × Option Nat × Option Nat
  | 0, buf, _, port => (buf, port, none)
  | fuel + 1, buf, c, port =>
    if rd buf c = 0 then (buf, port, none)
    else if rd buf c = 58 then parseLoop fuel (buf.set c 0) (c + 1) (some (c + 1))
    else if rd buf c = 47 then (buf.set c 0, port, some (c + 1))
    else parseLoop fuel buf (c + 1) port

/-- The fields that `parseURL` sets. -/
structure ParsedURL where
  m_port : Int
  m_ssl : Bool
  m_sio : Bool
  m_host : List Nat
  m_path : List Nat
  deriving DecidableEq, Repr

/-- `WebSocketClient::parseURL()` on the characters of `m_url` (the creation of the
transport left out).  `m_host` and `m_path` point into the buffer of `m_url`, or at the
literal `""`. -/
def parseURL (m_url : List Nat) : ParsedURL :=
  let buf := m_url ++ [0]
  if strncmpEq buf 0 [119, 115, 115, 58, 47, 47] then
    let r := parseLoop buf.length buf 6 none
    { m_port := match r.2.1 with | some p => atoi (cstr r.1 p) | none => 443,
      m_ssl := true, m_sio := false, m_host := cstr r.1 6,
      m_path := match r.2.2 with | some p => cstr r.1 p | none => [] }
  else if strncmpEq buf 0 [119, 115, 58, 47, 47] then
    let r := parseLoop buf.length buf 5 none
    { m_port := match r.2.1 with | some p => atoi (cstr r.1 p) | none => 80,
      m_ssl := false, m_sio := false, m_host := cstr r.1 5,
      m_path := match r.2.2 with | some p => cstr r.1 p | none => [] }
  else if strncmpEq buf 0 [104, 116, 116, 112, 115, 58, 47, 47] then
    let r := parseLoop buf.length buf 8 none
    { m_port := match r.2.1 with | some p => atoi (cstr r.1 p) | none => 443,
      m_ssl := true, m_sio := true, m_host := cstr r.1 8,
      m_path := match r.2.2 with | some p => cstr r.1 p | none => [] }
  else if strncmpEq buf 0 [104, 116, 116, 112, 58, 47, 47] then
    let r := parseLoop buf.length buf 7 none
    { m_port := match r.2.1 with | some p => atoi (cstr r.1 p) | none => 80,
      m_ssl := false, m_sio := true, m_host := cstr r.1 7,
      m_path := match r.2.2 with | some p => cstr r.1 p | none => [] }
  else
    let r := parseLoop buf.length buf 0 none
    { m_port := match r.2.1 with | some p => atoi (cstr r.1 p) | none => 80,
      m_ssl := false, m_sio := false, m_host := [],
      m_path := match r.2.2 with | some p => cstr r.1 p | none => [] }

/-- The scheme `ws://`. -/
def schemeWs : List Nat := [119, 115, 58, 47, 47]

/-- The scheme `wss://`. -/
def schemeWss : List Nat := [119, 115, 115, 58, 47, 47]

/-- The scheme `http://`. -/
def schemeHttp : List Nat := [104, 116, 116, 112, 58, 47, 47]

/-- The scheme `https://`. -/
def schemeHttps : List Nat := [104, 116, 116, 112, 115, 58, 47, 47]

/-- The text of a URL `scheme host [: port] [/ path]`, the scheme given with its `://`. -/
def urlText (scheme host : List Nat) (port path : Option (List Nat)) : List Nat :=
  scheme ++ host ++ (match port with | some d => 58 :: d | none => [])
    ++ (match path with | some p => 47 :: p | none => [])

/-- The value of a string of decimal digits. -/
def decimal (ds : List Nat) : Int :=
  ds.foldl (fun (a : Int) (ch : Nat) => a * 10 + ((ch : Int) - 48)) (0 : Int)

/-! ## The registries -/

/-- The order of `std::string` keys: lexicographic on the bytes. -/
def strLess : List Nat → List Nat → Bool
  | _, [] => false
  | [], _ :: _ => true
  | a :: as, b :: bs => if a < b then true else if b < a then false else strLess as bs

/-- `std::map::insert` on the sorted entries of a map: no effect when the key is there. -/
def mapInsert (what : List Nat) (cb : Nat) : List (List Nat × Nat) → List (List Nat × Nat)
  | [] => [(what, cb)]
  | p :: r =>
    if p.1 = what then p :: r
    else if strLess what p.1 then (what, cb) :: p :: r
    else p :: mapInsert what cb r

/-- `WebSocketClient::on(what, cb)`: `m_on.insert({ what, cb })` on a `std::map`. -/
def wsOn (c : WebSocketClient) (what : List Nat) (cb : Nat) : WebSocketClient :=
  { c with m_on := mapInsert what cb c.m_on }

/-- `WebSocketClient::off(what)`: `m_on.erase(what)` on a `std::map`. -/
def wsOff (c : WebSocketClient) (what : List Nat) : WebSocketClient :=
  { c with m_on := c.m_on.filter (fun p => p.1 ≠ what) }

/-- `std::multimap::insert` on the sorted entries of a multimap: the new entry goes
behind the entries whose key is not greater. -/
def multimapInsert (what : List Nat) (cb : Nat) :
    List (List Nat × Nat) → List (List Nat × Nat)
  | [] => [(what, cb)]
  | p :: r => if strLess what p.1 then (what, cb) :: p :: r else p :: multimapInsert what cb r

/-! ## The Socket.IO client -/

/-- One callback of the application run by the Socket.IO client. -/
inductive SioEvent where
  /-- Generic callback `m_cb(this, data, lData, ioType)`. -/
  | cb (msg : List Nat) (len : Int) (type : Nat)
  /-- Connection callback `m_ccb(this, connected)`. -/
  | ccb (connected : Bool)
  /-- Keyed callback `itr->second(this, x)`: the handler `id` stored under `key`, run on
  the C string `msg`. -/
  | on (key : List Nat) (id : Nat) (msg : List Nat)
  deriving DecidableEq, Repr

/-- Fields of `class SocketIoClient`; `m_on` holds the entries of the `std::multimap`
in its iteration order, `find` yielding the first entry of a key. -/
structure SocketIoClient where
  m_ws : WebSocketClient
  /-- Whether a generic callback `m_cb` is set. -/
  m_cb : Bool
  /-- Whether a connection callback `m_ccb` is set. -/
  m_ccb : Bool
  m_on : List (List Nat × Nat)
  /-- Record of the callbacks run, oldest first. -/
  trace : List SioEvent
  deriving DecidableEq, Repr

/-- `SocketIoClient::on(what, cb)`. -/
def sioOn (s : SocketIoClient) (what : List Nat) (cb : Nat) : SocketIoClient :=
  { s with m_on := multimapInsert what cb s.m_on }

/-- `SocketIoClient::off(what)`: every iterator from `m_on.find(what)` up to
`m_on.end()` is collected, then erased. -/
def sioOff (s : SocketIoClient) (what : List Nat) : SocketIoClient :=
  { s with m_on := s.m_on.takeWhile (fun p => p.1 ≠ what) }

/-- `SocketIoClient::send(char type, const char* payload, uint32_t length)`. -/
def sioSend (e : SendEnv) (s : SocketIoClient) (type : Nat) (payload : List Nat)
    (length : Nat) : Int × SocketIoClient :=
  let buf := [52, type % 256]
  let length := if u32 length = 0 then u32 (cstr payload 0).length else u32 length
  ((send2 e s.m_ws buf 2 payload length WS_FR_OP_TXT).1,
   { s with m_ws := (send2 e s.m_ws buf 2 payload length WS_FR_OP_TXT).2 })

/-- The loop `while ((len > 0) && (*x == ',') && (*x != ' ')) { x++; len--; }`. -/
def skipComma (buf : List Nat) : Nat → Nat → Int → Nat × Int
  | 0, x, len => (x, len)
  | fuel + 1, x, len =>
    if 0 < len ∧ rd buf x = 44 ∧ rd buf x ≠ 32 then skipComma buf fuel (x + 1) (len - 1)
    else (x, len)

/-- The body of `if ((len > 1) && (itr != m_on.end())) { ... }` of the Socket.IO
client: the last byte is overwritten by NUL, commas are skipped, a closing bracket is
stripped, and every handler from the entry found up to the end of `m_on` is run. -/
def sioRunHandlers (s : SocketIoClient) (key : List Nat) (x : Nat) (len : Int) :
    SocketIoClient :=
  let buf := s.m_ws.rx_buf.set (x + 1 + (len - 1 - 1).toNat) 0
  let r3 := skipComma buf (len - 1 - 1).toNat (x + 1) (len - 1 - 1)
  let r4 := stripTail r3.1 r3.2.toNat buf r3.2
  if r4.2 > 0 then
    { s with m_ws := { s.m_ws with rx_buf := r4.1 },
             trace := s.trace ++ (s.m_on.dropWhile (fun p => p.1 ≠ key)).map
               (fun p => SioEvent.on p.1 p.2 (cstr r4.1 r3.1)) }
  else { s with m_ws := { s.m_ws with rx_buf := r4.1 } }

/-- The case `SIO_MSG_EVENT` of the message callback, `data` being an offset in the
receive buffer of `m_ws`. -/
def sioOnEvent (s : SocketIoClient) (data : Nat) (lData : Int) : SocketIoClient :=
  let s1 : SocketIoClient :=
    if s.m_cb then
      { s with trace := s.trace ++ [SioEvent.cb (slice s.m_ws.rx_buf data lData.toNat) lData 50] }
    else s
  if s1.m_on.length ≠ 0 then
    let r1 := skipOpen s1.m_ws.rx_buf lData.toNat data lData false
    let k := r1.1
    let lev := r1.2.2
    let r2 := scanKey s1.m_ws.rx_buf lev (r1.2.1 - 1).toNat (k + 1) (r1.2.1 - 1)
    let x := r2.1
    let len := r2.2
    let key := slice s1.m_ws.rx_buf k (x - k)
    if len > 1 ∧ (s1.m_on.dropWhile (fun p => p.1 ≠ key)) ≠ [] then
      sioRunHandlers s1 key x len
    else s1
  else s1

/-- The message callback that the constructor of `SocketIoClient` installs on `m_ws`,
called with `payload` (an offset in the receive buffer of `m_ws`) and `length`. -/
def sioMessage (e : SendEnv) (s : SocketIoClient) (payload : Nat) (length : Int) :
    SocketIoClient :=
  if length < 1 then s
  else if rd s.m_ws.rx_buf payload = 50 then
    { s with m_ws :=
        (send e { s.m_ws with rx_buf := s.m_ws.rx_buf.set payload 51 }
          ((s.m_ws.rx_buf.set payload 51).drop payload) (intToU32 length) WS_FR_OP_TXT).2 }
  else if rd s.m_ws.rx_buf payload = 51 then
    if length = 6 ∧ strncmpEq s.m_ws.rx_buf payload [51, 112, 114, 111, 98, 101] = true then
      (sioSend e s 48 [47, 0] 1).2
    else s
  else if rd s.m_ws.rx_buf payload = 52 then
    if length < 2 then s
    else if rd s.m_ws.rx_buf (payload + 1) = 50 then sioOnEvent s (payload + 2) (length - 2)
    else if rd s.m_ws.rx_buf (payload + 1) = 48 then
      if s.m_ccb then { s with trace := s.trace ++ [SioEvent.ccb true] } else s
    else s
  else s

/-! ## Vocabulary of the statements on events -/

/-- The key that the extractor of `onWsFrame` and of the Socket.IO message callback reads
from `cnt` bytes at offset `off`: `std::string key(k, (int)(x - k))` after the two loops. -/
def extractedKey (buf : List Nat) (off : Nat) (cnt : Int) : List Nat :=
  let r1 := skipOpen buf cnt.toNat off cnt false
  let r2 := scanKey buf r1.2.2 (r1.2.1 - 1).toNat (r1.1 + 1) (r1.2.1 - 1)
  slice buf r1.1 (r2.1 - r1.1)

/-- The text `["key",value` followed by `tail`. -/
def eventText (key value tail : List Nat) : List Nat :=
  [91, 34] ++ key ++ [34, 44] ++ value ++ tail

/-- A string between double quotes. -/
def quoted (v : List Nat) : List Nat := [34] ++ v ++ [34]

/-- A Socket.IO client whose WebSocket client holds `buf` in its receive buffer, with the
generic callback set or not and the registry `reg`. -/
def sioClient (buf : List Nat) (cb : Bool) (reg : List (List Nat × Nat)) : SocketIoClient :=
  { m_ws := { mkClient 0 false [] with rx_buf := buf }, m_cb := cb, m_ccb := false,
    m_on := reg, trace := [] }

/-- A WebSocket client at the call of `onWsFrame` for a text frame of `cnt` payload bytes
received at the start of the buffer `buf` behind a 2-byte header. -/
def textClient (buf : List Nat) (cnt : Int) (cb : Bool) (reg : List (List Nat × Nat)) :
    WebSocketClient :=
  { mkClient 0 cb reg with
    rx_buf := buf, line_end := cnt + 2, ws_frame_type := WS_FR_OP_TXT,
    ws_is_fin := 1, ws_header_size := 2, ws_frame_size := cnt + 2, ws_msg := 2 }

/-! ## The Socket.IO client: connection callback, `send(key, val)`, message sequences -/

/-- The connection callback that the constructor of `SocketIoClient` installs on `m_ws`,
called with `b`: `ws->send("2probe", 6); ws->send("5", 1);` on a connect (with the default
type `WS_FR_OP_TXT`), `if (this->m_ccb) this->m_ccb(this, false)` on a disconnect.  `e1`
and `e2` are the environments of the two calls of `send`. -/
def sioConnectCB (e1 e2 : SendEnv) (s : SocketIoClient) (b : Bool) : SocketIoClient :=
  if !b then
    if s.m_ccb then { s with trace := s.trace ++ [SioEvent.ccb false] } else s
  else
    { s with m_ws := (send e2 (send e1 s.m_ws [50, 112, 114, 111, 98, 101, 0] 6
                        WS_FR_OP_TXT).2 [53, 0] 1 WS_FR_OP_TXT).2 }

/-- The string `"[\"" + std::string(key) + "\"," + std::string(val) + "]"` built by
`SocketIoClient::send(const char* key, const char* val)` from two C strings. -/
def sioFrame (key val : List Nat) : List Nat :=
  [91, 34] ++ cstr key 0 ++ [34, 44] ++ cstr val 0 ++ [93]

/-- `SocketIoClient::send(const char* key, const char* val)`. -/
def sioSendKV (e : SendEnv) (s : SocketIoClient) (key val : List Nat) : Int × SocketIoClient :=
  ((send2 e s.m_ws [52, 50] 2 (sioFrame key val ++ [0]) (u32 (sioFrame key val).length)
      WS_FR_OP_TXT).1,
   { s with m_ws := (send2 e s.m_ws [52, 50] 2 (sioFrame key val ++ [0])
      (u32 (sioFrame key val).length) WS_FR_OP_TXT).2 })

/-- The message callback run on each message of a sequence, the message being stored at
the start of the receive buffer of `m_ws` before the call; `es n` is the environment of
the `send` that the `n`-th call may make. -/
def sioDeliver (es : Nat → SendEnv) : List (List Nat) → SocketIoClient → SocketIoClient
  | [], s => s
  | m :: ms, s =>
    sioDeliver (fun n => es (n + 1)) ms
      (sioMessage (es 0)
        { s with m_ws := { s.m_ws with rx_buf := m ++ s.m_ws.rx_buf.drop m.length } }
        0 (m.length : Int))

/-- Number of calls `m_ccb(this, true)` recorded in a trace. -/
def ccbTrueCount : List SioEvent → Nat
  | [] => 0
  | SioEvent.ccb true :: tr => ccbTrueCount tr + 1
  | _ :: tr => ccbTrueCount tr

/-- A Socket.IO CONNECT message: Engine.IO type `4`, Socket.IO type `0`. -/
def isSioConnect (m : List Nat) : Bool :=
  decide (2 ≤ m.length) && (rd m 0 == 52) && (rd m 1 == 48)

/-! ## The buffer that `send` writes into -/

/-- Size of the buffer `response` that `send` and `send2` select for a payload of
`length` bytes: `malloc(length + 16)` when `length + 15 > m_maxBuf`, else `tx_buf` with its
`m_maxBuf` bytes. -/
def responseSize (m_maxBuf : Int) (length : Nat) : Int :=
  if needsAlloc m_maxBuf length then (u32 (length + 16) : Int) else m_maxBuf

/-- The index `idx_response` at which the `i`-th payload byte is stored (`i < length`),
and at which the terminator is stored (`i = length`): the `int` that started at
`idx_header` and was incremented `i` times. -/
def payloadIndex (length i : Nat) : Int := wrapInt (idxHeader length + i)

/-! ## Connecting: `connect` and the reconnect loop of `run` -/

/-- Outcome of one call `directRecv(rx_buf + i, 1, m_readTimeout)`. -/
inductive Recv1 where
  /-- The call stores one byte and returns 1. -/
  | byte (b : Nat)
  /-- The call returns 0. -/
  | zero
  /-- The call returns a negative value and stores nothing. -/
  | fail
  deriving DecidableEq, Repr

/-- What one call of `connect` finds: the result of `esp_transport_connect`, the text
that the `snprintf` calls build in `rx_buf` from `m_path`, `m_host`, `m_port` and
`m_token` (the upgrade request), and the outcomes of the one-byte reads: those of `reads`
in turn, then `rest` for every later read. -/
structure ConnEnv where
  tr_connect : Int
  request : List Nat
  reads : List Recv1
  rest : Recv1
  deriving DecidableEq, Repr

/-- One observable action of the connection layer. -/
inductive ConnEvent where
  /-- Call `vTaskDelay(ticks)`. -/
  | sleep (ticks : Nat)
  /-- Entry of `connect(timeout_ms)`. -/
  | connect (timeout_ms : Int)
  /-- Call `directSend(rx_buf, r, m_writeTimeout)` with the request in `rx_buf`. -/
  | sent (data : List Nat)
  /-- Call `directClose()`. -/
  | close
  /-- Connection callback `m_ccb(this, connected)`. -/
  | ccb (connected : Bool)
  deriving DecidableEq, Repr

/-- The client as `connect` and the reconnect loop of `run` see it: the fields of
`ws`, whether a connection callback `m_ccb` is set, the two intervals, and the record of
the actions of the connection layer, oldest first. -/
structure ConnClient where
  ws : WebSocketClient
  m_ccb : Bool
  m_reconnectInterval : Int
  m_connectTimeout : Int
  log : List ConnEvent
  deriving DecidableEq, Repr

/-- The loop `for (i = 0; i < 2 || (i < m_maxBufC && rx_buf[i - 2] != '\r' &&
rx_buf[i - 1] != '\n'); ++i) { if (directRecv(rx_buf + i, 1, m_readTimeout) == 0)
{ directClose(); return 0; } }`, entered at `i` with `pos` reads made so far: whether it
ended without a read that returned 0, the buffer, `i` and the number of reads made.  The
first argument bounds the number of iterations; the loop makes at most
`max 2 m_maxBufC` of them. -/
def readLine (env : ConnEnv) (maxBufC : Int) :
    Nat → List Nat → Nat → Nat → Bool × List Nat × Nat × Nat
  | 0, buf, i, pos => (true, buf, i, pos)
  | fuel + 1, buf, i, pos =>
    if i < 2 ∨ ((i : Int) < maxBufC ∧ rd buf (i - 2) ≠ 13 ∧ rd buf (i - 1) ≠ 10) then
      match env.reads.getD pos env.rest with
      | Recv1.byte b => readLine env maxBufC fuel (buf.set i (u8 b)) (i + 1) (pos + 1)
      | Recv1.zero => (false, buf, i, pos + 1)
      | Recv1.fail => readLine env maxBufC fuel buf (i + 1) (pos + 1)
    else (true, buf, i, pos)

/-- The loop `while ((i > 0) && ((rx_buf[i - 1] == '\r') || (rx_buf[i - 1] == '\n'))) i--`:
the final `i`. -/
def stripEol (buf : List Nat) : Nat → Nat
  | 0 => 0
  | i + 1 => if rd buf i = 13 ∨ rd buf i = 10 then stripEol buf i else i + 1

/-- The test `strstr(s, lit) != NULL` on the characters of a C string `s`. -/
def strstrFound (lit : List Nat) : List Nat → Bool
  | [] => lit.isEmpty
  | a :: s => lit.isPrefixOf (a :: s) || strstrFound lit s

/-- The conversion `sscanf(s, "HTTP/1.1 %d", &status)` on the characters of a C string:
`some status` when it returns 1.  The literal must match; then white space is skipped and
an optional sign followed by at least one digit is converted, as by `atoi`. -/
def scanStatus (s : List Nat) : Option Int :=
  if s.take 8 = [72, 84, 84, 80, 47, 49, 46, 49] then
    let t := (s.drop 8).dropWhile (fun ch => ch = 32 ∨ (9 ≤ ch ∧ ch ≤ 13))
    let u := if t.head? = some 45 ∨ t.head? = some 43 then t.drop 1 else t
    if u.head?.any (fun ch => 48 ≤ ch ∧ ch ≤ 57) then some (atoi (s.drop 8)) else none
  else none

/-- The text `Sec-WebSocket-Accept:`. -/
def acceptName : List Nat :=
  [83, 101, 99, 45, 87, 101, 98, 83, 111, 99, 107, 101, 116, 45, 65, 99, 99, 101, 112, 116, 58]

/-- The text `HSmrc0sMlYUkAGmm5OPpG2HaGWk=`. -/
def acceptValue : List Nat :=
  [72, 83, 109, 114, 99, 48, 115, 77, 108, 89, 85, 107, 65, 71, 109, 109, 53, 79, 80, 112, 71,
   50, 72, 97, 71, 87, 107, 61]

/-- The loop `while (1) { ... }` under `// Verify response headers,` of the branch for
`m_sio == false`, entered with `pos` reads made and the flag `checked`.  The result is
`none` while the loop has not ended after as many lines as the first argument allows;
otherwise it holds the value returned from inside the loop (0 after a read that returned
0, -1 after an accept line without the value; `directClose()` was called), or `none` for
the `break` at the empty line, then the buffer and `checked`. -/
def headerLoop (env : ConnEnv) (maxBufC : Int) :
    Nat → List Nat → Nat → Bool → Option (Option Int × List Nat × Bool)
  | 0, _, _, _ => none
  | fuel + 1, buf, pos, checked =>
    let r := readLine env maxBufC (max 2 maxBufC.toNat) buf 0 pos
    if r.1 = false then some (some 0, r.2.1, checked)
    else if rd r.2.1 0 = 13 ∧ rd r.2.1 1 = 10 then some (none, r.2.1, checked)
    else
      let buf2 := r.2.1.set (stripEol r.2.1 r.2.2.1) 0
      if strncmpEq buf2 0 acceptName then
        if strstrFound acceptValue ((cstr buf2 0).map (fun b => b % 256)) then
          headerLoop env maxBufC fuel buf2 r.2.2.2 true
        else some (some (-1), buf2, checked)
      else headerLoop env maxBufC fuel buf2 r.2.2.2 checked

/-- The client after a `directClose()` of `connect`, `rx_buf` holding `buf`. -/
def connClosed (k : ConnClient) (buf : List Nat) : ConnClient :=
  { k with ws := { k.ws with rx_buf := buf }, log := k.log ++ [ConnEvent.close] }

/-- `WebSocketClient::connect(timeout_ms)` for a client with `m_sio == false` (the
session request of the branch `if (m_sio)` is not part of the model).  The second
argument bounds the number of header lines read; the result is `none` when the call has
not returned within this bound. -/
def connect (env : ConnEnv) (fuel : Nat) (k : ConnClient) (timeout_ms : Int) :
    Option (Int × ConnClient) :=
  let k0 : ConnClient :=
    { k with ws := { k.ws with m_connected := false },
             log := k.log ++ [ConnEvent.connect timeout_ms] }
  if env.tr_connect < 0 then some (0, k0)
  else
    let k1 : ConnClient := { k0 with log := k0.log ++ [ConnEvent.sent env.request] }
    let maxBufC := k.ws.m_maxBuf - 1
    let r := readLine env maxBufC (max 2 maxBufC.toNat)
      (env.request ++ k.ws.rx_buf.drop env.request.length) 0 0
    if r.1 = false then some (0, connClosed k1 r.2.1)
    else
      let buf := r.2.1.set r.2.2.1 0
      if (r.2.2.1 : Int) = maxBufC then some (-1, connClosed k1 buf)
      else if scanStatus ((cstr buf 0).map (fun b => b % 256)) ≠ some 101 then
        some (0, connClosed k1 buf)
      else
        match headerLoop env maxBufC fuel buf r.2.2.2 false with
        | none => none
        | some (some ret, buf2, _) => some (ret, connClosed k1 buf2)
        | some (none, buf2, checked) =>
          if checked = false then some (-1, connClosed k1 buf2)
          else
            some (1,
              { k1 with
                ws := { k1.ws with rx_buf := buf2, ws_ping_cnt := 0, ws_pong_cnt := 0,
                                   line_begin := 0, line_end := 0, ws_frame_size := 0,
                                   m_connected := true },
                log := k1.log ++ (if k.m_ccb then [ConnEvent.ccb true] else []) })

/-- The length argument of the read in `run`,
`directRecv(&rx_buf[line_end], (MAX_MEMORY_BUFF - line_end), -1)`. -/
def recvLen (c : WebSocketClient) : Int := MAX_MEMORY_BUFF - c.line_end

/-! ## Vocabulary of the statements on `connect` -/

/-- The bytes of a sequence of lines, each followed by CR LF. -/
def linesText : List (List Nat) → List Nat
  | [] => []
  | l :: ls => l ++ [13, 10] ++ linesText ls

/-- The bytes of a response: the status line and the header lines, each followed by
CR LF, then `ending`. -/
def responseText (status : List Nat) (lines : List (List Nat)) (ending : List Nat) :
    List Nat :=
  linesText (status :: lines) ++ ending

/-- The environment of a `connect` whose transport connects, with the upgrade request
`request`, and whose reads deliver the bytes of `text` one by one and return 0 after
them. -/
def responseEnv (request text : List Nat) : ConnEnv :=
  { tr_connect := 0, request := request, reads := text.map Recv1.byte, rest := Recv1.zero }

/-- A line that the line loop of `connect` reads whole: shorter than `m_maxBufC - 2`,
made of bytes other than NUL, CR and LF. -/
def lineFits (maxBufC : Int) (l : List Nat) : Bool :=
  decide ((l.length : Int) + 2 < maxBufC)
    && l.all (fun b => decide (b < 256) && (b != 0) && (b != 13) && (b != 10))

/-- What a sequence of header lines amounts to for the accept check, `checked` being the
flag before them: `none` when a line that starts with `Sec-WebSocket-Accept:` lacks the
accept value, else the flag after them. -/
def acceptCheck : List (List Nat) → Bool → Option Bool
  | [], checked => some checked
  | l :: ls, checked =>
    if acceptName.isPrefixOf l then
      if strstrFound acceptValue l then acceptCheck ls true else none
    else acceptCheck ls checked

/-- The client as the constructor leaves it, seen by `connect` and `run`: buffers of
`maxBufSize` bytes, not connected, `m_reconnectInterval = 5000`, `m_connectTimeout = 10000`,
with or without a connection callback. -/
def mkConn (maxBufSize : Int) (ccb : Bool) : ConnClient :=
  { ws := { mkClient maxBufSize false [] with m_connected := false }, m_ccb := ccb,
    m_reconnectInterval := 5000, m_connectTimeout := 10000, log := [] }

/-- The status line `HTTP/1.1 101`. -/
def statusLine101 : List Nat := [72, 84, 84, 80, 47, 49, 46, 49, 32, 49, 48, 49]

/-- An environment of `connect` in which the server sends the status line `HTTP/1.1 101`
and every later read returns a negative value (the connection is reset, or the read
times out). -/
def resetEnv (request : List Nat) : ConnEnv :=
  { tr_connect := 0, request := request,
    reads := (statusLine101 ++ [13, 10]).map Recv1.byte, rest := Recv1.fail }

/-- The response `HTTP/1.1 101`, `Sec-WebSocket-Accept: HSmrc0sMlYUkAGmm5OPpG2HaGWk=` and
the empty line, sent in answer to `request`. -/
def upgradeEnv (request : List Nat) : ConnEnv :=
  responseEnv request (responseText statusLine101 [acceptName ++ [32] ++ acceptValue] [13, 10])

/-! ## Auxiliary facts on machine integers and the encoder -/

theorem u32_of_lt {n : Nat} (h : n < 2 ^ 32) : u32 n = n := Nat.mod_eq_of_lt h

theorem and_255 (x : Nat) : x &&& 255 = x % 256 := Nat.and_pow_two_sub_one_eq_mod x 8

theorem and_127 (x : Nat) : x &&& 127 = x % 128 := Nat.and_pow_two_sub_one_eq_mod x 7

theorem maskLoop_length (msg masks : List Nat) (off n : Nat) :
    (maskLoop msg masks off n).length = n := by
  simp [maskLoop]

theorem sendHeader_length (n t : Nat) (masks : List Nat) :
    (sendHeader n t masks).length = idxHeader n := by
  unfold sendHeader idxHeader
  split_ifs <;> rfl

theorem genMasks_eq (e : SendEnv) :
    genMasks e = [e.rand0 % 256, e.rand1 % 256, e.rand2 % 256, e.rand3 % 256] := by
  simp [genMasks, and_255]

theorem fin_or_small : ∀ t, t < 16 → (128 ||| t) % 256 = 128 ||| t := by decide

theorem len_or_small : ∀ n, n < 126 → ((n &&& 127) ||| 128) % 256 = 128 ||| n := by decide

/-- The header written by `send`, in arithmetic form. -/
theorem sendHeader_eq (n t : Nat) (masks : List Nat) (hn : n < 2 ^ 32) (ht : t ≤ 15) :
    sendHeader n t masks =
      (if n ≤ 125 then [128 ||| t, 128 ||| n]
       else if n ≤ 65535 then [128 ||| t, 128 ||| 126, n / 256, n % 256]
       else [128 ||| t, 128 ||| 127, 0, 0, 0, 0,
             n / 2 ^ 24, n / 2 ^ 16 % 256, n / 2 ^ 8 % 256, n % 256])
      ++ [masks.getD 0 0, masks.getD 1 0, masks.getD 2 0, masks.getD 3 0] := by
  have h0 : (WS_FIN ||| t) % 256 = 128 ||| t := fin_or_small t (by omega)
  unfold sendHeader
  by_cases h1 : n ≤ 125
  · have h2 : ((n &&& 0x7F) ||| WS_MASK) % 256 = 128 ||| n := len_or_small n (by omega)
    simp [h1, h0, h2, u8]
  · by_cases h2 : n ≤ 65535
    · have h3 : 126 ≤ n ∧ n ≤ 65535 := ⟨by omega, h2⟩
      have h4 : n / 256 < 256 := by omega
      simp [h1, h2, h3, h0, u8, WS_MASK, and_255, Nat.shiftRight_eq_div_pow,
        Nat.mod_eq_of_lt h4]
    · have h3 : ¬ (126 ≤ n ∧ n ≤ 65535) := by omega
      have h4 : n / 16777216 < 256 := by omega
      simp [h1, h2, h3, h0, u8, WS_MASK, and_255, Nat.shiftRight_eq_div_pow, h4]

theorem idxHeader_eq (n : Nat) :
    idxHeader n = if n ≤ 125 then 6 else if n ≤ 65535 then 8 else 14 := by
  unfold idxHeader
  split_ifs <;> first | rfl | omega

theorem idxResponse_of_lt {n : Nat} (h : n + 14 < 2 ^ 31) :
    idxResponse n = (idxHeader n : Int) + n := by
  have : idxHeader n ≤ 14 := by unfold idxHeader; split_ifs <;> omega
  unfold idxResponse wrapInt
  omega

/-- The effect of `send` when the transport is writable, a buffer is available
and the lock is taken. -/
theorem send_ok (e : SendEnv) (c : WebSocketClient) (msg : List Nat) (size t : Nat)
    (hpoll : 0 < e.poll_write)
    (hbuf : needsAlloc c.m_maxBuf (u32 size) = true → e.malloc_ok = true)
    (hlock : e.lock_ok = true) :
    send e c msg size t =
      ((if e.written = idxResponse (u32 size) then 1 else 0),
       { c with trace := c.trace ++
          [Event.write (sendFrame msg size t (genMasks e)) (idxResponse (u32 size))] }) := by
  unfold send
  have h1 : ¬ e.poll_write ≤ 0 := by omega
  have h2 : (needsAlloc c.m_maxBuf (u32 size) && !e.malloc_ok) = false := by
    cases h : needsAlloc c.m_maxBuf (u32 size)
    · simp
    · simp [hbuf h]
  simp [h1, h2, hlock]

/-! ## C1: layout of the frame built by `send` -/

/-- C1 (amended): for every payload of length `n` with `n + 14 < 2 ^ 31` (the byte count
`idx_response` is an `int`), every opcode `t` in 0..15 and every mask generated from
`rand()`, when the transport is writable, a buffer is available and the lock is taken,
`send` hands the transport one buffer: byte 0 is `0x80 | t`; then `0x80 | n` (6-byte
header) if `n <= 125`, `0x80 | 126` and `n` big-endian in two bytes (8-byte header) if
`126 <= n <= 65535`, otherwise `0x80 | 127`, four zero bytes and `n` big-endian in four
bytes (14-byte header); then the four mask bytes and exactly `n` payload bytes; the
byte count passed is header size + `n`. -/
theorem send_frame_layout (e : SendEnv) (c : WebSocketClient) (msg : List Nat) (n t : Nat)
    (hn : n + 14 < 2 ^ 31) (ht : t ≤ 15) (hpoll : 0 < e.poll_write)
    (hbuf : needsAlloc c.m_maxBuf n = true → e.malloc_ok = true)
    (hlock : e.lock_ok = true) :
    (send e c msg n t).2.trace = c.trace ++
      [Event.write
        ((if n ≤ 125 then [128 ||| t, 128 ||| n]
          else if n ≤ 65535 then [128 ||| t, 128 ||| 126, n / 256, n % 256]
          else [128 ||| t, 128 ||| 127, 0, 0, 0, 0,
                n / 2 ^ 24, n / 2 ^ 16 % 256, n / 2 ^ 8 % 256, n % 256])
          ++ genMasks e ++ maskLoop msg (genMasks e) 0 n)
        (((if n ≤ 125 then 6 else if n ≤ 65535 then 8 else 14 : Nat) : Int) + n)]
    ∧ (maskLoop msg (genMasks e) 0 n).length = n := by
  have hu : u32 n = n := u32_of_lt (by omega)
  have hs := send_ok e c msg n t hpoll (by rw [hu]; exact hbuf) hlock
  refine ⟨?_, maskLoop_length _ _ _ _⟩
  rw [hs, hu, idxResponse_of_lt hn, idxHeader_eq]
  simp only [sendFrame, hu, sendHeader_eq n t (genMasks e) (by omega) ht]
  simp [genMasks]

/-- C1, instance of `send_frame_layout`: the text frame for the three bytes `hi!`. -/
theorem send_frame_layout_witness :
    (send (okEnv 1 2 3 4 9) (mkClient 1024 true []) [104, 105, 33] 3 1).2.trace
      = [Event.write [129, 131, 1, 2, 3, 4, 105, 107, 34] 9] :=
  (send_frame_layout (okEnv 1 2 3 4 9) (mkClient 1024 true []) [104, 105, 33] 3 1
    (by norm_num) (by norm_num) (by decide) (by decide) rfl).1.trans (by decide)

/-- C1 as stated fails: for a payload of 2147483634 bytes (below `2 ^ 32`) the frame has
14 + 2147483634 = 2147483648 bytes, and the `int` byte count handed to the transport
is -2147483648. -/
theorem send_count_wraps :
    ∃ data, (send (okEnv 1 2 3 4 0) (mkClient 1024 true [])
        (List.replicate 2147483634 0) 2147483634 1).2.trace
      = [Event.write data (-2147483648)]
      ∧ data.length = 14 + 2147483634
      ∧ ((-2147483648 : Int) ≠ 14 + 2147483634) := by
  generalize List.replicate 2147483634 0 = msg
  have h1 : u32 2147483634 = 2147483634 := by decide
  have h2 : idxResponse 2147483634 = -2147483648 := by decide
  have h3 : idxHeader 2147483634 = 14 := by decide
  refine ⟨sendFrame msg 2147483634 1 (genMasks (okEnv 1 2 3 4 0)), ?_, ?_, by norm_num⟩
  · rw [send_ok _ _ _ _ _ (by decide) (fun _ => rfl) rfl, h1, h2]
    rfl
  · rw [sendFrame, List.length_append, sendHeader_length, maskLoop_length, h1, h3]

/-! ## C2, C4: masking, and `send2` against `send` -/

theorem rd_lt (buf : List Nat) (i : Nat) : rd buf i < 256 := Nat.mod_lt _ (by norm_num)

theorem rd_of_bytes {buf : List Nat} (hb : ∀ b ∈ buf, b < 256) {i : Nat} (hi : i < buf.length) :
    rd buf i = buf.getD i 0 := by
  unfold rd
  rw [List.getD_eq_getElem _ _ hi]
  exact Nat.mod_eq_of_lt (hb _ (List.getElem_mem _))

theorem rd_append_left (a b : List Nat) {i : Nat} (hi : i < a.length) :
    rd (a ++ b) i = rd a i := by
  unfold rd
  rw [List.getD_append _ _ _ _ hi]

theorem rd_append_right (a b : List Nat) (i : Nat) :
    rd (a ++ b) (a.length + i) = rd b i := by
  unfold rd
  rw [List.getD_append_right _ _ _ _ (by omega)]
  simp

theorem genMasks_getD_lt (e : SendEnv) (j : Nat) : (genMasks e).getD j 0 < 256 := by
  rw [genMasks_eq]
  match j with
  | 0 => exact Nat.mod_lt _ (by norm_num)
  | 1 => exact Nat.mod_lt _ (by norm_num)
  | 2 => exact Nat.mod_lt _ (by norm_num)
  | 3 => exact Nat.mod_lt _ (by norm_num)
  | j + 4 => simp

/-- Entry `i` of the bytes stored by the copy loop. -/
theorem maskLoop_getD (msg masks : List Nat) (off n i : Nat) (hi : i < n) :
    (maskLoop msg masks off n).getD i 0
      = u8 (rd msg i ^^^ masks.getD (u32 (off + i) % 4) 0) := by
  unfold maskLoop
  rw [List.getD_eq_getElem _ _ (by simpa using hi)]
  simp

/-- The copy loop over a concatenation is the two copy loops of `send2` in sequence. -/
theorem maskLoop_append (msg0 msg1 masks : List Nat) (size1 : Nat) :
    maskLoop (msg0 ++ msg1) masks 0 (msg0.length + size1)
      = maskLoop msg0 masks 0 msg0.length ++ maskLoop msg1 masks msg0.length size1 := by
  unfold maskLoop
  rw [List.range_add, List.map_append, List.map_map]
  congr 1
  · apply List.map_congr_left
    intro i hi
    rw [rd_append_left _ _ (by simpa using hi)]
  · apply List.map_congr_left
    intro i _
    simp only [Function.comp, rd_append_right, Nat.zero_add]

/-- The frame of `send2` is the frame of `send` on the concatenated segments. -/
theorem send2Frame_eq_sendFrame (msg0 msg1 : List Nat) (size1 t : Nat) (masks : List Nat)
    (h : msg0.length + size1 < 2 ^ 32) :
    send2Frame msg0 msg0.length msg1 size1 t masks
      = sendFrame (msg0 ++ msg1) (msg0.length + size1) t masks := by
  have h0 : u32 msg0.length = msg0.length := u32_of_lt (by omega)
  have h1 : u32 size1 = size1 := u32_of_lt (by omega)
  have h2 : u32 (msg0.length + size1) = msg0.length + size1 := u32_of_lt h
  unfold send2Frame sendFrame
  rw [h0, h1, h2, maskLoop_append, List.append_assoc]

/-- Payload byte `i` of the frame built by `send`. -/
theorem sendFrame_payload (msg : List Nat) (n t : Nat) (masks : List Nat) (hn : n < 2 ^ 32)
    (i : Nat) (hi : i < n) :
    (sendFrame msg n t masks).getD (idxHeader n + i) 0
      = u8 (rd msg i ^^^ masks.getD (i % 4) 0) := by
  have hu : u32 n = n := u32_of_lt hn
  have hi32 : u32 (0 + i) = i := by rw [Nat.zero_add]; exact u32_of_lt (by omega)
  unfold sendFrame
  rw [hu, List.getD_append_right _ _ _ _ (by rw [sendHeader_length]; omega), sendHeader_length,
    Nat.add_sub_cancel_left, maskLoop_getD _ _ _ _ _ hi, hi32]

/-- The four bytes before the payload are the mask. -/
theorem sendFrame_mask (msg : List Nat) (n t : Nat) (masks : List Nat) (hn : n < 2 ^ 32)
    (j : Nat) (hj : j < 4) :
    (sendFrame msg n t masks).getD (idxHeader n - 4 + j) 0 = masks.getD j 0 := by
  have hu : u32 n = n := u32_of_lt hn
  unfold sendFrame
  rw [hu, List.getD_append _ _ _ _ (by
    rw [sendHeader_length]; unfold idxHeader; split_ifs <;> omega)]
  unfold sendHeader idxHeader
  split_ifs <;> interval_cases j <;> rfl

theorem mask_bit_small : ∀ n, n < 126 → (((n &&& 0x7F) ||| 128) % 256) &&& 128 = 128 := by
  decide

/-- Byte 1 of the frame built by `send` carries the mask-present bit. -/
theorem sendFrame_mask_bit (msg : List Nat) (n t : Nat) (masks : List Nat) :
    (sendFrame msg n t masks).getD 1 0 &&& 128 = 128 := by
  unfold sendFrame
  rw [List.getD_append _ _ _ _ (by
    rw [sendHeader_length]; unfold idxHeader; split_ifs <;> omega)]
  unfold sendHeader
  split_ifs with h1 h2
  · exact mask_bit_small _ (by omega)
  · show u8 (126 ||| WS_MASK) &&& 128 = 128
    decide
  · show u8 (127 ||| WS_MASK) &&& 128 = 128
    decide

/-- Unmasking one byte: the stored byte XOR the mask byte is the payload byte. -/
theorem unmask_byte (a m : Nat) (hm : m < 256) : u8 (a % 256 ^^^ m) ^^^ m = a % 256 := by
  have h : a % 256 ^^^ m < 256 :=
    Nat.xor_lt_two_pow (n := 8) (Nat.mod_lt _ (by norm_num)) hm
  unfold u8
  rw [Nat.mod_eq_of_lt h, Nat.xor_cancel_right]

/-- Outside its three early returns `send` writes once; in them it does nothing. -/
theorem send_cases (e : SendEnv) (c : WebSocketClient) (msg : List Nat) (size t : Nat) :
    (send e c msg size t).2 = c
      ∨ (send e c msg size t).2 = { c with trace := c.trace ++
          [Event.write (sendFrame msg size t (genMasks e)) (idxResponse (u32 size))] } := by
  unfold send
  split_ifs
  · exact Or.inl rfl
  · exact Or.inl rfl
  · exact Or.inl rfl
  · exact Or.inr rfl

/-- The buffer written by `send`, when the trace of the call shows one. -/
theorem send_written (e : SendEnv) (cs : WebSocketClient) (msg : List Nat) (size t : Nat)
    (F : List Nat) (len : Int)
    (h : (send e cs msg size t).2.trace = cs.trace ++ [Event.write F len]) :
    F = sendFrame msg size t (genMasks e) := by
  rcases send_cases e cs msg size t with h1 | h1
  · rw [h1] at h
    have := congrArg List.length h
    simp at this
  · rw [h1] at h
    have h2 := List.append_cancel_left h
    simp only [List.cons.injEq, Event.write.injEq, and_true] at h2
    exact h2.1.symm

/-- The call of `send2` behaves as the call of `send` on the concatenated segments. -/
theorem send2_as_send (e : SendEnv) (c : WebSocketClient) (msg0 msg1 : List Nat)
    (size1 t : Nat) (h : msg0.length + size1 < 2 ^ 32) :
    send2 e c msg0 msg0.length msg1 size1 t = send e c (msg0 ++ msg1) (msg0.length + size1) t := by
  have h2 : u32 (msg0.length + size1) = msg0.length + size1 := u32_of_lt h
  unfold send2 send
  simp only [send2Frame_eq_sendFrame _ _ _ _ _ h, h2]

/-- C2: for every payload, given as one segment to `send` or as the two segments `msg0`,
`msg1` to `send2`, and every mask generated from `rand()`: in the frame `F` handed to
the transport, byte 1 has the mask-present bit `0x80` set, the four bytes before the
payload are the generated mask, and the `i`-th transmitted payload byte XOR the
transmitted mask byte `i mod 4` is the `i`-th byte of the original payload. -/
theorem send_masking (e : SendEnv) (cs : WebSocketClient) (msg0 msg1 F : List Nat)
    (len : Int) (t : Nat)
    (hn : msg0.length + msg1.length < 2 ^ 32)
    (hb0 : ∀ b ∈ msg0, b < 256) (hb1 : ∀ b ∈ msg1, b < 256)
    (hsend : (send e cs (msg0 ++ msg1) (msg0.length + msg1.length) t).2.trace
                = cs.trace ++ [Event.write F len]
             ∨ (send2 e cs msg0 msg0.length msg1 msg1.length t).2.trace
                = cs.trace ++ [Event.write F len]) :
    F.getD 1 0 &&& 128 = 128
    ∧ (∀ j, j < 4 →
        F.getD (idxHeader (msg0 ++ msg1).length - 4 + j) 0 = (genMasks e).getD j 0)
    ∧ ∀ i, i < (msg0 ++ msg1).length →
        F.getD (idxHeader (msg0 ++ msg1).length + i) 0
          ^^^ F.getD (idxHeader (msg0 ++ msg1).length - 4 + i % 4) 0
        = (msg0 ++ msg1).getD i 0 := by
  have hlen : (msg0 ++ msg1).length = msg0.length + msg1.length := List.length_append _ _
  have hF : F = sendFrame (msg0 ++ msg1) (msg0 ++ msg1).length t (genMasks e) := by
    rw [hlen]
    rcases hsend with h | h
    · exact send_written e cs _ _ _ F len h
    · rw [send2_as_send e cs msg0 msg1 msg1.length t hn] at h
      exact send_written e cs _ _ _ F len h
  have hb : ∀ b ∈ msg0 ++ msg1, b < 256 := by
    intro b hmem
    rcases List.mem_append.mp hmem with h | h
    · exact hb0 b h
    · exact hb1 b h
  have hp : (msg0 ++ msg1).length < 2 ^ 32 := by rw [hlen]; exact hn
  subst hF
  refine ⟨sendFrame_mask_bit _ _ _ _, fun j hj => sendFrame_mask _ _ _ _ hp j hj, ?_⟩
  intro i hi
  rw [sendFrame_payload _ _ _ _ hp i hi,
    sendFrame_mask _ _ _ _ hp (i % 4) (Nat.mod_lt _ (by norm_num)), ← rd_of_bytes hb hi]
  exact unmask_byte _ _ (genMasks_getD_lt e _)

/-- C2, instance of `send_masking`: segments `42` and `[]` sent by `send2` under the
mask 1, 2, 3, 4. -/
theorem send_masking_witness :
    ([129, 132, 1, 2, 3, 4, 53, 48, 88, 89] : List Nat).getD 1 0 &&& 128 = 128
    ∧ (∀ j, j < 4 →
        ([129, 132, 1, 2, 3, 4, 53, 48, 88, 89] : List Nat).getD
            (idxHeader ([52, 50] ++ [91, 93] : List Nat).length - 4 + j) 0
          = (genMasks (okEnv 1 2 3 4 10)).getD j 0)
    ∧ ∀ i, i < ([52, 50] ++ [91, 93] : List Nat).length →
        ([129, 132, 1, 2, 3, 4, 53, 48, 88, 89] : List Nat).getD
            (idxHeader ([52, 50] ++ [91, 93] : List Nat).length + i) 0
          ^^^ ([129, 132, 1, 2, 3, 4, 53, 48, 88, 89] : List Nat).getD
                (idxHeader ([52, 50] ++ [91, 93] : List Nat).length - 4 + i % 4) 0
        = ([52, 50] ++ [91, 93] : List Nat).getD i 0 :=
  send_masking (okEnv 1 2 3 4 10) (mkClient 16 true []) [52, 50] [91, 93]
    [129, 132, 1, 2, 3, 4, 53, 48, 88, 89] 10 1 (by decide) (by decide) (by decide)
    (Or.inr (by decide))

/-- C4: for all segments `msg0` (`size0` bytes) and `msg1` with `size0 + size1 < 2 ^ 32`,
every opcode and every mask, the frame bytes built by `send2` are the frame bytes built
by `send` on the concatenation `msg0 ++ msg1` with size `size0 + size1`; under the same
environment the two calls also return the same value and hand the transport the same
buffer and byte count. -/
theorem send2_eq_send (e : SendEnv) (c : WebSocketClient) (msg0 msg1 : List Nat)
    (size0 size1 t : Nat) (masks : List Nat)
    (h0 : msg0.length = size0) (h : size0 + size1 < 2 ^ 32) :
    send2Frame msg0 size0 msg1 size1 t masks = sendFrame (msg0 ++ msg1) (size0 + size1) t masks
    ∧ send2 e c msg0 size0 msg1 size1 t = send e c (msg0 ++ msg1) (size0 + size1) t := by
  subst h0
  exact ⟨send2Frame_eq_sendFrame _ _ _ _ _ h, send2_as_send e c msg0 msg1 size1 t h⟩

/-- C4, instance of `send2_eq_send`: the Socket.IO envelope `42` followed by `[]`. -/
theorem send2_eq_send_witness :
    send2Frame [52, 50] 2 [91, 93] 2 1 [1, 2, 3, 4] = sendFrame ([52, 50] ++ [91, 93]) (2 + 2) 1 [1, 2, 3, 4]
    ∧ send2 (okEnv 1 2 3 4 10) (mkClient 1024 true []) [52, 50] 2 [91, 93] 2 1
      = send (okEnv 1 2 3 4 10) (mkClient 1024 true []) ([52, 50] ++ [91, 93]) (2 + 2) 1 :=
  send2_eq_send (okEnv 1 2 3 4 10) (mkClient 1024 true []) [52, 50] [91, 93] 2 2 1 [1, 2, 3, 4]
    rfl (by decide)

/-! ## The decoder on a complete frame -/

theorem byte0_bits : ∀ fin, fin ≤ 1 → ∀ t, t ≤ 15 →
    ((fin * 128 + t) % 256 &&& 0x0F = t
      ∧ ((fin * 128 + t) % 256 &&& 0xFF) >>> 7 = fin
      ∧ (fin * 128 + t) % 256 &&& 0x70 = 0) := by
  decide

theorem byte1_bits : ∀ n, n ≤ 126 →
    (n % 256 &&& 0x7F = n ∧ (n % 256 &&& 0xFF) >>> 7 = 0) := by
  decide

theorem be16 (n : Nat) (h : n ≤ 65535) :
    (((n / 256) % 256) <<< 8) ||| (n % 256 % 256) = n := by
  have h1 : n / 256 < 256 := by omega
  rw [Nat.mod_eq_of_lt h1, Nat.mod_mod, Nat.shiftLeft_eq, Nat.mul_comm,
    ← Nat.mul_add_lt_is_or (i := 8) (Nat.mod_lt _ (by norm_num))]
  omega

theorem serverFrame_length (fin t : Nat) (wide : Bool) (p : List Nat) :
    (serverFrame fin t wide p).length = serverHeaderSize wide + p.length := by
  cases wide <;> simp [serverFrame, serverHeaderSize] <;> omega

/-- Reading the header of a complete unmasked frame: `feedWsFrame` goes on with the
frame body, the header fields being set. -/
theorem feedWsFrame_header (e : SendEnv) (c : WebSocketClient) (fin t : Nat) (wide : Bool)
    (p rest : List Nat) (hfs : c.ws_frame_size = 0)
    (hbuf : c.rx_buf = serverFrame fin t wide p ++ rest)
    (hfin : fin ≤ 1) (ht : t ≤ 15)
    (hn : p.length ≤ if wide then 65535 else 125)
    (hle : ((serverFrame fin t wide p).length : Int) ≤ c.line_end) :
    feedWsFrame e c = feedBody e (headerParsed c fin t wide p.length) := by
  obtain ⟨b1, b2, b3⟩ := byte0_bits fin hfin t ht
  rw [serverFrame_length] at hle
  have hr0 : rd c.rx_buf 0 = (fin * 128 + t) % 256 := by
    rw [hbuf]; cases wide <;> simp [serverFrame, rd]
  cases wide
  · simp only [Bool.false_eq_true, if_false] at hn
    obtain ⟨d1, d2⟩ := byte1_bits p.length (by omega)
    have hr1 : rd c.rx_buf 1 = p.length % 256 := by
      rw [hbuf]; simp [serverFrame, rd]
    have h2 : ¬ c.line_end < 2 := by simp [serverHeaderSize] at hle; omega
    have h126 : ¬ p.length = 126 := by omega
    have h127 : ¬ p.length = 127 := by omega
    unfold feedWsFrame
    simp only [hfs, if_true, h2, if_false, hr0, hr1, b1, b2, b3, d1, d2, ne_eq,
      not_true_eq_false, h126, h127, headerParsed, serverHeaderSize, Bool.false_eq_true]
    rfl
  · simp only [if_true] at hn
    obtain ⟨d1, d2⟩ := byte1_bits 126 (by omega)
    have hr1 : rd c.rx_buf 1 = 126 % 256 := by
      rw [hbuf]; simp [serverFrame, rd]
    have hr2 : rd c.rx_buf 2 = (p.length / 256) % 256 := by
      rw [hbuf]; simp [serverFrame, rd]
    have hr3 : rd c.rx_buf 3 = p.length % 256 % 256 := by
      rw [hbuf]; simp [serverFrame, rd]
    have h2 : ¬ c.line_end < 2 := by simp [serverHeaderSize] at hle; omega
    have h4 : ¬ c.line_end < 2 + 2 := by simp [serverHeaderSize] at hle; omega
    unfold feedWsFrame
    simp only [hfs, if_true, h2, if_false, hr0, hr1, hr2, hr3, b1, b2, b3, d1, d2, ne_eq,
      not_true_eq_false, h4, be16 p.length hn, headerParsed, serverHeaderSize]
    rfl

theorem cbEvents_append (a b : List Event) : cbEvents (a ++ b) = cbEvents a ++ cbEvents b := by
  induction a with
  | nil => rfl
  | cons x xs ih => cases x <;> simp [cbEvents, ih]

theorem writeEvents_append (a b : List Event) :
    writeEvents (a ++ b) = writeEvents a ++ writeEvents b := by
  induction a with
  | nil => rfl
  | cons x xs ih => cases x <;> simp [writeEvents, ih]

/-- The payload of a buffered server frame is the view handed to the callbacks. -/
theorem slice_serverFrame (fin t : Nat) (wide : Bool) (p rest : List Nat) :
    slice (serverFrame fin t wide p ++ rest) (serverHeaderSize wide) p.length = p := by
  cases wide <;> simp [slice, serverFrame, serverHeaderSize]

theorem drop_serverFrame (fin t : Nat) (wide : Bool) (p rest : List Nat) :
    (serverFrame fin t wide p ++ rest).drop (serverHeaderSize wide) = p ++ rest := by
  cases wide <;> simp [serverFrame, serverHeaderSize]

/-- The frame body of a complete frame: `onWsFrame` runs, then the frame is dropped. -/
theorem feedBody_complete (e : SendEnv) (c : WebSocketClient) (fin t : Nat) (wide : Bool)
    (n : Nat) (hle : ((serverHeaderSize wide + n : Nat) : Int) ≤ c.line_end) :
    feedBody e (headerParsed c fin t wide n) =
      if (onWsFrame e { headerParsed c fin t wide n with ws_msg := serverHeaderSize wide }).1 = 0
      then (-1, (onWsFrame e
              { headerParsed c fin t wide n with ws_msg := serverHeaderSize wide }).2)
      else ((n : Int), dropFrame (onWsFrame e
              { headerParsed c fin t wide n with ws_msg := serverHeaderSize wide }).2) := by
  have hpos : (serverHeaderSize wide : Int) + (n : Int) > 0 := by
    cases wide <;> simp [serverHeaderSize] <;> omega
  have hge : ¬ c.line_end < (serverHeaderSize wide : Int) + (n : Int) := by
    push_cast at hle; omega
  unfold feedBody
  simp only [headerParsed, hpos, if_true, hge, if_false, Int.toNat_ofNat,
    add_sub_cancel_left]

/-- The keyed dispatch of a text frame adds no generic callback and no write, and
leaves the cursor, the parse state and the counters alone. -/
theorem onText_effect (c : WebSocketClient) (cnt : Int) :
    (onText c cnt).line_end = c.line_end
      ∧ (onText c cnt).ws_frame_size = c.ws_frame_size
      ∧ (onText c cnt).ws_ping_cnt = c.ws_ping_cnt
      ∧ (onText c cnt).ws_pong_cnt = c.ws_pong_cnt
      ∧ ∃ tr, (onText c cnt).trace = c.trace ++ tr
          ∧ cbEvents tr = [] ∧ writeEvents tr = [] := by
  have hid : c.line_end = c.line_end ∧ c.ws_frame_size = c.ws_frame_size
      ∧ c.ws_ping_cnt = c.ws_ping_cnt ∧ c.ws_pong_cnt = c.ws_pong_cnt
      ∧ ∃ tr, c.trace = c.trace ++ tr ∧ cbEvents tr = [] ∧ writeEvents tr = [] :=
    ⟨rfl, rfl, rfl, rfl, [], by simp, rfl, rfl⟩
  unfold onText
  by_cases h1 : c.m_on.length ≠ 0
  · rw [if_pos h1]
    dsimp only
    generalize List.find? _ c.m_on = f
    cases f with
    | none => exact hid
    | some itr =>
      dsimp only
      split_ifs
      · unfold runHandler
        dsimp only
        split_ifs
        · exact ⟨rfl, rfl, rfl, rfl, [_], rfl, rfl, rfl⟩
        · exact ⟨rfl, rfl, rfl, rfl, [], by simp, rfl, rfl⟩
      · exact hid
  · rw [if_neg h1]
    exact hid

/-- Dropping a frame that is completely buffered. -/
theorem dropFrame_fields (c : WebSocketClient) (h : c.ws_frame_size ≤ c.line_end) :
    (dropFrame c).line_end = c.line_end - c.ws_frame_size
      ∧ (dropFrame c).ws_frame_size = 0 ∧ (dropFrame c).trace = c.trace
      ∧ (dropFrame c).ws_ping_cnt = c.ws_ping_cnt
      ∧ (dropFrame c).ws_pong_cnt = c.ws_pong_cnt := by
  unfold dropFrame
  split_ifs with h1
  · exact ⟨rfl, rfl, rfl, rfl, rfl⟩
  · refine ⟨?_, rfl, rfl, rfl, rfl⟩
    show (0 : Int) = c.line_end - c.ws_frame_size
    omega

/-- The generic callback of a data frame sees the payload, its length and the opcode. -/
theorem callCb_trace (c : WebSocketClient) (fin t : Nat) (wide : Bool) (p rest : List Nat)
    (k : Nat) (hbuf : c.rx_buf = serverFrame fin t wide p ++ rest) (hcb : c.m_cb = true) :
    (callCb { headerParsed c fin t wide p.length with ws_msg := serverHeaderSize wide }
        (p.length : Int) k).trace = c.trace ++ [Event.cb p (p.length : Int) k] := by
  unfold callCb
  simp only [headerParsed, hcb, if_true, Int.toNat_ofNat, hbuf, slice_serverFrame]

theorem callCb_fields (c : WebSocketClient) (cnt : Int) (k : Nat) :
    (callCb c cnt k).line_end = c.line_end
      ∧ (callCb c cnt k).ws_frame_size = c.ws_frame_size
      ∧ (callCb c cnt k).ws_ping_cnt = c.ws_ping_cnt
      ∧ (callCb c cnt k).ws_pong_cnt = c.ws_pong_cnt := by
  unfold callCb
  split_ifs <;> exact ⟨rfl, rfl, rfl, rfl⟩

/-- `onWsFrame` on a data frame: it returns 1; the generic callback, when set, is the
only generic callback run, and nothing is written. -/
theorem onWsFrame_data (e : SendEnv) (c : WebSocketClient) (fin t : Nat) (wide : Bool)
    (p rest : List Nat) (hbuf : c.rx_buf = serverFrame fin t wide p ++ rest)
    (ht : t ≤ 2) (hcb : c.m_cb = true) :
    (onWsFrame e { headerParsed c fin t wide p.length with ws_msg := serverHeaderSize wide }).1
        = 1
      ∧ (onWsFrame e
          { headerParsed c fin t wide p.length with ws_msg := serverHeaderSize wide }).2.line_end
        = c.line_end
      ∧ (onWsFrame e
          { headerParsed c fin t wide p.length with
              ws_msg := serverHeaderSize wide }).2.ws_frame_size
        = (serverHeaderSize wide : Int) + (p.length : Int)
      ∧ ∃ tr, (onWsFrame e
          { headerParsed c fin t wide p.length with ws_msg := serverHeaderSize wide }).2.trace
            = c.trace ++ Event.cb p (p.length : Int) t :: tr
          ∧ cbEvents tr = [] ∧ writeEvents tr = [] := by
  have hcnt : (serverHeaderSize wide : Int) + (p.length : Int) - (serverHeaderSize wide : Int)
      = (p.length : Int) := by omega
  have h0 := callCb_trace c fin t wide p rest 0 hbuf hcb
  have h1 := callCb_trace c fin t wide p rest 1 hbuf hcb
  have h2 := callCb_trace c fin t wide p rest 2 hbuf hcb
  unfold onWsFrame
  interval_cases t
  · simp only [headerParsed, WS_FR_OP_CONT, if_true, hcnt]
    obtain ⟨f1, f2, -, -⟩ := callCb_fields
      { headerParsed c fin 0 wide p.length with ws_msg := serverHeaderSize wide } p.length 0
    exact ⟨trivial, f1, f2, [], by simpa [headerParsed] using h0, rfl, rfl⟩
  · simp only [headerParsed, WS_FR_OP_CONT, WS_FR_OP_TXT, if_true, hcnt, one_ne_zero, if_false]
    obtain ⟨f1, f2, -, -⟩ := callCb_fields
      { headerParsed c fin 1 wide p.length with ws_msg := serverHeaderSize wide } p.length 1
    obtain ⟨g1, g2, -, -, tr, g3, g4, g5⟩ := onText_effect
      (callCb { headerParsed c fin 1 wide p.length with ws_msg := serverHeaderSize wide }
        p.length 1) p.length
    refine ⟨trivial, g1.trans f1, g2.trans f2, tr, ?_, g4, g5⟩
    simp only [headerParsed, WS_FR_OP_TXT] at g3 h1
    rw [g3, h1]
    simp
  · simp only [headerParsed, WS_FR_OP_CONT, WS_FR_OP_TXT, WS_FR_OP_BIN, if_true, hcnt,
      OfNat.ofNat_ne_zero, OfNat.ofNat_ne_one, if_false]
    obtain ⟨f1, f2, -, -⟩ := callCb_fields
      { headerParsed c fin 2 wide p.length with ws_msg := serverHeaderSize wide } p.length 2
    exact ⟨trivial, f1, f2, [], by simpa [headerParsed] using h2, rfl, rfl⟩

/-- A complete data frame: one generic callback with the payload, no write. -/
theorem feed_data_frame (e : SendEnv) (c : WebSocketClient) (fin t : Nat) (wide : Bool)
    (p rest : List Nat) (hfs : c.ws_frame_size = 0)
    (hbuf : c.rx_buf = serverFrame fin t wide p ++ rest)
    (hfin : fin ≤ 1) (ht : t ≤ 2)
    (hn : p.length ≤ if wide then 65535 else 125)
    (hle : ((serverFrame fin t wide p).length : Int) ≤ c.line_end)
    (hcb : c.m_cb = true) :
    (feedWsFrame e c).1 = p.length
      ∧ cbEvents (feedWsFrame e c).2.trace = cbEvents c.trace ++ [(p, (p.length : Int), t)]
      ∧ writeEvents (feedWsFrame e c).2.trace = writeEvents c.trace := by
  have hlen := serverFrame_length fin t wide p
  have hle2 : ((serverHeaderSize wide + p.length : Nat) : Int) ≤ c.line_end := by
    rw [← hlen]; exact hle
  rw [feedWsFrame_header e c fin t wide p rest hfs hbuf hfin (by omega) hn hle,
    feedBody_complete e c fin t wide p.length hle2]
  obtain ⟨r1, r2, r3, tr, r4, r5, r6⟩ := onWsFrame_data e c fin t wide p rest hbuf ht hcb
  rw [if_neg (by rw [r1]; norm_num)]
  obtain ⟨-, -, d3, -, -⟩ := dropFrame_fields _ (by rw [r2, r3]; push_cast at hle2; exact hle2)
  refine ⟨rfl, ?_, ?_⟩
  · show cbEvents (dropFrame _).trace = _
    rw [d3, r4, cbEvents_append]
    simp [cbEvents, r5]
  · show writeEvents (dropFrame _).trace = _
    rw [d3, r4, writeEvents_append]
    simp [writeEvents, r6]

set_option maxRecDepth 8000 in
theorem mask_flag_iff : ∀ b, b < 256 → ((b &&& 0xFF) >>> 7 ≠ 0 ↔ b &&& 0x80 ≠ 0) := by
  decide

/-- C5: when the decoder awaits a header (`ws_frame_size = 0`) and at least 2 bytes are
buffered, `feedWsFrame` returns -1 with no callback and no write (the trace is
unchanged) whenever a reserved bit `0x70` of byte 0 is set, or the mask bit `0x80` of
byte 1 is set, or the 7-bit length field of byte 1 is 127.  A header with none of the
three is not rejected: the call returns 0 for a 16-bit length whose bytes are not yet
buffered, and otherwise goes on to the frame body with the declared frame size. -/
theorem header_rejection (e : SendEnv) (c : WebSocketClient)
    (hfs : c.ws_frame_size = 0) (h2 : 2 ≤ c.line_end) :
    ((rd c.rx_buf 0 &&& 0x70 ≠ 0 ∨ rd c.rx_buf 1 &&& 0x80 ≠ 0 ∨ rd c.rx_buf 1 &&& 0x7F = 127) →
        (feedWsFrame e c).1 = -1 ∧ (feedWsFrame e c).2.trace = c.trace)
    ∧ (¬ (rd c.rx_buf 0 &&& 0x70 ≠ 0 ∨ rd c.rx_buf 1 &&& 0x80 ≠ 0
            ∨ rd c.rx_buf 1 &&& 0x7F = 127) →
        feedWsFrame e c =
          if rd c.rx_buf 1 &&& 0x7F = 126 then
            if c.line_end < 4 then
              (0, { c with ws_header_size := 4, ws_is_fin := (rd c.rx_buf 0 &&& 0xFF) >>> 7,
                           ws_frame_type := rd c.rx_buf 0 &&& 0x0F, ws_is_mask := 0 })
            else
              feedBody e
                { c with ws_header_size := 4, ws_is_fin := (rd c.rx_buf 0 &&& 0xFF) >>> 7,
                         ws_frame_type := rd c.rx_buf 0 &&& 0x0F, ws_is_mask := 0,
                         ws_frame_size :=
                           (4 : Int) + (((rd c.rx_buf 2 <<< 8) ||| rd c.rx_buf 3 : Nat) : Int) }
          else
            feedBody e
              { c with ws_header_size := 2, ws_is_fin := (rd c.rx_buf 0 &&& 0xFF) >>> 7,
                       ws_frame_type := rd c.rx_buf 0 &&& 0x0F, ws_is_mask := 0,
                       ws_frame_size := (2 : Int) + ((rd c.rx_buf 1 &&& 0x7F : Nat) : Int) }) := by
  have hlt : ¬ c.line_end < 2 := by omega
  have hm := mask_flag_iff (rd c.rx_buf 1) (rd_lt _ _)
  have e4 : (2 : Int) + 2 = 4 := by norm_num
  constructor
  · intro h
    unfold feedWsFrame
    rw [if_pos hfs]
    dsimp only
    rw [if_neg hlt]
    by_cases hr : rd c.rx_buf 0 &&& 0x70 ≠ 0
    · rw [if_pos hr]
      exact ⟨rfl, rfl⟩
    · rw [if_neg hr]
      by_cases hk0 : (rd c.rx_buf 1 &&& 0xFF) >>> 7 ≠ 0
      · rw [if_pos hk0]
        exact ⟨rfl, rfl⟩
      · have h127 : rd c.rx_buf 1 &&& 0x7F = 127 := by
          rcases h with h | h | h
          · exact absurd h hr
          · exact absurd (hm.mpr h) hk0
          · exact h
        have h126 : ¬ rd c.rx_buf 1 &&& 0x7F = 126 := by omega
        rw [if_neg hk0, if_neg h126, if_pos h127]
        exact ⟨rfl, rfl⟩
  · intro h
    push_neg at h
    obtain ⟨hr, hk, h127⟩ := h
    have hk0 : (rd c.rx_buf 1 &&& 0xFF) >>> 7 = 0 := by
      by_contra hne
      exact (hm.mp hne) hk
    unfold feedWsFrame
    rw [if_pos hfs]
    dsimp only
    rw [if_neg hlt, if_neg (not_not.mpr hr), if_neg (not_not.mpr hk0), hk0, e4]
    by_cases h126 : rd c.rx_buf 1 &&& 0x7F = 126
    · rw [if_pos h126, if_pos h126]
    · rw [if_neg h126, if_neg h126, if_neg h127]

/-- C5, instance of `header_rejection`: a first byte with the reserved bit RSV1. -/
theorem header_rejection_witness :
    (feedWsFrame (okEnv 1 2 3 4 0) (afterRecv (mkClient 16 true []) [193, 0])).1 = -1
      ∧ (feedWsFrame (okEnv 1 2 3 4 0) (afterRecv (mkClient 16 true []) [193, 0])).2.trace
        = (afterRecv (mkClient 16 true []) [193, 0]).trace :=
  (header_rejection (okEnv 1 2 3 4 0) (afterRecv (mkClient 16 true []) [193, 0])
    rfl (by decide)).1 (Or.inl (by decide))

/-! ## C9: the reply to a PING -/

/-- The copy loop reads only the first `n` bytes of the message. -/
theorem maskLoop_prefix (p rest masks : List Nat) (off : Nat) :
    maskLoop (p ++ rest) masks off p.length = maskLoop p masks off p.length := by
  unfold maskLoop
  apply List.map_congr_left
  intro i hi
  rw [rd_append_left _ _ (by simpa using hi)]

theorem sendFrame_prefix (p rest : List Nat) (t : Nat) (masks : List Nat)
    (h : p.length < 2 ^ 32) :
    sendFrame (p ++ rest) p.length t masks = sendFrame p p.length t masks := by
  unfold sendFrame
  rw [u32_of_lt h, maskLoop_prefix]

theorem rd_drop (l : List Nat) (k i : Nat) : rd (l.drop k) i = rd l (k + i) := by
  unfold rd
  rw [List.getD_eq_getElem?_getD, List.getD_eq_getElem?_getD, List.getElem?_drop]

/-- Byte `i` after the header of a buffered server frame is byte `i` of the payload. -/
theorem rd_serverFrame (fin t : Nat) (wide : Bool) (p rest : List Nat) (i : Nat)
    (hi : i < p.length) :
    rd (serverFrame fin t wide p ++ rest) (serverHeaderSize wide + i) = rd p i := by
  rw [← rd_drop, drop_serverFrame, rd_append_left _ _ hi]

/-- `ws_decode_pong` on four ASCII digits yields their decimal value. -/
theorem ws_decode_pong_digits (buf : List Nat) (off d0 d1 d2 d3 : Nat)
    (h0 : rd buf off = 48 + d0) (h1 : rd buf (off + 1) = 48 + d1)
    (h2 : rd buf (off + 2) = 48 + d2) (h3 : rd buf (off + 3) = 48 + d3)
    (l0 : d0 ≤ 9) (l1 : d1 ≤ 9) (l2 : d2 ≤ 9) (l3 : d3 ≤ 9) :
    ws_decode_pong buf off
      = some ((1000 * d0 + 100 * d1 + 10 * d2 + d3 : Nat) : Int) := by
  unfold ws_decode_pong
  simp only [h0, h1, h2, h3]
  rw [if_neg (by omega), if_neg (by omega), if_neg (by omega), if_neg (by omega)]
  congr 1
  push_cast
  ring

/-- `ws_decode_pong` fails as soon as one of the four bytes is not an ASCII digit. -/
theorem ws_decode_pong_none (buf : List Nat) (off : Nat)
    (h : ∃ i, i < 4 ∧ (rd buf (off + i) < 48 ∨ rd buf (off + i) > 57)) :
    ws_decode_pong buf off = none := by
  obtain ⟨i, hi, hbad⟩ := h
  unfold ws_decode_pong
  dsimp only
  by_cases c0 : rd buf off < 48 ∨ rd buf off > 57
  · rw [if_pos c0]
  · rw [if_neg c0]
    by_cases c1 : rd buf (off + 1) < 48 ∨ rd buf (off + 1) > 57
    · rw [if_pos c1]
    · rw [if_neg c1]
      by_cases c2 : rd buf (off + 2) < 48 ∨ rd buf (off + 2) > 57
      · rw [if_pos c2]
      · rw [if_neg c2]
        by_cases c3 : rd buf (off + 3) < 48 ∨ rd buf (off + 3) > 57
        · rw [if_pos c3]
        · exfalso
          interval_cases i
          · exact c0 hbad
          · exact c1 hbad
          · exact c2 hbad
          · exact c3 hbad

/-- `onWsFrame` on a PONG frame, in terms of `ws_decode_pong`. -/
theorem onWsFrame_pong (e : SendEnv) (c : WebSocketClient) (h : c.ws_frame_type = 10) :
    onWsFrame e c =
      if c.ws_frame_size - c.ws_header_size = 4 then
        match ws_decode_pong c.rx_buf c.ws_msg with
        | some r =>
          if c.ws_ping_cnt ≠ r then ((0 : Int), { c with ws_pong_cnt := r })
          else ((1 : Int), { c with ws_pong_cnt := r })
        | none => ((1 : Int), c)
      else ((1 : Int), c) := by
  unfold onWsFrame
  simp only [h, WS_FR_OP_CONT, WS_FR_OP_TXT, WS_FR_OP_BIN, WS_FR_OP_CLOSE, WS_FR_OP_PING,
    WS_FR_OP_PONG, if_true, if_false, OfNat.ofNat_ne_zero, OfNat.ofNat_ne_one,
    Nat.reduceEqDiff]

theorem onWsFrame_pong_some (e : SendEnv) (c : WebSocketClient) (r : Int)
    (h : c.ws_frame_type = 10) (hc : c.ws_frame_size - c.ws_header_size = 4)
    (hd : ws_decode_pong c.rx_buf c.ws_msg = some r) :
    onWsFrame e c = ((if c.ws_ping_cnt ≠ r then 0 else 1), { c with ws_pong_cnt := r }) := by
  rw [onWsFrame_pong e c h, if_pos hc, hd]
  dsimp only
  split_ifs <;> rfl

theorem onWsFrame_pong_skip (e : SendEnv) (c : WebSocketClient)
    (h : c.ws_frame_type = 10)
    (hc : c.ws_frame_size - c.ws_header_size ≠ 4 ∨ ws_decode_pong c.rx_buf c.ws_msg = none) :
    onWsFrame e c = (1, c) := by
  rw [onWsFrame_pong e c h]
  by_cases h4 : c.ws_frame_size - c.ws_header_size = 4
  · rcases hc with hc | hc
    · exact absurd h4 hc
    · rw [if_pos h4, hc]
  · rw [if_neg h4]

/-- C10: let a complete inbound PONG frame with payload `p` be buffered.  If `p` is
exactly four ASCII decimal digits, `onWsFrame` stores their decimal value in
`ws_pong_cnt`, leaves `ws_ping_cnt` alone, and returns 0, so that `feedWsFrame` returns
-1, if and only if the value differs from `ws_ping_cnt`.  If the length of `p` is not 4
or one of its four bytes is not a digit, both counters are unchanged and the frame is
non-fatal. -/
theorem pong_counter (e : SendEnv) (c : WebSocketClient) (fin : Nat) (wide : Bool)
    (p rest : List Nat) (hfs : c.ws_frame_size = 0)
    (hbuf : c.rx_buf = serverFrame fin 10 wide p ++ rest)
    (hfin : fin ≤ 1) (hn : p.length ≤ if wide then 65535 else 125)
    (hle : ((serverFrame fin 10 wide p).length : Int) ≤ c.line_end)
    (hb : ∀ b ∈ p, b < 256) :
    (∀ d0 d1 d2 d3 : Nat, d0 ≤ 9 → d1 ≤ 9 → d2 ≤ 9 → d3 ≤ 9 →
      p = [48 + d0, 48 + d1, 48 + d2, 48 + d3] →
        ((onWsFrame e { headerParsed c fin 10 wide p.length with
              ws_msg := serverHeaderSize wide }).1 = 0
            ↔ c.ws_ping_cnt ≠ ((1000 * d0 + 100 * d1 + 10 * d2 + d3 : Nat) : Int))
        ∧ (onWsFrame e { headerParsed c fin 10 wide p.length with
              ws_msg := serverHeaderSize wide }).2.ws_pong_cnt
            = ((1000 * d0 + 100 * d1 + 10 * d2 + d3 : Nat) : Int)
        ∧ ((feedWsFrame e c).1 = -1
            ↔ c.ws_ping_cnt ≠ ((1000 * d0 + 100 * d1 + 10 * d2 + d3 : Nat) : Int))
        ∧ (feedWsFrame e c).2.ws_pong_cnt
            = ((1000 * d0 + 100 * d1 + 10 * d2 + d3 : Nat) : Int)
        ∧ (feedWsFrame e c).2.ws_ping_cnt = c.ws_ping_cnt)
    ∧ ((p.length ≠ 4 ∨ ∃ i, i < 4 ∧ (p.getD i 0 < 48 ∨ 57 < p.getD i 0)) →
        (onWsFrame e { headerParsed c fin 10 wide p.length with
              ws_msg := serverHeaderSize wide }).1 = 1
        ∧ (feedWsFrame e c).1 = p.length
        ∧ (feedWsFrame e c).1 ≠ -1
        ∧ (feedWsFrame e c).2.ws_ping_cnt = c.ws_ping_cnt
        ∧ (feedWsFrame e c).2.ws_pong_cnt = c.ws_pong_cnt) := by
  have hlen := serverFrame_length fin 10 wide p
  have hle2 : ((serverHeaderSize wide + p.length : Nat) : Int) ≤ c.line_end := by
    rw [← hlen]; exact hle
  have hfeed := (feedWsFrame_header e c fin 10 wide p rest hfs hbuf hfin (by norm_num) hn hle).trans
    (feedBody_complete e c fin 10 wide p.length hle2)
  generalize hc1 : ({ headerParsed c fin 10 wide p.length with
      ws_msg := serverHeaderSize wide } : WebSocketClient) = c1 at hfeed
  have f0 : c1.ws_frame_type = 10 := by rw [← hc1]; rfl
  have f1 : c1.ws_frame_size = (serverHeaderSize wide : Int) + (p.length : Int) := by
    rw [← hc1]; rfl
  have f2 : c1.line_end = c.line_end := by rw [← hc1]; rfl
  have f3 : c1.ws_header_size = (serverHeaderSize wide : Int) := by rw [← hc1]; rfl
  have f4 : c1.rx_buf = serverFrame fin 10 wide p ++ rest := by rw [← hc1]; exact hbuf
  have f5 : c1.ws_msg = serverHeaderSize wide := by rw [← hc1]
  have f6 : c1.ws_ping_cnt = c.ws_ping_cnt := by rw [← hc1]; rfl
  have f7 : c1.ws_pong_cnt = c.ws_pong_cnt := by rw [← hc1]; rfl
  have hcnt : c1.ws_frame_size - c1.ws_header_size = (p.length : Int) := by
    rw [f1, f3]; omega
  have hdrop : ∀ x : WebSocketClient, x.ws_frame_size = c1.ws_frame_size →
      x.line_end = c1.line_end →
      (dropFrame x).ws_ping_cnt = x.ws_ping_cnt ∧ (dropFrame x).ws_pong_cnt = x.ws_pong_cnt := by
    intro x h1 h2
    have := dropFrame_fields x (by rw [h1, h2, f1, f2]; push_cast at hle2; exact hle2)
    exact ⟨this.2.2.2.1, this.2.2.2.2⟩
  constructor
  · intro d0 d1 d2 d3 l0 l1 l2 l3 hp
    have hp4 : p.length = 4 := by rw [hp]; rfl
    have hrd : ∀ i d, i < 4 → p.getD i 0 = 48 + d → d ≤ 9 →
        rd c1.rx_buf (c1.ws_msg + i) = 48 + d := by
      intro i d hi hpi hd
      rw [f4, f5, rd_serverFrame _ _ _ _ _ _ (by omega), rd_of_bytes hb (by omega), hpi]
    have hdec := ws_decode_pong_digits c1.rx_buf c1.ws_msg d0 d1 d2 d3
      (by simpa using hrd 0 d0 (by norm_num) (by rw [hp]; rfl) l0)
      (hrd 1 d1 (by norm_num) (by rw [hp]; rfl) l1)
      (hrd 2 d2 (by norm_num) (by rw [hp]; rfl) l2)
      (hrd 3 d3 (by norm_num) (by rw [hp]; rfl) l3) l0 l1 l2 l3
    have hon := onWsFrame_pong_some e c1 _ f0 (by rw [hcnt, hp4]; rfl) hdec
    have hv1 : c1.ws_ping_cnt ≠ ((1000 * d0 + 100 * d1 + 10 * d2 + d3 : Nat) : Int)
        ↔ c.ws_ping_cnt ≠ ((1000 * d0 + 100 * d1 + 10 * d2 + d3 : Nat) : Int) := by rw [f6]
    rw [hfeed, hon]
    by_cases hv : c1.ws_ping_cnt ≠ ((1000 * d0 + 100 * d1 + 10 * d2 + d3 : Nat) : Int)
    · rw [if_pos hv]
      dsimp only
      rw [if_pos rfl]
      exact ⟨⟨fun _ => hv1.mp hv, fun _ => rfl⟩, rfl, ⟨fun _ => hv1.mp hv, fun _ => rfl⟩,
        rfl, f6⟩
    · obtain ⟨g1, g2⟩ := hdrop { c1 with ws_pong_cnt :=
          ((1000 * d0 + 100 * d1 + 10 * d2 + d3 : Nat) : Int) } rfl rfl
      rw [if_neg hv]
      dsimp only
      rw [if_neg (by norm_num)]
      refine ⟨⟨fun h => absurd h (by norm_num), fun h => absurd (hv1.mpr h) hv⟩, rfl,
        ⟨fun h => ?_, fun h => absurd (hv1.mpr h) hv⟩, g2, g1.trans f6⟩
      exfalso
      have h' : (p.length : Int) = -1 := h
      omega
  · intro hbad
    have hskip : onWsFrame e c1 = (1, c1) := by
      apply onWsFrame_pong_skip e c1 f0
      by_cases h4 : p.length = 4
      · right
        rcases hbad with h | ⟨i, hi, hdig⟩
        · exact absurd h4 h
        · apply ws_decode_pong_none
          refine ⟨i, hi, ?_⟩
          rw [f4, f5, rd_serverFrame _ _ _ _ _ _ (by omega), rd_of_bytes hb (by omega)]
          exact hdig
      · left
        rw [hcnt]
        omega
    obtain ⟨g1, g2⟩ := hdrop c1 rfl rfl
    rw [hfeed, hskip]
    dsimp only
    rw [if_neg (by norm_num)]
    refine ⟨rfl, rfl, ?_, g1.trans f6, g2.trans f7⟩
    show ¬ ((p.length : Int) = -1)
    omega

/-- C10, instance of `pong_counter`: the PONG `0007` against the ping counter 7. -/
theorem pong_counter_witness :
    ((feedWsFrame (okEnv 1 2 3 4 0)
        (afterRecv { mkClient 16 true [] with ws_ping_cnt := 7, ws_pong_cnt := 6 }
          (serverFrame 1 10 false [48, 48, 48, 55]))).1 = -1
      ↔ (7 : Int) ≠ ((1000 * 0 + 100 * 0 + 10 * 0 + 7 : Nat) : Int))
    ∧ (feedWsFrame (okEnv 1 2 3 4 0)
        (afterRecv { mkClient 16 true [] with ws_ping_cnt := 7, ws_pong_cnt := 6 }
          (serverFrame 1 10 false [48, 48, 48, 55]))).2.ws_pong_cnt
      = ((1000 * 0 + 100 * 0 + 10 * 0 + 7 : Nat) : Int) :=
  ⟨((pong_counter (okEnv 1 2 3 4 0)
      (afterRecv { mkClient 16 true [] with ws_ping_cnt := 7, ws_pong_cnt := 6 }
        (serverFrame 1 10 false [48, 48, 48, 55]))
      1 false [48, 48, 48, 55] (List.replicate 10 0) rfl (by decide) (by decide) (by decide)
      (by decide) (by decide)).1 0 0 0 7 (by decide) (by decide) (by decide) (by decide) rfl).2.2.1,
   ((pong_counter (okEnv 1 2 3 4 0)
      (afterRecv { mkClient 16 true [] with ws_ping_cnt := 7, ws_pong_cnt := 6 }
        (serverFrame 1 10 false [48, 48, 48, 55]))
      1 false [48, 48, 48, 55] (List.replicate 10 0) rfl (by decide) (by decide) (by decide)
      (by decide) (by decide)).1 0 0 0 7 (by decide) (by decide) (by decide) (by decide) rfl).2.2.2.1⟩

/-! ## The decode loop of the worker -/

/-- `onWsFrame` leaves the fill cursor and the frame size alone. -/
theorem onWsFrame_fields (e : SendEnv) (c : WebSocketClient) :
    (onWsFrame e c).2.line_end = c.line_end
      ∧ (onWsFrame e c).2.ws_frame_size = c.ws_frame_size := by
  have hcb := fun k => callCb_fields c (c.ws_frame_size - c.ws_header_size) k
  unfold onWsFrame
  dsimp only
  split_ifs with h0 h1 h2 h8 h9 h10 h4
  · exact ⟨(hcb _).1, (hcb _).2.1⟩
  · obtain ⟨g1, g2, -⟩ := onText_effect
      (callCb c (c.ws_frame_size - c.ws_header_size) WS_FR_OP_TXT)
      (c.ws_frame_size - c.ws_header_size)
    exact ⟨g1.trans (hcb _).1, g2.trans (hcb _).2.1⟩
  · exact ⟨(hcb _).1, (hcb _).2.1⟩
  · exact ⟨rfl, rfl⟩
  · rcases send_cases e c (c.rx_buf.drop c.ws_msg)
      (intToU32 (c.ws_frame_size - c.ws_header_size)) WS_FR_OP_PONG with h | h
    · rw [h]; exact ⟨rfl, rfl⟩
    · rw [h]; exact ⟨rfl, rfl⟩
  · cases ws_decode_pong c.rx_buf c.ws_msg with
    | none => exact ⟨rfl, rfl⟩
    | some r =>
      dsimp only
      split_ifs <;> exact ⟨rfl, rfl⟩
  · exact ⟨rfl, rfl⟩
  · exact ⟨rfl, rfl⟩

/-- A positive result of the frame body means that a frame was dropped from the buffer. -/
theorem feedBody_pos (e : SendEnv) (c : WebSocketClient) (h : (feedBody e c).1 > 0) :
    (feedBody e c).2.line_end < c.line_end := by
  unfold feedBody at h ⊢
  by_cases h1 : c.ws_frame_size > 0
  · rw [if_pos h1] at h ⊢
    by_cases h2 : c.line_end < c.ws_frame_size
    · rw [if_pos h2] at h
      exact absurd h (by norm_num)
    · rw [if_neg h2] at h ⊢
      dsimp only at h ⊢
      by_cases h3 : (onWsFrame e { c with ws_msg := c.ws_header_size.toNat }).1 = 0
      · rw [if_pos h3] at h
        exact absurd h (by norm_num)
      · rw [if_neg h3]
        obtain ⟨g1, g2⟩ := onWsFrame_fields e { c with ws_msg := c.ws_header_size.toNat }
        have hd := (dropFrame_fields
          (onWsFrame e { c with ws_msg := c.ws_header_size.toNat }).2
          (by rw [g1, g2]; show c.ws_frame_size ≤ c.line_end; omega)).1
        show (dropFrame _).line_end < c.line_end
        rw [hd, g1, g2]
        show c.line_end - c.ws_frame_size < c.line_end
        omega
  · rw [if_neg h1] at h
    exact absurd h (by norm_num)

/-- A positive result of `feedWsFrame` means that the buffered data got shorter. -/
theorem feedWsFrame_pos (e : SendEnv) (c : WebSocketClient) (h : (feedWsFrame e c).1 > 0) :
    (feedWsFrame e c).2.line_end < c.line_end := by
  unfold feedWsFrame at h ⊢
  dsimp only at h ⊢
  split_ifs at h ⊢ with h1 h2 h3 h4 h5 h6 h7
  · exact absurd h (by norm_num)
  · exact absurd h (by norm_num)
  · exact absurd h (by norm_num)
  · exact absurd h (by norm_num)
  · exact feedBody_pos e _ h
  · exact absurd h (by norm_num)
  · exact feedBody_pos e _ h
  · exact feedBody_pos e _ h

/-- With no data buffered `feedWsFrame` does not return a positive value. -/
theorem feedWsFrame_empty (e : SendEnv) (c : WebSocketClient) (h : c.line_end ≤ 0) :
    (feedWsFrame e c).1 ≤ 0 := by
  by_contra hpos
  have := feedWsFrame_pos e c (by omega)
  unfold feedWsFrame at hpos
  dsimp only at hpos
  have hbody : ∀ x : WebSocketClient, x.line_end = c.line_end → (feedBody e x).1 ≤ 0 := by
    intro x hx
    unfold feedBody
    by_cases h1 : x.ws_frame_size > 0
    · rw [if_pos h1, if_pos (by omega)]
    · rw [if_neg h1]
  split_ifs at hpos with h1 h2 h3 h4 h5 h6 h7
  · exact hpos (by norm_num)
  · omega
  · omega
  · omega
  · exact hpos (hbody _ rfl)
  · omega
  · exact hpos (hbody _ rfl)
  · exact hpos (hbody _ rfl)

/-- The bound given to `decodeLoop` by `recvStep` is never used up: the loop it models
ends with a result that is not positive. -/
theorem decodeLoop_done (fuel : Nat) (es : Nat → SendEnv) (c : WebSocketClient)
    (h : c.line_end ≤ fuel) : (decodeLoop fuel es c).1 ≤ 0 := by
  induction fuel generalizing es c with
  | zero =>
    unfold decodeLoop
    exact feedWsFrame_empty _ c (by simpa using h)
  | succ n ih =>
    unfold decodeLoop
    dsimp only
    by_cases hp : (feedWsFrame (es 0) c).1 > 0
    · rw [if_pos hp]
      apply ih
      have := feedWsFrame_pos (es 0) c hp
      push_cast at h
      omega
    · rw [if_neg hp]
      omega

/-! ## C6, C7: a frame with an empty payload stops the decode loop -/

/-- C6 fails on the code: the stream made of an empty TEXT frame `81 00` followed by the
TEXT frame `81 01 41` dispatches only the empty frame when it arrives in one read, and
both frames when it arrives in the two reads `81 00` and `81 01 41`. -/
theorem split_reads_differ :
    cbEvents (recvStep (fun _ => okEnv 1 2 3 4 0) (mkClient 16 true [])
        ([129, 0] ++ [129, 1, 65])).trace = [([], 0, 1)]
    ∧ cbEvents (recvStep (fun _ => okEnv 1 2 3 4 0)
        (recvStep (fun _ => okEnv 1 2 3 4 0) (mkClient 16 true []) [129, 0])
        [129, 1, 65]).trace = [([], 0, 1), ([65], 1, 1)] := by
  decide

/-- C7 fails on the code: with the empty TEXT frame `81 00` and the TEXT frame
`81 01 41` buffered, `feedWsFrame` consumes and dispatches the first frame and returns
0; the decode loop of the worker stops there without a fatal result, and the complete
second frame is still in the receive buffer. -/
theorem empty_frame_returns_zero :
    (feedWsFrame (okEnv 1 2 3 4 0)
        (afterRecv (mkClient 16 true []) [129, 0, 129, 1, 65])).1 = 0
    ∧ cbEvents (feedWsFrame (okEnv 1 2 3 4 0)
        (afterRecv (mkClient 16 true []) [129, 0, 129, 1, 65])).2.trace = [([], 0, 1)]
    ∧ (recvStep (fun _ => okEnv 1 2 3 4 0) (mkClient 16 true [])
        [129, 0, 129, 1, 65]).m_connected = true
    ∧ (recvStep (fun _ => okEnv 1 2 3 4 0) (mkClient 16 true [])
        [129, 0, 129, 1, 65]).line_end = 3
    ∧ (recvStep (fun _ => okEnv 1 2 3 4 0) (mkClient 16 true [])
        [129, 0, 129, 1, 65]).rx_buf.take 3 = serverFrame 1 1 false [65] := by
  decide

/-! ## C3: encoding, then decoding -/

theorem map_getD_range (l : List Nat) : (List.range l.length).map (fun i => l.getD i 0) = l := by
  apply List.ext_getElem
  · simp
  · intro i h1 h2
    simp [List.getD_eq_getElem?_getD, List.getElem?_eq_getElem h2]

/-- Unmasking the payload bytes of a frame whose mask starts at offset `H`. -/
theorem unmask_payload (F p masks : List Nat) (H : Nat)
    (hpay : ∀ i, i < p.length → F.getD (H + 4 + i) 0 = u8 (rd p i ^^^ masks.getD (i % 4) 0))
    (hmask : ∀ j, j < 4 → F.getD (H + j) 0 = masks.getD j 0)
    (hm : ∀ j, masks.getD j 0 < 256) (hb : ∀ b ∈ p, b < 256)
    (hlen : F.length - (H + 4) = p.length) :
    (List.range (F.length - (H + 4))).map
        (fun i => F.getD (H + 4 + i) 0 ^^^ F.getD (H + i % 4) 0) = p := by
  rw [hlen]
  conv_rhs => rw [← map_getD_range p]
  apply List.map_congr_left
  intro i hi
  have hi' : i < p.length := by simpa using hi
  rw [hpay i hi', hmask (i % 4) (Nat.mod_lt _ (by norm_num)), ← rd_of_bytes hb hi']
  exact unmask_byte _ _ (hm _)

theorem len7_field : ∀ n, n < 126 → ((n &&& 0x7F) ||| 128) % 256 &&& 0x7F = n := by decide

theorem fin_or_add : ∀ t, t < 16 → 128 ||| t = 1 * 128 + t := by decide

/-- The frame built by `send`, unmasked by the peer, is the server-side frame with the
same opcode and payload. -/
theorem unmaskFrame_sendFrame (p : List Nat) (t : Nat) (masks : List Nat)
    (hn : p.length ≤ 65535) (ht : t ≤ 15)
    (hm : ∀ j, masks.getD j 0 < 256) (hb : ∀ b ∈ p, b < 256) :
    unmaskFrame (sendFrame p p.length t masks)
      = serverFrame 1 t (decide (125 < p.length)) p := by
  have hn32 : p.length < 2 ^ 32 := by omega
  have hu : u32 p.length = p.length := u32_of_lt hn32
  have hFlen : (sendFrame p p.length t masks).length = idxHeader p.length + p.length := by
    rw [sendFrame, hu, List.length_append, sendHeader_length, maskLoop_length]
  have hpay := sendFrame_payload p p.length t masks hn32
  have hmask := sendFrame_mask p p.length t masks hn32
  have h0 : (WS_FIN ||| t) % 256 = 128 ||| t := fin_or_small t (by omega)
  have h0' := fin_or_add t (by omega)
  by_cases h125 : p.length ≤ 125
  · have hidx : idxHeader p.length = 2 + 4 := by simp [idxHeader, h125]
    have hF : sendFrame p p.length t masks
        = [128 ||| t, ((p.length &&& 0x7F) ||| 128) % 256] ++
          ([masks.getD 0 0, masks.getD 1 0, masks.getD 2 0, masks.getD 3 0]
            ++ maskLoop p masks 0 p.length) := by
      simp [sendFrame, sendHeader, hu, h125, u8, h0, WS_MASK]
    have hb1 : (sendFrame p p.length t masks).getD 1 0 &&& 0x7F = p.length := by
      rw [hF]
      exact len7_field _ (by omega)
    have hoff : maskOffset (sendFrame p p.length t masks) = 2 := by
      unfold maskOffset
      rw [hb1, if_neg (by omega), if_neg (by omega)]
    rw [hidx] at hpay hFlen
    have hmask' : ∀ j, j < 4 → (sendFrame p p.length t masks).getD (2 + j) 0
        = masks.getD j 0 := by
      intro j hj
      have := hmask j hj
      rw [hidx] at this
      exact this
    have hpl := unmask_payload _ p masks 2 hpay hmask' hm hb (by rw [hFlen]; omega)
    unfold unmaskFrame
    rw [hoff, hb1, hpl]
    have hnot : ¬ 125 < p.length := by omega
    simp [hF, serverFrame, hnot, h0']
  · have h126 : 126 ≤ p.length ∧ p.length ≤ 65535 := ⟨by omega, hn⟩
    have hidx : idxHeader p.length = 4 + 4 := by simp [idxHeader, h125, h126]
    have hdiv : p.length / 256 < 256 := by omega
    have hF : sendFrame p p.length t masks
        = [128 ||| t, 254, p.length / 256, p.length % 256] ++
          ([masks.getD 0 0, masks.getD 1 0, masks.getD 2 0, masks.getD 3 0]
            ++ maskLoop p masks 0 p.length) := by
      simp [sendFrame, sendHeader, hu, h125, h126, u8, h0, WS_MASK, and_255,
        Nat.shiftRight_eq_div_pow, Nat.mod_eq_of_lt hdiv]
    have hb1 : (sendFrame p p.length t masks).getD 1 0 &&& 0x7F = 126 := by
      rw [hF]
      show (254 : Nat) &&& 0x7F = 126
      decide
    have hoff : maskOffset (sendFrame p p.length t masks) = 4 := by
      unfold maskOffset
      rw [hb1, if_pos rfl]
    rw [hidx] at hpay hFlen
    have hmask' : ∀ j, j < 4 → (sendFrame p p.length t masks).getD (4 + j) 0
        = masks.getD j 0 := by
      intro j hj
      have := hmask j hj
      rw [hidx] at this
      exact this
    have hpl := unmask_payload _ p masks 4 hpay hmask' hm hb (by rw [hFlen]; omega)
    unfold unmaskFrame
    rw [hoff, hb1, hpl]
    have hyes : 125 < p.length := by omega
    simp [hF, serverFrame, hyes, h0']

/-- C3 (amended): for every payload of at most 65535 bytes (in particular of 0, 1, 125,
126 or 65535 bytes), given as one segment to `send` or as two segments `msg0`, `msg1`
to `send2`, and every data opcode `t`: the frame handed to the transport, once unmasked
as the receiving peer does (mask bit cleared, mask bytes removed, payload XORed with the
mask), is decoded by `feedWsFrame` and `onWsFrame` to the same opcode and the same
payload bytes, given to the generic callback exactly once. -/
theorem roundtrip_unmasked (e e' : SendEnv) (cs c : WebSocketClient)
    (msg0 msg1 rest F : List Nat) (len : Int) (t : Nat)
    (ht : t ≤ 2) (hn : msg0.length + msg1.length ≤ 65535)
    (hb0 : ∀ b ∈ msg0, b < 256) (hb1 : ∀ b ∈ msg1, b < 256)
    (hsend : (send e cs (msg0 ++ msg1) (msg0.length + msg1.length) t).2.trace
                = cs.trace ++ [Event.write F len]
             ∨ (send2 e cs msg0 msg0.length msg1 msg1.length t).2.trace
                = cs.trace ++ [Event.write F len])
    (hfs : c.ws_frame_size = 0) (hcb : c.m_cb = true)
    (hbuf : c.rx_buf = unmaskFrame F ++ rest)
    (hle : ((unmaskFrame F).length : Int) ≤ c.line_end) :
    (feedWsFrame e' c).1 = ((msg0 ++ msg1).length : Int)
      ∧ cbEvents (feedWsFrame e' c).2.trace
          = cbEvents c.trace ++ [(msg0 ++ msg1, ((msg0 ++ msg1).length : Int), t)] := by
  have hlen : (msg0 ++ msg1).length = msg0.length + msg1.length := List.length_append _ _
  have hF : F = sendFrame (msg0 ++ msg1) (msg0 ++ msg1).length t (genMasks e) := by
    rw [hlen]
    rcases hsend with h | h
    · exact send_written e cs _ _ _ F len h
    · rw [send2_as_send e cs msg0 msg1 msg1.length t (by omega)] at h
      exact send_written e cs _ _ _ F len h
  have hb : ∀ b ∈ msg0 ++ msg1, b < 256 := by
    intro b hmem
    rcases List.mem_append.mp hmem with h | h
    · exact hb0 b h
    · exact hb1 b h
  have hun := unmaskFrame_sendFrame (msg0 ++ msg1) t (genMasks e) (by rw [hlen]; exact hn)
    (by omega) (genMasks_getD_lt e) hb
  rw [hF, hun] at hbuf hle
  have hwide : (msg0 ++ msg1).length
      ≤ if decide (125 < (msg0 ++ msg1).length) = true then 65535 else 125 := by
    by_cases h : 125 < (msg0 ++ msg1).length
    · simp only [h, decide_True, if_true]; omega
    · simp only [h, decide_False, Bool.false_eq_true, if_false]; omega
  obtain ⟨r1, r2, -⟩ := feed_data_frame e' c 1 t _ (msg0 ++ msg1) rest hfs hbuf (by norm_num)
    ht hwide hle hcb
  exact ⟨r1, r2⟩

/-- C3, instance of `roundtrip_unmasked`: the two segments `42` and `[]` sent by `send2`
under the mask 1, 2, 3, 4. -/
theorem roundtrip_unmasked_witness :
    cbEvents (feedWsFrame (okEnv 0 0 0 0 0)
        (afterRecv (mkClient 16 true [])
          (unmaskFrame [129, 132, 1, 2, 3, 4, 53, 48, 88, 89]))).2.trace
      = cbEvents (afterRecv (mkClient 16 true [])
          (unmaskFrame [129, 132, 1, 2, 3, 4, 53, 48, 88, 89])).trace
        ++ [([52, 50] ++ [91, 93], (([52, 50] ++ [91, 93] : List Nat).length : Int), 1)] :=
  (roundtrip_unmasked (okEnv 1 2 3 4 10) (okEnv 0 0 0 0 0) (mkClient 16 true [])
    (afterRecv (mkClient 16 true []) (unmaskFrame [129, 132, 1, 2, 3, 4, 53, 48, 88, 89]))
    [52, 50] [91, 93] (List.replicate 10 0) [129, 132, 1, 2, 3, 4, 53, 48, 88, 89] 10 1
    (by decide) (by decide) (by decide) (by decide) (Or.inr (by decide)) rfl rfl
    (by decide) (by decide)).2

/-- C3 as stated fails: the frame that `send` builds for the one-byte text payload `A`
is rejected by `feedWsFrame` with -1 and no callback, because it is masked; and the
frame built for a payload of 65536 bytes announces a 64-bit length, which `feedWsFrame`
rejects with -1 even after the peer has unmasked the frame. -/
theorem masked_frame_rejected :
    ((send (okEnv 1 2 3 4 7) (mkClient 16 true []) [65] 1 1).2.trace
        = [Event.write [129, 129, 1, 2, 3, 4, 64] 7]
      ∧ (feedWsFrame (okEnv 1 2 3 4 7)
          (afterRecv (mkClient 16 true []) [129, 129, 1, 2, 3, 4, 64])).1 = -1
      ∧ (feedWsFrame (okEnv 1 2 3 4 7)
          (afterRecv (mkClient 16 true []) [129, 129, 1, 2, 3, 4, 64])).2.trace = [])
    ∧ (feedWsFrame (okEnv 1 2 3 4 7)
        { mkClient 70000 true [] with
          rx_buf := unmaskFrame
            (sendFrame (List.replicate 65536 65) 65536 1 (genMasks (okEnv 1 2 3 4 7))),
          line_end := 65546 }).1 = -1 := by
  refine ⟨by decide, ?_⟩
  decide

/-! ## C11: `sendPing` -/

theorem decDigits_succ (f m : Nat) :
    decDigits (f + 1) m = if m < 10 then [48 + m] else decDigits f (m / 10) ++ [48 + m % 10] :=
  rfl

/-- Enough fuel: the digits do not depend on the bound once it covers their number. -/
theorem decDigits_fuel (f1 : Nat) : ∀ (f2 m : Nat), m < 10 ^ f1 → m < 10 ^ f2 →
    0 < f1 → 0 < f2 → decDigits f1 m = decDigits f2 m := by
  induction f1 with
  | zero => intro f2 m _ _ h _; omega
  | succ f1 ih =>
    intro f2 m h1 h2 _ hf2
    obtain ⟨f2, rfl⟩ : ∃ k, f2 = k + 1 := ⟨f2 - 1, by omega⟩
    rw [decDigits_succ, decDigits_succ]
    by_cases h : m < 10
    · rw [if_pos h, if_pos h]
    · rw [if_neg h, if_neg h]
      have e1 : m / 10 < 10 ^ f1 := by
        rw [Nat.div_lt_iff_lt_mul (by norm_num)]
        rw [pow_succ] at h1; exact h1
      have e2 : m / 10 < 10 ^ f2 := by
        rw [Nat.div_lt_iff_lt_mul (by norm_num)]
        rw [pow_succ] at h2; exact h2
      have p1 : 0 < f1 := by
        rcases Nat.eq_zero_or_pos f1 with h0 | h0
        · subst h0; simp at e1; omega
        · exact h0
      have p2 : 0 < f2 := by
        rcases Nat.eq_zero_or_pos f2 with h0 | h0
        · subst h0; simp at e2; omega
        · exact h0
      rw [ih f2 (m / 10) e1 e2 p1 p2]

theorem lt_ten_pow_succ (m : Nat) : m < 10 ^ (m + 1) := by
  have := Nat.lt_pow_self (by norm_num : 1 < 10) m
  calc m < 10 ^ m := this
    _ ≤ 10 ^ (m + 1) := Nat.pow_le_pow_right (by norm_num) (by omega)

/-- The four characters of `%04d` for a counter between 0 and 9999. -/
theorem fmt04d_small (m : Nat) (h : m < 10000) :
    fmt04d (m : Int)
      = [48 + m / 1000, 48 + m / 100 % 10, 48 + m / 10 % 10, 48 + m % 10] := by
  have hd : decDigits (m + 1) m = decDigits 4 m :=
    decDigits_fuel (m + 1) 4 m (lt_ten_pow_succ m) (by norm_num; omega) (by omega) (by norm_num)
  unfold fmt04d
  rw [if_neg (by omega), Int.natAbs_ofNat, hd]
  by_cases h1 : m < 10
  · have : decDigits 4 m = [48 + m] := by rw [decDigits_succ, if_pos h1]
    rw [this]
    have a1 : m / 1000 = 0 := by omega
    have a2 : m / 100 % 10 = 0 := by omega
    have a3 : m / 10 % 10 = 0 := by omega
    have a4 : m % 10 = m := by omega
    simp [a1, a2, a3, a4, List.replicate]
  · by_cases h2 : m < 100
    · have : decDigits 4 m = [48 + m / 10, 48 + m % 10] := by
        rw [decDigits_succ, if_neg h1, decDigits_succ, if_pos (by omega)]
        rfl
      rw [this]
      have a1 : m / 1000 = 0 := by omega
      have a2 : m / 100 % 10 = 0 := by omega
      have a3 : m / 10 % 10 = m / 10 := by omega
      simp [a1, a2, a3, List.replicate]
    · by_cases h3 : m < 1000
      · have : decDigits 4 m = [48 + m / 10 / 10, 48 + m / 10 % 10, 48 + m % 10] := by
          rw [decDigits_succ, if_neg h1, decDigits_succ, if_neg (by omega), decDigits_succ,
            if_pos (by omega)]
          rfl
        rw [this]
        have a1 : m / 1000 = 0 := by omega
        have a2 : m / 100 % 10 = m / 10 / 10 := by omega
        simp [a1, a2, List.replicate]
      · have : decDigits 4 m
            = [48 + m / 10 / 10 / 10, 48 + m / 10 / 10 % 10, 48 + m / 10 % 10, 48 + m % 10] := by
          rw [decDigits_succ, if_neg h1, decDigits_succ, if_neg (by omega), decDigits_succ,
            if_neg (by omega), decDigits_succ, if_pos (by omega)]
          rfl
        rw [this]
        have a1 : m / 1000 = m / 10 / 10 / 10 := by omega
        have a2 : m / 100 % 10 = m / 10 / 10 % 10 := by omega
        simp [a1, a2]

theorem wrapInt_of_range {n : Int} (h1 : -2 ^ 31 ≤ n) (h2 : n < 2 ^ 31) : wrapInt n = n := by
  unfold wrapInt
  omega

/-- `sendPing` on a connected client whose previous ping was acknowledged. -/
theorem sendPing_acked (e : SendEnv) (c : WebSocketClient) (hconn : c.m_connected = true)
    (heq : c.ws_ping_cnt = c.ws_pong_cnt) :
    sendPing e c = (1, (send e { c with ws_ping_cnt := wrapInt (c.ws_ping_cnt + 1) }
      ((fmt04d (wrapInt (c.ws_ping_cnt + 1))).take 14 ++ [0]) 4 WS_FR_OP_PING).2) := by
  unfold sendPing
  rw [if_pos hconn, if_neg (not_not.mpr heq)]

/-- The PING frame for four payload bytes, as handed to the transport. -/
theorem ping_frame (d0 d1 d2 d3 : Nat) (rest masks : List Nat) :
    sendFrame ([d0, d1, d2, d3] ++ rest) 4 WS_FR_OP_PING masks
      = [0x89, 0x84] ++ [masks.getD 0 0, masks.getD 1 0, masks.getD 2 0, masks.getD 3 0]
          ++ maskLoop [d0, d1, d2, d3] masks 0 4 := by
  have h := sendFrame_prefix [d0, d1, d2, d3] rest WS_FR_OP_PING masks (by norm_num)
  have h4 : ([d0, d1, d2, d3] : List Nat).length = 4 := rfl
  rw [h4] at h
  rw [h]
  unfold sendFrame
  rw [u32_of_lt (by norm_num : 4 < 2 ^ 32),
    sendHeader_eq 4 WS_FR_OP_PING masks (by norm_num) (by decide)]
  rfl

/-- C11 (amended): on a connected client, if `ws_ping_cnt = ws_pong_cnt` and the counter
is between 0 and 9998, `sendPing` increments `ws_ping_cnt` by exactly one, calls `send`
once with the four zero-padded decimal digits of the new counter and the PING opcode,
and returns 1; when the transport is writable, a buffer is available and the lock is
taken, exactly one frame is handed to the transport, a PING whose payload XORed with
the mask is these four digits.  If `ws_ping_cnt` differs from `ws_pong_cnt`, it returns
0, sends nothing and leaves the client, both counters included, unchanged. -/
theorem sendPing_contract (e : SendEnv) (c : WebSocketClient) (n : Nat)
    (hconn : c.m_connected = true) :
    (c.ws_ping_cnt = c.ws_pong_cnt → c.ws_ping_cnt = (n : Int) → n < 9999 →
      (sendPing e c).1 = 1
      ∧ (sendPing e c).2.ws_ping_cnt = c.ws_ping_cnt + 1
      ∧ (sendPing e c).2.ws_pong_cnt = c.ws_pong_cnt
      ∧ (sendPing e c).2 = (send e { c with ws_ping_cnt := c.ws_ping_cnt + 1 }
            ([48 + (n + 1) / 1000, 48 + (n + 1) / 100 % 10, 48 + (n + 1) / 10 % 10,
              48 + (n + 1) % 10] ++ [0]) 4 WS_FR_OP_PING).2
      ∧ (0 < e.poll_write → (needsAlloc c.m_maxBuf 4 = true → e.malloc_ok = true) →
          e.lock_ok = true →
          (sendPing e c).2.trace = c.trace ++
            [Event.write
              ([0x89, 0x84] ++ genMasks e
                ++ maskLoop [48 + (n + 1) / 1000, 48 + (n + 1) / 100 % 10,
                    48 + (n + 1) / 10 % 10, 48 + (n + 1) % 10] (genMasks e) 0 4) 10]
          ∧ ∀ i, i < 4 →
              (maskLoop [48 + (n + 1) / 1000, 48 + (n + 1) / 100 % 10,
                  48 + (n + 1) / 10 % 10, 48 + (n + 1) % 10] (genMasks e) 0 4).getD i 0
                ^^^ (genMasks e).getD (i % 4) 0
              = ([48 + (n + 1) / 1000, 48 + (n + 1) / 100 % 10, 48 + (n + 1) / 10 % 10,
                  48 + (n + 1) % 10] : List Nat).getD i 0))
    ∧ (c.ws_ping_cnt ≠ c.ws_pong_cnt → sendPing e c = (0, c)) := by
  constructor
  · intro heq hn hlt
    have hw : wrapInt (c.ws_ping_cnt + 1) = c.ws_ping_cnt + 1 :=
      wrapInt_of_range (by rw [hn]; omega) (by rw [hn]; omega)
    have hfmt : (fmt04d (c.ws_ping_cnt + 1)).take 14
        = [48 + (n + 1) / 1000, 48 + (n + 1) / 100 % 10, 48 + (n + 1) / 10 % 10,
            48 + (n + 1) % 10] := by
      have : c.ws_ping_cnt + 1 = ((n + 1 : Nat) : Int) := by rw [hn]; push_cast; rfl
      rw [this, fmt04d_small (n + 1) (by omega)]
      rfl
    have hs := sendPing_acked e c hconn heq
    rw [hw, hfmt] at hs
    have hpong : (sendPing e c).2.ws_pong_cnt = c.ws_pong_cnt := by
      rw [hs]
      rcases send_cases e { c with ws_ping_cnt := c.ws_ping_cnt + 1 }
        ([48 + (n + 1) / 1000, 48 + (n + 1) / 100 % 10, 48 + (n + 1) / 10 % 10,
          48 + (n + 1) % 10] ++ [0]) 4 WS_FR_OP_PING with h | h
      · show (send _ _ _ _ _).2.ws_pong_cnt = _
        rw [h]
      · show (send _ _ _ _ _).2.ws_pong_cnt = _
        rw [h]
    have hping : (sendPing e c).2.ws_ping_cnt = c.ws_ping_cnt + 1 := by
      rw [hs]
      rcases send_cases e { c with ws_ping_cnt := c.ws_ping_cnt + 1 }
        ([48 + (n + 1) / 1000, 48 + (n + 1) / 100 % 10, 48 + (n + 1) / 10 % 10,
          48 + (n + 1) % 10] ++ [0]) 4 WS_FR_OP_PING with h | h
      · show (send _ _ _ _ _).2.ws_ping_cnt = _
        rw [h]
      · show (send _ _ _ _ _).2.ws_ping_cnt = _
        rw [h]
    refine ⟨by rw [hs], hping, hpong, by rw [hs], ?_⟩
    intro hpoll hmem hlock
    constructor
    · rw [hs]
      show (send _ _ _ _ _).2.trace = _
      rw [send_ok e _ _ 4 WS_FR_OP_PING hpoll
        (by rw [u32_of_lt (by norm_num : 4 < 2 ^ 32)]; exact hmem) hlock, ping_frame,
        u32_of_lt (by norm_num : 4 < 2 ^ 32)]
      have h10 : idxResponse 4 = 10 := by decide
      rw [h10]
      simp [genMasks]
    · intro i hi
      have hi32 : u32 (0 + i) = i := by rw [Nat.zero_add]; exact u32_of_lt (by omega)
      rw [maskLoop_getD _ _ _ _ _ hi, hi32]
      have hb : ∀ b ∈ ([48 + (n + 1) / 1000, 48 + (n + 1) / 100 % 10,
          48 + (n + 1) / 10 % 10, 48 + (n + 1) % 10] : List Nat), b < 256 := by
        intro b hb
        simp only [List.mem_cons, List.mem_singleton, List.not_mem_nil, or_false] at hb
        omega
      rw [← rd_of_bytes hb (by simpa using hi)]
      exact unmask_byte _ _ (genMasks_getD_lt e _)
  · intro hne
    unfold sendPing
    rw [if_pos hconn, if_pos hne]

/-- C11, instance of `sendPing_contract`: the first ping after a connect carries `0001`. -/
theorem sendPing_contract_witness :
    (sendPing (okEnv 1 2 3 4 10) (mkClient 16 true [])).1 = 1
      ∧ (sendPing (okEnv 1 2 3 4 10) (mkClient 16 true [])).2.ws_ping_cnt = 1
      ∧ (sendPing (okEnv 1 2 3 4 10) (mkClient 16 true [])).2.trace
          = [Event.write [137, 132, 1, 2, 3, 4, 49, 50, 51, 53] 10] :=
  ⟨((sendPing_contract (okEnv 1 2 3 4 10) (mkClient 16 true []) 0 rfl).1 rfl rfl
      (by norm_num)).1,
   ((sendPing_contract (okEnv 1 2 3 4 10) (mkClient 16 true []) 0 rfl).1 rfl rfl
      (by norm_num)).2.1,
   ((((sendPing_contract (okEnv 1 2 3 4 10) (mkClient 16 true []) 0 rfl).1 rfl rfl
      (by norm_num)).2.2.2.2 (by decide) (by decide) rfl).1).trans (by decide)⟩

/-- C11, counterexample: when the transport is not writable, `sendPing` increments the
counter and returns 1 although no frame is sent; and with both counters at 9999 the
frame sent carries the four bytes `1000`, not the new counter 10000. -/
theorem sendPing_without_frame :
    ((sendPing { okEnv 1 2 3 4 10 with poll_write := 0 } (mkClient 16 true [])).1 = 1
      ∧ (sendPing { okEnv 1 2 3 4 10 with poll_write := 0 }
          (mkClient 16 true [])).2.ws_ping_cnt = 1
      ∧ (sendPing { okEnv 1 2 3 4 10 with poll_write := 0 }
          (mkClient 16 true [])).2.trace = [])
    ∧ ((sendPing (okEnv 0 0 0 0 10)
          { mkClient 16 true [] with ws_ping_cnt := 9999, ws_pong_cnt := 9999 }).2.ws_ping_cnt
        = 10000
      ∧ (sendPing (okEnv 0 0 0 0 10)
          { mkClient 16 true [] with ws_ping_cnt := 9999, ws_pong_cnt := 9999 }).2.trace
        = [Event.write [137, 132, 0, 0, 0, 0, 49, 48, 48, 48] 10]) := by
  decide

/-! ## C12: keepalive rounds -/

theorem lastWrite_append_write (tr : List Event) (F : List Nat) (len : Int) :
    lastWrite (tr ++ [Event.write F len]) = F := by
  unfold lastWrite
  rw [writeEvents_append]
  simp [writeEvents]

/-- An echoing server answers the PING built by `send` with the PONG of the same payload. -/
theorem pongEcho_ping (p masks : List Nat) (hp : p.length = 4)
    (hm : ∀ j, masks.getD j 0 < 256) (hb : ∀ b ∈ p, b < 256) :
    pongEcho (sendFrame p 4 WS_FR_OP_PING masks) = serverFrame 1 10 false p := by
  have h := unmaskFrame_sendFrame p WS_FR_OP_PING masks (by omega) (by decide) hm hb
  rw [hp] at h
  unfold pongEcho
  rw [h]
  simp [serverFrame, WS_FR_OP_PING]

/-- `feedWsFrame` on a complete PONG frame of four ASCII digits. -/
theorem feed_pong_digits (e : SendEnv) (c : WebSocketClient) (fin : Nat) (wide : Bool)
    (rest : List Nat) (d0 d1 d2 d3 : Nat) (hfs : c.ws_frame_size = 0)
    (hbuf : c.rx_buf = serverFrame fin 10 wide [48 + d0, 48 + d1, 48 + d2, 48 + d3] ++ rest)
    (hfin : fin ≤ 1)
    (hle : ((serverFrame fin 10 wide [48 + d0, 48 + d1, 48 + d2, 48 + d3]).length : Int)
      ≤ c.line_end)
    (l0 : d0 ≤ 9) (l1 : d1 ≤ 9) (l2 : d2 ≤ 9) (l3 : d3 ≤ 9) :
    feedWsFrame e c =
      if c.ws_ping_cnt ≠ ((1000 * d0 + 100 * d1 + 10 * d2 + d3 : Nat) : Int) then
        (-1, { headerParsed c fin 10 wide 4 with
                ws_msg := serverHeaderSize wide,
                ws_pong_cnt := ((1000 * d0 + 100 * d1 + 10 * d2 + d3 : Nat) : Int) })
      else
        (4, dropFrame { headerParsed c fin 10 wide 4 with
                ws_msg := serverHeaderSize wide,
                ws_pong_cnt := ((1000 * d0 + 100 * d1 + 10 * d2 + d3 : Nat) : Int) }) := by
  have hp4 : ([48 + d0, 48 + d1, 48 + d2, 48 + d3] : List Nat).length = 4 := rfl
  have hn : ([48 + d0, 48 + d1, 48 + d2, 48 + d3] : List Nat).length
      ≤ if wide = true then 65535 else 125 := by
    rw [hp4]; split_ifs <;> norm_num
  have hlen := serverFrame_length fin 10 wide [48 + d0, 48 + d1, 48 + d2, 48 + d3]
  have hle2 : ((serverHeaderSize wide + 4 : Nat) : Int) ≤ c.line_end := by
    rw [hlen, hp4] at hle; exact hle
  have hfeed := (feedWsFrame_header e c fin 10 wide _ rest hfs hbuf hfin (by norm_num) hn
    hle).trans (feedBody_complete e c fin 10 wide _ (by rw [hp4]; exact hle2))
  rw [hp4] at hfeed
  have hb : ∀ b ∈ ([48 + d0, 48 + d1, 48 + d2, 48 + d3] : List Nat), b < 256 := by
    intro b hb
    simp only [List.mem_cons, List.mem_singleton, List.not_mem_nil, or_false] at hb
    omega
  have hrd : ∀ i d, i < 4 → ([48 + d0, 48 + d1, 48 + d2, 48 + d3] : List Nat).getD i 0 = 48 + d →
      rd c.rx_buf (serverHeaderSize wide + i) = 48 + d := by
    intro i d hi hpi
    rw [hbuf, rd_serverFrame _ _ _ _ _ _ (by rw [hp4]; exact hi),
      rd_of_bytes hb (by rw [hp4]; exact hi), hpi]
  have hdec : ws_decode_pong c.rx_buf (serverHeaderSize wide)
      = some ((1000 * d0 + 100 * d1 + 10 * d2 + d3 : Nat) : Int) :=
    ws_decode_pong_digits c.rx_buf (serverHeaderSize wide) d0 d1 d2 d3
      (by simpa using hrd 0 d0 (by norm_num) rfl)
      (hrd 1 d1 (by norm_num) rfl) (hrd 2 d2 (by norm_num) rfl) (hrd 3 d3 (by norm_num) rfl)
      l0 l1 l2 l3
  have hon := onWsFrame_pong_some e
    { headerParsed c fin 10 wide 4 with ws_msg := serverHeaderSize wide } _ rfl
    (by show (serverHeaderSize wide : Int) + ((4 : Nat) : Int) - (serverHeaderSize wide : Int) = 4
        push_cast; omega)
    hdec
  rw [hfeed, hon]
  by_cases hv : c.ws_ping_cnt ≠ ((1000 * d0 + 100 * d1 + 10 * d2 + d3 : Nat) : Int)
  · rw [if_pos hv]
    have hv' : (headerParsed c fin 10 wide 4).ws_ping_cnt
        ≠ ((1000 * d0 + 100 * d1 + 10 * d2 + d3 : Nat) : Int) := hv
    dsimp only
    rw [if_pos hv', if_pos rfl]
  · rw [if_neg hv]
    have hv' : ¬ (headerParsed c fin 10 wide 4).ws_ping_cnt
        ≠ ((1000 * d0 + 100 * d1 + 10 * d2 + d3 : Nat) : Int) := hv
    dsimp only
    rw [if_neg hv', if_neg (by norm_num)]
    rfl

/-- The receive step on an empty buffer: the data is stored at the start and decoded. -/
theorem recvStep_fresh (es : Nat → SendEnv) (c : WebSocketClient) (data : List Nat)
    (h0 : c.line_end = 0) (hlen : data.length ≤ 1024) (hpos : 0 < data.length) :
    recvStep es c data =
      if (decodeLoop data.length es
            { c with rx_buf := data ++ c.rx_buf.drop data.length,
                     line_end := (data.length : Int) }).1 < 0 then
        removeSocket (decodeLoop data.length es
            { c with rx_buf := data ++ c.rx_buf.drop data.length,
                     line_end := (data.length : Int) }).2
      else (decodeLoop data.length es
            { c with rx_buf := data ++ c.rx_buf.drop data.length,
                     line_end := (data.length : Int) }).2 := by
  have htake : data.take (MAX_MEMORY_BUFF - c.line_end).toNat = data := by
    rw [h0]
    exact List.take_of_length_le (by simpa [MAX_MEMORY_BUFF] using hlen)
  unfold recvStep directRecv
  simp only [htake]
  have hnp : ¬ ((data.length : Int) ≤ 0) := by omega
  rw [if_neg hnp]
  simp only [h0, Int.toNat_zero, List.take_zero, List.nil_append, Nat.zero_add, Int.zero_add,
    Int.toNat_ofNat]

/-- Reading the PONG of four digits on an empty buffer: the counter is stored and the
client stays as it is when the value is the ping counter, and is disconnected otherwise. -/
theorem recv_pong (e : SendEnv) (c : WebSocketClient) (d0 d1 d2 d3 : Nat)
    (h0 : c.line_end = 0) (hfs : c.ws_frame_size = 0)
    (l0 : d0 ≤ 9) (l1 : d1 ≤ 9) (l2 : d2 ≤ 9) (l3 : d3 ≤ 9) :
    (c.ws_ping_cnt = ((1000 * d0 + 100 * d1 + 10 * d2 + d3 : Nat) : Int) →
      (recvStep (fun _ => e) c
          (serverFrame 1 10 false [48 + d0, 48 + d1, 48 + d2, 48 + d3])).m_connected
        = c.m_connected
      ∧ (recvStep (fun _ => e) c
          (serverFrame 1 10 false [48 + d0, 48 + d1, 48 + d2, 48 + d3])).ws_ping_cnt
        = c.ws_ping_cnt
      ∧ (recvStep (fun _ => e) c
          (serverFrame 1 10 false [48 + d0, 48 + d1, 48 + d2, 48 + d3])).ws_pong_cnt
        = c.ws_ping_cnt
      ∧ (recvStep (fun _ => e) c
          (serverFrame 1 10 false [48 + d0, 48 + d1, 48 + d2, 48 + d3])).line_end = 0
      ∧ (recvStep (fun _ => e) c
          (serverFrame 1 10 false [48 + d0, 48 + d1, 48 + d2, 48 + d3])).ws_frame_size = 0)
    ∧ (c.ws_ping_cnt ≠ ((1000 * d0 + 100 * d1 + 10 * d2 + d3 : Nat) : Int) →
      (recvStep (fun _ => e) c
          (serverFrame 1 10 false [48 + d0, 48 + d1, 48 + d2, 48 + d3])).m_connected
        = false) := by
  have hlen : (serverFrame 1 10 false [48 + d0, 48 + d1, 48 + d2, 48 + d3]).length = 6 := rfl
  have hstep := recvStep_fresh (fun _ => e) c
    (serverFrame 1 10 false [48 + d0, 48 + d1, 48 + d2, 48 + d3]) h0
    (by rw [hlen]; norm_num) (by rw [hlen]; norm_num)
  rw [hlen] at hstep
  have hfeed := feed_pong_digits e
    { c with rx_buf := serverFrame 1 10 false [48 + d0, 48 + d1, 48 + d2, 48 + d3]
                        ++ c.rx_buf.drop 6,
             line_end := ((6 : Nat) : Int) }
    1 false (c.rx_buf.drop 6) d0 d1 d2 d3 hfs rfl (by norm_num)
    (by rw [hlen]) l0 l1 l2 l3
  constructor
  · intro hv
    have hv' : ¬ (c.ws_ping_cnt
        ≠ ((1000 * d0 + 100 * d1 + 10 * d2 + d3 : Nat) : Int)) := not_not.mpr hv
    replace hfeed := hfeed.trans (if_neg hv')
    have hloop : decodeLoop 6 (fun _ => e)
        { c with rx_buf := serverFrame 1 10 false [48 + d0, 48 + d1, 48 + d2, 48 + d3]
                        ++ c.rx_buf.drop 6,
                 line_end := ((6 : Nat) : Int) }
        = (0,
        { c with rx_buf := serverFrame 1 10 false [48 + d0, 48 + d1, 48 + d2, 48 + d3]
                        ++ c.rx_buf.drop 6,
                 line_end := 0, ws_header_size := 2, ws_is_fin := 1, ws_frame_type := 10,
                 ws_is_mask := 0, ws_frame_size := 0, ws_msg := 2,
                 ws_pong_cnt := ((1000 * d0 + 100 * d1 + 10 * d2 + d3 : Nat) : Int) }) := by
      rw [show (6 : Nat) = 5 + 1 from rfl, decodeLoop]
      simp only [hfeed]
      rw [if_pos (by norm_num)]
      rw [show (5 : Nat) = 4 + 1 from rfl, decodeLoop]
      simp [dropFrame, headerParsed, serverHeaderSize, feedWsFrame]
    rw [hstep, hloop]
    rw [if_neg (by norm_num)]
    exact ⟨rfl, rfl, hv.symm, rfl, rfl⟩
  · intro hv
    replace hfeed := hfeed.trans (if_pos hv)
    have hloop : (decodeLoop 6 (fun _ => e)
        { c with rx_buf := serverFrame 1 10 false [48 + d0, 48 + d1, 48 + d2, 48 + d3]
                        ++ c.rx_buf.drop 6,
                 line_end := ((6 : Nat) : Int) }).1 = -1 := by
      rw [show (6 : Nat) = 5 + 1 from rfl, decodeLoop]
      simp only [hfeed]
      rw [if_neg (by norm_num)]
    rw [hstep, if_pos (by rw [hloop]; norm_num)]
    rfl

/-- One keepalive round of a connected client whose previous ping was acknowledged, with
the gates of `send` open: the round reads the PONG that echoes the four bytes sent. -/
theorem keepaliveRound_echo (e : SendEnv) (c : WebSocketClient) (d0 d1 d2 d3 : Nat)
    (rest : List Nat)
    (hconn : c.m_connected = true) (heq : c.ws_ping_cnt = c.ws_pong_cnt)
    (hpoll : 0 < e.poll_write) (hmal : e.malloc_ok = true) (hlock : e.lock_ok = true)
    (hb : (fmt04d (wrapInt (c.ws_ping_cnt + 1))).take 14 ++ [0]
      = [48 + d0, 48 + d1, 48 + d2, 48 + d3] ++ rest)
    (l0 : d0 ≤ 9) (l1 : d1 ≤ 9) (l2 : d2 ≤ 9) (l3 : d3 ≤ 9) :
    keepaliveRound e c =
      recvStep (fun _ => e)
        { c with ws_ping_cnt := wrapInt (c.ws_ping_cnt + 1),
                 trace := c.trace ++
                   [Event.write (sendFrame [48 + d0, 48 + d1, 48 + d2, 48 + d3] 4
                      WS_FR_OP_PING (genMasks e)) (idxResponse (u32 4))] }
        (serverFrame 1 10 false [48 + d0, 48 + d1, 48 + d2, 48 + d3]) := by
  have hsend := send_ok e { c with ws_ping_cnt := wrapInt (c.ws_ping_cnt + 1) }
    ((fmt04d (wrapInt (c.ws_ping_cnt + 1))).take 14 ++ [0]) 4 WS_FR_OP_PING hpoll
    (fun _ => hmal) hlock
  have hpre := sendFrame_prefix [48 + d0, 48 + d1, 48 + d2, 48 + d3] rest WS_FR_OP_PING
    (genMasks e) (by norm_num)
  have hl4 : ([48 + d0, 48 + d1, 48 + d2, 48 + d3] : List Nat).length = 4 := rfl
  rw [hl4] at hpre
  have hpt : pingTime e c =
      { c with ws_ping_cnt := wrapInt (c.ws_ping_cnt + 1),
               trace := c.trace ++
                 [Event.write (sendFrame [48 + d0, 48 + d1, 48 + d2, 48 + d3] 4
                    WS_FR_OP_PING (genMasks e)) (idxResponse (u32 4))] } := by
    unfold pingTime
    rw [sendPing_acked e c hconn heq, hsend, hb, hpre]
    rw [if_neg (by norm_num)]
  have hecho := pongEcho_ping [48 + d0, 48 + d1, 48 + d2, 48 + d3] (genMasks e) rfl
    (genMasks_getD_lt e)
    (by
      intro b hbm
      simp only [List.mem_cons, List.mem_singleton, List.not_mem_nil, or_false] at hbm
      omega)
  unfold keepaliveRound
  rw [hpt]
  simp only [hconn, if_true]
  rw [lastWrite_append_write, hecho]

/-- A keepalive round from equal counters `k` with `k + 1 < 10000` keeps the client
connected and moves both counters to `k + 1`. -/
theorem keepaliveRound_ok (e : SendEnv) (c : WebSocketClient) (k : Nat)
    (hpoll : 0 < e.poll_write) (hmal : e.malloc_ok = true) (hlock : e.lock_ok = true)
    (hk : k + 1 < 10000)
    (hinv : c.m_connected = true ∧ c.ws_ping_cnt = (k : Int) ∧ c.ws_pong_cnt = (k : Int)
      ∧ c.line_end = 0 ∧ c.ws_frame_size = 0) :
    (keepaliveRound e c).m_connected = true
      ∧ (keepaliveRound e c).ws_ping_cnt = ((k + 1 : Nat) : Int)
      ∧ (keepaliveRound e c).ws_pong_cnt = ((k + 1 : Nat) : Int)
      ∧ (keepaliveRound e c).line_end = 0 ∧ (keepaliveRound e c).ws_frame_size = 0 := by
  obtain ⟨hconn, hping, hpong, hle, hfs⟩ := hinv
  have hw : wrapInt (c.ws_ping_cnt + 1) = ((k + 1 : Nat) : Int) := by
    rw [hping, wrapInt_of_range (by omega) (by omega)]
    push_cast
    rfl
  have hfmt := fmt04d_small (k + 1) hk
  have hb : (fmt04d (wrapInt (c.ws_ping_cnt + 1))).take 14 ++ [0]
      = [48 + (k + 1) / 1000, 48 + (k + 1) / 100 % 10, 48 + (k + 1) / 10 % 10,
          48 + (k + 1) % 10] ++ [0] := by
    rw [hw, hfmt]
    rfl
  have hr := keepaliveRound_echo e c _ _ _ _ [0] hconn (by rw [hping, hpong]) hpoll hmal hlock
    hb (by omega) (by omega) (by omega) (by omega)
  have hp := (recv_pong e
    { c with ws_ping_cnt := wrapInt (c.ws_ping_cnt + 1),
             trace := c.trace ++
               [Event.write (sendFrame [48 + (k + 1) / 1000, 48 + (k + 1) / 100 % 10,
                  48 + (k + 1) / 10 % 10, 48 + (k + 1) % 10] 4
                  WS_FR_OP_PING (genMasks e)) (idxResponse (u32 4))] }
    ((k + 1) / 1000) ((k + 1) / 100 % 10) ((k + 1) / 10 % 10) ((k + 1) % 10)
    hle hfs (by omega) (by omega) (by omega) (by omega)).1
    (by
      show wrapInt (c.ws_ping_cnt + 1) = _
      rw [hw]
      congr 1
      omega)
  rw [← hr] at hp
  obtain ⟨p1, p2, p3, p4, p5⟩ := hp
  refine ⟨p1.trans hconn, p2.trans hw, p3.trans hw, p4, p5⟩

/-- A keepalive round from equal counters 9999 disconnects the client: the ping
numbered 10000 goes out as the four bytes `1000`, and the echoed PONG decodes to 1000. -/
theorem keepaliveRound_fail (e : SendEnv) (c : WebSocketClient)
    (hpoll : 0 < e.poll_write) (hmal : e.malloc_ok = true) (hlock : e.lock_ok = true)
    (hinv : c.m_connected = true ∧ c.ws_ping_cnt = 9999 ∧ c.ws_pong_cnt = 9999
      ∧ c.line_end = 0 ∧ c.ws_frame_size = 0) :
    (keepaliveRound e c).m_connected = false := by
  obtain ⟨hconn, hping, hpong, hle, hfs⟩ := hinv
  have hw : wrapInt (c.ws_ping_cnt + 1) = 10000 := by
    rw [hping]
    decide
  have hb : (fmt04d (wrapInt (c.ws_ping_cnt + 1))).take 14 ++ [0]
      = [48 + 1, 48 + 0, 48 + 0, 48 + 0] ++ [48, 0] := by
    rw [hw]
    decide
  have hr := keepaliveRound_echo e c 1 0 0 0 [48, 0] hconn (by rw [hping, hpong]) hpoll hmal
    hlock hb (by omega) (by omega) (by omega) (by omega)
  have hp := (recv_pong e
    { c with ws_ping_cnt := wrapInt (c.ws_ping_cnt + 1),
             trace := c.trace ++
               [Event.write (sendFrame [48 + 1, 48 + 0, 48 + 0, 48 + 0] 4
                  WS_FR_OP_PING (genMasks e)) (idxResponse (u32 4))] }
    1 0 0 0 hle hfs (by omega) (by omega) (by omega) (by omega)).2
    (by
      show wrapInt (c.ws_ping_cnt + 1) ≠ _
      rw [hw]
      norm_num)
  rw [← hr] at hp
  exact hp

/-- Running `k ≤ 9999` keepalive rounds from equal counters `j` with `j + k ≤ 9999`. -/
theorem keepalive_ok (e : SendEnv)
    (hpoll : 0 < e.poll_write) (hmal : e.malloc_ok = true) (hlock : e.lock_ok = true) :
    ∀ (k j : Nat) (c : WebSocketClient), j + k ≤ 9999 →
      (c.m_connected = true ∧ c.ws_ping_cnt = (j : Int) ∧ c.ws_pong_cnt = (j : Int)
        ∧ c.line_end = 0 ∧ c.ws_frame_size = 0) →
      ((keepalive e k c).m_connected = true
        ∧ (keepalive e k c).ws_ping_cnt = ((j + k : Nat) : Int)
        ∧ (keepalive e k c).ws_pong_cnt = ((j + k : Nat) : Int)
        ∧ (keepalive e k c).line_end = 0 ∧ (keepalive e k c).ws_frame_size = 0) := by
  intro k
  induction k with
  | zero =>
    intro j c _ hinv
    simpa [keepalive] using hinv
  | succ k ih =>
    intro j c hj hinv
    have hstep := keepaliveRound_ok e c j hpoll hmal hlock (by omega) hinv
    have h := ih (j + 1) (keepaliveRound e c) (by omega) hstep
    have hk : keepalive e (k + 1) c = keepalive e k (keepaliveRound e c) := by
      rw [keepalive, if_pos hinv.1]
    rw [hk]
    have hjk : j + 1 + k = j + (k + 1) := by omega
    rw [hjk] at h
    exact h

/-- Composition of keepalive rounds. -/
theorem keepalive_add (e : SendEnv) : ∀ (a b : Nat) (c : WebSocketClient),
    keepalive e (a + b) c = keepalive e b (keepalive e a c) := by
  intro a
  induction a with
  | zero =>
    intro b c
    simp [keepalive]
  | succ a ih =>
    intro b c
    rw [show a + 1 + b = (a + b) + 1 by omega, keepalive, keepalive]
    by_cases hc : c.m_connected = true
    · rw [if_pos hc, if_pos hc, ih]
    · rw [if_neg hc, if_neg hc]
      cases b with
      | zero => rfl
      | succ b => rw [keepalive, if_neg hc]

/-- C12 (code defect): with an echoing server and nothing else going wrong, the client
built by `mkClient` survives 9999 keepalive rounds and is disconnected by round 10000:
`sendPing` formats the counter 10000 with `%04d` but sends four bytes, so the ping carries
`1000`, the echoed PONG decodes to 1000, and the counters differ. -/
theorem keepalive_wraps_at_10000 :
    (keepalive (okEnv 1 2 3 4 10) 9999 (mkClient 16 true [])).m_connected = true
    ∧ (keepalive (okEnv 1 2 3 4 10) 9999 (mkClient 16 true [])).ws_ping_cnt = 9999
    ∧ (keepalive (okEnv 1 2 3 4 10) 9999 (mkClient 16 true [])).ws_pong_cnt = 9999
    ∧ (keepalive (okEnv 1 2 3 4 10) 10000 (mkClient 16 true [])).m_connected = false := by
  have h := keepalive_ok (okEnv 1 2 3 4 10) (by decide) rfl rfl 9999 0
    (mkClient 16 true []) (by norm_num)
    ⟨rfl, rfl, rfl, rfl, rfl⟩
  obtain ⟨h1, h2, h3, h4, h5⟩ := h
  refine ⟨h1, h2, h3, ?_⟩
  rw [show (10000 : Nat) = 9999 + 1 from rfl, keepalive_add]
  rw [show (1 : Nat) = 0 + 1 from rfl, keepalive, if_pos h1, keepalive]
  exact keepaliveRound_fail _ _ (by decide) rfl rfl ⟨h1, h2, h3, h4, h5⟩

/-! ## C13: URL parsing -/

theorem rd_at (pre : List Nat) (a : Nat) (rest : List Nat) :
    rd (pre ++ a :: rest) pre.length = a % 256 := by
  have h := rd_append_right pre (a :: rest) 0
  rw [Nat.add_zero] at h
  rw [h]
  rfl

theorem set_at (pre : List Nat) (a b : Nat) (rest : List Nat) :
    (pre ++ a :: rest).set pre.length b = pre ++ b :: rest := by
  induction pre with
  | nil => rfl
  | cons p pre ih => simp [List.set, ih]

/-- The loop of `parseURL` walks over characters other than NUL, `:` and `/`. -/
theorem parseLoop_scan : ∀ (seg pre rest : List Nat) (fuel : Nat) (port : Option Nat),
    (∀ b ∈ seg, b % 256 ≠ 0 ∧ b % 256 ≠ 58 ∧ b % 256 ≠ 47) → seg.length ≤ fuel →
    parseLoop fuel (pre ++ seg ++ rest) pre.length port
      = parseLoop (fuel - seg.length) (pre ++ seg ++ rest) (pre.length + seg.length) port := by
  intro seg
  induction seg with
  | nil =>
    intro pre rest fuel port _ _
    simp
  | cons a seg ih =>
    intro pre rest fuel port hseg hfuel
    obtain ⟨f, rfl⟩ : ∃ f, fuel = f + 1 := ⟨fuel - 1, by simp at hfuel; omega⟩
    have ha := hseg a (List.mem_cons_self _ _)
    have hrd : rd (pre ++ a :: seg ++ rest) pre.length = a % 256 := by
      rw [List.append_assoc, List.cons_append]
      exact rd_at pre a (seg ++ rest)
    rw [parseLoop, hrd, if_neg ha.1, if_neg ha.2.1, if_neg ha.2.2]
    have hre : pre ++ a :: seg ++ rest = (pre ++ [a]) ++ seg ++ rest := by simp
    have hl : pre.length + 1 = (pre ++ [a]).length := by simp
    rw [hre, hl, ih (pre ++ [a]) rest f port
      (fun b hb => hseg b (List.mem_cons_of_mem _ hb)) (by simp at hfuel; omega)]
    congr 1
    · simp
    · simp
      omega

theorem parseLoop_nul (pre rest : List Nat) (fuel : Nat) (port : Option Nat) :
    parseLoop fuel (pre ++ 0 :: rest) pre.length port = (pre ++ 0 :: rest, port, none) := by
  cases fuel with
  | zero => rfl
  | succ f => rw [parseLoop, rd_at, if_pos (by norm_num)]

theorem parseLoop_colon (pre rest : List Nat) (fuel : Nat) (port : Option Nat) :
    parseLoop (fuel + 1) (pre ++ 58 :: rest) pre.length port
      = parseLoop fuel (pre ++ 0 :: rest) (pre.length + 1) (some (pre.length + 1)) := by
  rw [parseLoop, rd_at, if_neg (by norm_num), if_pos (by norm_num), set_at]

theorem parseLoop_slash (pre rest : List Nat) (fuel : Nat) (port : Option Nat) :
    parseLoop (fuel + 1) (pre ++ 47 :: rest) pre.length port
      = (pre ++ 0 :: rest, port, some (pre.length + 1)) := by
  rw [parseLoop, rd_at, if_neg (by norm_num), if_neg (by norm_num), if_pos (by norm_num),
    set_at]

/-- The C string at the start of a segment without NUL that a NUL follows. -/
theorem cstr_at (pre seg rest : List Nat) (n : Nat) (hn : n = pre.length)
    (hseg : ∀ b ∈ seg, b % 256 ≠ 0) :
    cstr (pre ++ seg ++ 0 :: rest) n = seg := by
  subst hn
  unfold cstr
  rw [List.append_assoc, List.drop_left]
  induction seg with
  | nil => simp [List.takeWhile]
  | cons a seg ih =>
    have ha := hseg a (List.mem_cons_self _ _)
    rw [List.cons_append, List.takeWhile_cons]
    simp only [ne_eq, ha, not_false_eq_true, decide_True, if_true]
    rw [ih (fun b hb => hseg b (List.mem_cons_of_mem _ hb))]

/-- The decimal value of a string of digits. -/
theorem atoi_foldl_nonneg : ∀ (ds : List Nat) (a : Int), 0 ≤ a →
    (∀ d ∈ ds, 48 ≤ d ∧ d ≤ 57) →
    0 ≤ ds.foldl (fun (a : Int) (ch : Nat) => a * 10 + ((ch : Int) - 48)) a := by
  intro ds
  induction ds with
  | nil => intro a ha _; simpa using ha
  | cons d ds ih =>
    intro a ha hd
    have h := hd d (List.mem_cons_self _ _)
    rw [List.foldl_cons]
    exact ih _ (by omega) (fun x hx => hd x (List.mem_cons_of_mem _ hx))

/-- `atoi` on a string of decimal digits whose value fits an `int`. -/
theorem atoi_digits (ds : List Nat) (hd : ∀ d ∈ ds, 48 ≤ d ∧ d ≤ 57)
    (hv : ds.foldl (fun (a : Int) (ch : Nat) => a * 10 + ((ch : Int) - 48)) (0 : Int) < 2 ^ 31) :
    atoi ds = ds.foldl (fun (a : Int) (ch : Nat) => a * 10 + ((ch : Int) - 48)) (0 : Int) := by
  have hdw : ds.dropWhile (fun ch => ch = 32 ∨ (9 ≤ ch ∧ ch ≤ 13)) = ds := by
    cases ds with
    | nil => rfl
    | cons d ds =>
      have h := hd d (List.mem_cons_self _ _)
      rw [List.dropWhile_cons]
      have : ¬ (d = 32 ∨ (9 ≤ d ∧ d ≤ 13)) := by omega
      simp [this]
  have hh : ¬ (ds.head? = some 45 ∨ ds.head? = some 43) := by
    cases ds with
    | nil => simp
    | cons d ds =>
      have h := hd d (List.mem_cons_self _ _)
      simp only [List.head?_cons, Option.some.injEq]
      omega
  have hh2 : ¬ (ds.head? = some 45) := fun h => hh (Or.inl h)
  have htw : ds.takeWhile (fun ch => 48 ≤ ch ∧ ch ≤ 57) = ds := by
    rw [List.takeWhile_eq_self_iff]
    intro d hdm
    simpa using hd d hdm
  unfold atoi
  simp only [hdw, if_neg hh, if_neg hh2, htw]
  exact wrapInt_of_range (by
    have := atoi_foldl_nonneg ds 0 (le_refl _) hd
    omega) hv

theorem parseLoop_scan_nul (seg pre rest : List Nat) (fuel n : Nat) (port : Option Nat)
    (hn : n = pre.length)
    (hseg : ∀ b ∈ seg, b % 256 ≠ 0 ∧ b % 256 ≠ 58 ∧ b % 256 ≠ 47) (hfuel : seg.length ≤ fuel) :
    parseLoop fuel (pre ++ seg ++ 0 :: rest) n port = (pre ++ seg ++ 0 :: rest, port, none) := by
  subst hn
  rw [parseLoop_scan seg pre (0 :: rest) fuel port hseg hfuel, ← List.length_append,
    parseLoop_nul]

theorem parseLoop_scan_slash (seg pre rest : List Nat) (fuel n : Nat) (port : Option Nat)
    (hn : n = pre.length)
    (hseg : ∀ b ∈ seg, b % 256 ≠ 0 ∧ b % 256 ≠ 58 ∧ b % 256 ≠ 47) (hfuel : seg.length < fuel) :
    parseLoop fuel (pre ++ seg ++ 47 :: rest) n port
      = (pre ++ seg ++ 0 :: rest, port, some (pre.length + seg.length + 1)) := by
  subst hn
  rw [parseLoop_scan seg pre (47 :: rest) fuel port hseg (by omega), ← List.length_append]
  obtain ⟨f, hf⟩ : ∃ f, fuel - seg.length = f + 1 := ⟨fuel - seg.length - 1, by omega⟩
  rw [hf, parseLoop_slash]

theorem parseLoop_scan_colon (seg pre rest : List Nat) (fuel n : Nat) (port : Option Nat)
    (hn : n = pre.length)
    (hseg : ∀ b ∈ seg, b % 256 ≠ 0 ∧ b % 256 ≠ 58 ∧ b % 256 ≠ 47) (hfuel : seg.length < fuel) :
    parseLoop fuel (pre ++ seg ++ 58 :: rest) n port
      = parseLoop (fuel - seg.length - 1) (pre ++ seg ++ 0 :: rest)
          (pre.length + seg.length + 1) (some (pre.length + seg.length + 1)) := by
  subst hn
  rw [parseLoop_scan seg pre (58 :: rest) fuel port hseg (by omega), ← List.length_append]
  obtain ⟨f, hf⟩ : ∃ f, fuel - seg.length = f + 1 := ⟨fuel - seg.length - 1, by omega⟩
  rw [hf, parseLoop_colon]
  congr 1

theorem digits_scan {ds : List Nat} (hd : ∀ d ∈ ds, 48 ≤ d ∧ d ≤ 57) :
    ∀ b ∈ ds, b % 256 ≠ 0 ∧ b % 256 ≠ 58 ∧ b % 256 ≠ 47 := by
  intro b hb
  have := hd b hb
  omega

theorem digits_nonzero {ds : List Nat} (hd : ∀ d ∈ ds, 48 ≤ d ∧ d ≤ 57) :
    ∀ b ∈ ds, b % 256 ≠ 0 := fun b hb => (digits_scan hd b hb).1

/-- The loop of `parseURL` on the text `host [: port] [/ path]` that follows a prefix:
the host, the port and the path that `parseURL` reads off its result. -/
theorem parseLoop_url (pre host : List Nat) (port path : Option (List Nat)) (dflt : Int)
    (hhost : ∀ b ∈ host, b % 256 ≠ 0 ∧ b % 256 ≠ 58 ∧ b % 256 ≠ 47)
    (hport : ∀ ds, port = some ds → (∀ d ∈ ds, 48 ≤ d ∧ d ≤ 57) ∧ decimal ds < 2 ^ 31)
    (hpath : ∀ p, path = some p → ∀ b ∈ p, b % 256 ≠ 0) :
    cstr (parseLoop (urlText pre host port path ++ [0]).length
            (urlText pre host port path ++ [0]) pre.length none).1 pre.length = host
    ∧ (match (parseLoop (urlText pre host port path ++ [0]).length
            (urlText pre host port path ++ [0]) pre.length none).2.1 with
        | some p => atoi (cstr (parseLoop (urlText pre host port path ++ [0]).length
            (urlText pre host port path ++ [0]) pre.length none).1 p)
        | none => dflt)
      = (port.map decimal).getD dflt
    ∧ (match (parseLoop (urlText pre host port path ++ [0]).length
            (urlText pre host port path ++ [0]) pre.length none).2.2 with
        | some p => cstr (parseLoop (urlText pre host port path ++ [0]).length
            (urlText pre host port path ++ [0]) pre.length none).1 p
        | none => [])
      = path.getD [] := by
  have hh0 : ∀ b ∈ host, b % 256 ≠ 0 := fun b hb => (hhost b hb).1
  cases port with
  | none =>
    cases path with
    | none =>
      have e : urlText pre host none none ++ [0] = pre ++ host ++ 0 :: [] := by
        simp [urlText]
      rw [e, parseLoop_scan_nul host pre [] _ _ none rfl hhost (by simp; omega)]
      exact ⟨cstr_at pre host [] _ rfl hh0, rfl, rfl⟩
    | some p =>
      have e : urlText pre host none (some p) ++ [0] = pre ++ host ++ 47 :: (p ++ [0]) := by
        simp [urlText]
      rw [e, parseLoop_scan_slash host pre (p ++ [0]) _ _ none rfl hhost (by simp; omega)]
      refine ⟨cstr_at pre host (p ++ [0]) _ rfl hh0, rfl, ?_⟩
      have e2 : pre ++ host ++ 0 :: (p ++ [0]) = (pre ++ host ++ [0]) ++ p ++ 0 :: [] := by
        simp
      show cstr (pre ++ host ++ 0 :: (p ++ [0])) (pre.length + host.length + 1) = p
      rw [e2]
      exact cstr_at (pre ++ host ++ [0]) p [] _ (by simp; omega) (hpath p rfl)
  | some ds =>
    obtain ⟨hd, hv⟩ := hport ds rfl
    have hat := atoi_digits ds hd hv
    cases path with
    | none =>
      have e : urlText pre host (some ds) none ++ [0] = pre ++ host ++ 58 :: (ds ++ [0]) := by
        simp [urlText]
      have e2 : pre ++ host ++ 0 :: (ds ++ [0]) = (pre ++ host ++ [0]) ++ ds ++ 0 :: [] := by
        simp
      rw [e, parseLoop_scan_colon host pre (ds ++ [0]) _ _ none rfl hhost (by simp; omega),
        e2, parseLoop_scan_nul ds (pre ++ host ++ [0]) [] _ _ _ (by simp; omega) (digits_scan hd)
          (by simp; omega)]
      refine ⟨?_, ?_, rfl⟩
      · rw [← e2]
        exact cstr_at pre host (ds ++ [0]) _ rfl hh0
      · show atoi (cstr (pre ++ host ++ [0] ++ ds ++ 0 :: []) (pre.length + host.length + 1))
          = decimal ds
        rw [cstr_at (pre ++ host ++ [0]) ds [] _ (by simp; omega) (digits_nonzero hd)]
        exact hat
    | some p =>
      have e : urlText pre host (some ds) (some p) ++ [0]
          = pre ++ host ++ 58 :: (ds ++ 47 :: (p ++ [0])) := by
        simp [urlText]
      have e2 : pre ++ host ++ 0 :: (ds ++ 47 :: (p ++ [0]))
          = (pre ++ host ++ [0]) ++ ds ++ 47 :: (p ++ [0]) := by
        simp
      have e3 : pre ++ host ++ [0] ++ ds ++ 0 :: (p ++ [0])
          = pre ++ host ++ 0 :: (ds ++ 0 :: (p ++ [0])) := by
        simp
      have e4 : pre ++ host ++ [0] ++ ds ++ 0 :: (p ++ [0])
          = (pre ++ host ++ [0] ++ ds ++ [0]) ++ p ++ 0 :: [] := by
        simp
      rw [e, parseLoop_scan_colon host pre (ds ++ 47 :: (p ++ [0])) _ _ none rfl hhost
          (by simp; omega),
        e2, parseLoop_scan_slash ds (pre ++ host ++ [0]) (p ++ [0]) _ _ _ (by simp; omega)
          (digits_scan hd) (by simp; omega)]
      refine ⟨?_, ?_, ?_⟩
      · show cstr (pre ++ host ++ [0] ++ ds ++ 0 :: (p ++ [0])) pre.length = host
        rw [e3]
        exact cstr_at pre host (ds ++ 0 :: (p ++ [0])) _ rfl hh0
      · show atoi (cstr (pre ++ host ++ [0] ++ ds ++ 0 :: (p ++ [0]))
            (pre.length + host.length + 1)) = decimal ds
        rw [cstr_at (pre ++ host ++ [0]) ds (p ++ [0]) _ (by simp; omega) (digits_nonzero hd)]
        exact hat
      · show cstr (pre ++ host ++ [0] ++ ds ++ 0 :: (p ++ [0]))
            ((pre ++ host ++ [0]).length + ds.length + 1) = p
        rw [e4]
        exact cstr_at (pre ++ host ++ [0] ++ ds ++ [0]) p [] _ (by simp; omega) (hpath p rfl)

theorem parseURL_wss (t : List Nat) :
    parseURL (schemeWss ++ t) =
      { m_port := match (parseLoop (schemeWss ++ t ++ [0]).length (schemeWss ++ t ++ [0]) 6
                    none).2.1 with
          | some p => atoi (cstr (parseLoop (schemeWss ++ t ++ [0]).length
                        (schemeWss ++ t ++ [0]) 6 none).1 p)
          | none => 443,
        m_ssl := true, m_sio := false,
        m_host := cstr (parseLoop (schemeWss ++ t ++ [0]).length
                        (schemeWss ++ t ++ [0]) 6 none).1 6,
        m_path := match (parseLoop (schemeWss ++ t ++ [0]).length (schemeWss ++ t ++ [0]) 6
                    none).2.2 with
          | some p => cstr (parseLoop (schemeWss ++ t ++ [0]).length
                        (schemeWss ++ t ++ [0]) 6 none).1 p
          | none => [] } := by
  have h1 : strncmpEq (schemeWss ++ t ++ [0]) 0 [119, 115, 115, 58, 47, 47] = true := by
    simp [schemeWss, strncmpEq, rd, List.range, List.range.loop]
  unfold parseURL
  simp only [h1, if_true]
  try rfl

theorem parseURL_ws (t : List Nat) :
    parseURL (schemeWs ++ t) =
      { m_port := match (parseLoop (schemeWs ++ t ++ [0]).length (schemeWs ++ t ++ [0]) 5
                    none).2.1 with
          | some p => atoi (cstr (parseLoop (schemeWs ++ t ++ [0]).length
                        (schemeWs ++ t ++ [0]) 5 none).1 p)
          | none => 80,
        m_ssl := false, m_sio := false,
        m_host := cstr (parseLoop (schemeWs ++ t ++ [0]).length
                        (schemeWs ++ t ++ [0]) 5 none).1 5,
        m_path := match (parseLoop (schemeWs ++ t ++ [0]).length (schemeWs ++ t ++ [0]) 5
                    none).2.2 with
          | some p => cstr (parseLoop (schemeWs ++ t ++ [0]).length
                        (schemeWs ++ t ++ [0]) 5 none).1 p
          | none => [] } := by
  have h1 : strncmpEq (schemeWs ++ t ++ [0]) 0 [119, 115, 115, 58, 47, 47] = false := by
    simp [schemeWs, strncmpEq, rd, List.range, List.range.loop]
  have h2 : strncmpEq (schemeWs ++ t ++ [0]) 0 [119, 115, 58, 47, 47] = true := by
    simp [schemeWs, strncmpEq, rd, List.range, List.range.loop]
  unfold parseURL
  simp only [h1, h2, if_true, Bool.false_eq_true, if_false]
  try rfl

theorem parseURL_https (t : List Nat) :
    parseURL (schemeHttps ++ t) =
      { m_port := match (parseLoop (schemeHttps ++ t ++ [0]).length (schemeHttps ++ t ++ [0]) 8
                    none).2.1 with
          | some p => atoi (cstr (parseLoop (schemeHttps ++ t ++ [0]).length
                        (schemeHttps ++ t ++ [0]) 8 none).1 p)
          | none => 443,
        m_ssl := true, m_sio := true,
        m_host := cstr (parseLoop (schemeHttps ++ t ++ [0]).length
                        (schemeHttps ++ t ++ [0]) 8 none).1 8,
        m_path := match (parseLoop (schemeHttps ++ t ++ [0]).length (schemeHttps ++ t ++ [0]) 8
                    none).2.2 with
          | some p => cstr (parseLoop (schemeHttps ++ t ++ [0]).length
                        (schemeHttps ++ t ++ [0]) 8 none).1 p
          | none => [] } := by
  have h1 : strncmpEq (schemeHttps ++ t ++ [0]) 0 [119, 115, 115, 58, 47, 47] = false := by
    simp [schemeHttps, strncmpEq, rd, List.range, List.range.loop]
  have h2 : strncmpEq (schemeHttps ++ t ++ [0]) 0 [119, 115, 58, 47, 47] = false := by
    simp [schemeHttps, strncmpEq, rd, List.range, List.range.loop]
  have h3 : strncmpEq (schemeHttps ++ t ++ [0]) 0 [104, 116, 116, 112, 115, 58, 47, 47]
      = true := by
    simp [schemeHttps, strncmpEq, rd, List.range, List.range.loop]
  unfold parseURL
  simp only [h1, h2, h3, if_true, Bool.false_eq_true, if_false]
  try rfl

theorem parseURL_http (t : List Nat) :
    parseURL (schemeHttp ++ t) =
      { m_port := match (parseLoop (schemeHttp ++ t ++ [0]).length (schemeHttp ++ t ++ [0]) 7
                    none).2.1 with
          | some p => atoi (cstr (parseLoop (schemeHttp ++ t ++ [0]).length
                        (schemeHttp ++ t ++ [0]) 7 none).1 p)
          | none => 80,
        m_ssl := false, m_sio := true,
        m_host := cstr (parseLoop (schemeHttp ++ t ++ [0]).length
                        (schemeHttp ++ t ++ [0]) 7 none).1 7,
        m_path := match (parseLoop (schemeHttp ++ t ++ [0]).length (schemeHttp ++ t ++ [0]) 7
                    none).2.2 with
          | some p => cstr (parseLoop (schemeHttp ++ t ++ [0]).length
                        (schemeHttp ++ t ++ [0]) 7 none).1 p
          | none => [] } := by
  have h1 : strncmpEq (schemeHttp ++ t ++ [0]) 0 [119, 115, 115, 58, 47, 47] = false := by
    simp [schemeHttp, strncmpEq, rd, List.range, List.range.loop]
  have h2 : strncmpEq (schemeHttp ++ t ++ [0]) 0 [119, 115, 58, 47, 47] = false := by
    simp [schemeHttp, strncmpEq, rd, List.range, List.range.loop]
  have h3 : strncmpEq (schemeHttp ++ t ++ [0]) 0 [104, 116, 116, 112, 115, 58, 47, 47]
      = false := by
    simp [schemeHttp, strncmpEq, rd, List.range, List.range.loop]
  have h4 : strncmpEq (schemeHttp ++ t ++ [0]) 0 [104, 116, 116, 112, 58, 47, 47]
      = true := by
    simp [schemeHttp, strncmpEq, rd, List.range, List.range.loop]
  unfold parseURL
  simp only [h1, h2, h3, h4, if_true, Bool.false_eq_true, if_false]
  try rfl

theorem urlText_tail (scheme host : List Nat) (port path : Option (List Nat)) :
    urlText scheme host port path = scheme ++ urlText [] host port path := by
  simp [urlText]

/-- C13: for a URL `scheme://host[:port][/path]` with scheme `ws`, `wss`, `http` or
`https`, a host of bytes other than NUL, `:` and `/`, a port of decimal digits (of a value
below `2^31`) and a path without NUL, `parseURL` sets `m_ssl` exactly for `wss` and
`https`, `m_sio` exactly for `http` and `https`, `m_host` to the host, `m_port` to the
value of the port when there is one and otherwise to 443 for `wss`/`https` and 80 for
`ws`/`http`, and `m_path` to the text after the first `/` that follows the host (empty
when there is none). -/
theorem parseURL_contract (scheme host : List Nat) (port path : Option (List Nat))
    (hs : scheme = schemeWs ∨ scheme = schemeWss ∨ scheme = schemeHttp
      ∨ scheme = schemeHttps)
    (hhost : ∀ b ∈ host, b < 256 ∧ b ≠ 0 ∧ b ≠ 58 ∧ b ≠ 47)
    (hport : ∀ ds, port = some ds → (∀ d ∈ ds, 48 ≤ d ∧ d ≤ 57) ∧ decimal ds < 2 ^ 31)
    (hpath : ∀ p, path = some p → ∀ b ∈ p, b < 256 ∧ b ≠ 0) :
    parseURL (urlText scheme host port path) =
      { m_port := (port.map decimal).getD
          (if scheme = schemeWss ∨ scheme = schemeHttps then 443 else 80),
        m_ssl := decide (scheme = schemeWss ∨ scheme = schemeHttps),
        m_sio := decide (scheme = schemeHttp ∨ scheme = schemeHttps),
        m_host := host,
        m_path := path.getD [] } := by
  have hhost' : ∀ b ∈ host, b % 256 ≠ 0 ∧ b % 256 ≠ 58 ∧ b % 256 ≠ 47 := by
    intro b hb
    have := hhost b hb
    omega
  have hpath' : ∀ p, path = some p → ∀ b ∈ p, b % 256 ≠ 0 := by
    intro p hp b hb
    have := hpath p hp b hb
    omega
  rcases hs with rfl | rfl | rfl | rfl
  · obtain ⟨h1, h2, h3⟩ := parseLoop_url schemeWs host port path 80 hhost' hport hpath'
    rw [urlText_tail, parseURL_ws, ← urlText_tail, ParsedURL.mk.injEq]
    refine ⟨?_, rfl, rfl, h1, h3⟩
    rw [show (if schemeWs = schemeWss ∨ schemeWs = schemeHttps then (443 : Int) else 80) = 80
      by decide]
    exact h2
  · obtain ⟨h1, h2, h3⟩ := parseLoop_url schemeWss host port path 443 hhost' hport hpath'
    rw [urlText_tail, parseURL_wss, ← urlText_tail, ParsedURL.mk.injEq]
    refine ⟨?_, rfl, rfl, h1, h3⟩
    rw [show (if schemeWss = schemeWss ∨ schemeWss = schemeHttps then (443 : Int) else 80)
      = 443 by decide]
    exact h2
  · obtain ⟨h1, h2, h3⟩ := parseLoop_url schemeHttp host port path 80 hhost' hport hpath'
    rw [urlText_tail, parseURL_http, ← urlText_tail, ParsedURL.mk.injEq]
    refine ⟨?_, rfl, rfl, h1, h3⟩
    rw [show (if schemeHttp = schemeWss ∨ schemeHttp = schemeHttps then (443 : Int) else 80)
      = 80 by decide]
    exact h2
  · obtain ⟨h1, h2, h3⟩ := parseLoop_url schemeHttps host port path 443 hhost' hport hpath'
    rw [urlText_tail, parseURL_https, ← urlText_tail, ParsedURL.mk.injEq]
    refine ⟨?_, rfl, rfl, h1, h3⟩
    rw [show (if schemeHttps = schemeWss ∨ schemeHttps = schemeHttps then (443 : Int)
      else 80) = 443 by decide]
    exact h2

/-- C13, instances of `parseURL_contract`: `wss://host:1234/path` and
`https://host/socket.io`. -/
theorem parseURL_contract_witness :
    parseURL [119, 115, 115, 58, 47, 47, 104, 111, 115, 116, 58, 49, 50, 51, 52, 47,
        112, 97, 116, 104]
      = { m_port := 1234, m_ssl := true, m_sio := false,
          m_host := [104, 111, 115, 116], m_path := [112, 97, 116, 104] }
    ∧ parseURL [104, 116, 116, 112, 115, 58, 47, 47, 104, 111, 115, 116, 47,
        115, 111, 99, 107, 101, 116, 46, 105, 111]
      = { m_port := 443, m_ssl := true, m_sio := true,
          m_host := [104, 111, 115, 116],
          m_path := [115, 111, 99, 107, 101, 116, 46, 105, 111] } :=
  ⟨parseURL_contract schemeWss [104, 111, 115, 116] (some [49, 50, 51, 52])
      (some [112, 97, 116, 104]) (by decide) (by decide)
      (by intro ds h; cases h; decide) (by intro p h; cases h; decide),
   parseURL_contract schemeHttps [104, 111, 115, 116] none
      (some [115, 111, 99, 107, 101, 116, 46, 105, 111]) (by decide) (by decide)
      (by intro ds h; cases h) (by intro p h; cases h; decide)⟩

/-! ## C14 to C19: the event extractor -/

theorem rd_at_add (pre body : List Nat) (n i : Nat) (hn : n = pre.length + i) :
    rd (pre ++ body) n = rd body i := by
  subst hn
  exact rd_append_right pre body i

/-- The first loop of the extractor skips `["` in front of a key. -/
theorem skipOpen_key (pre rest : List Nat) (a : Nat) (L : Int) (n : Nat)
    (hn : n = pre.length) (hL : 3 ≤ L)
    (ha : a % 256 ≠ 91 ∧ a % 256 ≠ 34 ∧ a % 256 ≠ 32) :
    skipOpen (pre ++ 91 :: 34 :: a :: rest) L.toNat n L false = (n + 2, L - 2, true) := by
  obtain ⟨f, hf⟩ : ∃ f, L.toNat = f + 3 := ⟨L.toNat - 3, by omega⟩
  have r0 : rd (pre ++ 91 :: 34 :: a :: rest) n = 91 := by
    rw [rd_at_add pre _ n 0 (by omega)]
    rfl
  have r1 : rd (pre ++ 91 :: 34 :: a :: rest) (n + 1) = 34 := by
    rw [rd_at_add pre _ (n + 1) 1 (by omega)]
    rfl
  have r2 : rd (pre ++ 91 :: 34 :: a :: rest) (n + 1 + 1) = a % 256 := by
    rw [rd_at_add pre _ (n + 1 + 1) 2 (by omega)]
    rfl
  rw [hf, skipOpen, r0, if_pos ⟨by omega, Or.inl rfl⟩, if_neg (by norm_num),
    skipOpen, r1, if_pos ⟨by omega, Or.inr (Or.inl rfl)⟩, if_pos rfl,
    skipOpen, r2, if_neg (by
      intro h
      rcases h.2 with h | h | h
      · exact ha.1 h
      · exact ha.2.1 h
      · exact ha.2.2 h)]
  congr 2
  omega

/-- The second loop of the extractor walks to the quote that ends a quoted key. -/
theorem scanKey_key : ∀ (ks pre rest : List Nat) (fuel n : Nat) (len : Int),
    n = pre.length → (∀ b ∈ ks, b % 256 ≠ 34 ∧ b % 256 ≠ 44) →
    ks.length ≤ fuel → (ks.length : Int) < len →
    scanKey (pre ++ ks ++ 34 :: rest) true fuel n len
      = (n + ks.length, len - (ks.length : Int)) := by
  intro ks
  induction ks with
  | nil =>
    intro pre rest fuel n len hn _ _ _
    subst hn
    cases fuel with
    | zero => simp [scanKey]
    | succ f =>
      rw [scanKey, List.append_nil, rd_at, if_neg (by
        intro h
        exact h.2.1 rfl)]
      simp
  | cons b ks ih =>
    intro pre rest fuel n len hn hks hfuel hlen
    subst hn
    obtain ⟨f, rfl⟩ : ∃ f, fuel = f + 1 := ⟨fuel - 1, by simp at hfuel; omega⟩
    have hb := hks b (List.mem_cons_self _ _)
    have hrd : rd (pre ++ b :: ks ++ 34 :: rest) pre.length = b % 256 := by
      rw [List.append_assoc, List.cons_append]
      exact rd_at pre b _
    simp only [List.length_cons, Nat.cast_add, Nat.cast_one] at hlen hfuel ⊢
    rw [scanKey, hrd, if_pos ⟨by omega, hb.1, hb.2, Or.inl rfl⟩]
    have hre : pre ++ b :: ks ++ 34 :: rest = (pre ++ [b]) ++ ks ++ 34 :: rest := by simp
    rw [hre, ih (pre ++ [b]) rest f (pre.length + 1) (len - 1) (by simp)
      (fun x hx => hks x (List.mem_cons_of_mem _ hx)) (by omega) (by omega)]
    congr 1
    · omega
    · omega

/-- The loop over separators skips the comma in front of a value. -/
theorem skipSep_comma (pre rest : List Nat) (v0 : Nat) (fuel n : Nat) (len : Int)
    (hn : n = pre.length) (hv : v0 % 256 ≠ 44 ∧ v0 % 256 ≠ 32) (hlen : 0 < len) :
    skipSep (pre ++ 44 :: v0 :: rest) (fuel + 1) n len = (n + 1, len - 1) := by
  subst hn
  rw [skipSep, rd_at, if_pos ⟨hlen, Or.inl rfl⟩]
  cases fuel with
  | zero => rfl
  | succ f =>
    have hre : pre ++ 44 :: v0 :: rest = (pre ++ [44]) ++ v0 :: rest := by simp
    have hl : pre.length + 1 = (pre ++ [44]).length := by simp
    rw [skipSep, hre, hl, rd_at, if_neg (by
      intro h
      rcases h.2 with h | h
      · exact hv.1 h
      · exact hv.2 h)]

/-- The loop over commas of the Socket.IO client skips the comma in front of a value. -/
theorem skipComma_comma (pre rest : List Nat) (v0 : Nat) (fuel n : Nat) (len : Int)
    (hn : n = pre.length) (hv : v0 % 256 ≠ 44) (hlen : 0 < len) :
    skipComma (pre ++ 44 :: v0 :: rest) (fuel + 1) n len = (n + 1, len - 1) := by
  subst hn
  rw [skipComma, rd_at, if_pos ⟨hlen, rfl, by norm_num⟩]
  cases fuel with
  | zero => rfl
  | succ f =>
    have hre : pre ++ 44 :: v0 :: rest = (pre ++ [44]) ++ v0 :: rest := by simp
    have hl : pre.length + 1 = (pre ++ [44]).length := by simp
    rw [skipComma, hre, hl, rd_at, if_neg (by
      intro h
      exact hv h.2.1)]

/-- The last loop of the extractor overwrites the closing brackets and spaces behind a
value with NUL and stops at the last byte of the value. -/
theorem stripTail_value (val : List Nat) (hval : val ≠ [])
    (hlast : ∀ l, val.getLast? = some l → l % 256 ≠ 93 ∧ l % 256 ≠ 32) :
    ∀ (tail pre post : List Nat) (fuel x : Nat), x = pre.length →
    (∀ b ∈ tail, b = 93 ∨ b = 32) → tail.length ≤ fuel →
    stripTail x fuel (pre ++ val ++ tail ++ post) ((val.length + tail.length : Nat) : Int)
      = (pre ++ val ++ tail.map (fun _ => 0) ++ post, (val.length : Int)) := by
  intro tail
  induction tail using List.reverseRecOn with
  | nil =>
    intro pre post fuel x hx _ _
    subst hx
    cases fuel with
    | zero => simp [stripTail]
    | succ f =>
      obtain ⟨vs, l, rfl⟩ : ∃ vs l, val = vs ++ [l] :=
        ⟨val.dropLast, val.getLast hval, (List.dropLast_append_getLast hval).symm⟩
      have hl := hlast l (by simp)
      have hpos : pre.length + (((vs ++ [l]).length + ([] : List Nat).length : Nat) - 1 : Int).toNat
          = (pre ++ vs).length := by
        simp
      have hre : pre ++ (vs ++ [l]) ++ [] ++ post = (pre ++ vs) ++ l :: post := by simp
      rw [stripTail, hpos, hre, rd_at, if_neg (by
        intro h
        rcases h.2 with h | h
        · exact hl.1 h
        · exact hl.2 h)]
      simp
  | append_singleton t b ih =>
    intro pre post fuel x hx htail hfuel
    subst hx
    obtain ⟨f, rfl⟩ : ∃ f, fuel = f + 1 := ⟨fuel - 1, by simp at hfuel; omega⟩
    have hb : b = 93 ∨ b = 32 := htail b (by simp)
    have hpos : pre.length + (((val.length + (t ++ [b]).length : Nat) : Int) - 1).toNat
        = (pre ++ val ++ t).length := by
      simp
      omega
    have hre : pre ++ val ++ (t ++ [b]) ++ post = (pre ++ val ++ t) ++ b :: post := by simp
    have hbm : b % 256 = 93 ∨ b % 256 = 32 := by omega
    rw [stripTail, hpos, hre, rd_at, if_pos ⟨by simp; omega, hbm⟩, set_at]
    have hlen : (((val.length + (t ++ [b]).length : Nat) : Int) - 1)
        = ((val.length + t.length : Nat) : Int) := by
      simp
      omega
    have hre2 : pre ++ val ++ t ++ 0 :: post = pre ++ val ++ t ++ (0 :: post) := rfl
    rw [hlen, ih pre (0 :: post) f pre.length rfl
      (fun x hx => htail x (by simp [hx])) (by simp at hfuel; omega)]
    simp

theorem slice_mid (pre seg rest : List Nat) (off n : Nat) (hoff : off = pre.length)
    (hn : n = seg.length) : slice (pre ++ seg ++ rest) off n = seg := by
  subst hoff hn
  unfold slice
  rw [List.append_assoc, List.drop_left, List.take_left]

/-- The first two loops of the extractor on a buffer that holds `["key"` at offset
`pre.length`, `L` bytes of payload left: the key found, the position of the quote that
ends it and the length left there. -/
theorem extract_key (B pre ks rest : List Nat) (a : Nat) (L : Int)
    (hB : B = pre ++ 91 :: 34 :: a :: (ks ++ 34 :: rest))
    (hL : ((3 + ks.length : Nat) : Int) < L)
    (ha : a % 256 ≠ 91 ∧ a % 256 ≠ 34 ∧ a % 256 ≠ 32)
    (hks : ∀ b ∈ ks, b % 256 ≠ 34 ∧ b % 256 ≠ 44) :
    skipOpen B L.toNat pre.length L false = (pre.length + 2, L - 2, true)
    ∧ scanKey B true (L - 2 - 1).toNat (pre.length + 2 + 1) (L - 2 - 1)
        = (pre.length + 3 + ks.length, L - ((3 + ks.length : Nat) : Int))
    ∧ slice B (pre.length + 2) (pre.length + 3 + ks.length - (pre.length + 2)) = a :: ks := by
  subst hB
  refine ⟨skipOpen_key pre _ a L _ rfl (by omega) ha, ?_, ?_⟩
  · have e : pre ++ 91 :: 34 :: a :: (ks ++ 34 :: rest)
        = (pre ++ [91, 34, a]) ++ ks ++ 34 :: rest := by simp
    rw [e, scanKey_key ks (pre ++ [91, 34, a]) _ _ _ _ (by simp) hks
      (by omega) (by omega)]
    congr 1
    push_cast
    omega
  · have e : pre ++ 91 :: 34 :: a :: (ks ++ 34 :: rest)
        = (pre ++ [91, 34]) ++ (a :: ks) ++ 34 :: rest := by simp
    rw [e]
    exact slice_mid _ _ _ _ _ (by simp) (by simp; omega)

/-- The keyed dispatch of the WebSocket client on a payload `["key",value tail`, the key
registered, the tail made of closing brackets and spaces. -/
theorem onText_keyed (c : WebSocketClient) (pre ks val tail post : List Nat) (a id : Nat)
    (cnt : Int)
    (hbuf : c.rx_buf = pre ++ 91 :: 34 :: a :: (ks ++ 34 :: 44 :: (val ++ tail ++ post)))
    (hmsg : c.ws_msg = pre.length)
    (hcnt : cnt = ((5 + ks.length + val.length + tail.length : Nat) : Int))
    (ha : a % 256 ≠ 91 ∧ a % 256 ≠ 34 ∧ a % 256 ≠ 32)
    (hks : ∀ b ∈ ks, b % 256 ≠ 34 ∧ b % 256 ≠ 44)
    (hval : val ≠ [])
    (hhead : ∀ h, val.head? = some h → h % 256 ≠ 44 ∧ h % 256 ≠ 32)
    (hlast : ∀ l, val.getLast? = some l → l % 256 ≠ 93 ∧ l % 256 ≠ 32)
    (htail : ∀ b ∈ tail, b = 93 ∨ b = 32)
    (hreg : c.m_on.find? (fun p => p.1 = a :: ks) = some (a :: ks, id)) :
    onText c cnt =
      { c with
        rx_buf := pre ++ 91 :: 34 :: a :: (ks ++ 34 :: 44 ::
                    (val ++ tail.map (fun _ => 0) ++ post)),
        trace := c.trace ++ [Event.on (a :: ks) id val (val.length : Int)] } := by
  have hne : c.m_on.length ≠ 0 := by
    intro h
    rw [List.length_eq_zero] at h
    rw [h] at hreg
    simp at hreg
  obtain ⟨v0, vs, rfl⟩ : ∃ v0 vs, val = v0 :: vs := by
    cases val with
    | nil => exact absurd rfl hval
    | cons v0 vs => exact ⟨v0, vs, rfl⟩
  have hv0 := hhead v0 rfl
  obtain ⟨h1', h2, h3⟩ := extract_key c.rx_buf pre ks _ a cnt hbuf
    (by rw [hcnt]; push_cast; omega) ha hks
  have h1 : skipOpen c.rx_buf cnt.toNat c.ws_msg cnt false
      = (pre.length + 2, cnt - 2, true) := by
    rw [hmsg]
    exact h1'
  have hlen : cnt - ((3 + ks.length : Nat) : Int)
      = ((2 + (v0 :: vs).length + tail.length : Nat) : Int) := by
    rw [hcnt]
    push_cast
    omega
  rw [hlen] at h2
  have h4 : skipSep c.rx_buf
        (((2 + (v0 :: vs).length + tail.length : Nat) : Int) - 1).toNat
        (pre.length + 3 + ks.length + 1)
        (((2 + (v0 :: vs).length + tail.length : Nat) : Int) - 1)
      = (pre.length + 3 + ks.length + 1 + 1,
          (((v0 :: vs).length + tail.length : Nat) : Int)) := by
    have e : pre ++ 91 :: 34 :: a :: (ks ++ 34 :: 44 :: (v0 :: vs ++ tail ++ post))
        = (pre ++ 91 :: 34 :: a :: (ks ++ [34])) ++ 44 :: v0 :: (vs ++ tail ++ post) := by
      simp
    obtain ⟨f, hf⟩ : ∃ f, (((2 + (v0 :: vs).length + tail.length : Nat) : Int) - 1).toNat
        = f + 1 := ⟨vs.length + tail.length + 1, by simp; omega⟩
    rw [hbuf, e, hf, skipSep_comma _ _ v0 f _ _ (by simp; omega) hv0 (by simp; omega)]
    congr 1
    simp
    omega
  have h5 : stripTail (pre.length + 3 + ks.length + 1 + 1)
        ((((v0 :: vs).length + tail.length : Nat) : Int)).toNat c.rx_buf
        (((v0 :: vs).length + tail.length : Nat) : Int)
      = (pre ++ 91 :: 34 :: a :: (ks ++ 34 :: 44 ::
            (v0 :: vs ++ tail.map (fun _ => 0) ++ post)), ((v0 :: vs).length : Int)) := by
    have e : pre ++ 91 :: 34 :: a :: (ks ++ 34 :: 44 :: (v0 :: vs ++ tail ++ post))
        = (pre ++ 91 :: 34 :: a :: (ks ++ [34, 44])) ++ (v0 :: vs) ++ tail ++ post := by
      simp
    rw [hbuf, e, stripTail_value (v0 :: vs) hval hlast tail _ post _ _ (by simp; omega) htail
      (by simp; omega)]
    simp
  have h6 : slice (pre ++ 91 :: 34 :: a :: (ks ++ 34 :: 44 ::
            (v0 :: vs ++ tail.map (fun _ => 0) ++ post)))
        (pre.length + 3 + ks.length + 1 + 1) (((v0 :: vs).length : Int)).toNat
      = v0 :: vs := by
    have e : pre ++ 91 :: 34 :: a :: (ks ++ 34 :: 44 ::
            (v0 :: vs ++ tail.map (fun _ => 0) ++ post))
        = (pre ++ 91 :: 34 :: a :: (ks ++ [34, 44])) ++ (v0 :: vs)
            ++ (tail.map (fun _ => 0) ++ post) := by
      simp
    rw [e]
    exact slice_mid _ _ _ _ _ (by simp; omega) (by simp)
  unfold onText
  rw [if_pos hne]
  simp only [h1, h2, h3, hreg]
  rw [if_pos (by simp; omega)]
  unfold runHandler
  simp only [h4, h5, h6]
  rw [if_pos (by simp)]

/-- The handlers of the Socket.IO client on a payload `["key",value tail last`, seen from
the quote that ends the key: the last byte of the payload is overwritten, the tail of
closing brackets and spaces is stripped, and every entry of the registry from the first
one under the key on is called with the value. -/
theorem sioRunHandlers_value (s : SocketIoClient) (pre val tl post : List Nat)
    (key : List Nat) (last x : Nat) (len : Int)
    (hbuf : s.m_ws.rx_buf = pre ++ 34 :: 44 :: (val ++ tl ++ last :: post))
    (hx : x = pre.length)
    (hlen : len = ((3 + val.length + tl.length : Nat) : Int))
    (hval : val ≠ [])
    (hhead : ∀ h, val.head? = some h → h % 256 ≠ 44)
    (hlast : ∀ l, val.getLast? = some l → l % 256 ≠ 93 ∧ l % 256 ≠ 32)
    (hnz : ∀ b ∈ val, b % 256 ≠ 0)
    (htl : ∀ b ∈ tl, b = 93 ∨ b = 32) :
    sioRunHandlers s key x len =
      { s with
        m_ws := { s.m_ws with
          rx_buf := pre ++ 34 :: 44 :: (val ++ tl.map (fun _ => 0) ++ 0 :: post) },
        trace := s.trace ++ (s.m_on.dropWhile (fun p => p.1 ≠ key)).map
          (fun p => SioEvent.on p.1 p.2 val) } := by
  subst hx
  obtain ⟨v0, vs, rfl⟩ : ∃ v0 vs, val = v0 :: vs := by
    cases val with
    | nil => exact absurd rfl hval
    | cons v0 vs => exact ⟨v0, vs, rfl⟩
  have hv0 := hhead v0 rfl
  have h0 : s.m_ws.rx_buf.set (pre.length + 1 + (len - 1 - 1).toNat) 0
      = pre ++ 34 :: 44 :: (v0 :: vs ++ tl ++ 0 :: post) := by
    have e : pre ++ 34 :: 44 :: (v0 :: vs ++ tl ++ last :: post)
        = (pre ++ 34 :: 44 :: (v0 :: vs ++ tl)) ++ last :: post := by simp
    have hp : pre.length + 1 + (len - 1 - 1).toNat
        = (pre ++ 34 :: 44 :: (v0 :: vs ++ tl)).length := by
      rw [hlen]
      simp
      omega
    rw [hbuf, e, hp, set_at]
    simp
  have h4 : skipComma (pre ++ 34 :: 44 :: (v0 :: vs ++ tl ++ 0 :: post))
        (len - 1 - 1).toNat (pre.length + 1) (len - 1 - 1)
      = (pre.length + 1 + 1, (((v0 :: vs).length + tl.length : Nat) : Int)) := by
    have e : pre ++ 34 :: 44 :: (v0 :: vs ++ tl ++ 0 :: post)
        = (pre ++ [34]) ++ 44 :: v0 :: (vs ++ tl ++ 0 :: post) := by
      simp
    obtain ⟨f, hf⟩ : ∃ f, (len - 1 - 1).toNat = f + 1 :=
      ⟨vs.length + tl.length + 1, by rw [hlen]; simp; omega⟩
    rw [e, hf, skipComma_comma _ _ v0 f _ _ (by simp) hv0 (by rw [hlen]; simp; omega)]
    congr 1
    rw [hlen]
    simp
    omega
  have h5 : stripTail (pre.length + 1 + 1)
        ((((v0 :: vs).length + tl.length : Nat) : Int)).toNat
        (pre ++ 34 :: 44 :: (v0 :: vs ++ tl ++ 0 :: post))
        (((v0 :: vs).length + tl.length : Nat) : Int)
      = (pre ++ 34 :: 44 :: (v0 :: vs ++ tl.map (fun _ => 0) ++ 0 :: post),
          ((v0 :: vs).length : Int)) := by
    have e : pre ++ 34 :: 44 :: (v0 :: vs ++ tl ++ 0 :: post)
        = (pre ++ [34, 44]) ++ (v0 :: vs) ++ tl ++ 0 :: post := by
      simp
    rw [e, stripTail_value (v0 :: vs) hval hlast tl _ (0 :: post) _ _ (by simp) htl
      (by simp; omega)]
    simp
  have h6 : cstr (pre ++ 34 :: 44 :: (v0 :: vs ++ tl.map (fun _ => 0) ++ 0 :: post))
        (pre.length + 1 + 1) = v0 :: vs := by
    cases tl with
    | nil =>
      have e : pre ++ 34 :: 44 :: (v0 :: vs ++ List.map (fun _ => 0) ([] : List Nat) ++ 0 :: post)
          = (pre ++ [34, 44]) ++ (v0 :: vs) ++ 0 :: post := by
        simp
      rw [e]
      exact cstr_at _ _ _ _ (by simp) hnz
    | cons t tl =>
      have e : pre ++ 34 :: 44 :: (v0 :: vs ++ List.map (fun _ => 0) (t :: tl) ++ 0 :: post)
          = (pre ++ [34, 44]) ++ (v0 :: vs) ++ 0 :: (tl.map (fun _ => 0) ++ 0 :: post) := by
        simp
      rw [e]
      exact cstr_at _ _ _ _ (by simp) hnz
  unfold sioRunHandlers
  simp only [h0, h4, h5, h6]
  rw [if_pos (by simp)]

theorem callCb_same (c : WebSocketClient) (cnt : Int) (t : Nat) :
    (callCb c cnt t).rx_buf = c.rx_buf ∧ (callCb c cnt t).ws_msg = c.ws_msg
      ∧ (callCb c cnt t).m_on = c.m_on ∧ (callCb c cnt t).m_connected = c.m_connected := by
  unfold callCb
  split_ifs <;> exact ⟨rfl, rfl, rfl, rfl⟩

theorem onWsFrame_text (e : SendEnv) (c : WebSocketClient)
    (ht : c.ws_frame_type = WS_FR_OP_TXT) :
    onWsFrame e c = (1, onText (callCb c (c.ws_frame_size - c.ws_header_size) WS_FR_OP_TXT)
      (c.ws_frame_size - c.ws_header_size)) := by
  unfold onWsFrame
  simp only [ht, if_true]
  rw [if_neg (by decide)]

theorem eventText_cons (a : Nat) (ks val tail : List Nat) :
    eventText (a :: ks) val tail = 91 :: 34 :: a :: (ks ++ 34 :: 44 :: (val ++ tail)) := by
  simp [eventText]

theorem eventText_length (k val tail : List Nat) :
    (eventText k val tail).length = 4 + k.length + val.length + tail.length := by
  simp [eventText]
  omega

/-- The key as the extractor needs it: not empty, bytes other than `"` and `,`, the first
one also other than `[` and space. -/
theorem key_shape (k : List Nat) (hk : k ≠ [])
    (hkb : ∀ b ∈ k, b < 256 ∧ b ≠ 34 ∧ b ≠ 44)
    (hk0 : ∀ b, k.head? = some b → b ≠ 91 ∧ b ≠ 32) :
    ∃ a ks, k = a :: ks ∧ (a % 256 ≠ 91 ∧ a % 256 ≠ 34 ∧ a % 256 ≠ 32)
      ∧ ∀ b ∈ ks, b % 256 ≠ 34 ∧ b % 256 ≠ 44 := by
  cases k with
  | nil => exact absurd rfl hk
  | cons a ks =>
    refine ⟨a, ks, rfl, ?_, ?_⟩
    · have h1 := hkb a (List.mem_cons_self _ _)
      have h2 := hk0 a rfl
      omega
    · intro b hb
      have h1 := hkb b (List.mem_cons_of_mem _ hb)
      omega

/-- `onWsFrame` on a text frame `["key",value tail` whose key is registered: it returns 1
after one call of the handler with the value, the tail of closing brackets and spaces
overwritten with NUL. -/
theorem onWsFrame_keyed (e : SendEnv) (c : WebSocketClient) (pre post k val tail : List Nat)
    (id : Nat)
    (hk : k ≠ []) (hkb : ∀ b ∈ k, b < 256 ∧ b ≠ 34 ∧ b ≠ 44)
    (hk0 : ∀ b, k.head? = some b → b ≠ 91 ∧ b ≠ 32)
    (hval : val ≠ [])
    (hhead : ∀ h, val.head? = some h → h % 256 ≠ 44 ∧ h % 256 ≠ 32)
    (hlast : ∀ l, val.getLast? = some l → l % 256 ≠ 93 ∧ l % 256 ≠ 32)
    (htail : ∀ b ∈ tail, b = 93 ∨ b = 32)
    (ht : c.ws_frame_type = WS_FR_OP_TXT)
    (hbuf : c.rx_buf = pre ++ eventText k val tail ++ post)
    (hmsg : c.ws_msg = pre.length)
    (hcnt : c.ws_frame_size - c.ws_header_size = ((eventText k val tail).length : Int))
    (hreg : c.m_on.find? (fun p => p.1 = k) = some (k, id)) :
    onWsFrame e c =
      (1, { callCb c ((eventText k val tail).length : Int) WS_FR_OP_TXT with
            rx_buf := pre ++ eventText k val (tail.map (fun _ => 0)) ++ post,
            trace := (callCb c ((eventText k val tail).length : Int) WS_FR_OP_TXT).trace
              ++ [Event.on k id val (val.length : Int)] }) := by
  obtain ⟨a, ks, rfl, ha, hks⟩ := key_shape k hk hkb hk0
  obtain ⟨s1, s2, s3, _⟩ := callCb_same c ((eventText (a :: ks) val tail).length : Int)
    WS_FR_OP_TXT
  rw [onWsFrame_text e c ht, hcnt]
  rw [onText_keyed (callCb c ((eventText (a :: ks) val tail).length : Int) WS_FR_OP_TXT)
    pre ks val tail post a id _
    (by rw [s1, hbuf, eventText_cons]; simp) (by rw [s2, hmsg])
    (by rw [eventText_length]; simp; omega) ha hks hval hhead hlast htail (by rw [s3]; exact hreg)]
  rw [eventText_cons]
  simp [eventText]

theorem sioMessage_event (e : SendEnv) (s : SocketIoClient) (pre rest : List Nat)
    (length : Int) (hbuf : s.m_ws.rx_buf = pre ++ 52 :: 50 :: rest) (hl : 2 ≤ length) :
    sioMessage e s pre.length length = sioOnEvent s (pre.length + 2) (length - 2) := by
  have r0 : rd s.m_ws.rx_buf pre.length = 52 := by
    rw [hbuf, rd_at]
  have r1 : rd s.m_ws.rx_buf (pre.length + 1) = 50 := by
    rw [hbuf, rd_at_add pre _ _ 1 rfl]
    rfl
  unfold sioMessage
  rw [if_neg (by omega), r0, if_neg (by norm_num), if_neg (by norm_num), if_pos rfl,
    if_neg (by omega), r1, if_pos rfl]

/-- The Socket.IO message callback on an EVENT `42["key",value tail last` whose key is
registered: after the generic callback, every entry of the registry from the first one
under the key on is called with the value. -/
theorem sioMessage_keyed (e : SendEnv) (s : SocketIoClient)
    (pre post k val tl : List Nat) (last : Nat)
    (hk : k ≠ []) (hkb : ∀ b ∈ k, b < 256 ∧ b ≠ 34 ∧ b ≠ 44)
    (hk0 : ∀ b, k.head? = some b → b ≠ 91 ∧ b ≠ 32)
    (hval : val ≠ [])
    (hhead : ∀ h, val.head? = some h → h % 256 ≠ 44)
    (hlast : ∀ l, val.getLast? = some l → l % 256 ≠ 93 ∧ l % 256 ≠ 32)
    (hnz : ∀ b ∈ val, b % 256 ≠ 0)
    (htl : ∀ b ∈ tl, b = 93 ∨ b = 32)
    (hbuf : s.m_ws.rx_buf = pre ++ [52, 50] ++ eventText k val (tl ++ [last]) ++ post)
    (hreg : s.m_on.dropWhile (fun p => p.1 ≠ k) ≠ []) :
    sioMessage e s pre.length (((eventText k val (tl ++ [last])).length + 2 : Nat) : Int) =
      { s with
        m_ws := { s.m_ws with
          rx_buf := pre ++ [52, 50] ++ eventText k val (tl.map (fun _ => 0) ++ [0]) ++ post },
        trace := s.trace
          ++ (if s.m_cb = true then
                [SioEvent.cb (eventText k val (tl ++ [last]))
                  ((eventText k val (tl ++ [last])).length : Int) 50]
              else [])
          ++ (s.m_on.dropWhile (fun p => p.1 ≠ k)).map (fun p => SioEvent.on p.1 p.2 val) } := by
  obtain ⟨a, ks, rfl, ha, hks⟩ := key_shape k hk hkb hk0
  have hb1 : s.m_ws.rx_buf = pre ++ 52 :: 50 :: (eventText (a :: ks) val (tl ++ [last]) ++ post) := by
    rw [hbuf]
    simp
  have hb2 : s.m_ws.rx_buf = (pre ++ [52, 50]) ++ 91 :: 34 :: a ::
      (ks ++ 34 :: (44 :: (val ++ tl ++ last :: post))) := by
    rw [hbuf, eventText_cons]
    simp
  rw [sioMessage_event e s pre _ _ hb1 (by push_cast; omega)]
  have hL : (((eventText (a :: ks) val (tl ++ [last])).length + 2 : Nat) : Int) - 2
      = ((eventText (a :: ks) val (tl ++ [last])).length : Int) := by
    push_cast
    omega
  rw [hL]
  have hpl : pre.length + 2 = (pre ++ [52, 50]).length := by simp
  have hsl : slice s.m_ws.rx_buf (pre.length + 2)
      (((eventText (a :: ks) val (tl ++ [last])).length : Int)).toNat
      = eventText (a :: ks) val (tl ++ [last]) := by
    rw [hbuf]
    exact slice_mid _ _ _ _ _ (by simp) (by simp)
  obtain ⟨h1, h2, h3⟩ := extract_key s.m_ws.rx_buf (pre ++ [52, 50]) ks _ a
    ((eventText (a :: ks) val (tl ++ [last])).length : Int) hb2
    (by rw [eventText_length]; push_cast; simp; omega) ha hks
  rw [← hpl] at h1 h2 h3
  have hlen : ((eventText (a :: ks) val (tl ++ [last])).length : Int)
        - ((3 + ks.length : Nat) : Int)
      = ((3 + val.length + tl.length : Nat) : Int) := by
    rw [eventText_length]
    push_cast
    simp
    omega
  rw [hlen] at h2
  have hne : s.m_on.length ≠ 0 := by
    intro h
    rw [List.length_eq_zero] at h
    rw [h] at hreg
    exact hreg rfl
  have hbx : s.m_ws.rx_buf = (pre ++ 52 :: 50 :: 91 :: 34 :: a :: ks)
      ++ 34 :: 44 :: (val ++ tl ++ last :: post) := by
    rw [hb2]
    simp
  have hfin : pre ++ [52, 50] ++ eventText (a :: ks) val (tl.map (fun _ => 0) ++ [0]) ++ post
      = (pre ++ 52 :: 50 :: 91 :: 34 :: a :: ks)
        ++ 34 :: 44 :: (val ++ tl.map (fun _ => 0) ++ 0 :: post) := by
    rw [eventText_cons]
    simp
  obtain ⟨ws, cb, ccb, reg, tr⟩ := s
  simp only at hbuf hreg hne hbx hsl h1 h2 h3
  cases cb with
  | true =>
    have hrun := sioRunHandlers_value
      { m_ws := ws, m_cb := true, m_ccb := ccb, m_on := reg,
        trace := tr ++ [SioEvent.cb (slice ws.rx_buf (pre.length + 2)
          (((eventText (a :: ks) val (tl ++ [last])).length : Int)).toNat)
          ((eventText (a :: ks) val (tl ++ [last])).length : Int) 50] }
      (pre ++ 52 :: 50 :: 91 :: 34 :: a :: ks) val tl post (a :: ks) last
      (pre.length + 2 + 3 + ks.length) ((3 + val.length + tl.length : Nat) : Int)
      hbx (by simp; omega) rfl hval hhead hlast hnz htl
    unfold sioOnEvent
    simp only [if_true, h1, h2, h3]
    rw [if_pos hne, if_pos ⟨by push_cast; omega, hreg⟩, hrun, hsl, hfin]
  | false =>
    have hrun := sioRunHandlers_value
      { m_ws := ws, m_cb := false, m_ccb := ccb, m_on := reg, trace := tr }
      (pre ++ 52 :: 50 :: 91 :: 34 :: a :: ks) val tl post (a :: ks) last
      (pre.length + 2 + 3 + ks.length) ((3 + val.length + tl.length : Nat) : Int)
      hbx (by simp; omega) rfl hval hhead hlast hnz htl
    unfold sioOnEvent
    simp only [Bool.false_eq_true, if_false, h1, h2, h3]
    rw [if_pos hne, if_pos ⟨by push_cast; omega, hreg⟩, hrun, hfin]
    simp

/-- The keyed dispatch in terms of the extracted key. -/
theorem onText_eq (c : WebSocketClient) (cnt : Int) :
    onText c cnt =
      if c.m_on.length ≠ 0 then
        match c.m_on.find? (fun p => p.1 = extractedKey c.rx_buf c.ws_msg cnt) with
        | some itr =>
          if (scanKey c.rx_buf (skipOpen c.rx_buf cnt.toNat c.ws_msg cnt false).2.2
                ((skipOpen c.rx_buf cnt.toNat c.ws_msg cnt false).2.1 - 1).toNat
                ((skipOpen c.rx_buf cnt.toNat c.ws_msg cnt false).1 + 1)
                ((skipOpen c.rx_buf cnt.toNat c.ws_msg cnt false).2.1 - 1)).2 > 1 then
            runHandler c (extractedKey c.rx_buf c.ws_msg cnt) itr.2
              (scanKey c.rx_buf (skipOpen c.rx_buf cnt.toNat c.ws_msg cnt false).2.2
                ((skipOpen c.rx_buf cnt.toNat c.ws_msg cnt false).2.1 - 1).toNat
                ((skipOpen c.rx_buf cnt.toNat c.ws_msg cnt false).1 + 1)
                ((skipOpen c.rx_buf cnt.toNat c.ws_msg cnt false).2.1 - 1)).1
              (scanKey c.rx_buf (skipOpen c.rx_buf cnt.toNat c.ws_msg cnt false).2.2
                ((skipOpen c.rx_buf cnt.toNat c.ws_msg cnt false).2.1 - 1).toNat
                ((skipOpen c.rx_buf cnt.toNat c.ws_msg cnt false).1 + 1)
                ((skipOpen c.rx_buf cnt.toNat c.ws_msg cnt false).2.1 - 1)).2
          else c
        | none => c
      else c := rfl

theorem find_none_of_forall (reg : List (List Nat × Nat)) (key : List Nat)
    (h : ∀ p ∈ reg, p.1 ≠ key) : reg.find? (fun p => p.1 = key) = none := by
  rw [List.find?_eq_none]
  intro p hp
  simpa using h p hp

theorem dropWhile_nil_of_forall (reg : List (List Nat × Nat)) (key : List Nat)
    (h : ∀ p ∈ reg, p.1 ≠ key) : reg.dropWhile (fun p => p.1 ≠ key) = [] := by
  rw [List.dropWhile_eq_nil_iff]
  intro p hp
  simpa using h p hp

/-- The keyed dispatch when the extracted key is not registered: nothing happens. -/
theorem onText_unregistered (c : WebSocketClient) (cnt : Int)
    (h : ∀ p ∈ c.m_on, p.1 ≠ extractedKey c.rx_buf c.ws_msg cnt) : onText c cnt = c := by
  rw [onText_eq, find_none_of_forall c.m_on _ h]
  split_ifs <;> rfl

/-- The Socket.IO EVENT branch in terms of the extracted key. -/
theorem sioOnEvent_unregistered (s : SocketIoClient) (data : Nat) (lData : Int)
    (h : ∀ p ∈ s.m_on, p.1 ≠ extractedKey s.m_ws.rx_buf data lData) :
    sioOnEvent s data lData =
      if s.m_cb = true then
        { s with trace := s.trace
            ++ [SioEvent.cb (slice s.m_ws.rx_buf data lData.toNat) lData 50] }
      else s := by
  have hd := dropWhile_nil_of_forall s.m_on _ h
  unfold extractedKey at hd
  obtain ⟨ws, cb, ccb, reg, tr⟩ := s
  simp only at hd
  unfold sioOnEvent
  cases cb with
  | true =>
    simp only [if_true, hd]
    split_ifs with h1 h2
    · exact absurd rfl h2.2
    · rfl
    · rfl
  | false =>
    simp only [Bool.false_eq_true, if_false, hd]
    split_ifs with h1 h2
    · exact absurd rfl h2.2
    · rfl
    · rfl

/-- The keyed dispatch on a payload that ends with the quote behind the key: no handler
is called, whatever the registry holds. -/
theorem onText_key_only (c : WebSocketClient) (pre post k : List Nat) (cnt : Int)
    (hk : k ≠ []) (hkb : ∀ b ∈ k, b < 256 ∧ b ≠ 34 ∧ b ≠ 44)
    (hk0 : ∀ b, k.head? = some b → b ≠ 91 ∧ b ≠ 32)
    (hbuf : c.rx_buf = pre ++ ([91, 34] ++ k ++ [34]) ++ post)
    (hmsg : c.ws_msg = pre.length)
    (hcnt : cnt = ((k.length + 3 : Nat) : Int)) :
    onText c cnt = c := by
  obtain ⟨a, ks, rfl, ha, hks⟩ := key_shape k hk hkb hk0
  obtain ⟨h1, h2, _⟩ := extract_key c.rx_buf pre ks post a cnt
    (by rw [hbuf]; simp) (by rw [hcnt]; simp; omega) ha hks
  rw [← hmsg] at h1 h2
  have hlen : ¬ cnt - ((3 + ks.length : Nat) : Int) > 1 := by
    rw [hcnt]
    simp
    omega
  rw [onText_eq]
  simp only [h1]
  simp only [h2, if_neg hlen]
  split_ifs
  · cases List.find? _ c.m_on <;> rfl
  · rfl

/-- C14 (amended): for a key `k` that is not empty, holds no `"` and no `,` and does not
begin with `[` or a space, and a string `v` of bytes other than NUL, the text payload
`["k","v"]` makes the WebSocket client return 1 from `onWsFrame` after one call of the
handler registered under `k`, and makes the Socket.IO client call the first handler
registered under `k` (then the entries that follow it in the registry); the value passed
is `"v"` with its quotes, of length `|v| + 2` in the WebSocket client. -/
theorem quoted_value_dispatch (e : SendEnv) (c : WebSocketClient) (s : SocketIoClient)
    (pre post spre spost k v : List Nat) (id sid : Nat)
    (more : List (List Nat × Nat))
    (hk : k ≠ []) (hkb : ∀ b ∈ k, b < 256 ∧ b ≠ 34 ∧ b ≠ 44)
    (hk0 : ∀ b, k.head? = some b → b ≠ 91 ∧ b ≠ 32)
    (hv : ∀ b ∈ v, b < 256 ∧ b ≠ 0) :
    (c.ws_frame_type = WS_FR_OP_TXT →
      c.rx_buf = pre ++ eventText k (quoted v) [93] ++ post →
      c.ws_msg = pre.length →
      c.ws_frame_size - c.ws_header_size = ((eventText k (quoted v) [93]).length : Int) →
      c.m_on.find? (fun p => p.1 = k) = some (k, id) →
      (onWsFrame e c).1 = 1
      ∧ (onWsFrame e c).2.trace
          = (callCb c ((eventText k (quoted v) [93]).length : Int) WS_FR_OP_TXT).trace
            ++ [Event.on k id (quoted v) ((v.length + 2 : Nat) : Int)])
    ∧ (s.m_ws.rx_buf = spre ++ [52, 50] ++ eventText k (quoted v) [93] ++ spost →
      s.m_on.dropWhile (fun p => p.1 ≠ k) = (k, sid) :: more →
      (sioMessage e s spre.length
          (((eventText k (quoted v) [93]).length + 2 : Nat) : Int)).trace
        = s.trace
          ++ (if s.m_cb = true then
                [SioEvent.cb (eventText k (quoted v) [93])
                  ((eventText k (quoted v) [93]).length : Int) 50]
              else [])
          ++ SioEvent.on k sid (quoted v)
              :: more.map (fun p => SioEvent.on p.1 p.2 (quoted v))) := by
  have hq : quoted v ≠ [] := by simp [quoted]
  have hhead : ∀ h, (quoted v).head? = some h → h % 256 ≠ 44 ∧ h % 256 ≠ 32 := by
    intro h hh
    simp [quoted] at hh
    subst hh
    decide
  have hlast : ∀ l, (quoted v).getLast? = some l → l % 256 ≠ 93 ∧ l % 256 ≠ 32 := by
    intro l hl
    have : (quoted v).getLast? = some 34 := by
      unfold quoted
      rw [List.getLast?_append]
      rfl
    rw [this] at hl
    cases hl
    decide
  have hnz : ∀ b ∈ quoted v, b % 256 ≠ 0 := by
    intro b hb
    simp [quoted] at hb
    rcases hb with rfl | hb | rfl
    · decide
    · have := hv b hb
      omega
    · decide
  constructor
  · intro ht hbuf hmsg hcnt hreg
    have h := onWsFrame_keyed e c pre post k (quoted v) [93] id hk hkb hk0 hq hhead hlast
      (by simp) ht hbuf hmsg hcnt hreg
    rw [h]
    refine ⟨rfl, ?_⟩
    simp [quoted]
    omega
  · intro hbuf hreg
    have h := sioMessage_keyed e s spre spost k (quoted v) [] 93 hk hkb hk0 hq
      (fun h hh => (hhead h hh).1) hlast hnz (by simp) hbuf (by rw [hreg]; simp)
    simp only [List.nil_append] at h
    rw [h, hreg]
    simp

/-- C14, instance of `quoted_value_dispatch`: the payload `["foo","bar"]` with `foo`
registered, in both clients. -/
theorem quoted_value_dispatch_witness :
    ((onWsFrame (okEnv 1 2 3 4 0)
        (textClient ([129, 13] ++ eventText [102, 111, 111] (quoted [98, 97, 114]) [93]) 13
          false [([102, 111, 111], 7)])).1 = 1
      ∧ (onWsFrame (okEnv 1 2 3 4 0)
        (textClient ([129, 13] ++ eventText [102, 111, 111] (quoted [98, 97, 114]) [93]) 13
          false [([102, 111, 111], 7)])).2.trace
        = [Event.on [102, 111, 111] 7 [34, 98, 97, 114, 34] 5])
    ∧ (sioMessage (okEnv 1 2 3 4 0)
        (sioClient ([52, 50] ++ eventText [102, 111, 111] (quoted [98, 97, 114]) [93]) false
          [([102, 111, 111], 7)]) 0 15).trace
        = [SioEvent.on [102, 111, 111] 7 [34, 98, 97, 114, 34]] :=
  ⟨(quoted_value_dispatch (okEnv 1 2 3 4 0)
      (textClient ([129, 13] ++ eventText [102, 111, 111] (quoted [98, 97, 114]) [93]) 13
        false [([102, 111, 111], 7)])
      (sioClient ([52, 50] ++ eventText [102, 111, 111] (quoted [98, 97, 114]) [93]) false
        [([102, 111, 111], 7)])
      [129, 13] [] [] [] [102, 111, 111] [98, 97, 114] 7 7 []
      (by decide) (by decide) (by decide) (by decide)).1 rfl rfl rfl rfl rfl,
   (quoted_value_dispatch (okEnv 1 2 3 4 0)
      (textClient ([129, 13] ++ eventText [102, 111, 111] (quoted [98, 97, 114]) [93]) 13
        false [([102, 111, 111], 7)])
      (sioClient ([52, 50] ++ eventText [102, 111, 111] (quoted [98, 97, 114]) [93]) false
        [([102, 111, 111], 7)])
      [129, 13] [] [] [] [102, 111, 111] [98, 97, 114] 7 7 []
      (by decide) (by decide) (by decide) (by decide)).2 rfl rfl⟩

/-- C14, counterexample: on the text frame `["foo","bar"]` with `foo` registered, the
WebSocket client passes the 5 bytes `"bar"` and the Socket.IO client the string `"bar"`,
quotes included; and a registered key that holds a comma, `a,b`, is never matched. -/
theorem quoted_value_not_stripped :
    (feedWsFrame (okEnv 1 2 3 4 0)
        (afterRecv (mkClient 16 false [([102, 111, 111], 7)])
          (serverFrame 1 1 false
            [91, 34, 102, 111, 111, 34, 44, 34, 98, 97, 114, 34, 93]))).2.trace
      = [Event.on [102, 111, 111] 7 [34, 98, 97, 114, 34] 5]
    ∧ (sioMessage (okEnv 1 2 3 4 0)
        (sioClient [52, 50, 91, 34, 102, 111, 111, 34, 44, 34, 98, 97, 114, 34, 93] false
          [([102, 111, 111], 7)]) 0 15).trace
      = [SioEvent.on [102, 111, 111] 7 [34, 98, 97, 114, 34]]
    ∧ (feedWsFrame (okEnv 1 2 3 4 0)
        (afterRecv (mkClient 16 false [([97, 44, 98], 7)])
          (serverFrame 1 1 false
            [91, 34, 97, 44, 98, 34, 44, 34, 118, 34, 93]))).2.trace = []
    ∧ (sioMessage (okEnv 1 2 3 4 0)
        (sioClient [52, 50, 91, 34, 97, 44, 98, 34, 44, 34, 118, 34, 93] false
          [([97, 44, 98], 7)]) 0 13).trace = [] := by
  decide

/-- C15 (amended): for a key `k` that is not empty, holds no `"` and no `,` and does not
begin with `[` or a space, and a token `n` that is not empty and holds none of NUL, `"`,
`,`, `]` and space, the text payload `["k",n]` makes the WebSocket client call the handler
registered under `k` with the `|n|` bytes of `n`, and the Socket.IO client call the first
handler registered under `k` with the string `n`. -/
theorem bare_value_dispatch (e : SendEnv) (c : WebSocketClient) (s : SocketIoClient)
    (pre post spre spost k n : List Nat) (id sid : Nat)
    (more : List (List Nat × Nat))
    (hk : k ≠ []) (hkb : ∀ b ∈ k, b < 256 ∧ b ≠ 34 ∧ b ≠ 44)
    (hk0 : ∀ b, k.head? = some b → b ≠ 91 ∧ b ≠ 32)
    (hn : n ≠ [])
    (hnb : ∀ b ∈ n, b < 256 ∧ b ≠ 0 ∧ b ≠ 34 ∧ b ≠ 44 ∧ b ≠ 93 ∧ b ≠ 32) :
    (c.ws_frame_type = WS_FR_OP_TXT →
      c.rx_buf = pre ++ eventText k n [93] ++ post →
      c.ws_msg = pre.length →
      c.ws_frame_size - c.ws_header_size = ((eventText k n [93]).length : Int) →
      c.m_on.find? (fun p => p.1 = k) = some (k, id) →
      (onWsFrame e c).1 = 1
      ∧ (onWsFrame e c).2.trace
          = (callCb c ((eventText k n [93]).length : Int) WS_FR_OP_TXT).trace
            ++ [Event.on k id n (n.length : Int)])
    ∧ (s.m_ws.rx_buf = spre ++ [52, 50] ++ eventText k n [93] ++ spost →
      s.m_on.dropWhile (fun p => p.1 ≠ k) = (k, sid) :: more →
      (sioMessage e s spre.length (((eventText k n [93]).length + 2 : Nat) : Int)).trace
        = s.trace
          ++ (if s.m_cb = true then
                [SioEvent.cb (eventText k n [93]) ((eventText k n [93]).length : Int) 50]
              else [])
          ++ SioEvent.on k sid n :: more.map (fun p => SioEvent.on p.1 p.2 n)) := by
  have hhead : ∀ h, n.head? = some h → h % 256 ≠ 44 ∧ h % 256 ≠ 32 := by
    intro h hh
    have := hnb h (List.mem_of_mem_head? hh)
    omega
  have hlast : ∀ l, n.getLast? = some l → l % 256 ≠ 93 ∧ l % 256 ≠ 32 := by
    intro l hl
    have := hnb l (List.mem_of_mem_getLast? hl)
    omega
  have hnz : ∀ b ∈ n, b % 256 ≠ 0 := by
    intro b hb
    have := hnb b hb
    omega
  constructor
  · intro ht hbuf hmsg hcnt hreg
    have h := onWsFrame_keyed e c pre post k n [93] id hk hkb hk0 hn hhead hlast
      (by simp) ht hbuf hmsg hcnt hreg
    rw [h]
    exact ⟨rfl, rfl⟩
  · intro hbuf hreg
    have h := sioMessage_keyed e s spre spost k n [] 93 hk hkb hk0 hn
      (fun h hh => (hhead h hh).1) hlast hnz (by simp) hbuf (by rw [hreg]; simp)
    simp only [List.nil_append] at h
    rw [h, hreg]
    simp

/-- C15, instance of `bare_value_dispatch`: the payload `["foo",42]` with `foo`
registered, in both clients. -/
theorem bare_value_dispatch_witness :
    ((onWsFrame (okEnv 1 2 3 4 0)
        (textClient ([129, 10] ++ eventText [102, 111, 111] [52, 50] [93]) 10
          false [([102, 111, 111], 7)])).1 = 1
      ∧ (onWsFrame (okEnv 1 2 3 4 0)
        (textClient ([129, 10] ++ eventText [102, 111, 111] [52, 50] [93]) 10
          false [([102, 111, 111], 7)])).2.trace
        = [Event.on [102, 111, 111] 7 [52, 50] 2])
    ∧ (sioMessage (okEnv 1 2 3 4 0)
        (sioClient ([52, 50] ++ eventText [102, 111, 111] [52, 50] [93]) false
          [([102, 111, 111], 7)]) 0 12).trace
        = [SioEvent.on [102, 111, 111] 7 [52, 50]] :=
  ⟨(bare_value_dispatch (okEnv 1 2 3 4 0)
      (textClient ([129, 10] ++ eventText [102, 111, 111] [52, 50] [93]) 10
        false [([102, 111, 111], 7)])
      (sioClient ([52, 50] ++ eventText [102, 111, 111] [52, 50] [93]) false
        [([102, 111, 111], 7)])
      [129, 10] [] [] [] [102, 111, 111] [52, 50] 7 7 []
      (by decide) (by decide) (by decide) (by decide) (by decide)).1 rfl rfl rfl rfl rfl,
   (bare_value_dispatch (okEnv 1 2 3 4 0)
      (textClient ([129, 10] ++ eventText [102, 111, 111] [52, 50] [93]) 10
        false [([102, 111, 111], 7)])
      (sioClient ([52, 50] ++ eventText [102, 111, 111] [52, 50] [93]) false
        [([102, 111, 111], 7)])
      [129, 10] [] [] [] [102, 111, 111] [52, 50] 7 7 []
      (by decide) (by decide) (by decide) (by decide) (by decide)).2 rfl rfl⟩

/-- C15, counterexample: with the key `a,b` registered, the text frame `["a,b",42]` calls
no handler in either client: the extractor reads the key `a`. -/
theorem bare_value_key_with_comma :
    (feedWsFrame (okEnv 1 2 3 4 0)
        (afterRecv (mkClient 16 false [([97, 44, 98], 7)])
          (serverFrame 1 1 false [91, 34, 97, 44, 98, 34, 44, 52, 50, 93]))).2.trace = []
    ∧ extractedKey [91, 34, 97, 44, 98, 34, 44, 52, 50, 93] 0 10 = [97]
    ∧ (sioMessage (okEnv 1 2 3 4 0)
        (sioClient [52, 50, 91, 34, 97, 44, 98, 34, 44, 52, 50, 93] false
          [([97, 44, 98], 7)]) 0 12).trace = [] := by
  decide

/-- C16: when the key extracted from a text frame is not in the registry, `onWsFrame`
returns 1 and runs nothing but the generic callback (no keyed handler, the buffer and
`m_connected` as they were); likewise the EVENT branch of the Socket.IO client runs
nothing but the generic callback. -/
theorem unregistered_key_ignored (e : SendEnv) (c : WebSocketClient) (s : SocketIoClient)
    (data : Nat) (lData : Int) :
    (c.ws_frame_type = WS_FR_OP_TXT →
      (∀ p ∈ c.m_on, p.1 ≠ extractedKey c.rx_buf c.ws_msg
        (c.ws_frame_size - c.ws_header_size)) →
      onWsFrame e c
          = (1, callCb c (c.ws_frame_size - c.ws_header_size) WS_FR_OP_TXT)
        ∧ (onWsFrame e c).2.m_connected = c.m_connected)
    ∧ ((∀ p ∈ s.m_on, p.1 ≠ extractedKey s.m_ws.rx_buf data lData) →
      sioOnEvent s data lData =
        if s.m_cb = true then
          { s with trace := s.trace
              ++ [SioEvent.cb (slice s.m_ws.rx_buf data lData.toNat) lData 50] }
        else s) := by
  constructor
  · intro ht hreg
    obtain ⟨s1, s2, s3, s4⟩ := callCb_same c (c.ws_frame_size - c.ws_header_size) WS_FR_OP_TXT
    have h : onWsFrame e c
        = (1, callCb c (c.ws_frame_size - c.ws_header_size) WS_FR_OP_TXT) := by
      rw [onWsFrame_text e c ht, onText_unregistered]
      rw [s1, s2, s3]
      exact hreg
    rw [h]
    exact ⟨rfl, s4⟩
  · exact sioOnEvent_unregistered s data lData

/-- C16, instance of `unregistered_key_ignored`: the payload `["zzz",1]` with only `foo`
registered, in both clients. -/
theorem unregistered_key_ignored_witness :
    (onWsFrame (okEnv 1 2 3 4 0)
        (textClient ([129, 9] ++ eventText [122, 122, 122] [49] [93]) 9 true
          [([102, 111, 111], 7)])
      = (1, callCb (textClient ([129, 9] ++ eventText [122, 122, 122] [49] [93]) 9 true
          [([102, 111, 111], 7)]) 9 WS_FR_OP_TXT)
      ∧ (onWsFrame (okEnv 1 2 3 4 0)
        (textClient ([129, 9] ++ eventText [122, 122, 122] [49] [93]) 9 true
          [([102, 111, 111], 7)])).2.m_connected = true)
    ∧ sioOnEvent (sioClient ([52, 50] ++ eventText [122, 122, 122] [49] [93]) false
          [([102, 111, 111], 7)]) 2 9
      = sioClient ([52, 50] ++ eventText [122, 122, 122] [49] [93]) false
          [([102, 111, 111], 7)] :=
  ⟨(unregistered_key_ignored (okEnv 1 2 3 4 0)
      (textClient ([129, 9] ++ eventText [122, 122, 122] [49] [93]) 9 true
        [([102, 111, 111], 7)])
      (sioClient ([52, 50] ++ eventText [122, 122, 122] [49] [93]) false
        [([102, 111, 111], 7)]) 2 9).1 rfl (by decide),
   (unregistered_key_ignored (okEnv 1 2 3 4 0)
      (textClient ([129, 9] ++ eventText [122, 122, 122] [49] [93]) 9 true
        [([102, 111, 111], 7)])
      (sioClient ([52, 50] ++ eventText [122, 122, 122] [49] [93]) false
        [([102, 111, 111], 7)]) 2 9).2 (by decide)⟩

/-- The EVENT branch of the Socket.IO client on a payload that ends with the quote
behind the key: nothing but the generic callback runs, whatever the registry holds. -/
theorem sioOnEvent_key_only (s : SocketIoClient) (pre post k : List Nat) (data : Nat)
    (lData : Int)
    (hk : k ≠ []) (hkb : ∀ b ∈ k, b < 256 ∧ b ≠ 34 ∧ b ≠ 44)
    (hk0 : ∀ b, k.head? = some b → b ≠ 91 ∧ b ≠ 32)
    (hbuf : s.m_ws.rx_buf = pre ++ ([91, 34] ++ k ++ [34]) ++ post)
    (hdata : data = pre.length)
    (hl : lData = ((k.length + 3 : Nat) : Int)) :
    sioOnEvent s data lData =
      if s.m_cb = true then
        { s with trace := s.trace
            ++ [SioEvent.cb (slice s.m_ws.rx_buf data lData.toNat) lData 50] }
      else s := by
  obtain ⟨a, ks, rfl, ha, hks⟩ := key_shape k hk hkb hk0
  obtain ⟨h1, h2, _⟩ := extract_key s.m_ws.rx_buf pre ks post a lData
    (by rw [hbuf]; simp) (by rw [hl]; simp; omega) ha hks
  rw [← hdata] at h1 h2
  have hlen : ¬ lData - ((3 + ks.length : Nat) : Int) > 1 := by
    rw [hl]
    simp
    omega
  obtain ⟨ws, cb, ccb, reg, tr⟩ := s
  simp only at h1 h2
  unfold sioOnEvent
  cases cb with
  | true =>
    simp only [if_true, h1, h2]
    split_ifs with h3 h4
    · exact absurd h4.1 hlen
    · rfl
    · rfl
  | false =>
    simp only [Bool.false_eq_true, if_false, h1, h2]
    split_ifs with h3 h4
    · exact absurd h4.1 hlen
    · rfl
    · rfl

/-- C17 (amended): a text payload `["k",value` that lacks the closing bracket is
dispatched all the same.  For a well-formed key `k` registered, a value `val` followed by
a last byte other than `]` and space: the WebSocket client calls the handler with
`val` and the last byte, the Socket.IO client calls it with `val` (it overwrites the last
byte of every payload).  No handler is called when the payload ends behind the key
(`["k"`). -/
theorem missing_bracket_dispatch (e : SendEnv) (c : WebSocketClient) (s : SocketIoClient)
    (pre post spre spost k val : List Nat) (last id sid : Nat)
    (more : List (List Nat × Nat))
    (hk : k ≠ []) (hkb : ∀ b ∈ k, b < 256 ∧ b ≠ 34 ∧ b ≠ 44)
    (hk0 : ∀ b, k.head? = some b → b ≠ 91 ∧ b ≠ 32)
    (hval : val ≠ [])
    (hvb : ∀ b ∈ val, b < 256 ∧ b ≠ 0)
    (hhead : ∀ h, val.head? = some h → h ≠ 44 ∧ h ≠ 32)
    (hvl : ∀ l, val.getLast? = some l → l ≠ 93 ∧ l ≠ 32)
    (hlast : last < 256 ∧ last ≠ 93 ∧ last ≠ 32) :
    (c.ws_frame_type = WS_FR_OP_TXT →
      c.rx_buf = pre ++ eventText k (val ++ [last]) [] ++ post →
      c.ws_msg = pre.length →
      c.ws_frame_size - c.ws_header_size
        = ((eventText k (val ++ [last]) []).length : Int) →
      c.m_on.find? (fun p => p.1 = k) = some (k, id) →
      (onWsFrame e c).2.trace
          = (callCb c ((eventText k (val ++ [last]) []).length : Int) WS_FR_OP_TXT).trace
            ++ [Event.on k id (val ++ [last]) ((val.length + 1 : Nat) : Int)])
    ∧ (s.m_ws.rx_buf = spre ++ [52, 50] ++ eventText k (val ++ [last]) [] ++ spost →
      s.m_on.dropWhile (fun p => p.1 ≠ k) = (k, sid) :: more →
      (sioMessage e s spre.length
          (((eventText k (val ++ [last]) []).length + 2 : Nat) : Int)).trace
        = s.trace
          ++ (if s.m_cb = true then
                [SioEvent.cb (eventText k (val ++ [last]) [])
                  ((eventText k (val ++ [last]) []).length : Int) 50]
              else [])
          ++ SioEvent.on k sid val :: more.map (fun p => SioEvent.on p.1 p.2 val))
    ∧ (c.ws_frame_type = WS_FR_OP_TXT →
      c.rx_buf = pre ++ ([91, 34] ++ k ++ [34]) ++ post →
      c.ws_msg = pre.length →
      c.ws_frame_size - c.ws_header_size = ((k.length + 3 : Nat) : Int) →
      onWsFrame e c = (1, callCb c ((k.length + 3 : Nat) : Int) WS_FR_OP_TXT))
    ∧ (s.m_ws.rx_buf = spre ++ ([91, 34] ++ k ++ [34]) ++ spost →
      sioOnEvent s spre.length ((k.length + 3 : Nat) : Int) =
        if s.m_cb = true then
          { s with trace := s.trace
              ++ [SioEvent.cb (slice s.m_ws.rx_buf spre.length
                    (((k.length + 3 : Nat) : Int)).toNat) ((k.length + 3 : Nat) : Int) 50] }
        else s) := by
  have hh1 : ∀ h, (val ++ [last]).head? = some h → h % 256 ≠ 44 ∧ h % 256 ≠ 32 := by
    intro h hh
    cases val with
    | nil => exact absurd rfl hval
    | cons v0 vs =>
      simp at hh
      subst hh
      have h1 := hhead v0 rfl
      have h2 := hvb v0 (List.mem_cons_self _ _)
      omega
  have hl1 : ∀ l, (val ++ [last]).getLast? = some l → l % 256 ≠ 93 ∧ l % 256 ≠ 32 := by
    intro l hl
    simp at hl
    subst hl
    omega
  have hh2 : ∀ h, val.head? = some h → h % 256 ≠ 44 := by
    intro h hh
    have h1 := hhead h hh
    have h2 := hvb h (List.mem_of_mem_head? hh)
    omega
  have hl2 : ∀ l, val.getLast? = some l → l % 256 ≠ 93 ∧ l % 256 ≠ 32 := by
    intro l hl
    have h1 := hvl l hl
    have h2 := hvb l (List.mem_of_mem_getLast? hl)
    omega
  have hnz : ∀ b ∈ val, b % 256 ≠ 0 := by
    intro b hb
    have := hvb b hb
    omega
  have het : eventText k (val ++ [last]) [] = eventText k val ([] ++ [last]) := by
    simp [eventText]
  refine ⟨?_, ?_, ?_, ?_⟩
  · intro ht hbuf hmsg hcnt hreg
    have h := onWsFrame_keyed e c pre post k (val ++ [last]) [] id hk hkb hk0 (by simp)
      hh1 hl1 (by simp) ht hbuf hmsg hcnt hreg
    rw [h]
    simp
  · intro hbuf hreg
    rw [het] at hbuf ⊢
    have h := sioMessage_keyed e s spre spost k val [] last hk hkb hk0 hval hh2 hl2 hnz
      (by simp) hbuf (by rw [hreg]; simp)
    rw [h, hreg]
    simp
  · intro ht hbuf hmsg hcnt
    obtain ⟨s1, s2, _, _⟩ := callCb_same c ((k.length + 3 : Nat) : Int) WS_FR_OP_TXT
    rw [onWsFrame_text e c ht, hcnt]
    rw [onText_key_only _ pre post k _ hk hkb hk0 (by rw [s1]; exact hbuf)
      (by rw [s2]; exact hmsg) rfl]
  · intro hbuf
    exact sioOnEvent_key_only s spre spost k _ _ hk hkb hk0 hbuf rfl rfl

/-- C17, instance of `missing_bracket_dispatch`: the payloads `["foo","bar"` and `["foo"`
with `foo` registered, in both clients. -/
theorem missing_bracket_dispatch_witness :
    (onWsFrame (okEnv 1 2 3 4 0)
        (textClient ([129, 12] ++ eventText [102, 111, 111] [34, 98, 97, 114, 34] []) 12
          false [([102, 111, 111], 7)])).2.trace
        = [Event.on [102, 111, 111] 7 [34, 98, 97, 114, 34] 5]
    ∧ (sioMessage (okEnv 1 2 3 4 0)
        (sioClient ([52, 50] ++ eventText [102, 111, 111] [34, 98, 97, 114, 34] []) false
          [([102, 111, 111], 7)]) 0 14).trace
        = [SioEvent.on [102, 111, 111] 7 [34, 98, 97, 114]]
    ∧ onWsFrame (okEnv 1 2 3 4 0)
        (textClient [129, 6, 91, 34, 102, 111, 111, 34] 6 false [([102, 111, 111], 7)])
        = (1, textClient [129, 6, 91, 34, 102, 111, 111, 34] 6 false [([102, 111, 111], 7)])
    ∧ sioOnEvent (sioClient [52, 50, 91, 34, 102, 111, 111, 34] false
          [([102, 111, 111], 7)]) 2 6
        = sioClient [52, 50, 91, 34, 102, 111, 111, 34] false [([102, 111, 111], 7)] :=
  ⟨(missing_bracket_dispatch (okEnv 1 2 3 4 0)
      (textClient ([129, 12] ++ eventText [102, 111, 111] [34, 98, 97, 114, 34] []) 12
        false [([102, 111, 111], 7)])
      (sioClient ([52, 50] ++ eventText [102, 111, 111] [34, 98, 97, 114, 34] []) false
        [([102, 111, 111], 7)])
      [129, 12] [] [] [] [102, 111, 111] [34, 98, 97, 114] 34 7 7 []
      (by decide) (by decide) (by decide) (by decide) (by decide) (by decide) (by decide)
      (by decide)).1 rfl rfl rfl rfl rfl,
   (missing_bracket_dispatch (okEnv 1 2 3 4 0)
      (textClient ([129, 12] ++ eventText [102, 111, 111] [34, 98, 97, 114, 34] []) 12
        false [([102, 111, 111], 7)])
      (sioClient ([52, 50] ++ eventText [102, 111, 111] [34, 98, 97, 114, 34] []) false
        [([102, 111, 111], 7)])
      [129, 12] [] [] [] [102, 111, 111] [34, 98, 97, 114] 34 7 7 []
      (by decide) (by decide) (by decide) (by decide) (by decide) (by decide) (by decide)
      (by decide)).2.1 rfl rfl,
   (missing_bracket_dispatch (okEnv 1 2 3 4 0)
      (textClient [129, 6, 91, 34, 102, 111, 111, 34] 6 false [([102, 111, 111], 7)])
      (sioClient [52, 50, 91, 34, 102, 111, 111, 34] false [([102, 111, 111], 7)])
      [129, 6] [] [52, 50] [] [102, 111, 111] [34, 98, 97, 114] 34 7 7 []
      (by decide) (by decide) (by decide) (by decide) (by decide) (by decide) (by decide)
      (by decide)).2.2.1 rfl rfl rfl rfl,
   (missing_bracket_dispatch (okEnv 1 2 3 4 0)
      (textClient [129, 6, 91, 34, 102, 111, 111, 34] 6 false [([102, 111, 111], 7)])
      (sioClient [52, 50, 91, 34, 102, 111, 111, 34] false [([102, 111, 111], 7)])
      [129, 6] [] [52, 50] [] [102, 111, 111] [34, 98, 97, 114] 34 7 7 []
      (by decide) (by decide) (by decide) (by decide) (by decide) (by decide) (by decide)
      (by decide)).2.2.2 rfl⟩

/-- C17, counterexample: the text frame `["foo","bar"`, without closing bracket, calls the
handler registered under `foo`: with the 5 bytes `"bar"` in the WebSocket client, with
the string `"bar` in the Socket.IO client. -/
theorem missing_bracket_still_matches :
    (feedWsFrame (okEnv 1 2 3 4 0)
        (afterRecv (mkClient 16 false [([102, 111, 111], 7)])
          (serverFrame 1 1 false
            [91, 34, 102, 111, 111, 34, 44, 34, 98, 97, 114, 34]))).2.trace
      = [Event.on [102, 111, 111] 7 [34, 98, 97, 114, 34] 5]
    ∧ (sioMessage (okEnv 1 2 3 4 0)
        (sioClient [52, 50, 91, 34, 102, 111, 111, 34, 44, 34, 98, 97, 114, 34] false
          [([102, 111, 111], 7)]) 0 14).trace
      = [SioEvent.on [102, 111, 111] 7 [34, 98, 97, 114]] := by
  decide

/-! ## C18 to C20: the registries -/

/-- Registering under a key a second time changes nothing: `std::map::insert` keeps the
entry it finds. -/
theorem mapInsert_idem (k : List Nat) (f f1 : Nat) : ∀ (l : List (List Nat × Nat)),
    mapInsert k f (mapInsert k f1 l) = mapInsert k f1 l := by
  intro l
  induction l with
  | nil => simp [mapInsert]
  | cons p r ih =>
    by_cases h1 : p.1 = k
    · simp [mapInsert, h1]
    · by_cases h2 : strLess k p.1 = true
      · simp [mapInsert, h1, h2]
      · simp [mapInsert, h1, h2, ih]

theorem find_mapInsert (k : List Nat) (f1 : Nat) : ∀ (l : List (List Nat × Nat)),
    (∀ p ∈ l, p.1 ≠ k) → (mapInsert k f1 l).find? (fun p => p.1 = k) = some (k, f1) := by
  intro l
  induction l with
  | nil =>
    intro _
    simp [mapInsert]
  | cons p r ih =>
    intro h
    have h1 : p.1 ≠ k := h p (List.mem_cons_self _ _)
    by_cases h2 : strLess k p.1 = true
    · simp [mapInsert, h1, h2]
    · simp [mapInsert, h1, h2, ih (fun q hq => h q (List.mem_cons_of_mem _ hq))]

theorem wsOn_again (c : WebSocketClient) (k : List Nat) (f1 : Nat) : ∀ (fs : List Nat),
    fs.foldl (fun c f => wsOn c k f) (wsOn c k f1) = wsOn c k f1 := by
  intro fs
  induction fs with
  | nil => rfl
  | cons f fs ih =>
    rw [List.foldl_cons]
    have h : wsOn (wsOn c k f1) k f = wsOn c k f1 := by
      unfold wsOn
      simp only [mapInsert_idem]
    rw [h, ih]

/-- C18 (amended): the registry of the WebSocket client keeps one callback for a key.
After `on(k, f1)` for a key `k` not yet registered and any further `on(k, f)`, the
client is as after `on(k, f1)` alone, and a text frame `["k",value]` calls `f1` once and
no other callback. -/
theorem ws_registry_single_callback (e : SendEnv) (c : WebSocketClient)
    (pre post k val : List Nat) (f1 : Nat) (fs : List Nat)
    (hfresh : ∀ p ∈ c.m_on, p.1 ≠ k)
    (hk : k ≠ []) (hkb : ∀ b ∈ k, b < 256 ∧ b ≠ 34 ∧ b ≠ 44)
    (hk0 : ∀ b, k.head? = some b → b ≠ 91 ∧ b ≠ 32)
    (hval : val ≠ [])
    (hvb : ∀ b ∈ val, b < 256)
    (hhead : ∀ h, val.head? = some h → h ≠ 44 ∧ h ≠ 32)
    (hvl : ∀ l, val.getLast? = some l → l ≠ 93 ∧ l ≠ 32)
    (ht : c.ws_frame_type = WS_FR_OP_TXT)
    (hbuf : c.rx_buf = pre ++ eventText k val [93] ++ post)
    (hmsg : c.ws_msg = pre.length)
    (hcnt : c.ws_frame_size - c.ws_header_size = ((eventText k val [93]).length : Int)) :
    fs.foldl (fun c f => wsOn c k f) (wsOn c k f1) = wsOn c k f1
    ∧ (onWsFrame e (fs.foldl (fun c f => wsOn c k f) (wsOn c k f1))).2.trace
        = (callCb c ((eventText k val [93]).length : Int) WS_FR_OP_TXT).trace
          ++ [Event.on k f1 val (val.length : Int)] := by
  have hh : ∀ h, val.head? = some h → h % 256 ≠ 44 ∧ h % 256 ≠ 32 := by
    intro h hh
    have h1 := hhead h hh
    have h2 := hvb h (List.mem_of_mem_head? hh)
    omega
  have hl : ∀ l, val.getLast? = some l → l % 256 ≠ 93 ∧ l % 256 ≠ 32 := by
    intro l hl
    have h1 := hvl l hl
    have h2 := hvb l (List.mem_of_mem_getLast? hl)
    omega
  refine ⟨wsOn_again c k f1 fs, ?_⟩
  rw [wsOn_again c k f1 fs]
  have h := onWsFrame_keyed e (wsOn c k f1) pre post k val [93] f1 hk hkb hk0 hval hh hl
    (by simp) ht hbuf hmsg hcnt (find_mapInsert k f1 c.m_on hfresh)
  rw [h]
  unfold callCb wsOn
  split_ifs <;> rfl

/-- C18, instance of `ws_registry_single_callback`: callbacks 1, 2 and 3 registered
under `foo`, then the text frame `["foo",42]`. -/
theorem ws_registry_single_callback_witness :
    [2, 3].foldl (fun c f => wsOn c [102, 111, 111] f)
        (wsOn (textClient ([129, 10] ++ eventText [102, 111, 111] [52, 50] [93]) 10
          false []) [102, 111, 111] 1)
      = wsOn (textClient ([129, 10] ++ eventText [102, 111, 111] [52, 50] [93]) 10
          false []) [102, 111, 111] 1
    ∧ (onWsFrame (okEnv 1 2 3 4 0)
        ([2, 3].foldl (fun c f => wsOn c [102, 111, 111] f)
          (wsOn (textClient ([129, 10] ++ eventText [102, 111, 111] [52, 50] [93]) 10
            false []) [102, 111, 111] 1))).2.trace
      = [Event.on [102, 111, 111] 1 [52, 50] 2] :=
  ws_registry_single_callback (okEnv 1 2 3 4 0)
    (textClient ([129, 10] ++ eventText [102, 111, 111] [52, 50] [93]) 10 false [])
    [129, 10] [] [102, 111, 111] [52, 50] 1 [2, 3]
    (by decide) (by decide) (by decide) (by decide) (by decide) (by decide) (by decide)
    (by decide) rfl rfl rfl rfl

/-- C18, counterexample: after `on("foo", 1)` and `on("foo", 2)` the registry of the
WebSocket client holds the callback 1 alone, and the text frame `["foo",42]` calls it
once; the callback 2 is not called. -/
theorem ws_registry_drops_duplicates :
    (wsOn (wsOn (mkClient 16 false []) [102, 111, 111] 1) [102, 111, 111] 2).m_on
      = [([102, 111, 111], 1)]
    ∧ (feedWsFrame (okEnv 1 2 3 4 0)
        (afterRecv (wsOn (wsOn (mkClient 16 false []) [102, 111, 111] 1) [102, 111, 111] 2)
          (serverFrame 1 1 false [91, 34, 102, 111, 111, 34, 44, 52, 50, 93]))).2.trace
      = [Event.on [102, 111, 111] 1 [52, 50] 2] := by
  decide

/-- C19 (code defect): with `a` and `b` registered in the Socket.IO client, the EVENT
`42["a",1]` calls the handler of `a` and then the handler of `b`: the loop of the
dispatch runs from the first entry under the key to the end of the registry. -/
theorem sio_dispatch_runs_later_keys :
    (sioOn (sioOn (sioClient [52, 50, 91, 34, 97, 34, 44, 49, 93] false []) [97] 1)
        [98] 2).m_on = [([97], 1), ([98], 2)]
    ∧ (sioMessage (okEnv 1 2 3 4 0)
        (sioOn (sioOn (sioClient [52, 50, 91, 34, 97, 34, 44, 49, 93] false []) [97] 1)
          [98] 2) 0 9).trace
      = [SioEvent.on [97] 1 [49], SioEvent.on [98] 2 [49]] := by
  decide

/-- C20 (code defect): with `a` and `b` registered in the Socket.IO client, `off("a")`
leaves the registry empty: the loop of `off` collects every entry from the first one
under the key to the end of the registry. -/
theorem sio_off_removes_later_keys :
    (sioOn (sioOn (sioClient [] false []) [97] 1) [98] 2).m_on = [([97], 1), ([98], 2)]
    ∧ (sioOff (sioOn (sioOn (sioClient [] false []) [97] 1) [98] 2) [97]).m_on = [] := by
  decide

/-! ## C21: the Socket.IO handshake tokens -/

/-- The frame that `send` builds for a short text of bytes, unmasked by the peer. -/
theorem unmask_text (p rest : List Nat) (masks : List Nat) (hn : p.length ≤ 125)
    (hm : ∀ j, masks.getD j 0 < 256) (hb : ∀ b ∈ p, b < 256) :
    unmaskFrame (sendFrame (p ++ rest) p.length WS_FR_OP_TXT masks)
      = serverFrame 1 1 false p := by
  rw [ sendFrame_prefix p rest WS_FR_OP_TXT masks (by omega),
    unmaskFrame_sendFrame p WS_FR_OP_TXT masks (by omega) (by decide) hm hb]
  have h : decide (125 < p.length) = false := by simp; omega
  rw [h]
  rfl

/-- C21 (amended): on a connect of the underlying WebSocket client the connection
callback installed by the Socket.IO client calls `send` twice, first with the text
`2probe`, then with the text `5`, and runs no callback of the application (its own
connected callback is not called).  When for both calls the transport is writable, a
buffer is available and the lock is taken, exactly two frames are handed to the
transport, in this order: text frames that unmask to the payloads `2probe` and `5`. -/
theorem sio_connect_tokens (e1 e2 : SendEnv) (s : SocketIoClient) :
    (sioConnectCB e1 e2 s true).trace = s.trace
    ∧ (sioConnectCB e1 e2 s true).m_ws
        = (send e2 (send e1 s.m_ws [50, 112, 114, 111, 98, 101, 0] 6 WS_FR_OP_TXT).2
            [53, 0] 1 WS_FR_OP_TXT).2
    ∧ (0 < e1.poll_write → e1.lock_ok = true →
        (needsAlloc s.m_ws.m_maxBuf 6 = true → e1.malloc_ok = true) →
        0 < e2.poll_write → e2.lock_ok = true →
        (needsAlloc s.m_ws.m_maxBuf 1 = true → e2.malloc_ok = true) →
        (sioConnectCB e1 e2 s true).m_ws.trace
            = s.m_ws.trace
              ++ [Event.write (sendFrame [50, 112, 114, 111, 98, 101, 0] 6 WS_FR_OP_TXT
                    (genMasks e1)) 12,
                  Event.write (sendFrame [53, 0] 1 WS_FR_OP_TXT (genMasks e2)) 7]
          ∧ unmaskFrame (sendFrame [50, 112, 114, 111, 98, 101, 0] 6 WS_FR_OP_TXT
                (genMasks e1))
              = serverFrame 1 1 false [50, 112, 114, 111, 98, 101]
          ∧ unmaskFrame (sendFrame [53, 0] 1 WS_FR_OP_TXT (genMasks e2))
              = serverFrame 1 1 false [53]) := by
  refine ⟨rfl, rfl, ?_⟩
  intro hp1 hl1 hm1 hp2 hl2 hm2
  have h1 := send_ok e1 s.m_ws [50, 112, 114, 111, 98, 101, 0] 6 WS_FR_OP_TXT hp1 hm1 hl1
  have h2 := send_ok e2
    { s.m_ws with trace := s.m_ws.trace ++
        [Event.write (sendFrame [50, 112, 114, 111, 98, 101, 0] 6 WS_FR_OP_TXT (genMasks e1))
          (idxResponse (u32 6))] }
    [53, 0] 1 WS_FR_OP_TXT hp2 hm2 hl2
  refine ⟨?_, ?_, ?_⟩
  · show (send e2 (send e1 s.m_ws [50, 112, 114, 111, 98, 101, 0] 6 WS_FR_OP_TXT).2
        [53, 0] 1 WS_FR_OP_TXT).2.trace = _
    rw [h1, h2]
    simp
    exact ⟨by decide, by decide⟩
  · exact unmask_text [50, 112, 114, 111, 98, 101] [0] (genMasks e1) (by decide)
      (genMasks_getD_lt e1) (by decide)
  · exact unmask_text [53] [0] (genMasks e2) (by decide) (genMasks_getD_lt e2) (by decide)

/-- C21, instance of `sio_connect_tokens`: the two frames under the masks 1, 2, 3, 4 and
5, 6, 7, 8. -/
theorem sio_connect_tokens_witness :
    (sioConnectCB (okEnv 1 2 3 4 12) (okEnv 5 6 7 8 7) (sioClient [] false []) true).m_ws.trace
      = [Event.write [129, 134, 1, 2, 3, 4, 51, 114, 113, 107, 99, 103] 12,
         Event.write [129, 129, 5, 6, 7, 8, 48] 7]
    ∧ unmaskFrame [129, 134, 1, 2, 3, 4, 51, 114, 113, 107, 99, 103]
        = [129, 6, 50, 112, 114, 111, 98, 101]
    ∧ unmaskFrame [129, 129, 5, 6, 7, 8, 48] = [129, 1, 53] :=
  (sio_connect_tokens (okEnv 1 2 3 4 12) (okEnv 5 6 7 8 7) (sioClient [] false [])).2.2
    (by decide) rfl (fun _ => rfl) (by decide) rfl (fun _ => rfl)

/-- C21, counterexample: when the transport is not writable at either call, the
connection callback of the Socket.IO client hands no frame to the transport; when it is
not writable at the first call only, the token `5` alone is sent. -/
theorem sio_connect_tokens_unsent :
    (sioConnectCB { okEnv 1 2 3 4 12 with poll_write := 0 }
        { okEnv 5 6 7 8 7 with poll_write := 0 } (sioClient [] false []) true).m_ws.trace = []
    ∧ (sioConnectCB { okEnv 1 2 3 4 12 with poll_write := 0 } (okEnv 5 6 7 8 7)
        (sioClient [] false []) true).m_ws.trace
      = [Event.write [129, 129, 5, 6, 7, 8, 48] 7] := by
  decide

/-! ## C22: the connection callback of the Socket.IO client -/

/-- Counting `m_ccb(this, true)` over a concatenation. -/
theorem ccbTrueCount_append (a b : List SioEvent) :
    ccbTrueCount (a ++ b) = ccbTrueCount a + ccbTrueCount b := by
  induction a with
  | nil => simp [ccbTrueCount]
  | cons x a ih =>
    rcases x with ⟨m, l, t⟩ | ⟨c⟩ | ⟨k, i, m⟩
    · simp [ccbTrueCount, ih]
    · cases c
      · simp [ccbTrueCount, ih]
      · simp [ccbTrueCount, ih]
        omega
    · simp [ccbTrueCount, ih]

/-- Keyed callbacks are no connection callbacks. -/
theorem ccbTrueCount_on (reg : List (List Nat × Nat)) (v : List Nat) :
    ccbTrueCount (reg.map (fun p => SioEvent.on p.1 p.2 v)) = 0 := by
  induction reg with
  | nil => rfl
  | cons p reg ih => simp [ccbTrueCount, ih]

/-- The EVENT case runs no connection callback and leaves `m_ccb` alone. -/
theorem sioOnEvent_ccb (s : SocketIoClient) (data : Nat) (lData : Int) :
    (sioOnEvent s data lData).m_ccb = s.m_ccb
    ∧ ccbTrueCount (sioOnEvent s data lData).trace = ccbTrueCount s.trace := by
  unfold sioOnEvent sioRunHandlers
  dsimp only
  constructor
  · split_ifs <;> rfl
  · split_ifs <;> simp [ccbTrueCount_append, ccbTrueCount_on, ccbTrueCount]

/-- One call of the message callback: `m_ccb(this, true)` runs exactly when `m_ccb` is set
and the message starts with `40`. -/
theorem sioMessage_ccb (e : SendEnv) (s : SocketIoClient) (payload : Nat) (length : Int) :
    (sioMessage e s payload length).m_ccb = s.m_ccb
    ∧ ccbTrueCount (sioMessage e s payload length).trace
        = ccbTrueCount s.trace
          + (if s.m_ccb = true ∧ 2 ≤ length ∧ rd s.m_ws.rx_buf payload = 52
                ∧ rd s.m_ws.rx_buf (payload + 1) = 48 then 1 else 0) := by
  unfold sioMessage
  by_cases h1 : length < 1
  · rw [if_pos h1, if_neg (by omega)]
    exact ⟨rfl, rfl⟩
  rw [if_neg h1]
  by_cases h2 : rd s.m_ws.rx_buf payload = 50
  · rw [if_pos h2, if_neg (by omega)]
    exact ⟨rfl, rfl⟩
  rw [if_neg h2]
  by_cases h3 : rd s.m_ws.rx_buf payload = 51
  · have hno : (if s.m_ccb = true ∧ 2 ≤ length ∧ rd s.m_ws.rx_buf payload = 52
          ∧ rd s.m_ws.rx_buf (payload + 1) = 48 then 1 else 0) = 0 :=
      if_neg (fun c => by omega)
    rw [if_pos h3, hno]
    split_ifs <;> exact ⟨rfl, rfl⟩
  rw [if_neg h3]
  by_cases h4 : rd s.m_ws.rx_buf payload = 52
  · rw [if_pos h4]
    by_cases h5 : length < 2
    · rw [if_pos h5, if_neg (by omega)]
      exact ⟨rfl, rfl⟩
    rw [if_neg h5]
    by_cases h6 : rd s.m_ws.rx_buf (payload + 1) = 50
    · rw [if_pos h6, if_neg (by omega)]
      exact sioOnEvent_ccb s _ _
    rw [if_neg h6]
    by_cases h7 : rd s.m_ws.rx_buf (payload + 1) = 48
    · rw [if_pos h7]
      by_cases h8 : s.m_ccb = true
      · rw [if_pos h8, if_pos ⟨h8, by omega, h4, h7⟩]
        exact ⟨rfl, by rw [ccbTrueCount_append]; rfl⟩
      · rw [if_neg h8, if_neg (fun h => h8 h.1)]
        exact ⟨rfl, rfl⟩
    · rw [if_neg h7, if_neg (fun h => h7 h.2.2.2)]
      exact ⟨rfl, rfl⟩
  · rw [if_neg h4, if_neg (fun h => h4 h.2.2.1)]
    exact ⟨rfl, rfl⟩

/-- A message at the start of the buffer is what `rd` reads there. -/
theorem rd_message (m rest : List Nat) (i : Nat) (h : i < m.length) :
    rd (m ++ rest) i = rd m i := by
  unfold rd
  rw [List.getD_append _ _ _ _ h]

/-- The count of connection callbacks over a sequence of messages. -/
theorem sioDeliver_ccb (ms : List (List Nat)) :
    ∀ (es : Nat → SendEnv) (s : SocketIoClient),
      (sioDeliver es ms s).m_ccb = s.m_ccb
      ∧ ccbTrueCount (sioDeliver es ms s).trace
          = ccbTrueCount s.trace
            + (if s.m_ccb = true then (ms.filter isSioConnect).length else 0) := by
  induction ms with
  | nil =>
    intro es s
    refine ⟨rfl, ?_⟩
    simp [sioDeliver]
  | cons m ms ih =>
    intro es s
    unfold sioDeliver
    obtain ⟨i1, i2⟩ := ih (fun n => es (n + 1))
      (sioMessage (es 0)
        { s with m_ws := { s.m_ws with rx_buf := m ++ s.m_ws.rx_buf.drop m.length } }
        0 (m.length : Int))
    obtain ⟨m1, m2⟩ := sioMessage_ccb (es 0)
      { s with m_ws := { s.m_ws with rx_buf := m ++ s.m_ws.rx_buf.drop m.length } }
      0 (m.length : Int)
    simp only at m1 m2
    rw [i1, i2, m1, m2]
    refine ⟨rfl, ?_⟩
    have hc : (s.m_ccb = true ∧ (2 : Int) ≤ (m.length : Int)
          ∧ rd (m ++ List.drop m.length s.m_ws.rx_buf) 0 = 52
          ∧ rd (m ++ List.drop m.length s.m_ws.rx_buf) (0 + 1) = 48)
        ↔ (s.m_ccb = true ∧ isSioConnect m = true) := by
      unfold isSioConnect
      simp only [Bool.and_eq_true, decide_eq_true_eq, beq_iff_eq]
      constructor
      · rintro ⟨a, b, c, d⟩
        have b' : 2 ≤ m.length := by omega
        rw [rd_message m _ 0 (by omega)] at c
        rw [rd_message m _ (0 + 1) (by omega)] at d
        exact ⟨a, ⟨b', c⟩, d⟩
      · rintro ⟨a, ⟨b, c⟩, d⟩
        refine ⟨a, by omega, ?_, ?_⟩
        · rw [rd_message m _ 0 (by omega)]; exact c
        · rw [rd_message m _ (0 + 1) (by omega)]; exact d
    rw [if_congr hc rfl rfl]
    by_cases hcc : s.m_ccb = true
    · by_cases hm : isSioConnect m = true
      · rw [if_pos ⟨hcc, hm⟩, if_pos hcc, if_pos hcc, List.filter_cons_of_pos hm]
        simp
        omega
      · rw [if_neg (fun h => hm h.2), if_pos hcc, if_pos hcc, List.filter_cons_of_neg hm]
        simp
    · rw [if_neg (fun h => hcc h.1), if_neg hcc, if_neg hcc]

/-- C22 (amended): over every sequence of inbound messages the connection callback of the
Socket.IO client, when one is set, runs with `true` once for each message that starts
with `40` (a Socket.IO CONNECT), whatever was received before, and for no other message;
without a connection callback it never runs. -/
theorem sio_connected_per_connect_message (es : Nat → SendEnv) (ms : List (List Nat))
    (s : SocketIoClient) :
    ccbTrueCount (sioDeliver es ms s).trace
      = ccbTrueCount s.trace
        + (if s.m_ccb = true then (ms.filter isSioConnect).length else 0) :=
  (sioDeliver_ccb ms es s).2

/-- C22, counterexample: two CONNECT messages `40` and no `3probe` before them run the
connection callback with `true` twice; a single `40` without any `3probe` runs it once. -/
theorem sio_connected_twice :
    (sioDeliver (fun _ => okEnv 0 0 0 0 0) [[52, 48], [52, 48]]
        { sioClient [0, 0] false [] with m_ccb := true }).trace
      = [SioEvent.ccb true, SioEvent.ccb true]
    ∧ (sioDeliver (fun _ => okEnv 0 0 0 0 0) [[52, 48]]
        { sioClient [0, 0] false [] with m_ccb := true }).trace
      = [SioEvent.ccb true] := by
  decide

/-! ## C23: the envelope of `SocketIoClient::send` -/

/-- Byte 0 of a text frame built by `send` is `0x81`. -/
theorem sendFrame_text_byte0 (msg : List Nat) (n : Nat) (masks : List Nat) :
    (sendFrame msg n WS_FR_OP_TXT masks).getD 0 0 = 129 := by
  unfold sendFrame
  rw [List.getD_append _ _ _ _ (by
    rw [sendHeader_length]; unfold idxHeader; split_ifs <;> omega)]
  unfold sendHeader
  split_ifs <;> rfl

/-- The C string in front of the first NUL of a buffer. -/
theorem cstr_zero (seg rest : List Nat) (hseg : ∀ b ∈ seg, b % 256 ≠ 0) :
    cstr (seg ++ 0 :: rest) 0 = seg := by
  have h := cstr_at [] seg rest 0 rfl hseg
  simpa using h

/-- The text that `send(key, val)` builds from two C strings. -/
theorem sioFrame_eq (k v rk rv : List Nat) (hk : ∀ b ∈ k, b % 256 ≠ 0)
    (hv : ∀ b ∈ v, b % 256 ≠ 0) :
    sioFrame (k ++ 0 :: rk) (v ++ 0 :: rv) = eventText k v [93] := by
  unfold sioFrame eventText
  rw [cstr_zero k rk hk, cstr_zero v rv hv]

/-- The call of `send` reads no more than `size` bytes of the message. -/
theorem send_rest (e : SendEnv) (c : WebSocketClient) (m rest : List Nat) (t : Nat)
    (h : m.length < 2 ^ 32) :
    send e c (m ++ rest) m.length t = send e c m m.length t := by
  unfold send
  simp only [ sendFrame_prefix m rest t _ h]

/-- A call of `send2` with the two-byte envelope in front of `p`. -/
theorem send2_envelope (e : SendEnv) (c : WebSocketClient) (a b : Nat) (p rest : List Nat)
    (h : p.length + 2 < 2 ^ 32) :
    send2 e c [a, b] 2 (p ++ rest) p.length WS_FR_OP_TXT
      = send e c ([a, b] ++ p) (2 + p.length) WS_FR_OP_TXT := by
  have h1 := send2_as_send e c [a, b] (p ++ rest) p.length WS_FR_OP_TXT
    (by simp; omega)
  have h2 : ([a, b] : List Nat).length = 2 := rfl
  rw [h2] at h1
  rw [h1]
  have h3 : 2 + p.length = ([a, b] ++ p).length := by simp; omega
  have h4 : [a, b] ++ (p ++ rest) = ([a, b] ++ p) ++ rest := by simp
  rw [h4, h3]
  exact send_rest e c ([a, b] ++ p) rest WS_FR_OP_TXT (by simp; omega)

/-- C23: for every type byte `t` and every payload `p` of `len > 0` bytes (with
`len + 2 < 2 ^ 32`), `SocketIoClient::send(t, p, len)` is one call of the WebSocket client
for the text `4`, `t`, `p`; and for all C strings `key` and `val`, `send(key, val)` is one
call for the text `42["key",val]`.  The frame `F` that the WebSocket client builds for
such a text `m` is a text frame (byte 0 is `0x81`) with the mask bit set in which
payload byte `i` XOR mask byte `i mod 4` is `m[i]`; with the transport writable, a buffer
available and the lock taken it is the one buffer handed to the transport. -/
theorem sio_send_envelope (e : SendEnv) (s : SocketIoClient) (t : Nat)
    (p rest k v rk rv : List Nat)
    (ht : t < 256) (hlen : 0 < p.length)
    (h32 : p.length + 2 < 2 ^ 32)
    (hk : ∀ b ∈ k, b < 256 ∧ b ≠ 0) (hv : ∀ b ∈ v, b < 256 ∧ b ≠ 0)
    (hkv : (eventText k v [93]).length + 2 < 2 ^ 32) :
    (sioSend e s t (p ++ rest) p.length).2.m_ws
        = (send e s.m_ws ([52, t] ++ p) (2 + p.length) WS_FR_OP_TXT).2
    ∧ (sioSendKV e s (k ++ 0 :: rk) (v ++ 0 :: rv)).2.m_ws
        = (send e s.m_ws ([52, 50] ++ eventText k v [93])
            (2 + (eventText k v [93]).length) WS_FR_OP_TXT).2
    ∧ (∀ m : List Nat, m.length < 2 ^ 32 → (∀ b ∈ m, b < 256) →
        (sendFrame m m.length WS_FR_OP_TXT (genMasks e)).getD 0 0 = 129
        ∧ (sendFrame m m.length WS_FR_OP_TXT (genMasks e)).getD 1 0 &&& 128 = 128
        ∧ (∀ i, i < m.length →
            (sendFrame m m.length WS_FR_OP_TXT (genMasks e)).getD (idxHeader m.length + i) 0
              ^^^ (sendFrame m m.length WS_FR_OP_TXT (genMasks e)).getD
                    (idxHeader m.length - 4 + i % 4) 0
            = m.getD i 0)
        ∧ (0 < e.poll_write → e.lock_ok = true → e.malloc_ok = true →
            ∀ c : WebSocketClient,
              (send e c m m.length WS_FR_OP_TXT).2.trace
                = c.trace ++ [Event.write (sendFrame m m.length WS_FR_OP_TXT (genMasks e))
                    (idxResponse m.length)])) := by
  refine ⟨?_, ?_, ?_⟩
  · have hu : u32 p.length = p.length := u32_of_lt (by omega)
    have hne : ¬ u32 p.length = 0 := by rw [hu]; omega
    have ht' : t % 256 = t := Nat.mod_eq_of_lt ht
    have hne' : ¬ p.length = 0 := by omega
    have h := send2_envelope e s.m_ws 52 t p rest h32
    unfold sioSend
    simp only [hne, hne', if_false, hu, ht', h]
  · have hk' : ∀ b ∈ k, b % 256 ≠ 0 := by
      intro b hb
      have := hk b hb
      omega
    have hv' : ∀ b ∈ v, b % 256 ≠ 0 := by
      intro b hb
      have := hv b hb
      omega
    have hu : u32 (eventText k v [93]).length = (eventText k v [93]).length :=
      u32_of_lt (by omega)
    have h := send2_envelope e s.m_ws 52 50 (eventText k v [93]) [0] hkv
    unfold sioSendKV
    simp only [sioFrame_eq k v rk rv hk' hv', hu, h]
  · intro m hm hb
    refine ⟨sendFrame_text_byte0 _ _ _, sendFrame_mask_bit _ _ _ _, ?_, ?_⟩
    · intro i hi
      rw [sendFrame_payload _ _ _ _ hm i hi,
        sendFrame_mask _ _ _ _ hm (i % 4) (Nat.mod_lt _ (by norm_num)), ← rd_of_bytes hb hi]
      exact unmask_byte _ _ (genMasks_getD_lt e _)
    · intro hpoll hlock hmal c
      rw [send_ok e c m m.length WS_FR_OP_TXT hpoll (fun _ => hmal) hlock,
        u32_of_lt hm]

/-- C23, instance of `sio_send_envelope`: `send('2', "[1]", 3)` and `send("a", "1")`
under the mask 1, 2, 3, 4. -/
theorem sio_send_envelope_witness :
    (sioSend (okEnv 1 2 3 4 11) (sioClient [] false []) 50 [91, 49, 93, 0] 3).2.m_ws.trace
      = [Event.write [129, 133, 1, 2, 3, 4, 53, 48, 88, 53, 92] 11]
    ∧ (sioSendKV (okEnv 1 2 3 4 15) (sioClient [] false []) [97, 0] [49, 0]).2.m_ws.trace
      = [Event.write [129, 137, 1, 2, 3, 4, 53, 48, 88, 38, 96, 32, 47, 53, 92] 15] :=
  ⟨((congrArg WebSocketClient.trace
      (sio_send_envelope (okEnv 1 2 3 4 11) (sioClient [] false []) 50 [91, 49, 93] [0]
        [97] [49] [] [] (by decide) (by decide) (by decide) (by decide) (by decide)
        (by decide)).1).trans (by decide)),
   ((congrArg WebSocketClient.trace
      (sio_send_envelope (okEnv 1 2 3 4 15) (sioClient [] false []) 50 [91, 49, 93] [0]
        [97] [49] [] [] (by decide) (by decide) (by decide) (by decide) (by decide)
        (by decide)).2.1).trans (by decide))⟩

/-! ## C24: the fill cursor and the capacity of the receive buffer -/

/-- C24, evaluation: a client built with `maxBufSize = 64` connects: on the response
`HTTP/1.1 101`, the accept line and the empty line `connect` returns 1 and leaves a
connected client with a receive buffer of 64 bytes.  With `line_end = 0` the read of `run`
then asks the transport for 1024 bytes; when the transport delivers the first 70 bytes of a
text frame of 256 payload bytes (no more than requested), the step stores them all, 6
of them behind the end of the buffer, keeps the connection and leaves `line_end = 70`,
above `m_maxBuf = 64`. -/
theorem run_recv_exceeds_capacity :
    Option.map (fun r => (r.1, r.2.ws.m_connected, r.2.ws.m_maxBuf, r.2.ws.rx_buf.length))
        (connect (upgradeEnv [71, 69, 84]) 2 (mkConn 64 false) 10000)
      = some (1, true, 64, 64)
    ∧ Option.map (fun r => (r.2.ws.line_end, recvLen r.2.ws))
        (connect (upgradeEnv [71, 69, 84]) 2 (mkConn 64 false) 10000)
      = some (0, 1024)
    ∧ Option.map (fun r =>
          ((recvStep (fun _ => okEnv 0 0 0 0 0) r.2.ws
              ([129, 126, 1, 0] ++ List.replicate 66 65)).line_end,
           (recvStep (fun _ => okEnv 0 0 0 0 0) r.2.ws
              ([129, 126, 1, 0] ++ List.replicate 66 65)).rx_buf.length,
           (recvStep (fun _ => okEnv 0 0 0 0 0) r.2.ws
              ([129, 126, 1, 0] ++ List.replicate 66 65)).m_connected))
        (connect (upgradeEnv [71, 69, 84]) 2 (mkConn 64 false) 10000)
      = some (70, 70, true) := by
  decide

/-! ## C25: compaction of the receive buffer -/

/-- Reading a list behind a position that was written. -/
theorem getD_set_ne (l : List Nat) (i j v : Nat) (h : i ≠ j) :
    (l.set i v).getD j 0 = l.getD j 0 := by
  rw [List.getD_eq_getElem?_getD, List.getD_eq_getElem?_getD, List.getElem?_set_ne h]

/-- Reading a list at the position that was written. -/
theorem getD_set_eq (l : List Nat) (i v : Nat) (h : i < l.length) :
    (l.set i v).getD i 0 = v := by
  rw [List.getD_eq_getElem?_getD, List.getElem?_set]
  simp [h]

theorem moveLoop_succ (buf : List Nat) (off n : Nat) :
    moveLoop buf off (n + 1)
      = (moveLoop buf off n).set n ((moveLoop buf off n).getD (off + n) 0) := by
  unfold moveLoop
  rw [List.range_succ, List.foldl_append]
  rfl

theorem moveLoop_length (buf : List Nat) (off n : Nat) :
    (moveLoop buf off n).length = buf.length := by
  induction n with
  | zero => rfl
  | succ n ih => rw [moveLoop_succ, List.length_set, ih]

/-- The copy loop leaves the positions from `left` on alone. -/
theorem moveLoop_above (buf : List Nat) (off n : Nat) :
    ∀ j, n ≤ j → (moveLoop buf off n).getD j 0 = buf.getD j 0 := by
  induction n with
  | zero => intro j _; rfl
  | succ n ih =>
    intro j hj
    rw [moveLoop_succ, getD_set_ne _ _ _ _ (by omega), ih j (by omega)]

/-- After the copy loop position `i < left` holds what was at `off + i`. -/
theorem moveLoop_getD (buf : List Nat) (off n : Nat) :
    ∀ i, i < n → (moveLoop buf off n).getD i 0 = buf.getD (off + i) 0 := by
  induction n with
  | zero => intro i hi; omega
  | succ n ih =>
    intro i hi
    rw [moveLoop_succ]
    by_cases h : i = n
    · subst h
      by_cases hl : i < (moveLoop buf off i).length
      · rw [getD_set_eq _ _ _ hl, moveLoop_above buf off i _ (by omega)]
      · rw [List.set_eq_of_length_le (by omega), moveLoop_above buf off i _ (le_refl _)]
        rw [moveLoop_length] at hl
        rw [List.getD_eq_default _ _ (by omega), List.getD_eq_default _ _ (by omega)]
    · rw [getD_set_ne _ _ _ _ (by omega), ih i (by omega)]

theorem skipOpen_sum (buf : List Nat) : ∀ (fuel k : Nat) (len : Int) (lev : Bool),
    ((skipOpen buf fuel k len lev).1 : Int) + (skipOpen buf fuel k len lev).2.1
      = (k : Int) + len := by
  intro fuel
  induction fuel with
  | zero => intro k len lev; rfl
  | succ f ih =>
    intro k len lev
    unfold skipOpen
    by_cases h : 0 < len ∧ (rd buf k = 91 ∨ rd buf k = 34 ∨ rd buf k = 32)
    · rw [if_pos h, ih]
      push_cast
      omega
    · rw [if_neg h]

theorem scanKey_sum (buf : List Nat) (lev : Bool) : ∀ (fuel x : Nat) (len : Int),
    ((scanKey buf lev fuel x len).1 : Int) + (scanKey buf lev fuel x len).2
      = (x : Int) + len := by
  intro fuel
  induction fuel with
  | zero => intro x len; rfl
  | succ f ih =>
    intro x len
    unfold scanKey
    split_ifs with h
    · rw [ih]
      push_cast
      omega
    · rfl

theorem skipSep_sum (buf : List Nat) : ∀ (fuel x : Nat) (len : Int),
    ((skipSep buf fuel x len).1 : Int) + (skipSep buf fuel x len).2
      = (x : Int) + len := by
  intro fuel
  induction fuel with
  | zero => intro x len; rfl
  | succ f ih =>
    intro x len
    unfold skipSep
    split_ifs with h
    · rw [ih]
      push_cast
      omega
    · rfl

/-- The loop that strips the tail writes below `x + len` only. -/
theorem stripTail_above (x : Nat) : ∀ (fuel : Nat) (buf : List Nat) (len : Int) (j : Nat),
    (x : Int) + len ≤ j → (stripTail x fuel buf len).1.getD j 0 = buf.getD j 0 := by
  intro fuel
  induction fuel with
  | zero => intro buf len j _; rfl
  | succ f ih =>
    intro buf len j hj
    unfold stripTail
    split_ifs with h
    · rw [ih _ _ j (by omega), getD_set_ne _ _ _ _ (by omega)]
    · rfl

/-- The keyed dispatch writes into the payload only. -/
theorem onText_above (c : WebSocketClient) (cnt : Int) (j : Nat)
    (hj : (c.ws_msg : Int) + cnt ≤ j) :
    (onText c cnt).rx_buf.getD j 0 = c.rx_buf.getD j 0 := by
  have h1 := skipOpen_sum c.rx_buf cnt.toNat c.ws_msg cnt false
  rw [onText_eq]
  by_cases hne : c.m_on.length ≠ 0
  · rw [if_pos hne]
    cases hf : c.m_on.find? (fun p => p.1 = extractedKey c.rx_buf c.ws_msg cnt) with
    | none => rfl
    | some itr =>
      dsimp only
      generalize hr1 : skipOpen c.rx_buf cnt.toNat c.ws_msg cnt false = r1 at h1 ⊢
      have h2 := scanKey_sum c.rx_buf r1.2.2 (r1.2.1 - 1).toNat (r1.1 + 1) (r1.2.1 - 1)
      generalize hr2 : scanKey c.rx_buf r1.2.2 (r1.2.1 - 1).toNat (r1.1 + 1) (r1.2.1 - 1)
        = r2 at h2 ⊢
      by_cases hlen : r2.2 > 1
      · rw [if_pos hlen]
        have h3 := skipSep_sum c.rx_buf (r2.2 - 1).toNat (r2.1 + 1) (r2.2 - 1)
        unfold runHandler
        dsimp only
        generalize hr3 : skipSep c.rx_buf (r2.2 - 1).toNat (r2.1 + 1) (r2.2 - 1) = r3 at h3 ⊢
        have h4 := stripTail_above r3.1 r3.2.toNat c.rx_buf r3.2 j
          (by push_cast at h2 h3; omega)
        split_ifs
        · exact h4
        · exact h4
      · rw [if_neg hlen]
  · rw [if_neg hne]

/-- The frame handler `onWsFrame` writes into the payload of the frame only. -/
theorem onWsFrame_above (e : SendEnv) (c : WebSocketClient) (j : Nat)
    (hj : (c.ws_msg : Int) + (c.ws_frame_size - c.ws_header_size) ≤ j) :
    (onWsFrame e c).2.rx_buf.getD j 0 = c.rx_buf.getD j 0 := by
  have hcb := fun k => callCb_same c (c.ws_frame_size - c.ws_header_size) k
  unfold onWsFrame
  dsimp only
  split_ifs with h0 h1 h2 h8 h9 h10 h4
  · rw [(hcb _).1]
  · rw [onText_above _ _ j (by rw [(hcb _).2.1]; exact hj), (hcb _).1]
  · rw [(hcb _).1]
  · rfl
  · rcases send_cases e c (c.rx_buf.drop c.ws_msg)
      (intToU32 (c.ws_frame_size - c.ws_header_size)) WS_FR_OP_PONG with h | h
    · rw [h]
    · rw [h]
  · cases ws_decode_pong c.rx_buf c.ws_msg with
    | none => rfl
    | some r =>
      dsimp only
      split_ifs <;> rfl
  · rfl
  · rfl

/-- Reading the header of an unmasked frame once its header is buffered: `feedWsFrame`
goes on with the frame body, the header fields being set. -/
theorem feedWsFrame_header_only (e : SendEnv) (c : WebSocketClient) (fin t : Nat)
    (wide : Bool) (n : Nat) (hfs : c.ws_frame_size = 0)
    (hr0 : rd c.rx_buf 0 = (fin * 128 + t) % 256)
    (hr1 : rd c.rx_buf 1 = (if wide then 126 else n) % 256)
    (hr2 : wide = true → rd c.rx_buf 2 = (n / 256) % 256 ∧ rd c.rx_buf 3 = n % 256 % 256)
    (hfin : fin ≤ 1) (ht : t ≤ 15)
    (hn : n ≤ if wide then 65535 else 125)
    (hle : (serverHeaderSize wide : Int) ≤ c.line_end) :
    feedWsFrame e c = feedBody e (headerParsed c fin t wide n) := by
  obtain ⟨b1, b2, b3⟩ := byte0_bits fin hfin t ht
  cases wide
  · simp only [Bool.false_eq_true, if_false] at hn hr1
    obtain ⟨d1, d2⟩ := byte1_bits n (by omega)
    have h2 : ¬ c.line_end < 2 := by simp [serverHeaderSize] at hle; omega
    have h126 : ¬ n = 126 := by omega
    have h127 : ¬ n = 127 := by omega
    unfold feedWsFrame
    simp only [hfs, if_true, h2, if_false, hr0, hr1, b1, b2, b3, d1, d2, ne_eq,
      not_true_eq_false, h126, h127, headerParsed, serverHeaderSize, Bool.false_eq_true]
    rfl
  · simp only [if_true] at hn hr1
    obtain ⟨d1, d2⟩ := byte1_bits 126 (by omega)
    obtain ⟨hr2, hr3⟩ := hr2 rfl
    have h2 : ¬ c.line_end < 2 := by simp [serverHeaderSize] at hle; omega
    have h4 : ¬ c.line_end < 2 + 2 := by simp [serverHeaderSize] at hle; omega
    unfold feedWsFrame
    simp only [hfs, if_true, h2, if_false, hr0, hr1, hr2, hr3, b1, b2, b3, d1, d2, ne_eq,
      not_true_eq_false, h4, be16 n hn, headerParsed, serverHeaderSize]
    rfl

/-- With less than the header buffered `feedWsFrame` waits. -/
theorem feedWsFrame_header_short (e : SendEnv) (c : WebSocketClient) (fin t : Nat)
    (wide : Bool) (hfs : c.ws_frame_size = 0)
    (hr0 : 2 ≤ c.line_end → rd c.rx_buf 0 = (fin * 128 + t) % 256)
    (hr1 : 2 ≤ c.line_end → rd c.rx_buf 1 = 126)
    (hfin : fin ≤ 1) (ht : t ≤ 15)
    (hlt : c.line_end < (serverHeaderSize wide : Int)) :
    (feedWsFrame e c).1 = 0 ∧ (feedWsFrame e c).2.line_end = c.line_end
      ∧ (feedWsFrame e c).2.rx_buf = c.rx_buf := by
  obtain ⟨b1, b2, b3⟩ := byte0_bits fin hfin t ht
  by_cases h2 : c.line_end < 2
  · unfold feedWsFrame
    simp only [hfs, if_true, h2, and_self]
  · have hw : wide = true := by
      cases wide
      · simp [serverHeaderSize] at hlt
        omega
      · rfl
    subst hw
    have h4 : c.line_end < 2 + 2 := by simp [serverHeaderSize] at hlt; omega
    obtain ⟨d1, d2⟩ := byte1_bits 126 (by omega)
    have hr0 := hr0 (by omega)
    have hr1 : rd c.rx_buf 1 = 126 % 256 := hr1 (by omega)
    unfold feedWsFrame
    simp only [hfs, if_true, h2, if_false, hr0, hr1, b1, b2, b3, d1, d2, ne_eq,
      not_true_eq_false, h4, and_self]

/-- The header bytes of a server frame. -/
theorem serverFrame_header (fin t : Nat) (wide : Bool) (p : List Nat) :
    rd (serverFrame fin t wide p) 0 = (fin * 128 + t) % 256
    ∧ rd (serverFrame fin t wide p) 1 = (if wide then 126 else p.length) % 256
    ∧ (wide = true → rd (serverFrame fin t wide p) 2 = (p.length / 256) % 256
        ∧ rd (serverFrame fin t wide p) 3 = p.length % 256 % 256) := by
  cases wide <;> simp [serverFrame, rd]

/-- C25: let the first bytes of the receive buffer be those of an unmasked frame of
total size `F` (header plus payload length), `L = line_end` bytes being buffered, the
client awaiting a header or having parsed the header of this frame before.  When
`L ≥ F` and the frame handler does not return 0, `feedWsFrame` leaves `line_end = L - F`,
`ws_frame_size = 0`, and at every position `i < L - F` the byte that was at `F + i`.
When `L < F` it returns 0 and leaves `line_end` and the buffer as they were. -/
theorem feed_compacts_buffer (e : SendEnv) (c : WebSocketClient) (fin t : Nat)
    (wide : Bool) (p : List Nat)
    (hst : c.ws_frame_size = 0 ∨ c = headerParsed c fin t wide p.length)
    (hfin : fin ≤ 1) (ht : t ≤ 15) (hn : p.length ≤ if wide then 65535 else 125)
    (hbuf : ∀ i, i < (serverFrame fin t wide p).length → (i : Int) < c.line_end →
      c.rx_buf.getD i 0 = (serverFrame fin t wide p).getD i 0) :
    (((serverFrame fin t wide p).length : Int) ≤ c.line_end →
      (onWsFrame e
        { headerParsed c fin t wide p.length with ws_msg := serverHeaderSize wide }).1 ≠ 0 →
      (feedWsFrame e c).2.line_end = c.line_end - ((serverFrame fin t wide p).length : Int)
      ∧ (feedWsFrame e c).2.ws_frame_size = 0
      ∧ ∀ i : Nat, (i : Int) < c.line_end - ((serverFrame fin t wide p).length : Int) →
          (feedWsFrame e c).2.rx_buf.getD i 0
            = c.rx_buf.getD ((serverFrame fin t wide p).length + i) 0)
    ∧ (c.line_end < ((serverFrame fin t wide p).length : Int) →
      (feedWsFrame e c).1 = 0 ∧ (feedWsFrame e c).2.line_end = c.line_end
      ∧ (feedWsFrame e c).2.rx_buf = c.rx_buf) := by
  obtain ⟨f0, f1, f2⟩ := serverFrame_header fin t wide p
  have hF := serverFrame_length fin t wide p
  have hH : 2 ≤ serverHeaderSize wide ∧ serverHeaderSize wide ≤ 4 := by
    cases wide <;> simp [serverHeaderSize]
  have hrd : ∀ i, i < serverHeaderSize wide → (i : Int) < c.line_end →
      rd c.rx_buf i = rd (serverFrame fin t wide p) i := by
    intro i h1 h2
    unfold rd
    rw [hbuf i (by omega) h2]
  have hfeed : (serverHeaderSize wide : Int) ≤ c.line_end →
      feedWsFrame e c = feedBody e (headerParsed c fin t wide p.length) := by
    intro hle
    rcases hst with hfs | hres
    · refine feedWsFrame_header_only e c fin t wide p.length hfs
        ((hrd 0 (by omega) (by omega)).trans f0) ((hrd 1 (by omega) (by omega)).trans f1)
        ?_ hfin ht hn hle
      intro hw
      have hs : serverHeaderSize wide = 4 := by rw [hw]; rfl
      exact ⟨(hrd 2 (by omega) (by omega)).trans (f2 hw).1,
        (hrd 3 (by omega) (by omega)).trans (f2 hw).2⟩
    · have hfs : c.ws_frame_size = (serverHeaderSize wide : Int) + (p.length : Int) :=
        congrArg WebSocketClient.ws_frame_size hres
      have h1 : feedWsFrame e c = feedBody e c := by
        unfold feedWsFrame
        rw [if_neg (by omega)]
      rw [h1]
      exact congrArg (feedBody e) hres
  constructor
  · intro hle hnf
    rw [hF] at hle ⊢
    rw [hfeed (by push_cast at hle; omega), feedBody_complete e c fin t wide p.length hle,
      if_neg hnf]
    obtain ⟨g1, g2⟩ := onWsFrame_fields e
      { headerParsed c fin t wide p.length with ws_msg := serverHeaderSize wide }
    have g1' : (onWsFrame e
        { headerParsed c fin t wide p.length with ws_msg := serverHeaderSize wide }).2.line_end
        = c.line_end := g1
    have g2' : (onWsFrame e
        { headerParsed c fin t wide p.length with ws_msg := serverHeaderSize wide }).2.ws_frame_size
        = (serverHeaderSize wide : Int) + (p.length : Int) := g2
    obtain ⟨d1, d2, -⟩ := dropFrame_fields (onWsFrame e
      { headerParsed c fin t wide p.length with ws_msg := serverHeaderSize wide }).2
      (by rw [g1', g2']; push_cast at hle; omega)
    refine ⟨?_, d2, ?_⟩
    · show (dropFrame _).line_end = _
      rw [d1, g1', g2']
      push_cast
      rfl
    · intro i hi
      show (dropFrame _).rx_buf.getD i 0 = _
      unfold dropFrame
      rw [if_pos (by rw [g1', g2']; push_cast at hi; omega)]
      show (moveLoop _ _ _).getD i 0 = _
      rw [g1', g2', moveLoop_getD _ _ _ i (by push_cast at hi; omega)]
      have ht' : ((serverHeaderSize wide : Int) + (p.length : Int)).toNat
          = serverHeaderSize wide + p.length := by omega
      rw [ht']
      exact onWsFrame_above e
        { headerParsed c fin t wide p.length with ws_msg := serverHeaderSize wide }
        (serverHeaderSize wide + p.length + i)
        (by
          show ((serverHeaderSize wide : Nat) : Int)
            + ((serverHeaderSize wide : Int) + (p.length : Int) - (serverHeaderSize wide : Int))
            ≤ _
          push_cast
          omega)
  · intro hlt
    rw [hF] at hlt
    by_cases hh : (serverHeaderSize wide : Int) ≤ c.line_end
    · rw [hfeed hh]
      unfold feedBody
      have h1 : (headerParsed c fin t wide p.length).ws_frame_size > 0 := by
        show (serverHeaderSize wide : Int) + (p.length : Int) > 0
        omega
      have h2 : (headerParsed c fin t wide p.length).line_end
          < (headerParsed c fin t wide p.length).ws_frame_size := by
        show c.line_end < (serverHeaderSize wide : Int) + (p.length : Int)
        push_cast at hlt
        omega
      rw [if_pos h1, if_pos h2]
      exact ⟨rfl, rfl, rfl⟩
    · rcases hst with hfs | hres
      · refine feedWsFrame_header_short e c fin t wide hfs
          (fun h => (hrd 0 (by omega) (by omega)).trans f0) ?_ hfin ht (by omega)
        intro h
        have hw : wide = true := by
          cases wide
          · simp [serverHeaderSize] at hh
            omega
          · rfl
        rw [hrd 1 (by omega) (by omega), f1, hw]
        rfl
      · have hfs : c.ws_frame_size = (serverHeaderSize wide : Int) + (p.length : Int) :=
          congrArg WebSocketClient.ws_frame_size hres
        have h1 : feedWsFrame e c = feedBody e c := by
          unfold feedWsFrame
          rw [if_neg (by omega)]
        rw [h1]
        unfold feedBody
        rw [if_pos (by omega), if_pos (by omega)]
        exact ⟨rfl, rfl, rfl⟩

/-- C25, instance of `feed_compacts_buffer`: the buffer holds a binary frame of 4 bytes
and the first 3 bytes of the next frame; a second client holds 3 bytes of the frame. -/
theorem feed_compacts_buffer_witness :
    ((feedWsFrame (okEnv 0 0 0 0 0)
        { mkClient 8 false [] with rx_buf := [130, 2, 7, 8, 129, 1, 65, 0],
                                   line_end := 7 }).2.line_end = 3
      ∧ (feedWsFrame (okEnv 0 0 0 0 0)
        { mkClient 8 false [] with rx_buf := [130, 2, 7, 8, 129, 1, 65, 0],
                                   line_end := 7 }).2.ws_frame_size = 0
      ∧ ∀ i : Nat, (i : Int) < 7 - 4 →
          (feedWsFrame (okEnv 0 0 0 0 0)
            { mkClient 8 false [] with rx_buf := [130, 2, 7, 8, 129, 1, 65, 0],
                                       line_end := 7 }).2.rx_buf.getD i 0
            = [130, 2, 7, 8, 129, 1, 65, 0].getD (4 + i) 0)
    ∧ ((feedWsFrame (okEnv 0 0 0 0 0)
        { mkClient 8 false [] with rx_buf := [130, 2, 7, 0, 0, 0, 0, 0],
                                   line_end := 3 }).1 = 0
      ∧ (feedWsFrame (okEnv 0 0 0 0 0)
        { mkClient 8 false [] with rx_buf := [130, 2, 7, 0, 0, 0, 0, 0],
                                   line_end := 3 }).2.line_end = 3
      ∧ (feedWsFrame (okEnv 0 0 0 0 0)
        { mkClient 8 false [] with rx_buf := [130, 2, 7, 0, 0, 0, 0, 0],
                                   line_end := 3 }).2.rx_buf = [130, 2, 7, 0, 0, 0, 0, 0]) :=
  ⟨(feed_compacts_buffer (okEnv 0 0 0 0 0)
      { mkClient 8 false [] with rx_buf := [130, 2, 7, 8, 129, 1, 65, 0], line_end := 7 }
      1 2 false [7, 8] (Or.inl rfl) (by decide) (by decide) (by decide)
      (by decide)).1 (by decide) (by decide),
   (feed_compacts_buffer (okEnv 0 0 0 0 0)
      { mkClient 8 false [] with rx_buf := [130, 2, 7, 0, 0, 0, 0, 0], line_end := 3 }
      1 2 false [7, 8] (Or.inl rfl) (by decide) (by decide) (by decide)
      (by decide)).2 (by decide)⟩

/-! ## C26: the extractor of the WebSocket client and of the Socket.IO client -/

/-- The key that both extractors read from a payload `["key"...`. -/
theorem extractedKey_eq (B pre k rest : List Nat) (L : Int)
    (hk : k ≠ []) (hkb : ∀ b ∈ k, b < 256 ∧ b ≠ 34 ∧ b ≠ 44)
    (hk0 : ∀ b, k.head? = some b → b ≠ 91 ∧ b ≠ 32)
    (hB : B = pre ++ [91, 34] ++ k ++ 34 :: rest)
    (hL : ((2 + k.length : Nat) : Int) < L) :
    extractedKey B pre.length L = k := by
  obtain ⟨a, ks, rfl, ha, hks⟩ := key_shape k hk hkb hk0
  obtain ⟨h1, h2, h3⟩ := extract_key B pre ks rest a L (by rw [hB]; simp)
    (by simp at hL ⊢; omega) ha hks
  unfold extractedKey
  simp only [h1, h2]
  exact h3

/-- C26 (amended): on a payload `["key",value` followed by one or more closing brackets
or spaces, with a key that is not empty, holds no `"` and no `,` and does not start with
`[`, `"` or space, and a value that is not empty, holds no NUL, does not start with `,`
or space and does not end with `]` or space, the text dispatch of the WebSocket client
and the EVENT dispatch of the Socket.IO client extract the same key; when the key is
registered in both, each passes exactly the bytes of the value to the handler found
under it; when it is registered in neither, neither runs a handler. -/
theorem extractor_agreement (e : SendEnv) (c : WebSocketClient) (s : SocketIoClient)
    (pre post spre spost k val tl : List Nat) (last : Nat)
    (hk : k ≠ []) (hkb : ∀ b ∈ k, b < 256 ∧ b ≠ 34 ∧ b ≠ 44)
    (hk0 : ∀ b, k.head? = some b → b ≠ 91 ∧ b ≠ 32)
    (hval : val ≠ []) (hvb : ∀ b ∈ val, b < 256 ∧ b ≠ 0)
    (hhead : ∀ h, val.head? = some h → h ≠ 44 ∧ h ≠ 32)
    (hlast : ∀ l, val.getLast? = some l → l ≠ 93 ∧ l ≠ 32)
    (htl : ∀ b ∈ tl, b = 93 ∨ b = 32) (hl : last = 93 ∨ last = 32)
    (ht : c.ws_frame_type = WS_FR_OP_TXT)
    (hbuf : c.rx_buf = pre ++ eventText k val (tl ++ [last]) ++ post)
    (hmsg : c.ws_msg = pre.length)
    (hcnt : c.ws_frame_size - c.ws_header_size
      = ((eventText k val (tl ++ [last])).length : Int))
    (hsbuf : s.m_ws.rx_buf = spre ++ [52, 50] ++ eventText k val (tl ++ [last]) ++ spost) :
    (extractedKey c.rx_buf c.ws_msg (c.ws_frame_size - c.ws_header_size) = k
      ∧ extractedKey s.m_ws.rx_buf (spre.length + 2)
          ((eventText k val (tl ++ [last])).length : Int) = k)
    ∧ (∀ (id sid : Nat) (more : List (List Nat × Nat)),
        c.m_on.find? (fun p => p.1 = k) = some (k, id) →
        s.m_on.dropWhile (fun p => p.1 ≠ k) = (k, sid) :: more →
        (onWsFrame e c).2.trace
            = (callCb c ((eventText k val (tl ++ [last])).length : Int) WS_FR_OP_TXT).trace
              ++ [Event.on k id val (val.length : Int)]
        ∧ (sioMessage e s spre.length
              (((eventText k val (tl ++ [last])).length + 2 : Nat) : Int)).trace
            = s.trace
              ++ (if s.m_cb = true then
                    [SioEvent.cb (eventText k val (tl ++ [last]))
                      ((eventText k val (tl ++ [last])).length : Int) 50]
                  else [])
              ++ SioEvent.on k sid val :: more.map (fun p => SioEvent.on p.1 p.2 val))
    ∧ ((∀ p ∈ c.m_on, p.1 ≠ k) → (∀ p ∈ s.m_on, p.1 ≠ k) →
        (onWsFrame e c).2.trace
            = (callCb c ((eventText k val (tl ++ [last])).length : Int) WS_FR_OP_TXT).trace
        ∧ (sioMessage e s spre.length
              (((eventText k val (tl ++ [last])).length + 2 : Nat) : Int)).trace
            = s.trace
              ++ (if s.m_cb = true then
                    [SioEvent.cb (eventText k val (tl ++ [last]))
                      ((eventText k val (tl ++ [last])).length : Int) 50]
                  else [])) := by
  have hL : ((2 + k.length : Nat) : Int) < ((eventText k val (tl ++ [last])).length : Int) := by
    rw [eventText_length]
    push_cast
    omega
  have hkc : extractedKey c.rx_buf c.ws_msg (c.ws_frame_size - c.ws_header_size) = k := by
    rw [hcnt, hmsg]
    exact extractedKey_eq _ pre k (44 :: (val ++ (tl ++ [last]) ++ post)) _ hk hkb hk0
      (by rw [hbuf]; simp [eventText]) hL
  have hks : extractedKey s.m_ws.rx_buf (spre.length + 2)
      ((eventText k val (tl ++ [last])).length : Int) = k := by
    have h := extractedKey_eq s.m_ws.rx_buf (spre ++ [52, 50]) k
      (44 :: (val ++ (tl ++ [last]) ++ spost)) _ hk hkb hk0
      (by rw [hsbuf]; simp [eventText]) hL
    simpa using h
  have hvn : ∀ b ∈ val, b % 256 ≠ 0 := by
    intro b hb
    have := hvb b hb
    omega
  have hh1 : ∀ h, val.head? = some h → h % 256 ≠ 44 ∧ h % 256 ≠ 32 := by
    intro h hh
    have h1 := hhead h hh
    have h2 := (hvb h (List.mem_of_mem_head? hh)).1
    omega
  have hl1 : ∀ l, val.getLast? = some l → l % 256 ≠ 93 ∧ l % 256 ≠ 32 := by
    intro l hl'
    have h1 := hlast l hl'
    have h2 := (hvb l (List.mem_of_mem_getLast? hl')).1
    omega
  refine ⟨⟨hkc, hks⟩, ?_, ?_⟩
  · intro id sid more hreg hsreg
    constructor
    · rw [onWsFrame_keyed e c pre post k val (tl ++ [last]) id hk hkb hk0 hval hh1 hl1
        (by
          intro b hb
          rcases List.mem_append.1 hb with h | h
          · exact htl b h
          · simp at h
            rw [h]
            exact hl)
        ht hbuf hmsg hcnt hreg]
    · rw [sioMessage_keyed e s spre spost k val tl last hk hkb hk0 hval
        (fun h hh => (hh1 h hh).1) hl1 hvn htl hsbuf (by rw [hsreg]; simp), hsreg]
      simp
  · intro hc hs
    constructor
    · obtain ⟨s1, s2, s3, _⟩ := callCb_same c (c.ws_frame_size - c.ws_header_size)
        WS_FR_OP_TXT
      rw [onWsFrame_text e c ht, onText_unregistered, hcnt]
      rw [s1, s2, s3, hkc]
      exact hc
    · have hb1 : s.m_ws.rx_buf
          = spre ++ 52 :: 50 :: (eventText k val (tl ++ [last]) ++ spost) := by
        rw [hsbuf]
        simp
      have hsl : slice s.m_ws.rx_buf (spre.length + 2)
          (((eventText k val (tl ++ [last])).length : Int)).toNat
          = eventText k val (tl ++ [last]) := by
        rw [hsbuf]
        exact slice_mid _ _ _ _ _ (by simp) (by simp)
      rw [sioMessage_event e s spre _ _ hb1 (by push_cast; omega)]
      have hL2 : (((eventText k val (tl ++ [last])).length + 2 : Nat) : Int) - 2
          = ((eventText k val (tl ++ [last])).length : Int) := by
        push_cast
        omega
      rw [hL2, sioOnEvent_unregistered s _ _ (by rw [hks]; exact hs), hsl]
      split_ifs <;> simp

/-- C26, instance of `extractor_agreement`: the payload `["a",7]` with handler 3 under `a`
in the WebSocket client and handler 4 in the Socket.IO client. -/
theorem extractor_agreement_witness :
    (onWsFrame (okEnv 0 0 0 0 0)
        (textClient ([129, 7] ++ eventText [97] [55] [93]) 7 false [([97], 3)])).2.trace
      = [Event.on [97] 3 [55] 1]
    ∧ (sioMessage (okEnv 0 0 0 0 0)
        (sioClient ([52, 50] ++ eventText [97] [55] [93]) false [([97], 4)]) 0 9).trace
      = [SioEvent.on [97] 4 [55]] :=
  have h := (extractor_agreement (okEnv 0 0 0 0 0)
    (textClient ([129, 7] ++ eventText [97] [55] [93]) 7 false [([97], 3)])
    (sioClient ([52, 50] ++ eventText [97] [55] [93]) false [([97], 4)])
    [129, 7] [] [] [] [97] [55] [] 93
    (by decide) (by decide) (by decide) (by decide) (by decide) (by decide) (by decide)
    (by decide) (by decide) rfl (by decide) rfl (by decide) (by decide)).2.1 3 4 []
    (by decide) (by decide)
  ⟨h.1.trans (by decide), h.2.trans (by decide)⟩

/-- C26, counterexample: on the payload `["a", 7]` the WebSocket client passes `7` and the
Socket.IO client passes ` 7` (it skips commas only); on `["a",7` the WebSocket client
runs the handler with `7` and the Socket.IO client, which overwrites the last byte, runs
none. -/
theorem extractor_disagreement :
    ((onWsFrame (okEnv 0 0 0 0 0)
        (textClient ([129, 8] ++ [91, 34, 97, 34, 44, 32, 55, 93]) 8 false
          [([97], 3)])).2.trace
      = [Event.on [97] 3 [55] 1]
      ∧ (sioMessage (okEnv 0 0 0 0 0)
          (sioClient ([52, 50] ++ [91, 34, 97, 34, 44, 32, 55, 93]) false [([97], 3)])
          0 10).trace
        = [SioEvent.on [97] 3 [32, 55]])
    ∧ ((onWsFrame (okEnv 0 0 0 0 0)
        (textClient ([129, 6] ++ [91, 34, 97, 34, 44, 55]) 6 false [([97], 3)])).2.trace
      = [Event.on [97] 3 [55] 1]
      ∧ (sioMessage (okEnv 0 0 0 0 0)
          (sioClient ([52, 50] ++ [91, 34, 97, 34, 44, 55]) false [([97], 3)]) 0 8).trace
        = []) := by
  decide

/-! ## C27: the buffer selected by `send` holds the frame -/

/-- C27 (amended): for every capacity `0 ≤ m_maxBuf` and every payload size `n` with
`n + 14 < 2 ^ 31`, `send` (and `send2` with `n = size0 + size1`) selects a temporary
buffer of `n + 16` bytes exactly when `n + 15` exceeds `m_maxBuf`, and the fixed buffer
of `m_maxBuf` bytes otherwise; the header has `idx_header` bytes, and every index written,
the header indices below `idx_header` and the indices `idx_header + i` for `i ≤ n` (payload
bytes and terminator), is non-negative and strictly below the size of the selected
buffer. -/
theorem send_buffer_holds_frame (m_maxBuf : Int) (n type : Nat) (masks : List Nat)
    (h0 : 0 ≤ m_maxBuf) (hm : m_maxBuf < 2 ^ 31) (hn : n + 14 < 2 ^ 31) :
    (needsAlloc m_maxBuf n = true ↔ m_maxBuf < (n : Int) + 15)
    ∧ responseSize m_maxBuf n = (if m_maxBuf < (n : Int) + 15 then (n : Int) + 16 else m_maxBuf)
    ∧ (sendHeader n type masks).length = idxHeader n
    ∧ (∀ j, j < idxHeader n → (j : Int) < responseSize m_maxBuf n)
    ∧ (∀ i, i ≤ n → payloadIndex n i = (idxHeader n : Int) + i
        ∧ 0 ≤ payloadIndex n i ∧ payloadIndex n i < responseSize m_maxBuf n) := by
  have hH : idxHeader n ≤ 14 := by unfold idxHeader; split_ifs <;> omega
  have hH0 : idxHeader n ≤ n + 6 := by unfold idxHeader; split_ifs <;> omega
  have hu : intToU32 m_maxBuf = m_maxBuf.toNat := by
    unfold intToU32
    congr 1
    omega
  have ha : needsAlloc m_maxBuf n = true ↔ m_maxBuf < (n : Int) + 15 := by
    unfold needsAlloc
    rw [decide_eq_true_eq, hu, u32_of_lt (by omega)]
    omega
  have hr : responseSize m_maxBuf n
      = (if m_maxBuf < (n : Int) + 15 then (n : Int) + 16 else m_maxBuf) := by
    unfold responseSize
    by_cases h : m_maxBuf < (n : Int) + 15
    · rw [if_pos (ha.2 h), if_pos h, u32_of_lt (by omega)]
      push_cast
      rfl
    · rw [if_neg (fun c => h (ha.1 c)), if_neg h]
  refine ⟨ha, hr, sendHeader_length _ _ _, ?_, ?_⟩
  · intro j hj
    rw [hr]
    split_ifs <;> omega
  · intro i hi
    have hp : payloadIndex n i = (idxHeader n : Int) + i := by
      unfold payloadIndex
      exact wrapInt_of_range (by omega) (by omega)
    rw [hp, hr]
    refine ⟨rfl, by omega, ?_⟩
    split_ifs <;> omega

/-- C27, instance of `send_buffer_holds_frame`: with the default capacity 1024 a payload
of 2000 bytes gets a temporary buffer of 2016 bytes and its terminator goes to index
2008. -/
theorem send_buffer_holds_frame_witness :
    responseSize 1024 2000 = 2016 ∧ payloadIndex 2000 2000 = 2008
    ∧ payloadIndex 2000 2000 < responseSize 1024 2000 :=
  have h := send_buffer_holds_frame 1024 2000 WS_FR_OP_TXT [1, 2, 3, 4]
    (by decide) (by decide) (by decide)
  ⟨h.2.1.trans (by decide), (h.2.2.2.2 2000 (le_refl _)).1.trans (by decide),
    (h.2.2.2.2 2000 (le_refl _)).2.2⟩

/-- C27, counterexample: for the 32-bit size `2 ^ 32 - 16` the temporary buffer is
`malloc(0)` although index 0 is written; for `2 ^ 32 - 15` the sum `size + 15` wraps to 0
and the fixed buffer of 1024 bytes is selected; for `2 ^ 31` the `int` index of payload
byte `2 ^ 31 - 14` is negative; and with a negative `m_maxBuf` the fixed buffer is
selected for every size. -/
theorem send_buffer_too_small :
    (needsAlloc 1024 (2 ^ 32 - 16) = true ∧ responseSize 1024 (2 ^ 32 - 16) = 0
      ∧ ¬ ((0 : Int) < responseSize 1024 (2 ^ 32 - 16)))
    ∧ (needsAlloc 1024 (2 ^ 32 - 15) = false ∧ responseSize 1024 (2 ^ 32 - 15) = 1024
      ∧ ¬ (payloadIndex (2 ^ 32 - 15) 1010 < responseSize 1024 (2 ^ 32 - 15)))
    ∧ payloadIndex (2 ^ 31) (2 ^ 31 - 14) < 0
    ∧ (needsAlloc (-1) 0 = false ∧ ¬ ((0 : Int) < responseSize (-1) 0)) := by
  decide

/-! ## C28: `connect` and the response of the server -/

/-- The outcome of the read number `pos + j` when the bytes `todo` come after `pos`
bytes. -/
theorem reads_at (pre todo post : List Nat) (rest : Recv1) (j : Nat) (hj : j < todo.length) :
    ((pre ++ todo ++ post).map Recv1.byte).getD (pre.length + j) rest
      = Recv1.byte (todo.getD j 0) := by
  rw [List.getD_eq_getElem?_getD, List.getElem?_map, List.append_assoc,
    List.getElem?_append_right (by omega)]
  simp only [Nat.add_sub_cancel_left]
  rw [List.getElem?_append_left hj, List.getElem?_eq_getElem hj, List.getD_eq_getElem _ _ hj]
  rfl

/-- Behind the last byte every read returns `rest`. -/
theorem reads_end (text : List Nat) (rest : Recv1) :
    (text.map Recv1.byte).getD text.length rest = rest := by
  rw [List.getD_eq_default]
  simp

/-- The line loop stores the bytes it is given while its condition holds. -/
theorem readLine_reads (env : ConnEnv) (maxBufC : Int) :
    ∀ (todo done rest : List Nat) (fuel pos : Nat),
      todo.length ≤ rest.length → todo.length ≤ fuel →
      (∀ b ∈ todo, b < 256) →
      (∀ j, j < todo.length →
        env.reads.getD (pos + j) env.rest = Recv1.byte (todo.getD j 0)) →
      (∀ j, j < todo.length →
        (done.length + j < 2 ∨ (((done.length + j : Nat) : Int) < maxBufC
          ∧ rd (done ++ todo) (done.length + j - 2) ≠ 13
          ∧ rd (done ++ todo) (done.length + j - 1) ≠ 10))) →
      readLine env maxBufC fuel (done ++ rest) done.length pos
        = readLine env maxBufC (fuel - todo.length) (done ++ todo ++ rest.drop todo.length)
            (done.length + todo.length) (pos + todo.length) := by
  intro todo
  induction todo with
  | nil =>
    intro done rest fuel pos _ _ _ _ _
    simp
  | cons b todo ih =>
    intro done rest fuel pos hrest hfuel hb hreads hcont
    obtain ⟨f, rfl⟩ : ∃ f, fuel = f + 1 := ⟨fuel - 1, by simp at hfuel; omega⟩
    obtain ⟨r0, rest1, rfl⟩ : ∃ r0 rest1, rest = r0 :: rest1 := by
      cases rest with
      | nil => simp at hrest
      | cons r0 rest1 => exact ⟨r0, rest1, rfl⟩
    have hc0 := hcont 0 (by simp)
    have hr0 := hreads 0 (by simp)
    simp only [Nat.add_zero, List.getD_cons_zero] at hc0 hr0
    have hcond : done.length < 2 ∨ ((done.length : Int) < maxBufC
        ∧ rd (done ++ r0 :: rest1) (done.length - 2) ≠ 13
        ∧ rd (done ++ r0 :: rest1) (done.length - 1) ≠ 10) := by
      rcases hc0 with h | ⟨h1, h2, h3⟩
      · exact Or.inl h
      · by_cases h : done.length < 2
        · exact Or.inl h
        · refine Or.inr ⟨h1, ?_, ?_⟩
          · rw [rd_append_left _ _ (by omega)]
            rw [rd_append_left _ _ (by omega)] at h2
            exact h2
          · rw [rd_append_left _ _ (by omega)]
            rw [rd_append_left _ _ (by omega)] at h3
            exact h3
    have hu : u8 b = b := Nat.mod_eq_of_lt (hb b (List.mem_cons_self _ _))
    generalize hR : readLine env maxBufC (f + 1 - (b :: todo).length)
      (done ++ (b :: todo) ++ (r0 :: rest1).drop (b :: todo).length)
      (done.length + (b :: todo).length) (pos + (b :: todo).length) = R
    unfold readLine
    rw [if_pos hcond, hr0]
    simp only
    rw [hu, set_at]
    have e1 : done ++ b :: rest1 = (done ++ [b]) ++ rest1 := by simp
    have e2 : done.length + 1 = (done ++ [b]).length := by simp
    rw [e1, e2, ih (done ++ [b]) rest1 f (pos + 1) (by simp at hrest; omega)
      (by simp at hfuel; omega) (fun x hx => hb x (List.mem_cons_of_mem _ hx))
      (fun j hj => by
        have := hreads (j + 1) (by simp; omega)
        simp only [List.getD_cons_succ] at this
        rw [← this]
        congr 1
        omega)
      (fun j hj => by
        have := hcont (j + 1) (by simp; omega)
        simp only [List.length_append, List.length_singleton, List.append_assoc,
          List.singleton_append]
        have e3 : done.length + 1 + j = done.length + (j + 1) := by omega
        rw [e3]
        exact this)]
    rw [← hR]
    simp only [List.length_cons, List.length_append, List.length_singleton, List.drop_succ_cons,
      List.append_assoc, List.singleton_append, Nat.add_sub_add_right, List.length_nil]
    have e4 : done.length + (0 + 1) + todo.length = done.length + (todo.length + 1) := by
      omega
    have e5 : pos + 1 + todo.length = pos + (todo.length + 1) := by omega
    rw [e4, e5]

theorem lineFits_spec (m : Int) (l : List Nat) (h : lineFits m l = true) :
    (l.length : Int) + 2 < m ∧ ∀ b ∈ l, b < 256 ∧ b ≠ 0 ∧ b ≠ 13 ∧ b ≠ 10 := by
  unfold lineFits at h
  simp only [Bool.and_eq_true, decide_eq_true_eq, List.all_eq_true, bne_iff_ne, ne_eq] at h
  refine ⟨h.1, fun b hb => ?_⟩
  obtain ⟨⟨⟨h1, h2⟩, h3⟩, h4⟩ := h.2 b hb
  exact ⟨h1, h2, h3, h4⟩

/-- A byte of a line read from the buffer. -/
theorem rd_line (l : List Nat) (hl : ∀ b ∈ l, b < 256 ∧ b ≠ 0 ∧ b ≠ 13 ∧ b ≠ 10)
    (i : Nat) (hi : i < l.length) : rd l i ≠ 0 ∧ rd l i ≠ 13 ∧ rd l i ≠ 10 := by
  rw [rd_of_bytes (fun b hb => (hl b hb).1) hi, List.getD_eq_getElem _ _ hi]
  exact (hl _ (List.getElem_mem _)).2

/-- The loop condition holds while a line without CR and LF is being read. -/
theorem line_goes_on (maxBufC : Int) (l tail : List Nat)
    (hl : ∀ b ∈ l, b < 256 ∧ b ≠ 0 ∧ b ≠ 13 ∧ b ≠ 10)
    (hfit : (l.length : Int) + 2 < maxBufC) (j : Nat) (hj : j < l.length + 2) :
    j < 2 ∨ ((j : Int) < maxBufC ∧ rd (l ++ 13 :: tail) (j - 2) ≠ 13
      ∧ rd (l ++ 13 :: tail) (j - 1) ≠ 10) := by
  by_cases h : j < 2
  · exact Or.inl h
  · refine Or.inr ⟨by omega, ?_, ?_⟩
    · rw [rd_append_left _ _ (by omega)]
      exact (rd_line l hl _ (by omega)).2.1
    · by_cases h1 : j - 1 < l.length
      · rw [rd_append_left _ _ h1]
        exact (rd_line l hl _ h1).2.2
      · have e : j - 1 = l.length := by omega
        rw [e, rd_at]
        decide

/-- The line loop stops behind CR LF. -/
theorem readLine_stop (env : ConnEnv) (maxBufC : Int) (l r : List Nat) (f p : Nat) :
    readLine env maxBufC f (l ++ 13 :: 10 :: r) (l.length + 2) p
      = (true, l ++ 13 :: 10 :: r, l.length + 2, p) := by
  cases f with
  | zero => rfl
  | succ f =>
    unfold readLine
    rw [if_neg]
    intro h
    rcases h with h | ⟨_, h, _⟩
    · omega
    · apply h
      simp only [Nat.add_sub_cancel]
      rw [rd_at]

/-- The line loop on a line that ends with CR LF: the line is stored at the start of the
buffer and `i` is its length with CR LF. -/
theorem readLine_line (env : ConnEnv) (maxBufC : Int) (l buf : List Nat) (pos : Nat)
    (hfit : lineFits maxBufC l = true) (hbuf : maxBufC ≤ (buf.length : Int))
    (hreads : ∀ j, j < l.length + 2 →
      env.reads.getD (pos + j) env.rest = Recv1.byte ((l ++ [13, 10]).getD j 0)) :
    readLine env maxBufC (max 2 maxBufC.toNat) buf 0 pos
      = (true, l ++ 13 :: 10 :: buf.drop (l.length + 2), l.length + 2,
          pos + (l.length + 2)) := by
  obtain ⟨h1, h2⟩ := lineFits_spec maxBufC l hfit
  have h := readLine_reads env maxBufC (l ++ [13, 10]) [] buf (max 2 maxBufC.toNat) pos
    (by simp; omega) (by simp; omega)
    (by
      intro b hb
      rcases List.mem_append.1 hb with hb | hb
      · exact (h2 b hb).1
      · simp at hb
        omega)
    (by simpa using hreads)
    (by
      intro j hj
      simp only [List.length_nil, Nat.zero_add, List.nil_append]
      simp only [List.length_append, List.length_cons, List.length_nil] at hj
      exact line_goes_on maxBufC l [10] h2 h1 j (by omega))
  simp only [List.nil_append, List.length_nil, Nat.zero_add, List.length_append,
    List.length_cons] at h
  rw [h]
  have e : l ++ [13, 10] ++ List.drop (l.length + (0 + 1 + 1)) buf
      = l ++ 13 :: 10 :: buf.drop (l.length + 2) := by simp
  rw [e]
  exact readLine_stop env maxBufC l _ _ _

/-- The line loop on bytes after which the read returns 0. -/
theorem readLine_cut (env : ConnEnv) (maxBufC : Int) (l buf : List Nat) (pos : Nat)
    (hfit : lineFits maxBufC l = true) (hbuf : maxBufC ≤ (buf.length : Int))
    (hreads : ∀ j, j < l.length →
      env.reads.getD (pos + j) env.rest = Recv1.byte (l.getD j 0))
    (hzero : env.reads.getD (pos + l.length) env.rest = Recv1.zero) :
    (readLine env maxBufC (max 2 maxBufC.toNat) buf 0 pos).1 = false
    ∧ (readLine env maxBufC (max 2 maxBufC.toNat) buf 0 pos).2.1.length = buf.length := by
  obtain ⟨h1, h2⟩ := lineFits_spec maxBufC l hfit
  have h := readLine_reads env maxBufC l [] buf (max 2 maxBufC.toNat) pos
    (by omega) (by omega) (fun b hb => (h2 b hb).1) hreads
    (by
      intro j hj
      simp only [List.length_nil, Nat.zero_add, List.nil_append]
      by_cases h : j < 2
      · exact Or.inl h
      · exact Or.inr ⟨by omega, (rd_line l h2 _ (by omega)).2.1,
          (rd_line l h2 _ (by omega)).2.2⟩)
  simp only [List.nil_append, List.length_nil, Nat.zero_add] at h
  rw [h]
  obtain ⟨f, hf⟩ : ∃ f, max 2 maxBufC.toNat - l.length = f + 1 :=
    ⟨max 2 maxBufC.toNat - l.length - 1, by omega⟩
  rw [hf]
  unfold readLine
  have hcond : l.length < 2 ∨ ((l.length : Int) < maxBufC
      ∧ rd (l ++ List.drop l.length buf) (l.length - 2) ≠ 13
      ∧ rd (l ++ List.drop l.length buf) (l.length - 1) ≠ 10) := by
    by_cases h : l.length < 2
    · exact Or.inl h
    · refine Or.inr ⟨by omega, ?_, ?_⟩
      · rw [rd_append_left _ _ (by omega)]
        exact (rd_line l h2 _ (by omega)).2.1
      · rw [rd_append_left _ _ (by omega)]
        exact (rd_line l h2 _ (by omega)).2.2
  rw [if_pos hcond, hzero]
  simp only [List.length_append, List.length_drop]
  exact ⟨trivial, by omega⟩

/-- Stripping CR LF from the end of a line. -/
theorem stripEol_line (l r : List Nat) (a : Nat)
    (hl : ∀ b ∈ l ++ [a], b < 256 ∧ b ≠ 0 ∧ b ≠ 13 ∧ b ≠ 10) :
    stripEol (l ++ [a] ++ 13 :: 10 :: r) ((l ++ [a]).length + 2) = (l ++ [a]).length := by
  have e1 : rd (l ++ [a] ++ 13 :: 10 :: r) ((l ++ [a]).length + 1) = 10 := by
    rw [rd_append_right]
    rfl
  have e2 : rd (l ++ [a] ++ 13 :: 10 :: r) ((l ++ [a]).length) = 13 := by
    rw [rd_at]
  have e3 := rd_line (l ++ [a]) hl l.length (by simp)
  have e4 : rd (l ++ [a] ++ 13 :: 10 :: r) l.length = rd (l ++ [a]) l.length :=
    rd_append_left _ _ (by simp)
  have e5 : (l ++ [a]).length = l.length + 1 := by simp
  rw [e5] at e1 e2 ⊢
  unfold stripEol
  rw [if_pos (Or.inr e1)]
  unfold stripEol
  rw [if_pos (Or.inl e2)]
  unfold stripEol
  rw [if_neg (by rw [e4]; exact fun h => h.elim e3.2.1 e3.2.2)]

theorem strncmpEq_cons (buf : List Nat) (off a : Nat) (lit : List Nat) :
    strncmpEq buf off (a :: lit) = ((rd buf off == a) && strncmpEq buf (off + 1) lit) := by
  unfold strncmpEq
  rw [List.length_cons, List.range_succ_eq_map, List.all_cons, List.all_map]
  simp only [Nat.add_zero, List.getD_cons_zero, Function.comp_def, List.getD_cons_succ]
  congr 2
  funext i
  congr 2
  omega

/-- The test `!strncmp(rx_buf, lit, n)` on a line stored as a C string: the line starts
with the literal. -/
theorem strncmpEq_line : ∀ (lit l pre r : List Nat),
    (∀ b ∈ lit, b < 256 ∧ b ≠ 0) → (∀ b ∈ l, b < 256) →
    strncmpEq (pre ++ l ++ 0 :: r) pre.length lit = lit.isPrefixOf l := by
  intro lit
  induction lit with
  | nil =>
    intro l pre r _ _
    simp [strncmpEq]
  | cons a lit ih =>
    intro l pre r hlit hl
    rw [strncmpEq_cons]
    cases l with
    | nil =>
      have e : rd (pre ++ [] ++ 0 :: r) pre.length = 0 := by
        rw [List.append_nil, rd_at]
      rw [e]
      have ha := (hlit a (List.mem_cons_self _ _)).2
      simp [List.isPrefixOf]
      omega
    | cons b l =>
      have e : rd (pre ++ b :: l ++ 0 :: r) pre.length = b := by
        rw [List.append_assoc, List.cons_append, rd_at]
        exact Nat.mod_eq_of_lt (hl b (List.mem_cons_self _ _))
      have e2 : pre ++ b :: l ++ 0 :: r = (pre ++ [b]) ++ l ++ 0 :: r := by simp
      have e3 : pre.length + 1 = (pre ++ [b]).length := by simp
      rw [e, e2, e3, ih l (pre ++ [b]) r (fun x hx => hlit x (List.mem_cons_of_mem _ hx))
        (fun x hx => hl x (List.mem_cons_of_mem _ hx))]
      simp only [List.isPrefixOf]
      have e4 : (b == a) = (a == b) := by
        by_cases h : a = b
        · subst h
          rfl
        · have h1 : (a == b) = false := beq_false_of_ne h
          have h2 : (b == a) = false := beq_false_of_ne (fun x => h x.symm)
          rw [h1, h2]
      rw [e4]

/-- The characters of a line stored as a C string. -/
theorem cstr_line (l r : List Nat) (hl : ∀ b ∈ l, b < 256 ∧ b ≠ 0) :
    (cstr (l ++ 0 :: r) 0).map (fun b => b % 256) = l := by
  rw [cstr_zero l r (fun b hb => by have := hl b hb; omega)]
  calc l.map (fun b => b % 256) = l.map id :=
        List.map_congr_left (fun b hb => Nat.mod_eq_of_lt (hl b hb).1)
    _ = l := List.map_id l

/-- Stripping CR LF from the end of a line that is not empty. -/
theorem stripEol_of_line (l r : List Nat) (hne : l ≠ [])
    (hl : ∀ b ∈ l, b < 256 ∧ b ≠ 0 ∧ b ≠ 13 ∧ b ≠ 10) :
    stripEol (l ++ 13 :: 10 :: r) (l.length + 2) = l.length := by
  rcases List.eq_nil_or_concat l with h | ⟨l0, a, h⟩
  · exact absurd h hne
  · rw [List.concat_eq_append] at h
    subst h
    exact stripEol_line l0 r a hl

/-- One pass of the header loop over a line that is not empty: the accept check, then
the loop goes on behind the line. -/
theorem headerLoop_line (env : ConnEnv) (maxBufC : Int) (l buf : List Nat) (pos f : Nat)
    (ch : Bool) (hne : l ≠ []) (hfit : lineFits maxBufC l = true)
    (hbuf : maxBufC ≤ (buf.length : Int))
    (hreads : ∀ j, j < l.length + 2 →
      env.reads.getD (pos + j) env.rest = Recv1.byte ((l ++ [13, 10]).getD j 0)) :
    headerLoop env maxBufC (f + 1) buf pos ch =
      if acceptName.isPrefixOf l then
        if strstrFound acceptValue l then
          headerLoop env maxBufC f (l ++ 0 :: 10 :: buf.drop (l.length + 2))
            (pos + (l.length + 2)) true
        else some (some (-1), l ++ 0 :: 10 :: buf.drop (l.length + 2), ch)
      else headerLoop env maxBufC f (l ++ 0 :: 10 :: buf.drop (l.length + 2))
            (pos + (l.length + 2)) ch := by
  obtain ⟨h1, h2⟩ := lineFits_spec maxBufC l hfit
  have hrl := readLine_line env maxBufC l buf pos hfit hbuf hreads
  have hnb : ¬ (rd (l ++ 13 :: 10 :: buf.drop (l.length + 2)) 0 = 13
      ∧ rd (l ++ 13 :: 10 :: buf.drop (l.length + 2)) 1 = 10) := by
    intro h
    have hpos : 0 < l.length := List.length_pos.2 hne
    rw [rd_append_left _ _ hpos] at h
    exact (rd_line l h2 0 hpos).2.1 h.1
  have hs := stripEol_of_line l (buf.drop (l.length + 2)) hne h2
  have hset : (l ++ 13 :: 10 :: buf.drop (l.length + 2)).set l.length 0
      = l ++ 0 :: 10 :: buf.drop (l.length + 2) := set_at _ _ _ _
  have hcmp : strncmpEq (l ++ 0 :: 10 :: buf.drop (l.length + 2)) 0 acceptName
      = acceptName.isPrefixOf l := by
    have h := strncmpEq_line acceptName l [] (10 :: buf.drop (l.length + 2))
      (by decide) (fun b hb => (h2 b hb).1)
    simpa using h
  have hstr : (cstr (l ++ 0 :: 10 :: buf.drop (l.length + 2)) 0).map (fun b => b % 256) = l :=
    cstr_line l _ (fun b hb => ⟨(h2 b hb).1, (h2 b hb).2.1⟩)
  generalize hR : (if acceptName.isPrefixOf l then
        if strstrFound acceptValue l then
          headerLoop env maxBufC f (l ++ 0 :: 10 :: buf.drop (l.length + 2))
            (pos + (l.length + 2)) true
        else some (some (-1), l ++ 0 :: 10 :: buf.drop (l.length + 2), ch)
      else headerLoop env maxBufC f (l ++ 0 :: 10 :: buf.drop (l.length + 2))
            (pos + (l.length + 2)) ch) = R
  unfold headerLoop
  simp only [hrl, hs, hset, hcmp, hstr]
  rw [if_neg (by decide), if_neg hnb]
  exact hR

/-- The header loop at the empty line that ends the header. -/
theorem headerLoop_blank (env : ConnEnv) (maxBufC : Int) (buf : List Nat) (pos f : Nat)
    (ch : Bool) (h2 : 2 < maxBufC) (hbuf : maxBufC ≤ (buf.length : Int))
    (hreads : ∀ j, j < 2 →
      env.reads.getD (pos + j) env.rest = Recv1.byte (([13, 10] : List Nat).getD j 0)) :
    headerLoop env maxBufC (f + 1) buf pos ch = some (none, 13 :: 10 :: buf.drop 2, ch) := by
  have hrl := readLine_line env maxBufC [] buf pos (by simp [lineFits]; omega) hbuf
    (by simpa using hreads)
  simp only [List.nil_append, List.length_nil, Nat.zero_add] at hrl
  unfold headerLoop
  simp only [hrl]
  rw [if_neg (by decide), if_pos (by constructor <;> rfl)]

/-- The header loop when the reads return 0 within a line. -/
theorem headerLoop_cut (env : ConnEnv) (maxBufC : Int) (l buf : List Nat) (pos f : Nat)
    (ch : Bool) (hfit : lineFits maxBufC l = true) (hbuf : maxBufC ≤ (buf.length : Int))
    (hreads : ∀ j, j < l.length →
      env.reads.getD (pos + j) env.rest = Recv1.byte (l.getD j 0))
    (hzero : env.reads.getD (pos + l.length) env.rest = Recv1.zero) :
    ∃ buf2, headerLoop env maxBufC (f + 1) buf pos ch = some (some 0, buf2, ch) := by
  obtain ⟨h1, _⟩ := readLine_cut env maxBufC l buf pos hfit hbuf hreads hzero
  unfold headerLoop
  simp only [h1, if_true]
  exact ⟨_, rfl⟩

/-- The header loop over header lines followed by `ending`, given what it does at
`ending`: it returns -1 at the first accept line without the value, else what the ending
gives, with the flag of the accept check. -/
theorem headerLoop_lines (env : ConnEnv) (maxBufC : Int) (ending : List Nat)
    (endRes : Option Int)
    (hend : ∀ (pre buf : List Nat) (f : Nat) (ch : Bool),
      env.reads = (pre ++ ending).map Recv1.byte → maxBufC ≤ (buf.length : Int) →
      ∃ buf2, headerLoop env maxBufC (f + 1) buf pre.length ch = some (endRes, buf2, ch)) :
    ∀ (lines : List (List Nat)) (pre buf : List Nat) (fuel : Nat) (ch : Bool),
      env.reads = (pre ++ linesText lines ++ ending).map Recv1.byte →
      (∀ l ∈ lines, l ≠ [] ∧ lineFits maxBufC l = true) →
      maxBufC ≤ (buf.length : Int) → lines.length < fuel →
      ∃ buf2, headerLoop env maxBufC fuel buf pre.length ch
        = some (match acceptCheck lines ch with
                | none => (some (-1), buf2, ch)
                | some c => (endRes, buf2, c))
          ∨ (acceptCheck lines ch = none
              ∧ ∃ c, headerLoop env maxBufC fuel buf pre.length ch = some (some (-1), buf2, c)) := by
  intro lines
  induction lines with
  | nil =>
    intro pre buf fuel ch hr _ hbuf hfuel
    obtain ⟨f, rfl⟩ : ∃ f, fuel = f + 1 := ⟨fuel - 1, by simp at hfuel; omega⟩
    obtain ⟨buf2, h⟩ := hend pre buf f ch (by simpa [linesText] using hr) hbuf
    exact ⟨buf2, Or.inl (by rw [h]; rfl)⟩
  | cons l ls ih =>
    intro pre buf fuel ch hr hl hbuf hfuel
    obtain ⟨f, rfl⟩ : ∃ f, fuel = f + 1 := ⟨fuel - 1, by simp at hfuel; omega⟩
    obtain ⟨hne, hfit⟩ := hl l (List.mem_cons_self _ _)
    obtain ⟨h1, h2⟩ := lineFits_spec maxBufC l hfit
    have hreads : ∀ j, j < l.length + 2 →
        env.reads.getD (pre.length + j) env.rest = Recv1.byte ((l ++ [13, 10]).getD j 0) := by
      intro j hj
      rw [hr]
      have e : pre ++ linesText (l :: ls) ++ ending
          = pre ++ (l ++ [13, 10]) ++ (linesText ls ++ ending) := by
        simp [linesText]
      rw [e]
      exact reads_at pre (l ++ [13, 10]) _ _ j (by simpa using hj)
    have hstep := headerLoop_line env maxBufC l buf pre.length f ch hne hfit hbuf hreads
    have hpos : pre.length + (l.length + 2) = (pre ++ l ++ [13, 10]).length := by
      simp only [List.length_append, List.length_cons, List.length_nil]
      omega
    have hr2 : env.reads = ((pre ++ l ++ [13, 10]) ++ linesText ls ++ ending).map Recv1.byte := by
      rw [hr]
      simp [linesText]
    have hlen : maxBufC ≤ ((l ++ 0 :: 10 :: buf.drop (l.length + 2)).length : Int) := by
      simp only [List.length_append, List.length_cons, List.length_drop]
      push_cast
      omega
    rw [hpos] at hstep
    rw [hstep]
    unfold acceptCheck
    by_cases ha : acceptName.isPrefixOf l = true
    · rw [if_pos ha, if_pos ha]
      by_cases hv : strstrFound acceptValue l = true
      · rw [if_pos hv, if_pos hv]
        obtain ⟨buf2, h | ⟨h, c, hc⟩⟩ := ih (pre ++ l ++ [13, 10]) _ f true hr2
          (fun x hx => hl x (List.mem_cons_of_mem _ hx)) hlen (by simp at hfuel; omega)
        · cases hac : acceptCheck ls true with
          | none =>
            rw [hac] at h
            exact ⟨buf2, Or.inr ⟨rfl, true, h⟩⟩
          | some c =>
            rw [hac] at h
            exact ⟨buf2, Or.inl h⟩
        · exact ⟨buf2, Or.inr ⟨h, c, hc⟩⟩
      · rw [if_neg hv, if_neg hv]
        exact ⟨_, Or.inl rfl⟩
    · rw [if_neg ha, if_neg ha]
      exact ih (pre ++ l ++ [13, 10]) _ f ch hr2
        (fun x hx => hl x (List.mem_cons_of_mem _ hx)) hlen (by simp at hfuel; omega)

/-- The outcome of the header loop over header lines followed by `ending`. -/
theorem headerLoop_outcome (env : ConnEnv) (maxBufC : Int) (ending : List Nat)
    (endRes : Option Int)
    (hend : ∀ (pre buf : List Nat) (f : Nat) (ch : Bool),
      env.reads = (pre ++ ending).map Recv1.byte → maxBufC ≤ (buf.length : Int) →
      ∃ buf2, headerLoop env maxBufC (f + 1) buf pre.length ch = some (endRes, buf2, ch))
    (lines : List (List Nat)) (pre buf : List Nat) (fuel : Nat) (ch : Bool)
    (hr : env.reads = (pre ++ linesText lines ++ ending).map Recv1.byte)
    (hl : ∀ l ∈ lines, l ≠ [] ∧ lineFits maxBufC l = true)
    (hbuf : maxBufC ≤ (buf.length : Int)) (hfuel : lines.length < fuel) :
    ∃ res, headerLoop env maxBufC fuel buf pre.length ch = some res
      ∧ (acceptCheck lines ch = none → res.1 = some (-1))
      ∧ (∀ c, acceptCheck lines ch = some c → res.1 = endRes ∧ res.2.2 = c) := by
  obtain ⟨buf2, h | ⟨h, c, hc⟩⟩ :=
    headerLoop_lines env maxBufC ending endRes hend lines pre buf fuel ch hr hl hbuf hfuel
  · cases hac : acceptCheck lines ch with
    | none =>
      simp only [hac] at h
      refine ⟨_, h, fun _ => rfl, ?_⟩
      intro c hc
      cases hc
    | some c =>
      simp only [hac] at h
      refine ⟨_, h, ?_, ?_⟩
      · intro hn
        cases hn
      · intro c' hc'
        cases hc'
        exact ⟨rfl, rfl⟩
  · refine ⟨_, hc, fun _ => rfl, ?_⟩
    intro c' hc'
    rw [h] at hc'
    cases hc'

/-- The accept check in words: it fails at an accept line without the value; else its
flag tells whether an accept line was seen. -/
theorem acceptCheck_spec : ∀ (lines : List (List Nat)) (ch : Bool),
    (acceptCheck lines ch = none →
      ¬ ∀ l ∈ lines, acceptName.isPrefixOf l = true → strstrFound acceptValue l = true)
    ∧ (∀ c, acceptCheck lines ch = some c →
      (∀ l ∈ lines, acceptName.isPrefixOf l = true → strstrFound acceptValue l = true)
      ∧ (c = true ↔ (ch = true ∨ ∃ l ∈ lines, acceptName.isPrefixOf l = true))) := by
  intro lines
  induction lines with
  | nil =>
    intro ch
    constructor
    · intro h
      simp [acceptCheck] at h
    · intro c hc
      have hcc : ch = c := by simpa [acceptCheck] using hc
      subst hcc
      constructor
      · intro l hl
        cases hl
      · simp
  | cons l ls ih =>
    intro ch
    unfold acceptCheck
    by_cases ha : acceptName.isPrefixOf l = true
    · rw [if_pos ha]
      by_cases hv : strstrFound acceptValue l = true
      · rw [if_pos hv]
        obtain ⟨i1, i2⟩ := ih true
        constructor
        · intro h hall
          exact i1 h (fun x hx => hall x (List.mem_cons_of_mem _ hx))
        · intro c hc
          obtain ⟨j1, j2⟩ := i2 c hc
          refine ⟨?_, ?_⟩
          · intro x hx hax
            rcases List.mem_cons.1 hx with rfl | hx
            · exact hv
            · exact j1 x hx hax
          · constructor
            · intro _
              exact Or.inr ⟨l, List.mem_cons_self _ _, ha⟩
            · intro _
              exact j2.2 (Or.inl rfl)
      · rw [if_neg hv]
        constructor
        · intro _ hall
          exact hv (hall l (List.mem_cons_self _ _) ha)
        · intro c hc
          cases hc
    · rw [if_neg ha]
      obtain ⟨i1, i2⟩ := ih ch
      constructor
      · intro h hall
        exact i1 h (fun x hx => hall x (List.mem_cons_of_mem _ hx))
      · intro c hc
        obtain ⟨j1, j2⟩ := i2 c hc
        refine ⟨?_, ?_⟩
        · intro x hx hax
          rcases List.mem_cons.1 hx with rfl | hx
          · exact absurd hax ha
          · exact j1 x hx hax
        · constructor
          · intro hc'
            rcases j2.1 hc' with h | ⟨x, hx, hax⟩
            · exact Or.inl h
            · exact Or.inr ⟨x, List.mem_cons_of_mem _ hx, hax⟩
          · intro h
            rcases h with h | ⟨x, hx, hax⟩
            · exact j2.2 (Or.inl h)
            · rcases List.mem_cons.1 hx with rfl | hx
              · exact absurd hax ha
              · exact j2.2 (Or.inr ⟨x, hx, hax⟩)

/-- `connect` up to the header loop: after a status line that fits the buffer, a status
other than 101 closes with 0; else the header loop decides. -/
theorem connect_status (env : ConnEnv) (fuel : Nat) (k : ConnClient) (timeout_ms : Int)
    (status after : List Nat)
    (htr : 0 ≤ env.tr_connect)
    (hreads : env.reads = (status ++ [13, 10] ++ after).map Recv1.byte)
    (hbuf : (k.ws.rx_buf.length : Int) = k.ws.m_maxBuf)
    (hreq : env.request.length ≤ k.ws.rx_buf.length)
    (hstatus : lineFits (k.ws.m_maxBuf - 1) status = true) :
    ∃ buf : List Nat, k.ws.m_maxBuf - 1 ≤ (buf.length : Int)
      ∧ (∃ d, buf = status ++ 13 :: 10 :: 0 :: d)
      ∧ connect env fuel k timeout_ms =
        if scanStatus (status ++ [13, 10]) ≠ some 101 then
          some (0, connClosed
            { k with ws := { k.ws with m_connected := false },
                     log := k.log ++ [ConnEvent.connect timeout_ms]
                       ++ [ConnEvent.sent env.request] } buf)
        else
          match headerLoop env (k.ws.m_maxBuf - 1) fuel buf (status ++ [13, 10]).length
              false with
          | none => none
          | some (some ret, buf2, _) =>
            some (ret, connClosed
              { k with ws := { k.ws with m_connected := false },
                       log := k.log ++ [ConnEvent.connect timeout_ms]
                         ++ [ConnEvent.sent env.request] } buf2)
          | some (none, buf2, checked) =>
            if checked = false then
              some (-1, connClosed
                { k with ws := { k.ws with m_connected := false },
                         log := k.log ++ [ConnEvent.connect timeout_ms]
                           ++ [ConnEvent.sent env.request] } buf2)
            else
              some (1,
                { k with
                  ws := { k.ws with rx_buf := buf2, ws_ping_cnt := 0, ws_pong_cnt := 0,
                                    line_begin := 0, line_end := 0, ws_frame_size := 0,
                                    m_connected := true },
                  log := k.log ++ [ConnEvent.connect timeout_ms]
                    ++ [ConnEvent.sent env.request]
                    ++ (if k.m_ccb then [ConnEvent.ccb true] else []) }) := by
  obtain ⟨h1, h2⟩ := lineFits_spec _ status hstatus
  have hlen0 : (env.request ++ k.ws.rx_buf.drop env.request.length).length
      = k.ws.rx_buf.length := by
    simp only [List.length_append, List.length_drop]
    omega
  have hrl := readLine_line env (k.ws.m_maxBuf - 1) status
    (env.request ++ k.ws.rx_buf.drop env.request.length) 0 hstatus
    (by rw [hlen0]; omega)
    (fun j hj => by
      rw [hreads]
      have := reads_at [] (status ++ [13, 10]) after env.rest j (by simpa using hj)
      simpa using this)
  obtain ⟨x, d, hd⟩ : ∃ x d,
      (env.request ++ k.ws.rx_buf.drop env.request.length).drop (status.length + 2) = x :: d := by
    cases hc : (env.request ++ k.ws.rx_buf.drop env.request.length).drop (status.length + 2) with
    | nil =>
      have := congrArg List.length hc
      rw [List.length_drop, hlen0] at this
      simp at this
      omega
    | cons x d => exact ⟨x, d, rfl⟩
  have hdl : (d.length : Int) + 1 + (status.length + 2) = k.ws.m_maxBuf := by
    have := congrArg List.length hd
    rw [List.length_drop, hlen0] at this
    simp at this
    omega
  rw [hd] at hrl
  have hset : (status ++ 13 :: 10 :: x :: d).set (status.length + 2) 0
      = status ++ 13 :: 10 :: 0 :: d := by
    have e : status ++ 13 :: 10 :: x :: d = (status ++ [13, 10]) ++ x :: d := by simp
    have e2 : status.length + 2 = (status ++ [13, 10]).length := by simp
    rw [e, e2, set_at]
    simp
  have hstr : (cstr (status ++ 13 :: 10 :: 0 :: d) 0).map (fun b => b % 256)
      = status ++ [13, 10] := by
    have e : status ++ 13 :: 10 :: 0 :: d = (status ++ [13, 10]) ++ 0 :: d := by simp
    rw [e]
    refine cstr_line _ d ?_
    intro b hb
    rcases List.mem_append.1 hb with hb | hb
    · exact ⟨(h2 b hb).1, (h2 b hb).2.1⟩
    · simp at hb
      omega
  have hne : ¬ (((status.length + 2 : Nat) : Int) = k.ws.m_maxBuf - 1) := by
    push_cast
    omega
  refine ⟨status ++ 13 :: 10 :: 0 :: d, ?_, ⟨d, rfl⟩, ?_⟩
  · simp only [List.length_append, List.length_cons]
    push_cast
    omega
  · unfold connect
    simp only [hrl, hset, hstr, Nat.zero_add]
    rw [if_neg (by omega), if_neg (by decide), if_neg hne]
    have e2 : status.length + 2 = (status ++ [13, 10]).length := by simp
    rw [e2]
    try rfl

/-- The responses that `connect` accepts.  Let the server's response be a status line and
header lines, each ended by CR LF, made of bytes other than NUL, CR and LF and shorter than `m_maxBufC - 2`,
the header lines not empty, delivered byte by byte.  When the empty line that ends the
header follows, `connect` returns 1, sets `m_connected` and runs the connection callback
(when one is set) with `true` if and only if `sscanf(.., "HTTP/1.1 %d", ..)` reads 101
from the status line, some header line starts with `Sec-WebSocket-Accept:`, and every
line that starts so contains `HSmrc0sMlYUkAGmm5OPpG2HaGWk=`; in every other case, and
when the reads return 0 before the end of the header or of the status line, it returns
0 or -1 with `m_connected` clear, the transport closed and no callback run. -/
theorem connect_accepts_response (request status : List Nat) (lines : List (List Nat))
    (k : ConnClient) (timeout_ms : Int) (fuel : Nat)
    (hbuf : (k.ws.rx_buf.length : Int) = k.ws.m_maxBuf)
    (hreq : request.length ≤ k.ws.rx_buf.length)
    (hstatus : lineFits (k.ws.m_maxBuf - 1) status = true)
    (hlines : ∀ l ∈ lines, l ≠ [] ∧ lineFits (k.ws.m_maxBuf - 1) l = true)
    (hfuel : lines.length < fuel) :
    (∀ more, ∃ r,
      connect (responseEnv request (responseText status lines (13 :: 10 :: more)))
        fuel k timeout_ms = some r
      ∧ ((scanStatus (status ++ [13, 10]) = some 101
          ∧ (∃ l ∈ lines, acceptName.isPrefixOf l = true)
          ∧ (∀ l ∈ lines, acceptName.isPrefixOf l = true →
              strstrFound acceptValue l = true)) →
        r.1 = 1 ∧ r.2.ws.m_connected = true
        ∧ r.2.log = k.log ++ [ConnEvent.connect timeout_ms, ConnEvent.sent request]
            ++ (if k.m_ccb then [ConnEvent.ccb true] else []))
      ∧ (¬ (scanStatus (status ++ [13, 10]) = some 101
          ∧ (∃ l ∈ lines, acceptName.isPrefixOf l = true)
          ∧ (∀ l ∈ lines, acceptName.isPrefixOf l = true →
              strstrFound acceptValue l = true)) →
        (r.1 = 0 ∨ r.1 = -1) ∧ r.2.ws.m_connected = false
        ∧ r.2.log = k.log ++ [ConnEvent.connect timeout_ms, ConnEvent.sent request,
            ConnEvent.close]))
    ∧ (∀ part, lineFits (k.ws.m_maxBuf - 1) part = true →
      (∃ r, connect (responseEnv request (responseText status lines part))
          fuel k timeout_ms = some r
        ∧ (r.1 = 0 ∨ r.1 = -1) ∧ r.2.ws.m_connected = false
        ∧ r.2.log = k.log ++ [ConnEvent.connect timeout_ms, ConnEvent.sent request,
            ConnEvent.close])
      ∧ (∃ r, connect (responseEnv request part) fuel k timeout_ms = some r
        ∧ r.1 = 0 ∧ r.2.ws.m_connected = false
        ∧ r.2.log = k.log ++ [ConnEvent.connect timeout_ms, ConnEvent.sent request,
            ConnEvent.close])) := by
  obtain ⟨hs1, hs2⟩ := lineFits_spec _ status hstatus
  have hlog : ∀ buf : List Nat,
      (connClosed
        { k with ws := { k.ws with m_connected := false },
                 log := k.log ++ [ConnEvent.connect timeout_ms]
                   ++ [ConnEvent.sent request] } buf).ws.m_connected = false
      ∧ (connClosed
        { k with ws := { k.ws with m_connected := false },
                 log := k.log ++ [ConnEvent.connect timeout_ms]
                   ++ [ConnEvent.sent request] } buf).log
        = k.log ++ [ConnEvent.connect timeout_ms, ConnEvent.sent request,
            ConnEvent.close] := by
    intro buf
    refine ⟨rfl, ?_⟩
    simp [connClosed]
  -- the common part: status line, then the header loop
  have hmain : ∀ (ending : List Nat) (endRes : Option Int),
      (∀ (pre buf : List Nat) (f : Nat) (ch : Bool),
        (responseEnv request (responseText status lines ending)).reads
          = (pre ++ ending).map Recv1.byte →
        k.ws.m_maxBuf - 1 ≤ (buf.length : Int) →
        ∃ buf2, headerLoop (responseEnv request (responseText status lines ending))
          (k.ws.m_maxBuf - 1) (f + 1) buf pre.length ch = some (endRes, buf2, ch)) →
      ∃ r, connect (responseEnv request (responseText status lines ending))
          fuel k timeout_ms = some r
        ∧ ((endRes = none ∧ scanStatus (status ++ [13, 10]) = some 101
            ∧ (∃ l ∈ lines, acceptName.isPrefixOf l = true)
            ∧ (∀ l ∈ lines, acceptName.isPrefixOf l = true →
                strstrFound acceptValue l = true)) →
          r.1 = 1 ∧ r.2.ws.m_connected = true
          ∧ r.2.log = k.log ++ [ConnEvent.connect timeout_ms, ConnEvent.sent request]
              ++ (if k.m_ccb then [ConnEvent.ccb true] else []))
        ∧ (¬ (endRes = none ∧ scanStatus (status ++ [13, 10]) = some 101
            ∧ (∃ l ∈ lines, acceptName.isPrefixOf l = true)
            ∧ (∀ l ∈ lines, acceptName.isPrefixOf l = true →
                strstrFound acceptValue l = true)) →
          (endRes = none ∨ endRes = some 0) →
          (r.1 = 0 ∨ r.1 = -1) ∧ r.2.ws.m_connected = false
          ∧ r.2.log = k.log ++ [ConnEvent.connect timeout_ms, ConnEvent.sent request,
              ConnEvent.close]) := by
    intro ending endRes hend
    have hr : (responseEnv request (responseText status lines ending)).reads
        = ((status ++ [13, 10]) ++ linesText lines ++ ending).map Recv1.byte := by
      simp [responseEnv, responseText, linesText]
    obtain ⟨buf, hbl, -, hc⟩ := connect_status
      (responseEnv request (responseText status lines ending)) fuel k timeout_ms status
      (linesText lines ++ ending) (by simp [responseEnv])
      (by rw [hr]; simp) hbuf hreq hstatus
    obtain ⟨res, hres, hn, hsome⟩ := headerLoop_outcome
      (responseEnv request (responseText status lines ending)) (k.ws.m_maxBuf - 1) ending
      endRes hend lines (status ++ [13, 10]) buf fuel false hr hlines hbl hfuel
    obtain ⟨a1, a2⟩ := acceptCheck_spec lines false
    obtain ⟨o, b2, c⟩ := res
    simp only at hn hsome
    have hreqenv : (responseEnv request (responseText status lines ending)).request
        = request := rfl
    rw [hres, hreqenv] at hc
    by_cases hst : scanStatus (status ++ [13, 10]) = some 101
    · rw [if_neg (not_not.2 hst)] at hc
      cases hac : acceptCheck lines false with
      | none =>
        have ho := hn hac
        subst ho
        refine ⟨_, hc, ?_, ?_⟩
        · intro h
          exact absurd h.2.2.2 (a1 hac)
        · intro _ _
          exact ⟨Or.inr rfl, hlog b2⟩
      | some c' =>
        obtain ⟨ho, hcc⟩ := hsome c' hac
        obtain ⟨b1, b2'⟩ := a2 c' hac
        subst ho
        subst hcc
        cases c with
        | false =>
          have hno : ¬ ∃ l ∈ lines, acceptName.isPrefixOf l = true := by
            intro h
            have := b2'.2 (Or.inr h)
            cases this
          rcases o with _ | ret
          · simp only [if_true] at hc
            refine ⟨_, hc, ?_, ?_⟩
            · intro h
              exact absurd h.2.2.1 hno
            · intro _ _
              exact ⟨Or.inr rfl, hlog b2⟩
          · simp only at hc
            refine ⟨_, hc, ?_, ?_⟩
            · intro h
              cases h.1
            · intro _ he
              rcases he with he | he
              · cases he
              · cases he
                exact ⟨Or.inl rfl, hlog b2⟩
        | true =>
          rcases o with _ | ret
          · simp only [Bool.true_eq_false, if_false] at hc
            refine ⟨_, hc, ?_, ?_⟩
            · intro _
              refine ⟨rfl, rfl, ?_⟩
              simp
            · intro h _
              exfalso
              apply h
              refine ⟨rfl, hst, ?_, b1⟩
              rcases b2'.1 rfl with h | h
              · cases h
              · exact h
          · simp only at hc
            refine ⟨_, hc, ?_, ?_⟩
            · intro h
              cases h.1
            · intro _ he
              rcases he with he | he
              · cases he
              · cases he
                exact ⟨Or.inl rfl, hlog b2⟩
    · rw [if_pos hst] at hc
      refine ⟨_, hc, ?_, ?_⟩
      · intro h
        exact absurd h.2.1 hst
      · intro _ _
        exact ⟨Or.inl rfl, hlog buf⟩
  refine ⟨?_, ?_⟩
  · intro more
    obtain ⟨r, hr, h1, h2⟩ := hmain (13 :: 10 :: more) none (by
      intro pre buf f ch hreads hb
      refine ⟨_, headerLoop_blank _ _ buf pre.length f ch (by omega) hb ?_⟩
      intro j hj
      rw [hreads]
      have e : pre ++ 13 :: 10 :: more = pre ++ [13, 10] ++ more := by simp
      rw [e]
      exact reads_at pre [13, 10] more _ j hj)
    refine ⟨r, hr, fun h => h1 ⟨rfl, h⟩, fun h => h2 (fun h' => h h'.2) (Or.inl rfl)⟩
  · intro part hpart
    constructor
    · obtain ⟨r, hr, _, h2⟩ := hmain part (some 0) (by
        intro pre buf f ch hreads hb
        refine headerLoop_cut _ _ part buf pre.length f ch hpart hb ?_ ?_
        · intro j hj
          rw [hreads]
          have e : pre ++ part = pre ++ part ++ [] := by simp
          rw [e]
          exact reads_at pre part [] _ j hj
        · rw [hreads]
          have e : pre.length + part.length = (pre ++ part).length := by simp
          rw [e]
          exact reads_end _ _)
      exact ⟨r, hr, h2 (fun h => by cases h.1) (Or.inr rfl)⟩
    · have hlen0 : (request ++ k.ws.rx_buf.drop request.length).length
          = k.ws.rx_buf.length := by
        simp only [List.length_append, List.length_drop]
        omega
      obtain ⟨h1, _⟩ := readLine_cut (responseEnv request part) (k.ws.m_maxBuf - 1) part
        (request ++ k.ws.rx_buf.drop request.length) 0 hpart (by rw [hlen0]; omega)
        (by
          intro j hj
          have := reads_at [] part [] Recv1.zero j hj
          simpa [responseEnv] using this)
        (by
          simp [responseEnv])
      have hc : connect (responseEnv request part) fuel k timeout_ms
          = some (0, connClosed
              { k with ws := { k.ws with m_connected := false },
                       log := k.log ++ [ConnEvent.connect timeout_ms]
                         ++ [ConnEvent.sent request] }
              (readLine (responseEnv request part) (k.ws.m_maxBuf - 1)
                (max 2 (k.ws.m_maxBuf - 1).toNat)
                (request ++ k.ws.rx_buf.drop request.length) 0 0).2.1) := by
        unfold connect
        have h1' : (readLine (responseEnv request part) (k.ws.m_maxBuf - 1)
            (max 2 (k.ws.m_maxBuf - 1).toNat)
            ((responseEnv request part).request
              ++ k.ws.rx_buf.drop (responseEnv request part).request.length) 0 0).1
            = false := h1
        simp only [h1', if_true]
        rw [if_neg (by simp [responseEnv])]
        rfl
      exact ⟨_, hc, rfl, hlog _⟩

/-- Instance of `connect_accepts_response`: a client with a buffer of 64 bytes and a
connection callback, the response `HTTP/1.1 101`, `Sec-WebSocket-Accept:
HSmrc0sMlYUkAGmm5OPpG2HaGWk=` and the empty line. -/
theorem connect_accepts_response_witness :
    ∃ r, connect (responseEnv [71, 69, 84]
          (responseText statusLine101 [acceptName ++ [32] ++ acceptValue] [13, 10]))
        2 (mkConn 64 true) 10000 = some r
      ∧ r.1 = 1 ∧ r.2.ws.m_connected = true
      ∧ r.2.log = [ConnEvent.connect 10000, ConnEvent.sent [71, 69, 84], ConnEvent.ccb true] := by
  obtain ⟨r, hr, hs, _⟩ := (connect_accepts_response [71, 69, 84] statusLine101
    [acceptName ++ [32] ++ acceptValue] (mkConn 64 true) 10000 2
    (by decide) (by decide) (by decide) (by decide) (by decide)).1 []
  obtain ⟨h1, h2, h3⟩ := hs ⟨by decide, by decide, by decide⟩
  exact ⟨r, hr, h1, h2, h3⟩

/-- A response whose only accept line carries another value,
`xHSmrc0sMlYUkAGmm5OPpG2HaGWk=x`, is accepted (the value is searched for as a substring);
so is the status line `HTTP/1.1101`. -/
theorem connect_accepts_other_value :
    (Option.map (fun r => (r.1, r.2.ws.m_connected, r.2.log))
        (connect (responseEnv [71, 69, 84]
          (responseText statusLine101
            [acceptName ++ [32, 120] ++ acceptValue ++ [120]] [13, 10]))
        2 (mkConn 64 true) 10000)
      = some (1, true,
          [ConnEvent.connect 10000, ConnEvent.sent [71, 69, 84], ConnEvent.ccb true]))
    ∧ (Option.map (fun r => (r.1, r.2.ws.m_connected, r.2.log))
        (connect (responseEnv [71, 69, 84]
          (responseText [72, 84, 84, 80, 47, 49, 46, 49, 49, 48, 49]
            [acceptName ++ [32] ++ acceptValue] [13, 10]))
        2 (mkConn 64 true) 10000)
      = some (1, true,
          [ConnEvent.connect 10000, ConnEvent.sent [71, 69, 84], ConnEvent.ccb true])) := by
  decide

/-! ### Reads that return a negative value -/

/-- The line loop when every read returns a negative value: the buffer stays as it is
and the loop ends with `i ≥ 2`. -/
theorem readLine_fails (env : ConnEnv) (m : Int) (P : Nat)
    (hfail : ∀ p, P ≤ p → env.reads.getD p env.rest = Recv1.fail) :
    ∀ (fuel : Nat) (buf : List Nat) (i pos : Nat), P ≤ pos → 2 ≤ i + fuel →
      ∃ i' pos', readLine env m fuel buf i pos = (true, buf, i', pos')
        ∧ 2 ≤ i' ∧ P ≤ pos' := by
  intro fuel
  induction fuel with
  | zero =>
    intro buf i pos hp hi
    exact ⟨i, pos, rfl, by omega, hp⟩
  | succ f ih =>
    intro buf i pos hp hi
    unfold readLine
    by_cases hc : i < 2 ∨ ((i : Int) < m ∧ rd buf (i - 2) ≠ 13 ∧ rd buf (i - 1) ≠ 10)
    · rw [if_pos hc, hfail pos hp]
      exact ih buf (i + 1) (pos + 1) (by omega) (by omega)
    · rw [if_neg hc]
      exact ⟨i, pos, rfl, by omega, hp⟩

/-- Stripping CR LF does not go below a second byte `T`. -/
theorem stripEol_ge (buf : List Nat) (h1 : rd buf 1 = 84) :
    ∀ i, 2 ≤ i → 2 ≤ stripEol buf i := by
  intro i
  induction i with
  | zero => intro h; omega
  | succ i ih =>
    intro h
    unfold stripEol
    by_cases hc : rd buf i = 13 ∨ rd buf i = 10
    · rw [if_pos hc]
      by_cases hi : i = 1
      · subst hi
        omega
      · exact ih (by omega)
    · rw [if_neg hc]
      exact h

/-- The header loop never ends when every read returns a negative value and the buffer
still starts with `HT`, as it does after the status line. -/
theorem headerLoop_never (env : ConnEnv) (m : Int) (P : Nat)
    (hfail : ∀ p, P ≤ p → env.reads.getD p env.rest = Recv1.fail) :
    ∀ (fuel : Nat) (buf : List Nat) (pos : Nat) (ch : Bool), P ≤ pos →
      rd buf 0 = 72 → rd buf 1 = 84 → headerLoop env m fuel buf pos ch = none := by
  intro fuel
  induction fuel with
  | zero => intro buf pos ch _ _ _; rfl
  | succ f ih =>
    intro buf pos ch hp h0 h1
    obtain ⟨i', pos', hrl, hi, hp'⟩ := readLine_fails env m P hfail (max 2 m.toNat) buf 0 pos hp
      (by omega)
    have hs := stripEol_ge buf h1 i' hi
    have g0 : rd (buf.set (stripEol buf i') 0) 0 = 72 := by
      unfold rd at h0 ⊢
      rw [getD_set_ne _ _ _ _ (by omega)]
      exact h0
    have g1 : rd (buf.set (stripEol buf i') 0) 1 = 84 := by
      unfold rd at h1 ⊢
      rw [getD_set_ne _ _ _ _ (by omega)]
      exact h1
    have hcmp : strncmpEq (buf.set (stripEol buf i') 0) 0 acceptName = false := by
      unfold acceptName
      rw [strncmpEq_cons, g0]
      rfl
    unfold headerLoop
    simp only [hrl, hcmp]
    rw [if_neg (by decide), if_neg (by rw [h0]; exact fun h => absurd h.1 (by decide))]
    simp only [Bool.false_eq_true, if_false]
    exact ih _ pos' ch hp' g0 g1

/-- After the status line `HTTP/1.1 101`, reads that return a negative value are not
noticed (the loops test `== 0`): `connect` does not return, whatever the bound on the
number of header lines. -/
theorem connect_hangs_on_read_error (request : List Nat) (k : ConnClient)
    (timeout_ms : Int)
    (hbuf : (k.ws.rx_buf.length : Int) = k.ws.m_maxBuf)
    (hreq : request.length ≤ k.ws.rx_buf.length)
    (hfit : lineFits (k.ws.m_maxBuf - 1) statusLine101 = true) :
    ∀ fuel, connect (resetEnv request) fuel k timeout_ms = none := by
  intro fuel
  unfold resetEnv
  obtain ⟨buf, _, ⟨d, hd⟩, hc⟩ := connect_status
    { tr_connect := 0, request := request,
      reads := (statusLine101 ++ [13, 10]).map Recv1.byte, rest := Recv1.fail }
    fuel k timeout_ms statusLine101 [] (le_refl _) (by simp) hbuf hreq hfit
  have hnever := headerLoop_never
    { tr_connect := 0, request := request,
      reads := (statusLine101 ++ [13, 10]).map Recv1.byte, rest := Recv1.fail }
    (k.ws.m_maxBuf - 1) 14
    (by
      intro p hp
      rw [List.getD_eq_default]
      simp [statusLine101]
      omega)
    fuel buf (statusLine101 ++ [13, 10]).length false (by decide)
    (by rw [hd]; rfl) (by rw [hd]; rfl)
  rw [hc, if_neg (by decide), hnever]

/-- C28, evaluation: a client with a buffer of 64 bytes has sent the upgrade request and
received the status line `HTTP/1.1 101`.  When the next read returns 0, `connect` closes
the transport and returns 0 with `m_connected` clear.  When the reads return a negative
value instead (the loops test `directRecv(...) == 0` only), `connect` does not return,
whatever the bound on the number of header lines: the transport is not closed and the
failure is not reported. -/
theorem connect_read_error_never_returns :
    (Option.map (fun r => (r.1, r.2.ws.m_connected, r.2.log))
        (connect { resetEnv [71, 69, 84] with rest := Recv1.zero } 2 (mkConn 64 true) 10000)
      = some (0, false,
          [ConnEvent.connect 10000, ConnEvent.sent [71, 69, 84], ConnEvent.close]))
    ∧ ∀ fuel, connect (resetEnv [71, 69, 84]) fuel (mkConn 64 true) 10000 = none :=
  ⟨by decide,
   connect_hangs_on_read_error [71, 69, 84] (mkConn 64 true) 10000 (by decide) (by decide)
     (by decide)⟩

/-! ## C29: the reconnect loop of `run` -/

/-- C30: for a key `k` (a C string that is not empty, holds no `"` and no `,` and does not
start with `[`, `"` or space) under which the receiving client has the handler `id`, and
a value `v` (not empty, no NUL, not starting with `,`, not ending with `]` or space), the
text that `send(k, v)` builds is `["k",v]`, and the message callback of a client that
holds `42` followed by that text runs the handler `id` under the key `k` on exactly the
bytes of `v`, first among the handlers it runs. -/
theorem sio_event_round_trip (e : SendEnv) (s : SocketIoClient)
    (pre post k v rk rv : List Nat) (more : List (List Nat × Nat)) (id : Nat)
    (hk : k ≠ []) (hkb : ∀ b ∈ k, b < 256 ∧ b ≠ 0 ∧ b ≠ 34 ∧ b ≠ 44)
    (hk0 : ∀ b, k.head? = some b → b ≠ 91 ∧ b ≠ 32)
    (hv : v ≠ []) (hvb : ∀ b ∈ v, b < 256 ∧ b ≠ 0)
    (hhead : ∀ h, v.head? = some h → h ≠ 44)
    (hlast : ∀ l, v.getLast? = some l → l ≠ 93 ∧ l ≠ 32)
    (hbuf : s.m_ws.rx_buf
      = pre ++ [52, 50] ++ sioFrame (k ++ 0 :: rk) (v ++ 0 :: rv) ++ post)
    (hreg : s.m_on.dropWhile (fun p => p.1 ≠ k) = (k, id) :: more) :
    sioFrame (k ++ 0 :: rk) (v ++ 0 :: rv) = eventText k v [93]
    ∧ (sioMessage e s pre.length
          (((sioFrame (k ++ 0 :: rk) (v ++ 0 :: rv)).length + 2 : Nat) : Int)).trace
        = s.trace
          ++ (if s.m_cb = true then
                [SioEvent.cb (eventText k v [93]) ((eventText k v [93]).length : Int) 50]
              else [])
          ++ SioEvent.on k id v :: more.map (fun p => SioEvent.on p.1 p.2 v) := by
  have hk' : ∀ b ∈ k, b % 256 ≠ 0 := by
    intro b hb
    have := hkb b hb
    omega
  have hv' : ∀ b ∈ v, b % 256 ≠ 0 := by
    intro b hb
    have := hvb b hb
    omega
  have hf := sioFrame_eq k v rk rv hk' hv'
  refine ⟨hf, ?_⟩
  rw [hf] at hbuf ⊢
  have h := sioMessage_keyed e s pre post k v [] 93 hk
    (fun b hb => ⟨(hkb b hb).1, (hkb b hb).2.2⟩) hk0 hv
    (fun h hh => by
      have h1 := hhead h hh
      have h2 := (hvb h (List.mem_of_mem_head? hh)).1
      omega)
    (fun l hl => by
      have h1 := hlast l hl
      have h2 := (hvb l (List.mem_of_mem_getLast? hl)).1
      omega)
    hv' (by simp) (by simpa using hbuf) (by rw [hreg]; simp)
  simp only [List.nil_append] at h
  rw [h, hreg]
  simp

/-- C30, instance of `sio_event_round_trip`: `send("a", "17")` builds `["a",17]`, and a
client with handler 7 under `a` runs it on `17`. -/
theorem sio_event_round_trip_witness :
    sioFrame [97, 0] [49, 55, 0] = [91, 34, 97, 34, 44, 49, 55, 93]
    ∧ (sioMessage (okEnv 0 0 0 0 0)
          (sioClient [52, 50, 91, 34, 97, 34, 44, 49, 55, 93] false [([97], 7)]) 0 10).trace
        = [SioEvent.on [97] 7 [49, 55]] :=
  sio_event_round_trip (okEnv 0 0 0 0 0)
    (sioClient [52, 50, 91, 34, 97, 34, 44, 49, 55, 93] false [([97], 7)])
    [] [] [97] [49, 55] [] [] [] 7 (by decide) (by decide) (by decide) (by decide)
    (by decide) (by decide) (by decide) (by decide) (by decide)

/-! ## C31: keyed handlers and empty values -/

/-- The body of the keyed dispatch when the closing bracket follows the quote behind the
key: the bracket is overwritten and no handler runs. -/
theorem runHandler_bracket (c : WebSocketClient) (key : List Nat) (id x : Nat)
    (h : rd c.rx_buf (x + 1) = 93) :
    (runHandler c key id x 2).trace = c.trace := by
  have hs : skipSep c.rx_buf ((2 : Int) - 1).toNat (x + 1) ((2 : Int) - 1) = (x + 1, 1) := by
    have e : ((2 : Int) - 1).toNat = 0 + 1 := by decide
    rw [e, skipSep, if_neg (by rw [h]; decide)]
    rfl
  have ht : stripTail (x + 1) (1 : Int).toNat c.rx_buf 1 = (c.rx_buf.set (x + 1) 0, 0) := by
    have e : (1 : Int).toNat = 0 + 1 := by decide
    have e2 : x + 1 + ((1 : Int) - 1).toNat = x + 1 := by simp
    rw [e, stripTail, e2, if_pos ⟨by decide, Or.inl h⟩]
    rfl
  unfold runHandler
  simp only [hs, ht]
  rw [if_neg (by decide)]

/-- The keyed dispatch of the WebSocket client on a payload `["key"]`: no handler runs,
whatever the registry holds. -/
theorem onText_key_bracket (c : WebSocketClient) (pre post k : List Nat) (cnt : Int)
    (hk : k ≠ []) (hkb : ∀ b ∈ k, b < 256 ∧ b ≠ 34 ∧ b ≠ 44)
    (hk0 : ∀ b, k.head? = some b → b ≠ 91 ∧ b ≠ 32)
    (hbuf : c.rx_buf = pre ++ ([91, 34] ++ k ++ [34, 93]) ++ post)
    (hmsg : c.ws_msg = pre.length)
    (hcnt : cnt = ((k.length + 4 : Nat) : Int)) :
    (onText c cnt).trace = c.trace := by
  obtain ⟨a, ks, rfl, ha, hks⟩ := key_shape k hk hkb hk0
  obtain ⟨h1, h2, _⟩ := extract_key c.rx_buf pre ks (93 :: post) a cnt
    (by rw [hbuf]; simp) (by rw [hcnt]; simp; omega) ha hks
  rw [← hmsg] at h1 h2
  have hlen : cnt - ((3 + ks.length : Nat) : Int) = 2 := by
    rw [hcnt]
    simp
    omega
  have h93 : rd c.rx_buf (c.ws_msg + 3 + ks.length + 1) = 93 := by
    have e : c.rx_buf = (pre ++ 91 :: 34 :: a :: (ks ++ [34])) ++ 93 :: post := by
      rw [hbuf]
      simp
    have e2 : c.ws_msg + 3 + ks.length + 1 = (pre ++ 91 :: 34 :: a :: (ks ++ [34])).length := by
      rw [hmsg]
      simp
      omega
    rw [e2, e, rd_at]
  rw [onText_eq]
  simp only [h1]
  simp only [h2, hlen]
  split_ifs
  · cases List.find? _ c.m_on with
    | none => rfl
    | some itr => exact runHandler_bracket c _ _ _ h93
  · cases List.find? _ c.m_on <;> rfl
  · rfl

/-- The body of the keyed dispatch of the Socket.IO client entered with two bytes left
(the quote behind the key and one more byte): the last byte is overwritten and no handler
runs. -/
theorem sioRunHandlers_two (s : SocketIoClient) (key : List Nat) (x : Nat) :
    (sioRunHandlers s key x 2).trace = s.trace := by
  unfold sioRunHandlers
  have e : ((2 : Int) - 1 - 1).toNat = 0 := by decide
  have e2 : (2 : Int) - 1 - 1 = 0 := by decide
  simp only [e, e2, skipComma, Int.toNat_zero, stripTail]
  rw [if_neg (by decide)]

/-- The EVENT branch of the Socket.IO client on a payload `["key"]`: nothing but the
generic callback runs, whatever the registry holds. -/
theorem sioOnEvent_key_bracket (s : SocketIoClient) (pre post k : List Nat) (data : Nat)
    (lData : Int)
    (hk : k ≠ []) (hkb : ∀ b ∈ k, b < 256 ∧ b ≠ 34 ∧ b ≠ 44)
    (hk0 : ∀ b, k.head? = some b → b ≠ 91 ∧ b ≠ 32)
    (hbuf : s.m_ws.rx_buf = pre ++ ([91, 34] ++ k ++ [34, 93]) ++ post)
    (hdata : data = pre.length)
    (hl : lData = ((k.length + 4 : Nat) : Int)) :
    (sioOnEvent s data lData).trace =
      s.trace ++ (if s.m_cb = true then
        [SioEvent.cb (slice s.m_ws.rx_buf data lData.toNat) lData 50] else []) := by
  obtain ⟨a, ks, rfl, ha, hks⟩ := key_shape k hk hkb hk0
  obtain ⟨h1, h2, _⟩ := extract_key s.m_ws.rx_buf pre ks (93 :: post) a lData
    (by rw [hbuf]; simp) (by rw [hl]; simp; omega) ha hks
  rw [← hdata] at h1 h2
  have hlen : lData - ((3 + ks.length : Nat) : Int) = 2 := by
    rw [hl]
    simp
    omega
  obtain ⟨ws, cb, ccb, reg, tr⟩ := s
  simp only at h1 h2
  unfold sioOnEvent
  cases cb with
  | true =>
    simp only [if_true, h1, h2, hlen]
    split_ifs with h3 h4
    · rw [sioRunHandlers_two]
    · rfl
    · rfl
  | false =>
    simp only [Bool.false_eq_true, if_false, h1, h2, hlen]
    split_ifs with h3 h4
    · rw [sioRunHandlers_two]
      simp
    · simp
    · simp

/-- The keyed dispatch of the WebSocket client adds at most one call of a handler, with
a length of at least 1. -/
theorem onText_on_len (c : WebSocketClient) (cnt : Int) :
    ∃ tr, (onText c cnt).trace = c.trace ++ tr
      ∧ ∀ key id v len, Event.on key id v len ∈ tr → 1 ≤ len := by
  have hid : ∃ tr, c.trace = c.trace ++ tr
      ∧ ∀ key id v len, Event.on key id v len ∈ tr → 1 ≤ len :=
    ⟨[], by simp, fun _ _ _ _ h => by cases h⟩
  unfold onText
  by_cases h1 : c.m_on.length ≠ 0
  · rw [if_pos h1]
    dsimp only
    generalize List.find? _ c.m_on = f
    cases f with
    | none => exact hid
    | some itr =>
      dsimp only
      split_ifs
      · unfold runHandler
        dsimp only
        split_ifs with h2
        · refine ⟨[_], rfl, ?_⟩
          intro key id v len h
          simp only [List.mem_singleton, Event.on.injEq] at h
          rw [h.2.2.2]
          omega
        · exact hid
      · exact hid
  · rw [if_neg h1]
    exact hid

/-- The frame handler `onWsFrame` calls a keyed handler with a length of at least 1
only. -/
theorem onWsFrame_on_len (e : SendEnv) (c : WebSocketClient) :
    ∃ tr, (onWsFrame e c).2.trace = c.trace ++ tr
      ∧ ∀ key id v len, Event.on key id v len ∈ tr → 1 ≤ len := by
  have hid : ∃ tr, c.trace = c.trace ++ tr
      ∧ ∀ key id v len, Event.on key id v len ∈ tr → 1 ≤ len :=
    ⟨[], by simp, fun _ _ _ _ h => by cases h⟩
  have hcb : ∀ k, ∃ tr, (callCb c (c.ws_frame_size - c.ws_header_size) k).trace = c.trace ++ tr
      ∧ ∀ key id v len, Event.on key id v len ∈ tr → 1 ≤ len := by
    intro k
    unfold callCb
    split_ifs
    · refine ⟨[_], rfl, ?_⟩
      intro key id v len h
      simp at h
    · exact hid
  unfold onWsFrame
  dsimp only
  split_ifs with h0 h1 h2 h8 h9 h10 h4
  · exact hcb _
  · obtain ⟨t1, g1, g2⟩ := hcb WS_FR_OP_TXT
    obtain ⟨t2, g3, g4⟩ := onText_on_len
      (callCb c (c.ws_frame_size - c.ws_header_size) WS_FR_OP_TXT)
      (c.ws_frame_size - c.ws_header_size)
    refine ⟨t1 ++ t2, ?_, ?_⟩
    · show (onText _ _).trace = _
      rw [g3, g1, List.append_assoc]
    · intro key id v len h
      rcases List.mem_append.1 h with h | h
      · exact g2 key id v len h
      · exact g4 key id v len h
  · exact hcb _
  · exact hid
  · rcases send_cases e c (c.rx_buf.drop c.ws_msg)
      (intToU32 (c.ws_frame_size - c.ws_header_size)) WS_FR_OP_PONG with h | h
    · rw [h]
      exact hid
    · rw [h]
      refine ⟨[_], rfl, ?_⟩
      intro key id v len h
      simp at h
  · cases ws_decode_pong c.rx_buf c.ws_msg with
    | none => exact hid
    | some r =>
      dsimp only
      split_ifs <;> exact hid
  · exact hid
  · exact hid

theorem skipOpen_ge (buf : List Nat) : ∀ (fuel k : Nat) (len : Int) (lev : Bool),
    k ≤ (skipOpen buf fuel k len lev).1 := by
  intro fuel
  induction fuel with
  | zero => intro k len lev; exact le_refl _
  | succ f ih =>
    intro k len lev
    unfold skipOpen
    by_cases h : 0 < len ∧ (rd buf k = 91 ∨ rd buf k = 34 ∨ rd buf k = 32)
    · rw [if_pos h]
      exact le_trans (Nat.le_succ k) (ih _ _ _)
    · rw [if_neg h]

theorem scanKey_ge (buf : List Nat) (lev : Bool) : ∀ (fuel x : Nat) (len : Int),
    x ≤ (scanKey buf lev fuel x len).1 := by
  intro fuel
  induction fuel with
  | zero => intro x len; exact le_refl _
  | succ f ih =>
    intro x len
    unfold scanKey
    split_ifs with h
    · exact le_trans (Nat.le_succ x) (ih _ _)
    · exact le_refl _

theorem skipComma_ge (buf : List Nat) : ∀ (fuel x : Nat) (len : Int),
    x ≤ (skipComma buf fuel x len).1 := by
  intro fuel
  induction fuel with
  | zero => intro x len; exact le_refl _
  | succ f ih =>
    intro x len
    unfold skipComma
    split_ifs with h
    · exact le_trans (Nat.le_succ x) (ih _ _)
    · exact le_refl _

theorem skipComma_sum (buf : List Nat) : ∀ (fuel x : Nat) (len : Int),
    ((skipComma buf fuel x len).1 : Int) + (skipComma buf fuel x len).2
      = (x : Int) + len := by
  intro fuel
  induction fuel with
  | zero => intro x len; rfl
  | succ f ih =>
    intro x len
    unfold skipComma
    split_ifs with h
    · rw [ih]
      push_cast
      omega
    · rfl

/-- The loop that strips the tail does not lengthen the value. -/
theorem stripTail_le (x : Nat) : ∀ (fuel : Nat) (buf : List Nat) (len : Int),
    (stripTail x fuel buf len).2 ≤ len := by
  intro fuel
  induction fuel with
  | zero => intro buf len; exact le_refl _
  | succ f ih =>
    intro buf len
    unfold stripTail
    split_ifs with h
    · have := ih (buf.set (x + (len - 1).toNat) 0) (len - 1)
      omega
    · exact le_refl _

/-- The loop that strips the tail leaves the value it keeps as it is. -/
theorem stripTail_below (x : Nat) : ∀ (fuel : Nat) (buf : List Nat) (len : Int) (j : Nat),
    (j : Int) < (x : Int) + (stripTail x fuel buf len).2 →
    (stripTail x fuel buf len).1.getD j 0 = buf.getD j 0 := by
  intro fuel
  induction fuel with
  | zero => intro buf len j _; rfl
  | succ f ih =>
    intro buf len j hj
    unfold stripTail at hj ⊢
    split_ifs at hj ⊢ with h
    · have hle := stripTail_le x f (buf.set (x + (len - 1).toNat) 0) (len - 1)
      rw [ih _ _ j hj, getD_set_ne _ _ _ _ (by omega)]
    · rfl

/-- A C string that starts with a byte other than NUL is not empty. -/
theorem cstr_ne_nil (buf : List Nat) (off : Nat) (h : rd buf off ≠ 0) : cstr buf off ≠ [] := by
  unfold cstr
  cases hd : buf.drop off with
  | nil =>
    exfalso
    apply h
    have hlen : buf.length ≤ off := by
      have := congrArg List.length hd
      simp at this
      omega
    unfold rd
    rw [List.getD_eq_default _ _ hlen]
  | cons a t =>
    have ha : rd buf off = a % 256 := by
      have := rd_drop buf off 0
      rw [hd] at this
      simpa [rd] using this.symm
    rw [ha] at h
    rw [List.takeWhile_cons]
    simp [h]

/-- The handlers that the Socket.IO client runs get a C string that is not empty, the
bytes in front of the end of the payload being other than NUL. -/
theorem sioRunHandlers_msgs (s : SocketIoClient) (key : List Nat) (x : Nat) (len : Int)
    (hnz : ∀ i : Nat, x + 1 ≤ i → (i : Int) < (x : Int) + len → rd s.m_ws.rx_buf i ≠ 0) :
    ∃ tr, (sioRunHandlers s key x len).trace = s.trace ++ tr
      ∧ ∀ k id m, SioEvent.on k id m ∈ tr → m ≠ [] := by
  have h3 := skipComma_sum (s.m_ws.rx_buf.set (x + 1 + (len - 1 - 1).toNat) 0)
    (len - 1 - 1).toNat (x + 1) (len - 1 - 1)
  have g3 := skipComma_ge (s.m_ws.rx_buf.set (x + 1 + (len - 1 - 1).toNat) 0)
    (len - 1 - 1).toNat (x + 1) (len - 1 - 1)
  unfold sioRunHandlers
  dsimp only
  generalize hr3 : skipComma (s.m_ws.rx_buf.set (x + 1 + (len - 1 - 1).toNat) 0)
    (len - 1 - 1).toNat (x + 1) (len - 1 - 1) = r3 at h3 g3 ⊢
  have h4 := stripTail_le r3.1 r3.2.toNat
    (s.m_ws.rx_buf.set (x + 1 + (len - 1 - 1).toNat) 0) r3.2
  have b4 := stripTail_below r3.1 r3.2.toNat
    (s.m_ws.rx_buf.set (x + 1 + (len - 1 - 1).toNat) 0) r3.2 r3.1
  generalize hr4 : stripTail r3.1 r3.2.toNat
    (s.m_ws.rx_buf.set (x + 1 + (len - 1 - 1).toNat) 0) r3.2 = r4 at h4 b4 ⊢
  split_ifs with hpos
  · refine ⟨_, rfl, ?_⟩
    intro k id m hm
    obtain ⟨p, _, hp⟩ := List.mem_map.1 hm
    simp only [SioEvent.on.injEq] at hp
    rw [← hp.2.2]
    apply cstr_ne_nil
    have e1 : rd r4.1 r3.1 = rd s.m_ws.rx_buf r3.1 := by
      unfold rd
      rw [b4 (by omega), getD_set_ne _ _ _ _ (by push_cast at h3; omega)]
    rw [e1]
    exact hnz r3.1 g3 (by push_cast at h3; omega)
  · exact ⟨[], by simp, fun _ _ _ h => by cases h⟩

/-- The EVENT branch of the Socket.IO client passes C strings that are not empty. -/
theorem sioOnEvent_msgs (s : SocketIoClient) (data : Nat) (lData : Int)
    (hnz : ∀ i : Nat, data ≤ i → (i : Int) < (data : Int) + lData → rd s.m_ws.rx_buf i ≠ 0) :
    ∃ tr, (sioOnEvent s data lData).trace = s.trace ++ tr
      ∧ ∀ k id m, SioEvent.on k id m ∈ tr → m ≠ [] := by
  have h1 := skipOpen_sum s.m_ws.rx_buf lData.toNat data lData false
  have g1 := skipOpen_ge s.m_ws.rx_buf lData.toNat data lData false
  obtain ⟨ws, cb, ccb, reg, tr0⟩ := s
  simp only at h1 g1 hnz
  unfold sioOnEvent
  dsimp only
  generalize hr1 : skipOpen ws.rx_buf lData.toNat data lData false = r1 at h1 g1
  have h2 := scanKey_sum ws.rx_buf r1.2.2 (r1.2.1 - 1).toNat (r1.1 + 1) (r1.2.1 - 1)
  have g2 := scanKey_ge ws.rx_buf r1.2.2 (r1.2.1 - 1).toNat (r1.1 + 1) (r1.2.1 - 1)
  generalize hr2 : scanKey ws.rx_buf r1.2.2 (r1.2.1 - 1).toNat (r1.1 + 1) (r1.2.1 - 1) = r2
    at h2 g2
  cases cb with
  | true =>
    simp only [if_true, hr1, hr2]
    split_ifs with h3 h4
    · obtain ⟨t, e1, e2⟩ := sioRunHandlers_msgs
        { m_ws := ws, m_cb := true, m_ccb := ccb, m_on := reg,
          trace := tr0 ++ [SioEvent.cb (slice ws.rx_buf data lData.toNat) lData 50] }
        (slice ws.rx_buf r1.1 (r2.1 - r1.1)) r2.1 r2.2
        (fun i hi1 hi2 => hnz i (by omega) (by omega))
      refine ⟨[SioEvent.cb (slice ws.rx_buf data lData.toNat) lData 50] ++ t, ?_, ?_⟩
      · rw [e1]
        simp
      · intro k id m hm
        rcases List.mem_append.1 hm with h | h
        · simp at h
        · exact e2 k id m h
    · exact ⟨[_], rfl, fun _ _ _ h => by simp at h⟩
    · exact ⟨[_], rfl, fun _ _ _ h => by simp at h⟩
  | false =>
    simp only [Bool.false_eq_true, if_false, hr1, hr2]
    split_ifs with h3 h4
    · exact sioRunHandlers_msgs
        { m_ws := ws, m_cb := false, m_ccb := ccb, m_on := reg, trace := tr0 }
        (slice ws.rx_buf r1.1 (r2.1 - r1.1)) r2.1 r2.2
        (fun i hi1 hi2 => hnz i (by omega) (by omega))
    · exact ⟨[], by simp, fun _ _ _ h => by cases h⟩
    · exact ⟨[], by simp, fun _ _ _ h => by cases h⟩

/-- The message callback of the Socket.IO client passes C strings that are not empty to
the keyed handlers, the payload holding no NUL. -/
theorem sioMessage_msgs (e : SendEnv) (s : SocketIoClient) (payload : Nat) (length : Int)
    (hnz : ∀ i : Nat, payload ≤ i → (i : Int) < (payload : Int) + length →
      rd s.m_ws.rx_buf i ≠ 0) :
    ∃ tr, (sioMessage e s payload length).trace = s.trace ++ tr
      ∧ ∀ k id m, SioEvent.on k id m ∈ tr → m ≠ [] := by
  have hid : ∃ tr, s.trace = s.trace ++ tr
      ∧ ∀ k id m, SioEvent.on k id m ∈ tr → m ≠ [] :=
    ⟨[], by simp, fun _ _ _ h => by cases h⟩
  unfold sioMessage
  by_cases h1 : length < 1
  · rw [if_pos h1]
    exact hid
  rw [if_neg h1]
  by_cases h2 : rd s.m_ws.rx_buf payload = 50
  · rw [if_pos h2]
    exact hid
  rw [if_neg h2]
  by_cases h3 : rd s.m_ws.rx_buf payload = 51
  · rw [if_pos h3]
    split_ifs <;> exact hid
  rw [if_neg h3]
  by_cases h4 : rd s.m_ws.rx_buf payload = 52
  · rw [if_pos h4]
    by_cases h5 : length < 2
    · rw [if_pos h5]
      exact hid
    rw [if_neg h5]
    by_cases h6 : rd s.m_ws.rx_buf (payload + 1) = 50
    · rw [if_pos h6]
      exact sioOnEvent_msgs s (payload + 2) (length - 2)
        (fun i hi1 hi2 => hnz i (by omega) (by push_cast at hi2; omega))
    rw [if_neg h6]
    by_cases h7 : rd s.m_ws.rx_buf (payload + 1) = 48
    · rw [if_pos h7]
      split_ifs
      · exact ⟨[_], rfl, fun _ _ _ h => by simp at h⟩
      · exact hid
    · rw [if_neg h7]
      exact hid
  · rw [if_neg h4]
    exact hid

/-- C31 (amended): for a key `k` that is not empty, holds no `"` and no `,` and does
not start with `[`, `"` or space, the payload `["k"]` makes `onWsFrame` return 1 and run
nothing but the generic callback, and makes the message callback of the Socket.IO client
run nothing but the generic callback, whatever the registries hold.  Every call of a
keyed handler by `onWsFrame` passes a length of at least 1; every call of a keyed handler
by the message callback of the Socket.IO client passes a C string of at least one byte,
provided the payload holds no NUL. -/
theorem keyed_handler_value_nonempty (e : SendEnv) (c : WebSocketClient)
    (s : SocketIoClient) (pre post spre spost k : List Nat)
    (hk : k ≠ []) (hkb : ∀ b ∈ k, b < 256 ∧ b ≠ 34 ∧ b ≠ 44)
    (hk0 : ∀ b, k.head? = some b → b ≠ 91 ∧ b ≠ 32) :
    (c.ws_frame_type = WS_FR_OP_TXT →
      c.rx_buf = pre ++ ([91, 34] ++ k ++ [34, 93]) ++ post →
      c.ws_msg = pre.length →
      c.ws_frame_size - c.ws_header_size = ((k.length + 4 : Nat) : Int) →
      (onWsFrame e c).1 = 1
      ∧ (onWsFrame e c).2.trace
          = (callCb c ((k.length + 4 : Nat) : Int) WS_FR_OP_TXT).trace)
    ∧ (s.m_ws.rx_buf = spre ++ [52, 50] ++ ([91, 34] ++ k ++ [34, 93]) ++ spost →
      (sioMessage e s spre.length ((k.length + 6 : Nat) : Int)).trace
        = s.trace ++ (if s.m_cb = true then
            [SioEvent.cb ([91, 34] ++ k ++ [34, 93]) ((k.length + 4 : Nat) : Int) 50]
          else []))
    ∧ (∃ tr, (onWsFrame e c).2.trace = c.trace ++ tr
        ∧ ∀ key id v len, Event.on key id v len ∈ tr → 1 ≤ len)
    ∧ (∀ (payload : Nat) (length : Int),
        (∀ i : Nat, payload ≤ i → (i : Int) < (payload : Int) + length →
          rd s.m_ws.rx_buf i ≠ 0) →
        ∃ tr, (sioMessage e s payload length).trace = s.trace ++ tr
          ∧ ∀ key id m, SioEvent.on key id m ∈ tr → 1 ≤ m.length) := by
  refine ⟨?_, ?_, onWsFrame_on_len e c, ?_⟩
  · intro ht hbuf hmsg hcnt
    obtain ⟨s1, s2, _, _⟩ := callCb_same c (c.ws_frame_size - c.ws_header_size) WS_FR_OP_TXT
    rw [onWsFrame_text e c ht]
    refine ⟨rfl, ?_⟩
    show (onText _ _).trace = _
    rw [onText_key_bracket _ pre post k _ hk hkb hk0 (by rw [s1]; exact hbuf)
      (by rw [s2]; exact hmsg) hcnt, hcnt]
  · intro hbuf
    have hb1 : s.m_ws.rx_buf
        = spre ++ 52 :: 50 :: (([91, 34] ++ k ++ [34, 93]) ++ spost) := by
      rw [hbuf]
      simp
    have hb2 : s.m_ws.rx_buf
        = (spre ++ [52, 50]) ++ ([91, 34] ++ k ++ [34, 93]) ++ spost := by
      rw [hbuf]
    have hL : (((k.length + 6 : Nat) : Int)) - 2 = ((k.length + 4 : Nat) : Int) := by
      push_cast
      omega
    have hsl : slice s.m_ws.rx_buf (spre.length + 2) (((k.length + 4 : Nat) : Int)).toNat
        = [91, 34] ++ k ++ [34, 93] := by
      rw [hbuf]
      exact slice_mid _ _ _ _ _ (by simp) (by simp; omega)
    rw [sioMessage_event e s spre _ _ hb1 (by push_cast; omega), hL,
      sioOnEvent_key_bracket s (spre ++ [52, 50]) spost k _ _ hk hkb hk0 hb2 (by simp) rfl,
      hsl]
  · intro payload length hnz
    obtain ⟨tr, h1, h2⟩ := sioMessage_msgs e s payload length hnz
    refine ⟨tr, h1, ?_⟩
    intro key id m hm
    exact List.length_pos.2 (h2 key id m hm)

/-- C31, instance of `keyed_handler_value_nonempty`: the payload `["a"]` with a handler
under `a` and a generic callback, in both clients. -/
theorem keyed_handler_value_nonempty_witness :
    (onWsFrame (okEnv 0 0 0 0 0)
        (textClient ([129, 5] ++ [91, 34, 97, 34, 93]) 5 true [([97], 7)])).2.trace
      = [Event.cb [91, 34, 97, 34, 93] 5 1]
    ∧ (sioMessage (okEnv 0 0 0 0 0)
        (sioClient ([52, 50] ++ [91, 34, 97, 34, 93]) true [([97], 7)]) 0 7).trace
      = [SioEvent.cb [91, 34, 97, 34, 93] 5 50] :=
  have h := keyed_handler_value_nonempty (okEnv 0 0 0 0 0)
    (textClient ([129, 5] ++ [91, 34, 97, 34, 93]) 5 true [([97], 7)])
    (sioClient ([52, 50] ++ [91, 34, 97, 34, 93]) true [([97], 7)])
    [129, 5] [] [] [] [97] (by decide) (by decide) (by decide)
  ⟨(h.1 rfl (by decide) rfl (by decide)).2.trans (by decide),
    (h.2.1 (by decide)).trans (by decide)⟩

/-- C31, counterexample: with the keys `a` and `a,b` registered the payload `["a,b"]`
runs the handler under `a` (on `b"`), in both clients; and on the payload `["a",` NUL
`7]` the Socket.IO client runs the handler with an empty C string. -/
theorem key_alone_runs_handler :
    (onWsFrame (okEnv 0 0 0 0 0)
        (textClient ([129, 7] ++ [91, 34, 97, 44, 98, 34, 93]) 7 false
          [([97], 7), ([97, 44, 98], 8)])).2.trace
      = [Event.on [97] 7 [98, 34] 2]
    ∧ (sioMessage (okEnv 0 0 0 0 0)
        (sioClient ([52, 50] ++ [91, 34, 97, 44, 98, 34, 93]) false
          [([97], 7), ([97, 44, 98], 8)]) 0 9).trace
      = [SioEvent.on [97] 7 [98, 34], SioEvent.on [97, 44, 98] 8 [98, 34]]
    ∧ (sioMessage (okEnv 0 0 0 0 0)
        (sioClient ([52, 50] ++ [91, 34, 97, 34, 44, 0, 55, 93]) false [([97], 7)])
        0 10).trace
      = [SioEvent.on [97] 7 []] := by
  decide

end WebSocket
